import Mathlib

/-!
# Ishiiruka shader caches: a shallow embedding

The DX11 vertex and geometry shader caches
(`Source/Core/VideoBackends/DX11/VertexShaderCache.cpp`,
`Source/Core/VideoBackends/DX11/GeometryShaderCache.cpp`) and the OpenGL
program cache (`Source/Core/VideoBackends/OGL/ProgramShaderCache.cpp`) are
embedded as pure state-passing functions. Static variables of the C++ classes
become fields of a state record, pointers into the `std::unordered_map` become
keys, and calls into collaborators whose effect matters (the async compiler,
the disk cache, the D3D / GL object factories) are recorded in the state.
-/

namespace Ishiiruka

/-- A shader uid (`VertexShaderUid`, `GeometryShaderUid`, `SHADERUID`): an opaque
fixed-size key with equality, produced by the key deriver. -/
abbrev Uid := Nat

/-- Compiled bytecode, a buffer of `u8`. -/
abbrev ByteCode := List Nat

/-- A GPU shader object (`D3D::VertexShaderPtr`, `D3D::GeometryShaderPtr`); `none`
in an `Option` stands for `nullptr`. -/
abbrev ShaderObj := Nat

/-- An association table standing for `std::unordered_map<Uid, Entry>`. -/
abbrev Table (ε : Type) := List (Uid × ε)

namespace Table

/-- The `find` member: the entry stored under `uid`, if any. -/
def find {ε : Type} : Table ε → Uid → Option ε
  | [], _ => none
  | (k, e) :: r, uid => if k = uid then some e else find r uid

/-- The `operator[]` member: a default-constructed entry is inserted under `uid`
when the key is absent, otherwise the table is unchanged. -/
def index {ε : Type} (dflt : ε) (t : Table ε) (uid : Uid) : Table ε :=
  match t.find uid with
  | some _ => t
  | none => (uid, dflt) :: t

/-- A write through a pointer to the entry stored under `uid`. -/
def update {ε : Type} : Table ε → Uid → (ε → ε) → Table ε
  | [], _, _ => []
  | (k, e) :: r, uid, f => (k, if k = uid then f e else e) :: update r uid f

/-- The keys of the table, one per entry. -/
def keys {ε : Type} (t : Table ε) : List Uid := t.map Prod.fst

/-- Removal of the entry stored under `uid`. -/
def erase {ε : Type} : Table ε → Uid → Table ε
  | [], _ => []
  | (k, e) :: r, uid => if k = uid then r else (k, e) :: erase r uid

end Table

namespace DX11

/-- Cache entry of the DX11 caches (`VSCacheEntry`, `GSCacheEntry`). The headers
declaring them are not among the sources; the fields are the ones the two
`.cpp` files access, and the default constructor (null shader,
`compiled(false)`, `initialized.clear()`) is the one of the sibling
`DX9::PixelShaderCache::PSCacheEntry`. `bytecode` is written by
`VSCacheEntry::SetByteCode` only; the geometry cache never touches it. -/
structure CacheEntry where
  shader : Option ShaderObj := none
  compiled : Bool := false
  initialized : Bool := false
  bytecode : Option ByteCode := none
  code : Option Uid := none
deriving DecidableEq, Repr

/-- The value of `s_last_entry`: a pointer into the table (identified by the key
it is stored under) or the address of the static `s_pass_entry`. -/
inductive EntryRef
  | table (uid : Uid)
  | pass
deriving DecidableEq, Repr

/-- Outcome of a work unit: `SUCCEEDED(wunit->cresult)` with
`wunit->shaderbytecode`, or a failure with `wunit->error`. -/
inductive CompileResult
  | succeeded (shaderbytecode : ByteCode)
  | failed (error : ByteCode)
deriving DecidableEq, Repr

/-- A `ShaderCompilerWorkUnit` as far as the caches use it: the lambdas capture
`[uid]` and `[uid, entry]` with `entry == &table[uid]`, so the unit is
identified by `uid`. Entry point, flags and target are constants. -/
structure ShaderCompilerWorkUnit where
  uid : Uid
deriving DecidableEq, Repr

/-- Calls into collaborators that the caches make, in program order. -/
inductive Event
  | GenerateShaderCode (uid : Uid)
  | CompileShaderAsync (uid : Uid)
  | CreateShaderFromByteCode (entry : Uid) (bytecode : ByteCode)
  | DumpFailure (uid : Uid)
  | WaitForFinish
  | Clear
  | Sync
  | Close
deriving DecidableEq, Repr

/-- One finished unit handed back by a poll: the position of the unit in the
queue of units in flight and its compile result. -/
structure Completion where
  idx : Nat
  cresult : CompileResult
deriving DecidableEq, Repr

/-- Build configuration, run-time configuration and external functions.
`DEBUG` is `defined(_DEBUG) || defined(DEBUGFAST)`;
`bEnableShaderDebugging` is `g_ActiveConfig.bEnableShaderDebugging`,
`g_Config_bEnableShaderDebugging` the copy read by `Init`;
`CreateShaderFromByteCode` is `D3D::Create*ShaderFromByteCode`;
`IsPassthrough` is `GeometryShaderUid::GetUidData().IsPassthrough()`. -/
structure Env where
  DEBUG : Bool
  bEnableShaderDebugging : Bool
  g_Config_bEnableShaderDebugging : Bool
  bFullAsyncShaderCompilation : Bool
  CreateShaderFromByteCode : ByteCode → Option ShaderObj
  IsPassthrough : Uid → Bool

/-- The static state of one DX11 cache class together with the collaborators it
owns: `shaders` is `s_vshaders` / `s_geometry_shaders`, `s_compiler` the units
submitted to `HLSLAsyncCompiler` and not yet handed back, `disk_cache` the
records of `g_vs_disk_cache` / `g_gs_disk_cache`, `trace` the collaborator
calls made so far. -/
structure Cache where
  shaders : Table CacheEntry := []
  s_last_entry : Option EntryRef := none
  s_last_uid : Uid := 0
  s_external_last_uid : Uid := 0
  s_compiler : List ShaderCompilerWorkUnit := []
  disk_cache : List (Uid × ByteCode) := []
  numShadersCreated : Nat := 0
  numShadersAlive : Nat := 0
  trace : List Event := []
deriving DecidableEq, Repr

/-- Modelled from the spec: `HLSLAsyncCompiler::CompileShaderAsync` (the class is
not among the sources) enqueues the unit for the worker pool; the submission
is recorded in the trace. The unit carries its `GenerateCodeHandler`, which a
worker runs once for the submitted unit and never otherwise. -/
def CompileShaderAsync (wunit : ShaderCompilerWorkUnit) (s : Cache) : Cache :=
  { s with s_compiler := s.s_compiler ++ [wunit],
           trace := s.trace ++ [Event.CompileShaderAsync wunit.uid] }

/-- Modelled from the spec: one completed unit is taken out of the queue and its
`ResultHandler` runs on the polling thread. A completion naming no unit in
flight does nothing. The handler follows its captured `entry` pointer through
the key of the unit, which is exact as long as no `Clear` has destroyed the
entry since the submission. -/
def deliver (handler : Uid → CompileResult → Cache → Cache) (c : Completion) (s : Cache) :
    Cache :=
  match s.s_compiler.get? c.idx with
  | none => s
  | some wunit => handler wunit.uid c.cresult { s with s_compiler := s.s_compiler.eraseIdx c.idx }

/-- Modelled from the spec: `HLSLAsyncCompiler::ProcCompilationResults` (`Poll`)
drains the completed results and runs the result handler of each on the
calling thread; `done` lists the units the workers have finished by now. -/
def ProcCompilationResults (handler : Uid → CompileResult → Cache → Cache)
    (done : List Completion) (s : Cache) : Cache :=
  done.foldl (fun s c => deliver handler c s) s

/-- One `PrepareShader` call: the uid derived from the state snapshot, the caller
role and the completions the poll of this call hands back. -/
structure Call where
  uid : Uid
  ongputhread : Bool
  done : List Completion
deriving DecidableEq, Repr

/-- Number of units submitted for `uid` so far. -/
def submitted (s : Cache) (uid : Uid) : Nat :=
  s.trace.count (Event.CompileShaderAsync uid)

/-- Number of source generations for `uid` run by `PrepareShader` itself on the
calling thread so far (generation inside a work unit is tied to its
submission and counted by `submitted`). -/
def generated (s : Cache) (uid : Uid) : Nat :=
  s.trace.count (Event.GenerateShaderCode uid)

/-- The bytecodes handed to `Create*ShaderFromByteCode` for the entry under
`uid`, oldest first. -/
def created (s : Cache) (uid : Uid) : List ByteCode :=
  s.trace.filterMap fun ev =>
    match ev with
    | Event.CreateShaderFromByteCode k b => if k = uid then some b else none
    | _ => none

namespace VertexShaderCache

/-- `VertexShaderCache::PushByteCode` (VertexShaderCache.cpp:313-325); the entry
pointer is the key `entry`. The three stores are kept in program order. -/
def PushByteCode (env : Env) (bcodeblob : ByteCode) (entry : Uid) (s : Cache) : Cache :=
  let shader := env.CreateShaderFromByteCode bcodeblob
  let s := { s with trace := s.trace ++ [Event.CreateShaderFromByteCode entry bcodeblob] }
  let s := { s with shaders := s.shaders.update entry fun e => { e with shader := shader } }
  let s := { s with shaders := s.shaders.update entry fun e => { e with compiled := true } }
  let s := { s with shaders :=
    s.shaders.update entry fun e => { e with bytecode := some bcodeblob } }
  if shader.isSome then
    { s with numShadersCreated := s.numShadersCreated + 1,
             numShadersAlive := s.shaders.length }
  else s

/-- `VertexShaderCache::InsertByteCode` (VertexShaderCache.cpp:327-332). -/
def InsertByteCode (env : Env) (uid : Uid) (bcodeblob : ByteCode) (s : Cache) : Cache :=
  let s := { s with shaders := s.shaders.index {} uid }
  let s := { s with shaders := s.shaders.update uid fun e => { e with initialized := true } }
  PushByteCode env bcodeblob uid s

/-- The `ResultHandler` lambda installed by `VertexShaderCache::PrepareShader`
(VertexShaderCache.cpp:265-293). -/
def ResultHandler (env : Env) (uid : Uid) (cresult : CompileResult) (s : Cache) : Cache :=
  match cresult with
  | CompileResult.succeeded shaderbytecode =>
    let s := { s with disk_cache := s.disk_cache ++ [(uid, shaderbytecode)] }
    let s := PushByteCode env shaderbytecode uid s
    if env.DEBUG && env.bEnableShaderDebugging then
      { s with shaders := s.shaders.update uid fun e => { e with code := some uid } }
    else s
  | CompileResult.failed _ =>
    { s with trace := s.trace ++ [Event.DumpFailure uid] }

/-- Lines 240-294 of `VertexShaderCache::PrepareShader`, reached by both roles
when the fast path did not return: find-or-insert, remember the entry on the
GPU thread, claim, submit. -/
def PrepareShader_lookup (uid : Uid) (ongputhread : Bool) (s : Cache) : Cache :=
  let s := { s with shaders := s.shaders.index {} uid }
  let s := if ongputhread then { s with s_last_entry := some (EntryRef.table uid) } else s
  match s.shaders.find uid with
  | none => s
  | some entry =>
    if entry.initialized then s
    else
      let s := { s with shaders :=
        s.shaders.update uid fun e => { e with initialized := true } }
      CompileShaderAsync { uid := uid } s

/-- `VertexShaderCache::PrepareShader` (VertexShaderCache.cpp:203-295); `uid` is
the result of `GetVertexShaderUID`, `done` the completions handed back by the
poll of a GPU-thread call. The debugger hook `GFX_DEBUGGER_PAUSE_AT` has no
effect on the cache and is left out. -/
def PrepareShader (env : Env) (uid : Uid) (ongputhread : Bool) (done : List Completion)
    (s : Cache) : Cache :=
  if ongputhread then
    let s := ProcCompilationResults (ResultHandler env) done s
    let s := if env.DEBUG && env.bEnableShaderDebugging then
        { s with trace := s.trace ++ [Event.GenerateShaderCode uid] }
      else s
    if s.s_last_entry.isSome && uid = s.s_last_uid then s
    else PrepareShader_lookup uid true { s with s_last_uid := uid }
  else
    if s.s_external_last_uid = uid then s
    else PrepareShader_lookup uid false { s with s_external_last_uid := uid }

/-- `VertexShaderCache::Clear` (VertexShaderCache.cpp:170-179): every entry is
destroyed and the map is cleared, which the trace records as one event. -/
def Clear (s : Cache) : Cache :=
  { s with shaders := [], s_last_entry := none, trace := s.trace ++ [Event.Clear] }

/-- Modelled from the spec: `LinearDiskCache::OpenAndRead` (not among the sources)
reads every record of the file in order and hands it to the inserter, whose
`Read` calls `InsertByteCode` (VertexShaderCache.cpp:59-66). -/
def OpenAndRead (env : Env) (records : List (Uid × ByteCode)) (s : Cache) : Cache :=
  records.foldl (fun s r => InsertByteCode env r.1 r.2 s) { s with disk_cache := records }

/-- `VertexShaderCache::Init` (VertexShaderCache.cpp:103-168), the part acting on
the cache; `file` is the content of the cache file. -/
def Init (env : Env) (file : List (Uid × ByteCode)) (s : Cache) : Cache :=
  let s := Clear s
  let s := { s with numShadersCreated := 0, numShadersAlive := 0 }
  let s := OpenAndRead env file s
  let s := if env.g_Config_bEnableShaderDebugging then Clear s else s
  { s with s_last_entry := none }

/-- A sequence of `PrepareShader` calls, oldest first. -/
def run (env : Env) (calls : List Call) (s : Cache) : Cache :=
  calls.foldl (fun s c => PrepareShader env c.uid c.ongputhread c.done s) s

end VertexShaderCache

namespace GeometryShaderCache

/-- The static `s_pass_entry` (GeometryShaderCache.cpp:34), whose address is
stored in `s_last_entry` for pass-through states. It is default-constructed
and `const`, so it is the entry the default constructor of `GSCacheEntry`
builds: no shader object and, as for a fresh table entry, `compiled` false. -/
def s_pass_entry : CacheEntry := {}

/-- `GeometryShaderCache::PushByteCode` (GeometryShaderCache.cpp:335-346); the
entry pointer is the key `entry`. -/
def PushByteCode (env : Env) (bytecode : ByteCode) (entry : Uid) (s : Cache) : Cache :=
  let shader := env.CreateShaderFromByteCode bytecode
  let s := { s with trace := s.trace ++ [Event.CreateShaderFromByteCode entry bytecode] }
  let s := { s with shaders := s.shaders.update entry fun e => { e with shader := shader } }
  let s := { s with shaders := s.shaders.update entry fun e => { e with compiled := true } }
  if shader.isSome then
    { s with numShadersCreated := s.numShadersCreated + 1,
             numShadersAlive := s.shaders.length }
  else s

/-- `GeometryShaderCache::InsertByteCode` (GeometryShaderCache.cpp:348-353). -/
def InsertByteCode (env : Env) (uid : Uid) (bytecode : ByteCode) (s : Cache) : Cache :=
  let s := { s with shaders := s.shaders.index {} uid }
  let s := { s with shaders := s.shaders.update uid fun e => { e with initialized := true } }
  PushByteCode env bytecode uid s

/-- The `ResultHandler` lambda installed by `GeometryShaderCache::PrepareShader`
(GeometryShaderCache.cpp:284-316). -/
def ResultHandler (env : Env) (uid : Uid) (cresult : CompileResult) (s : Cache) : Cache :=
  match cresult with
  | CompileResult.succeeded bytecode =>
    let s := { s with disk_cache := s.disk_cache ++ [(uid, bytecode)] }
    let s := PushByteCode env bytecode uid s
    if env.DEBUG && env.bEnableShaderDebugging then
      { s with shaders := s.shaders.update uid fun e => { e with code := some uid } }
    else s
  | CompileResult.failed _ =>
    { s with trace := s.trace ++ [Event.DumpFailure uid] }

/-- Lines 257-317 of `GeometryShaderCache::PrepareShader`, reached by both roles
when neither the fast path nor the pass-through check returned. -/
def PrepareShader_lookup (uid : Uid) (ongputhread : Bool) (s : Cache) : Cache :=
  let s := { s with shaders := s.shaders.index {} uid }
  let s := if ongputhread then { s with s_last_entry := some (EntryRef.table uid) } else s
  match s.shaders.find uid with
  | none => s
  | some entry =>
    if entry.initialized then s
    else
      let s := { s with shaders :=
        s.shaders.update uid fun e => { e with initialized := true } }
      CompileShaderAsync { uid := uid } s

/-- `GeometryShaderCache::PrepareShader` (GeometryShaderCache.cpp:211-318); `uid`
is the result of `GetGeometryShaderUid`, `done` the completions handed back by
the poll of a GPU-thread call. The debugger hook `GFX_DEBUGGER_PAUSE_AT` has no
effect on the cache and is left out. -/
def PrepareShader (env : Env) (uid : Uid) (ongputhread : Bool) (done : List Completion)
    (s : Cache) : Cache :=
  if ongputhread then
    let s := ProcCompilationResults (ResultHandler env) done s
    let s := if env.DEBUG && env.bEnableShaderDebugging then
        { s with trace := s.trace ++ [Event.GenerateShaderCode uid] }
      else s
    if s.s_last_entry.isSome && uid = s.s_last_uid then s
    else
      let s := { s with s_last_uid := uid }
      if env.IsPassthrough uid then { s with s_last_entry := some EntryRef.pass }
      else PrepareShader_lookup uid true s
  else
    if s.s_external_last_uid = uid then s
    else PrepareShader_lookup uid false { s with s_external_last_uid := uid }

/-- `GeometryShaderCache::Clear` (GeometryShaderCache.cpp:181-189): every entry is
destroyed and the map is cleared, which the trace records as one event. -/
def Clear (s : Cache) : Cache :=
  { s with shaders := [], s_last_entry := none, trace := s.trace ++ [Event.Clear] }

/-- Modelled from the spec: `LinearDiskCache::OpenAndRead` (not among the sources)
reads every record of the file in order and hands it to the inserter, whose
`Read` calls `InsertByteCode` (GeometryShaderCache.cpp:64-71). -/
def OpenAndRead (env : Env) (records : List (Uid × ByteCode)) (s : Cache) : Cache :=
  records.foldl (fun s r => InsertByteCode env r.1 r.2 s) { s with disk_cache := records }

/-- `GeometryShaderCache::Init` (GeometryShaderCache.cpp:143-178), the part acting
on the cache; `file` is the content of the cache file. -/
def Init (env : Env) (file : List (Uid × ByteCode)) (s : Cache) : Cache :=
  let s := Clear s
  let s := OpenAndRead env file s
  let s := if env.g_Config_bEnableShaderDebugging then Clear s else s
  { s with s_last_entry := none }

/-- A sequence of `PrepareShader` calls, oldest first. -/
def run (env : Env) (calls : List Call) (s : Cache) : Cache :=
  calls.foldl (fun s c => PrepareShader env c.uid c.ongputhread c.done s) s

/-- The entry `s_last_entry` points to, as `TestShader` dereferences it. -/
def lastEntry (s : Cache) : Option CacheEntry :=
  match s.s_last_entry with
  | none => none
  | some EntryRef.pass => some s_pass_entry
  | some (EntryRef.table uid) => s.shaders.find uid

end GeometryShaderCache

/-! ### Views of the state shared by both caches -/

/-- Whether an entry is stored under `uid`. -/
def present (s : Cache) (uid : Uid) : Bool :=
  (s.shaders.find uid).isSome

/-- Whether the entry under `uid` exists and has its `initialized` flag set, that
is, some caller has claimed it. -/
def claimed (s : Cache) (uid : Uid) : Bool :=
  match s.shaders.find uid with
  | some e => e.initialized
  | none => false

/-- Whether the entry under `uid` exists and has `compiled == true`. -/
def compiledAt (s : Cache) (uid : Uid) : Bool :=
  match s.shaders.find uid with
  | some e => e.compiled
  | none => false

/-- The shader object of the entry under `uid`; `none` when there is no entry or
the pointer is null. -/
def shaderAt (s : Cache) (uid : Uid) : Option ShaderObj :=
  match s.shaders.find uid with
  | some e => e.shader
  | none => none

/-- The GPU-thread last-used slot is usable: `s_last_entry` is null, or points to
the live table entry stored under `s_last_uid`, or is the pass-through
sentinel while `s_last_uid` is a pass-through uid. -/
def lastEntryValid (passf : Uid → Bool) (s : Cache) : Bool :=
  match s.s_last_entry with
  | none => true
  | some (EntryRef.table k) => decide (k = s.s_last_uid) && present s k
  | some EntryRef.pass => passf s.s_last_uid

/-- The units in flight are consistent with the table: no two of them carry the
same uid, and each belongs to an entry that is claimed and not yet compiled. -/
def queueValid (s : Cache) : Bool :=
  decide (s.s_compiler.map fun w => w.uid).Nodup &&
    s.s_compiler.all fun w => claimed s w.uid && !compiledAt s w.uid

/-- Entries are compiled only after they have been claimed. -/
def CompiledAreClaimed (s : Cache) : Prop :=
  ∀ k, compiledAt s k = true → claimed s k = true

/-- The common shape of the two `PrepareShader` functions: the vertex cache is
the instance with no pass-through uid. Used to prove facts about both at
once; see `vs_PrepareShader_eq` and
`gs_PrepareShader_eq`. -/
def prepareCore (handler : Uid → CompileResult → Cache → Cache) (passf : Uid → Bool)
    (dbg : Bool) (uid : Uid) (ongputhread : Bool) (done : List Completion) (s : Cache) :
    Cache :=
  if ongputhread then
    let s := ProcCompilationResults handler done s
    let s := if dbg then { s with trace := s.trace ++ [Event.GenerateShaderCode uid] } else s
    if s.s_last_entry.isSome && uid = s.s_last_uid then s
    else
      let s := { s with s_last_uid := uid }
      if passf uid then { s with s_last_entry := some EntryRef.pass }
      else VertexShaderCache.PrepareShader_lookup uid true s
  else
    if s.s_external_last_uid = uid then s
    else VertexShaderCache.PrepareShader_lookup uid false { s with s_external_last_uid := uid }

/-- The state of a GPU-thread call of the common shape after its poll and its
debug-only source generation, before the fast-path test. -/
def polled (handler : Uid → CompileResult → Cache → Cache) (dbg : Bool) (uid : Uid)
    (done : List Completion) (s : Cache) : Cache :=
  let s := ProcCompilationResults handler done s
  if dbg then { s with trace := s.trace ++ [Event.GenerateShaderCode uid] } else s

/-- A sequence of calls of the common shape. -/
def runCore (handler : Uid → CompileResult → Cache → Cache) (passf : Uid → Bool)
    (dbg : Bool) (calls : List Call) (s : Cache) : Cache :=
  calls.foldl (fun s c => prepareCore handler passf dbg c.uid c.ongputhread c.done s) s

/-- Number of GPU-thread calls for `uid` in a sequence of calls. -/
def gpuCallsFor (calls : List Call) (uid : Uid) : Nat :=
  (calls.filter fun c => c.ongputhread && decide (c.uid = uid)).length

/-- A debug build with shader debugging switched on; shader objects are created
from every non-empty bytecode. -/
def envDebug : Env :=
  { DEBUG := true, bEnableShaderDebugging := true, g_Config_bEnableShaderDebugging := false,
    bFullAsyncShaderCompilation := true,
    CreateShaderFromByteCode := fun b => if b = [] then none else some b.sum,
    IsPassthrough := fun uid => decide (uid = 1) }

/-- A release build; shader objects are created from every non-empty bytecode,
and uid `1` is the pass-through geometry uid. -/
def envRelease : Env :=
  { DEBUG := false, bEnableShaderDebugging := false, g_Config_bEnableShaderDebugging := false,
    bFullAsyncShaderCompilation := true,
    CreateShaderFromByteCode := fun b => if b = [] then none else some b.sum,
    IsPassthrough := fun uid => decide (uid = 1) }

/-- A vertex-cache state of a release build reached by `Init` on an empty cache
file, a background call for uid `5` and a GPU-thread call for uid `5` whose poll
hands back the unit of uid `5` compiled to `[1]`: the entry of `5` is compiled,
nothing is in flight, and both roles used uid `5` last. -/
def vsBeforeClear : Cache :=
  VertexShaderCache.PrepareShader envRelease 5 true
    [{ idx := 0, cresult := CompileResult.succeeded [1] }]
    (VertexShaderCache.PrepareShader envRelease 5 false []
      (VertexShaderCache.Init envRelease [] {}))

/-- The state `vsBeforeClear` after `Clear`: the table is empty again while
`s_external_last_uid` is still `5`. -/
def vsAfterClear : Cache :=
  VertexShaderCache.Clear vsBeforeClear

/-- The geometry-cache counterpart of `vsBeforeClear`. -/
def gsBeforeClear : Cache :=
  GeometryShaderCache.PrepareShader envRelease 5 true
    [{ idx := 0, cresult := CompileResult.succeeded [1] }]
    (GeometryShaderCache.PrepareShader envRelease 5 false []
      (GeometryShaderCache.Init envRelease [] {}))

/-- Three calls for uid `5`: GPU thread, background, GPU thread. -/
def callsFor5 : List Call :=
  [{ uid := 5, ongputhread := true, done := [] },
   { uid := 5, ongputhread := false, done := [] },
   { uid := 5, ongputhread := true, done := [] }]

/-- The state after one GPU-thread `PrepareShader` call for uid `5` on a freshly
initialised cache of a release build: the entry is claimed and its unit is in
flight. Both caches reach the same state. -/
def oneInFlight : Cache :=
  VertexShaderCache.PrepareShader envRelease 5 true []
    (VertexShaderCache.Init envRelease [] {})

/-- The bytecode of the last record of a record stream that carries key `uid`. -/
def lastRecord (records : List (Uid × ByteCode)) (uid : Uid) : Option ByteCode :=
  ((records.filter fun r => r.1 = uid).getLast?).map Prod.snd

/-- The bytecode of the first record of a record stream that carries key `uid`. -/
def firstRecord (records : List (Uid × ByteCode)) (uid : Uid) : Option ByteCode :=
  ((records.filter fun r => r.1 = uid).head?).map Prod.snd

/-- The bytecodes of the records that carry key `uid`, in stream order. -/
def recordsFor (records : List (Uid × ByteCode)) (uid : Uid) : List ByteCode :=
  (records.filter fun r => r.1 = uid).map Prod.snd

/-- A record stream in which uid `5` occurs twice, with different bytecode. -/
def duplicateRecords : List (Uid × ByteCode) := [(5, [1]), (5, [2])]

/-- A record stream whose first record carries bytecode from which no shader
object can be created under `envRelease`, followed by a good record. -/
def badThenGood : List (Uid × ByteCode) := [(5, []), (6, [1])]

/-- The frame of a result handler: it keeps the keys, the claim flags, the
last-used slots, the queue and the submission and generation counts; it only
ever sets `compiled`, and only for the entry of its own unit on success. -/
structure HandlerFrame (h : Uid → CompileResult → Cache → Cache) : Prop where
  present_eq : ∀ u r s k, present (h u r s) k = present s k
  keys_eq : ∀ u r s, (h u r s).shaders.keys = s.shaders.keys
  claimed_eq : ∀ u r s k, claimed (h u r s) k = claimed s k
  compiled_other : ∀ u r s k, k ≠ u → compiledAt (h u r s) k = compiledAt s k
  compiled_failed : ∀ u e s k, compiledAt (h u (CompileResult.failed e) s) k = compiledAt s k
  compiled_ok : ∀ u b s, compiledAt (h u (CompileResult.succeeded b) s) u = present s u
  last_entry_eq : ∀ u r s, (h u r s).s_last_entry = s.s_last_entry
  last_uid_eq : ∀ u r s, (h u r s).s_last_uid = s.s_last_uid
  external_eq : ∀ u r s, (h u r s).s_external_last_uid = s.s_external_last_uid
  queue_eq : ∀ u r s, (h u r s).s_compiler = s.s_compiler
  submitted_eq : ∀ u r s k, submitted (h u r s) k = submitted s k
  generated_eq : ∀ u r s k, generated (h u r s) k = generated s k
  disk_failed : ∀ u e s, (h u (CompileResult.failed e) s).disk_cache = s.disk_cache
  disk_ok : ∀ u b s,
    (h u (CompileResult.succeeded b) s).disk_cache = s.disk_cache ++ [(u, b)]

/-! ### Publishing an entry, waiting for it, shutting down -/

/-- The bytecode kept by the entry under `uid` (`VSCacheEntry::Bytecode`); `none`
when there is no entry or `SetByteCode` has not run for it. -/
def bytecodeAt (s : Cache) (uid : Uid) : Option ByteCode :=
  match s.shaders.find uid with
  | some e => e.bytecode
  | none => none

/-- What a bounded run of `TestShader` ends with: the value returned, the number
of polls made and the state reached; or the loop still spinning when the bound
on its iterations is used up; or `invalid` when `s_last_entry` is null or
points to no live entry, so that `s_last_entry->compiled` has no meaning. -/
inductive TestOutcome
  | returned (result : Bool) (polls : Nat) (s : Cache)
  | spinning (s : Cache)
  | invalid
deriving DecidableEq, Repr

/-- The cache state a bounded run of `TestShader` started in `s0` leaves. -/
def TestOutcome.state (o : TestOutcome) (s0 : Cache) : Cache :=
  match o with
  | TestOutcome.returned _ _ s => s
  | TestOutcome.spinning s => s
  | TestOutcome.invalid => s0

/-- Whether a bounded run of `TestShader` returned. -/
def TestOutcome.isReturned (o : TestOutcome) : Bool :=
  match o with
  | TestOutcome.returned _ _ _ => true
  | _ => false

/-- Modelled from the spec: `HLSLAsyncCompiler::WaitForFinish` (the class is not
among the sources) blocks until every unit in flight has completed and been
handed back, oldest first, so that no result is pending when it returns;
`outcome` gives the compile result of each unit. The return of the call is
recorded in the trace. -/
def WaitForFinish (handler : Uid → CompileResult → Cache → Cache)
    (outcome : Uid → CompileResult) (s : Cache) : Cache :=
  let s := ProcCompilationResults handler
    (s.s_compiler.map fun w => { idx := 0, cresult := outcome w.uid }) s
  { s with trace := s.trace ++ [Event.WaitForFinish] }

/-- One step of a session on a cache: a call of one of the public functions or a
poll that runs result handlers. `TestShader` carries the bound on its loop
iterations and what each of its polls hands back. -/
inductive Step
  | Init (file : List (Uid × ByteCode))
  | Clear
  | PrepareShader (c : Call)
  | InsertByteCode (uid : Uid) (bytecode : ByteCode)
  | ProcCompilationResults (done : List Completion)
  | TestShader (fuel : Nat) (polls : List (List Completion))
deriving DecidableEq, Repr

/-- Whether a step leaves the table alone as a whole: every step but `Clear` and
`Init`, which calls `Clear`. -/
def Step.noClear : Step → Bool
  | Step.Init _ => false
  | Step.Clear => false
  | _ => true

namespace VertexShaderCache

/-- The states `VertexShaderCache::PushByteCode` (VertexShaderCache.cpp:313-325)
passes through, one after each of its three stores in program order:
`entry->shader`, `entry->compiled`, `entry->SetByteCode`. -/
def PushByteCode_stores (env : Env) (bcodeblob : ByteCode) (entry : Uid) (s : Cache) :
    List Cache :=
  let shader := env.CreateShaderFromByteCode bcodeblob
  let s := { s with trace := s.trace ++ [Event.CreateShaderFromByteCode entry bcodeblob] }
  let s1 := { s with shaders := s.shaders.update entry fun e => { e with shader := shader } }
  let s2 := { s1 with shaders := s1.shaders.update entry fun e => { e with compiled := true } }
  let stored := s2.shaders.update entry fun e => { e with bytecode := some bcodeblob }
  let s3 := { s2 with shaders := stored }
  [s1, s2, s3]

/-- The entry `s_last_entry` points to, as `TestShader` dereferences it. The
vertex cache never stores the address of a sentinel there. -/
def lastEntry (s : Cache) : Option CacheEntry :=
  match s.s_last_entry with
  | none => none
  | some EntryRef.pass => none
  | some (EntryRef.table uid) => s.shaders.find uid

/-- The loop and the return statement of `VertexShaderCache::TestShader`
(VertexShaderCache.cpp:297-310). The first argument bounds the number of loop
iterations; `count` is the number of polls made so far, which is the value of
the local counter of the source (incremented after every poll that does not
break out of the loop); `polls` lists what each successive
`ProcCompilationResults` hands back (nothing once the list is used up). -/
def TestShader_loop (env : Env) : Nat → Nat → List (List Completion) → Cache → TestOutcome
  | 0, count, _, s =>
    match lastEntry s with
    | none => TestOutcome.invalid
    | some entry =>
      if entry.compiled then
        TestOutcome.returned (entry.shader.isSome && entry.compiled) count s
      else TestOutcome.spinning s
  | fuel + 1, count, polls, s =>
    match lastEntry s with
    | none => TestOutcome.invalid
    | some entry =>
      if entry.compiled then
        TestOutcome.returned (entry.shader.isSome && entry.compiled) count s
      else
        let s := ProcCompilationResults (ResultHandler env) (polls.headD []) s
        if env.bFullAsyncShaderCompilation then
          match lastEntry s with
          | none => TestOutcome.invalid
          | some entry =>
            TestOutcome.returned (entry.shader.isSome && entry.compiled) (count + 1) s
        else TestShader_loop env fuel (count + 1) polls.tail s

/-- `VertexShaderCache::TestShader` (VertexShaderCache.cpp:297-310) run for at most
`fuel` loop iterations. -/
def TestShader (env : Env) (fuel : Nat) (polls : List (List Completion)) (s : Cache) :
    TestOutcome :=
  TestShader_loop env fuel 0 polls s

/-- `VertexShaderCache::Shutdown` (VertexShaderCache.cpp:181-201), the part acting
on the cache: `s_compiler` is set by `Init`, so the wait runs; releasing the
constant buffer, the utility shaders and the input layouts touches no cache
state; `Sync` and `Close` of the disk cache are recorded in the trace. -/
def Shutdown (env : Env) (outcome : Uid → CompileResult) (s : Cache) : Cache :=
  let s := WaitForFinish (ResultHandler env) outcome s
  let s := Clear s
  let s := { s with trace := s.trace ++ [Event.Sync] }
  { s with trace := s.trace ++ [Event.Close] }

/-- One step of a session on the vertex cache. A `TestShader` whose
`s_last_entry` cannot be dereferenced leaves the state as it is. -/
def step (env : Env) (st : Step) (s : Cache) : Cache :=
  match st with
  | Step.Init file => Init env file s
  | Step.Clear => Clear s
  | Step.PrepareShader c => PrepareShader env c.uid c.ongputhread c.done s
  | Step.InsertByteCode uid bytecode => InsertByteCode env uid bytecode s
  | Step.ProcCompilationResults done => ProcCompilationResults (ResultHandler env) done s
  | Step.TestShader fuel polls => (TestShader env fuel polls s).state s

/-- A sequence of steps on the vertex cache, oldest first. -/
def steps (env : Env) (l : List Step) (s : Cache) : Cache :=
  l.foldl (fun s st => step env st s) s

end VertexShaderCache

namespace GeometryShaderCache

/-- The states `GeometryShaderCache::PushByteCode` (GeometryShaderCache.cpp:335-346)
passes through, one after each of its two stores in program order:
`entry->shader`, `entry->compiled`. -/
def PushByteCode_stores (env : Env) (bytecode : ByteCode) (entry : Uid) (s : Cache) :
    List Cache :=
  let shader := env.CreateShaderFromByteCode bytecode
  let s := { s with trace := s.trace ++ [Event.CreateShaderFromByteCode entry bytecode] }
  let s1 := { s with shaders := s.shaders.update entry fun e => { e with shader := shader } }
  let s2 := { s1 with shaders := s1.shaders.update entry fun e => { e with compiled := true } }
  [s1, s2]

/-- The loop and the return statement of `GeometryShaderCache::TestShader`
(GeometryShaderCache.cpp:320-333). The first argument bounds the number of loop
iterations; `count` is the number of polls made so far, which is the value of
the local counter of the source (incremented after every poll that does not
break out of the loop); `polls` lists what each successive
`ProcCompilationResults` hands back (nothing once the list is used up). -/
def TestShader_loop (env : Env) : Nat → Nat → List (List Completion) → Cache → TestOutcome
  | 0, count, _, s =>
    match lastEntry s with
    | none => TestOutcome.invalid
    | some entry =>
      if entry.compiled then
        TestOutcome.returned (entry.shader.isSome && entry.compiled) count s
      else TestOutcome.spinning s
  | fuel + 1, count, polls, s =>
    match lastEntry s with
    | none => TestOutcome.invalid
    | some entry =>
      if entry.compiled then
        TestOutcome.returned (entry.shader.isSome && entry.compiled) count s
      else
        let s := ProcCompilationResults (ResultHandler env) (polls.headD []) s
        if env.bFullAsyncShaderCompilation then
          match lastEntry s with
          | none => TestOutcome.invalid
          | some entry =>
            TestOutcome.returned (entry.shader.isSome && entry.compiled) (count + 1) s
        else TestShader_loop env fuel (count + 1) polls.tail s

/-- `GeometryShaderCache::TestShader` (GeometryShaderCache.cpp:320-333) run for at
most `fuel` loop iterations. -/
def TestShader (env : Env) (fuel : Nat) (polls : List (List Completion)) (s : Cache) :
    TestOutcome :=
  TestShader_loop env fuel 0 polls s

/-- `GeometryShaderCache::Shutdown` (GeometryShaderCache.cpp:191-209), the part
acting on the cache: `s_compiler` is set by `Init`, so the wait runs; releasing
the constant buffer and the utility shaders touches no cache state; `Sync` and
`Close` of the disk cache are recorded in the trace. -/
def Shutdown (env : Env) (outcome : Uid → CompileResult) (s : Cache) : Cache :=
  let s := WaitForFinish (ResultHandler env) outcome s
  let s := Clear s
  let s := { s with trace := s.trace ++ [Event.Sync] }
  { s with trace := s.trace ++ [Event.Close] }

/-- One step of a session on the geometry cache. A `TestShader` whose
`s_last_entry` cannot be dereferenced leaves the state as it is. -/
def step (env : Env) (st : Step) (s : Cache) : Cache :=
  match st with
  | Step.Init file => Init env file s
  | Step.Clear => Clear s
  | Step.PrepareShader c => PrepareShader env c.uid c.ongputhread c.done s
  | Step.InsertByteCode uid bytecode => InsertByteCode env uid bytecode s
  | Step.ProcCompilationResults done => ProcCompilationResults (ResultHandler env) done s
  | Step.TestShader fuel polls => (TestShader env fuel polls s).state s

/-- A sequence of steps on the geometry cache, oldest first. -/
def steps (env : Env) (l : List Step) (s : Cache) : Cache :=
  l.foldl (fun s st => step env st s) s

end GeometryShaderCache

/-- The common shape of the two `TestShader` loops: `deref` dereferences
`s_last_entry`, `full` is `bFullAsyncShaderCompilation`. See `vs_TestShader_eq`
and `gs_TestShader_eq`. -/
def testCore (handler : Uid → CompileResult → Cache → Cache)
    (deref : Cache → Option CacheEntry) (full : Bool) :
    Nat → Nat → List (List Completion) → Cache → TestOutcome
  | 0, count, _, s =>
    match deref s with
    | none => TestOutcome.invalid
    | some entry =>
      if entry.compiled then
        TestOutcome.returned (entry.shader.isSome && entry.compiled) count s
      else TestOutcome.spinning s
  | fuel + 1, count, polls, s =>
    match deref s with
    | none => TestOutcome.invalid
    | some entry =>
      if entry.compiled then
        TestOutcome.returned (entry.shader.isSome && entry.compiled) count s
      else
        let s := ProcCompilationResults handler (polls.headD []) s
        if full then
          match deref s with
          | none => TestOutcome.invalid
          | some entry =>
            TestOutcome.returned (entry.shader.isSome && entry.compiled) (count + 1) s
        else testCore handler deref full fuel (count + 1) polls.tail s

/-- Every unit in flight belongs to a claimed entry. -/
def QueueClaimed (s : Cache) : Prop :=
  ∀ w ∈ s.s_compiler, claimed s w.uid = true

/-- The table of `t` extends the table of `s`: every entry of `s` is still
there, claimed if it was claimed and compiled if it was compiled. -/
def Grows (s t : Cache) : Prop :=
  ∀ k, (present s k = true → present t k = true) ∧
    (claimed s k = true → claimed t k = true) ∧
    (compiledAt s k = true → compiledAt t k = true)

/-- The release build `envRelease` in synchronous mode
(`bFullAsyncShaderCompilation` off). -/
def envSync : Env :=
  { envRelease with bFullAsyncShaderCompilation := false }

/-- Whether an event is one a result handler records: the creation of a shader
object or the dump of a failed compile. -/
def Event.fromHandler : Event → Bool
  | Event.CreateShaderFromByteCode _ _ => true
  | Event.DumpFailure _ => true
  | _ => false

/-- The state `oneInFlight` reached in synchronous mode. -/
def oneInFlightSync : Cache :=
  VertexShaderCache.PrepareShader envSync 5 true []
    (VertexShaderCache.Init envSync [] {})

/-- Whether a step is a `PrepareShader` call with `ongputhread == true`. -/
def Step.isGpuPrepare : Step → Bool
  | Step.PrepareShader c => c.ongputhread
  | _ => false

end DX11

namespace OGL

/-- The GL type `GLuint`, here the name of a program object. -/
abbrev GLuint := Nat

/-- The GL type `GLenum`. -/
abbrev GLenum := Nat

/-- The constant `sizeof(GLenum)`. -/
def sizeofGLenum : Nat := 4

/-- A GL program object as far as the cache observes it: `GL_LINK_STATUS`, the
format and bytes of its program binary (`GL_PROGRAM_BINARY_LENGTH` is the
length of `binary`), whether its uniform blocks and samplers are bound, and
`GL_DELETE_STATUS`. -/
structure GLProgram where
  linkStatus : Bool := false
  binaryFormat : GLenum := 0
  binary : List Nat := []
  variablesSet : Bool := false
  deleteStatus : Bool := false
deriving DecidableEq, Repr

/-- The GL driver: whether `glProgramBinary` with this format and binary leaves the
program with `GL_LINK_STATUS` true. -/
structure Driver where
  ProgramBinaryLinks : GLenum → List Nat → Bool

/-- The GL context: the live program objects, and `nextName`, a name above every
program name handed out so far. -/
structure GLContext where
  nextName : GLuint := 1
  programs : Table GLProgram := []
deriving DecidableEq, Repr

/-- The GL call `glCreateProgram` of a driver that hands out names in increasing
order and so never hands out a name twice: a fresh empty program object and
its name. The replay of the disk cache (`Read`) is modelled with this driver:
a program that `Read` deletes is referred to by no entry, so the names chosen
there only tell the records apart. -/
def glCreateProgram (gl : GLContext) : GLuint × GLContext :=
  (gl.nextName, { nextName := gl.nextName + 1, programs := (gl.nextName, {}) :: gl.programs })

/-- The GL call `glCreateProgram` when the driver returns `name`. GL promises only
a non-zero name that is not in use, so the name of a deleted program may be
handed out again. `nextName` stays above every name handed out. -/
def glCreateProgramAs (gl : GLContext) (name : GLuint) : GLuint × GLContext :=
  (name, { nextName := max gl.nextName (name + 1), programs := (name, {}) :: gl.programs })

/-- The GL call `glProgramBinary`: a negative length is an error and leaves the
program unlinked; otherwise the first `length` bytes are loaded and the driver
decides the link status. -/
def glProgramBinary (drv : Driver) (gl : GLContext) (program : GLuint) (binaryFormat : GLenum)
    (binary : List Nat) (length : Int) : GLContext :=
  if length < 0 then gl
  else
    { gl with programs := gl.programs.update program fun p =>
        { p with linkStatus := drv.ProgramBinaryLinks binaryFormat (binary.take length.toNat),
                 binaryFormat := binaryFormat, binary := binary.take length.toNat } }

/-- The GL query `glGetProgramiv(program, GL_LINK_STATUS, ..)`. -/
def glGetLinkStatus (gl : GLContext) (program : GLuint) : Bool :=
  match gl.programs.find program with
  | some p => p.linkStatus
  | none => false

/-- The GL call `glDeleteProgram`. -/
def glDeleteProgram (gl : GLContext) (program : GLuint) : GLContext :=
  { gl with programs := gl.programs.erase program }

/-- `SHADER` (declared in ProgramShaderCache.h, not among the sources): the name
of the GL program; the debug strings are left out. -/
structure SHADER where
  glprogid : GLuint := 0
deriving DecidableEq, Repr

/-- `SHADER::SetProgramVariables` (ProgramShaderCache.cpp:71-): binds the uniform
blocks and samplers of the program. -/
def SHADER.SetProgramVariables (shader : SHADER) (gl : GLContext) : GLContext :=
  { gl with programs := gl.programs.update shader.glprogid fun p =>
      { p with variablesSet := true } }

/-- `PCacheEntry` (declared in ProgramShaderCache.h, not among the sources): the
fields the `.cpp` file accesses. -/
structure PCacheEntry where
  shader : SHADER := {}
  in_cache : Nat := 0
deriving DecidableEq, Repr

/-- The shader stages `CompileSingleShader` is called with: `GL_VERTEX_SHADER`,
`GL_FRAGMENT_SHADER`, `GL_GEOMETRY_SHADER`. -/
inductive Stage
  | vertex
  | fragment
  | geometry
deriving DecidableEq, Repr

/-- Calls that `SetShader` makes into the source generators, into
`CompileShader` and into the GL, in program order. -/
inductive Event
  | GenerateVertexShaderCodeGL (uid : Uid)
  | GeneratePixelShaderCodeGL (uid : Uid)
  | GenerateGeometryShaderCode (uid : Uid)
  | CompileShader (uid : Uid)
  | glUseProgram (program : GLuint)
  | Sync
  | Close
deriving DecidableEq, Repr

/-- Run-time configuration and the GLSL compiler of the driver as `SetShader`
uses them: `bEnableShaderDebugging` is `g_ActiveConfig.bEnableShaderDebugging`,
`bSupportsGeometryShaders` is
`g_ActiveConfig.backend_info.bSupportsGeometryShaders`, `IsPassthrough` is
`uid.guid.GetUidData().IsPassthrough()`; `CompileSingleShader stage uid` tells
whether the source of that stage generated for `uid` compiles to a non-zero
shader name, `glLinkProgram uid` whether the program of `uid` links, and
`ProgramBinaryOf uid` the format and bytes of the binary the driver keeps for
that program once it is linked, and `glCreateProgram gl` the name the
driver's `glCreateProgram` returns in the context `gl`. `bSupportsGLSLCache` is
`g_ogl_config.bSupportsGLSLCache`, `g_Config_bEnableShaderDebugging` the copy
of the debugging switch read by `Init` and `Shutdown`. -/
structure Config where
  bEnableShaderDebugging : Bool
  bSupportsGeometryShaders : Bool
  IsPassthrough : Uid → Bool
  CompileSingleShader : Stage → Uid → Bool
  glLinkProgram : Uid → Bool
  ProgramBinaryOf : Uid → GLenum × List Nat
  glCreateProgram : GLContext → GLuint
  bSupportsGLSLCache : Bool
  g_Config_bEnableShaderDebugging : Bool

/-- The static state of `ProgramShaderCache` with the GL context it acts on;
`trace` records the calls made so far, `disk_cache` the records appended to
`g_program_disk_cache`. -/
structure State where
  pshaders : Table PCacheEntry := []
  last_entry : Option Uid := none
  last_uid : Uid := 0
  gl : GLContext := {}
  CurrentProgram : GLuint := 0
  trace : List Event := []
  disk_cache : List (Uid × List Nat) := []
deriving DecidableEq, Repr

/-- Conversion of an unsigned value to `GLint` (32-bit two's complement). -/
def toGLint (n : Nat) : Int :=
  if n % 2 ^ 32 < 2 ^ 31 then (n % 2 ^ 32 : Nat) else (n % 2 ^ 32 : Nat) - 2 ^ 32

/-- The value of `*(GLenum*)value`: the first four bytes, little endian. -/
def decodeGLenum (value : List Nat) : GLenum :=
  (value.take sizeofGLenum).foldr (fun b acc => b % 256 + 256 * acc) 0

/-- The `binary_size` computed by `Read`: `value_size - sizeof(GLenum)` in `size_t`
arithmetic, converted to `GLint`. -/
@[irreducible]
def binarySizeOf (value_size : Nat) : Int :=
  toGLint ((value_size % 2 ^ 32 + 2 ^ 64 - sizeofGLenum) % 2 ^ 64)

/-- Whether the program binary of a record links when `Read` loads it. -/
def recordLinks (drv : Driver) (value : List Nat) : Bool :=
  decide (0 ≤ binarySizeOf value.length) &&
    drv.ProgramBinaryLinks (decodeGLenum value)
      ((value.drop sizeofGLenum).take (binarySizeOf value.length).toNat)

/-- `ProgramShaderCacheInserter::Read` (ProgramShaderCache.cpp:677-700); `value_size`
is the length of `value`. -/
def ProgramShaderCacheInserter.Read (drv : Driver) (key : Uid) (value : List Nat)
    (s : State) : State :=
  let binary := value.drop sizeofGLenum
  let prog_format := decodeGLenum value
  let binary_size := binarySizeOf value.length
  let created := glCreateProgram s.gl
  let entry : PCacheEntry := { shader := { glprogid := created.1 }, in_cache := 1 }
  let gl := glProgramBinary drv created.2 entry.shader.glprogid prog_format binary binary_size
  let success := glGetLinkStatus gl entry.shader.glprogid
  if success then
    let s := { s with gl := gl, pshaders := (s.pshaders.index ({} : PCacheEntry) key).update key fun _ => entry }
    { s with gl := entry.shader.SetProgramVariables s.gl }
  else
    { s with gl := glDeleteProgram gl entry.shader.glprogid }

/-- Modelled from the spec: `LinearDiskCache::OpenAndRead` (not among the sources)
reads every record of the file in order and hands it to the inserter. -/
def OpenAndRead (drv : Driver) (records : List (Uid × List Nat)) (s : State) : State :=
  records.foldl (fun s r => ProgramShaderCacheInserter.Read drv r.1 r.2 s) s

/-- Position in the record stream of the last record that carries key `uid` and
whose binary links. -/
def lastLinking (drv : Driver) (uid : Uid) : List (Uid × List Nat) → Option Nat
  | [] => none
  | r :: rest =>
    match lastLinking drv uid rest with
    | some j => some (j + 1)
    | none => if r.1 = uid ∧ recordLinks drv r.2 = true then some 0 else none

/-- The GL context after the first two GL calls of `Read`: `glCreateProgram`, then
`glProgramBinary` on the new program with the format and binary of the record. -/
def loadRecord (drv : Driver) (value : List Nat) (gl : GLContext) : GLContext :=
  glProgramBinary drv (glCreateProgram gl).2 (glCreateProgram gl).1 (decodeGLenum value)
    (value.drop sizeofGLenum) (binarySizeOf value.length)

/-- Every live program name is below `nextName`, so the name `glCreateProgram`
hands out next is not in use. -/
def glFresh (gl : GLContext) : Bool :=
  gl.programs.keys.all fun n => decide (n < gl.nextName)

/-- A driver that accepts exactly the binaries starting with byte `1`. -/
def drvExample : Driver :=
  { ProgramBinaryLinks := fun _ b => decide (b.head? = some 1) }

/-- A record with format `0` whose binary `[2]` the example driver rejects. -/
def recordBad : List Nat := [0, 0, 0, 0, 2]

/-- A record with format `0` whose binary `[1, 7]` the example driver accepts. -/
def recordGood : List Nat := [0, 0, 0, 0, 1, 7]

/-- `SHADER::Bind` (ProgramShaderCache.cpp:140-148). -/
def SHADER.Bind (shader : SHADER) (s : State) : State :=
  if s.CurrentProgram ≠ shader.glprogid then
    { s with trace := s.trace ++ [Event.glUseProgram shader.glprogid],
             CurrentProgram := shader.glprogid }
  else s

/-- The statement `last_entry->shader.Bind()` of `SetShader`. A `last_entry` that
points to no live entry has nothing to bind. -/
def bindLast (s : State) : State :=
  match s.last_entry with
  | none => s
  | some k =>
    match s.pshaders.find k with
    | none => s
    | some entry => entry.shader.Bind s

/-- The GL call `glLinkProgram`; `ok` is the link status the driver reaches. A
program that links gets the binary the driver builds for it, one that does
not link has none. -/
def glLinkProgram (gl : GLContext) (program : GLuint) (ok : Bool) (binaryFormat : GLenum)
    (binary : List Nat) : GLContext :=
  let linked : GLProgram → GLProgram := fun p =>
    if ok then { p with linkStatus := true, binaryFormat := binaryFormat, binary := binary }
    else { p with linkStatus := false, binaryFormat := 0, binary := [] }
  { gl with programs := gl.programs.update program linked }

/-- `ProgramShaderCache::GetShaderId` (ProgramShaderCache.cpp:421-436); `uid` is
the key the three uid derivers produce from the register state. -/
def GetShaderId (cfg : Config) (uid : Uid) (s : State) : State :=
  if cfg.bEnableShaderDebugging then
    { s with trace := s.trace ++ [Event.GeneratePixelShaderCodeGL uid,
        Event.GenerateVertexShaderCodeGL uid, Event.GenerateGeometryShaderCode uid] }
  else s

/-- `ProgramShaderCache::CompileShader` (ProgramShaderCache.cpp:280-360) called by
`SetShader` on the shader of the entry under `uid`; `gcode` tells whether the
geometry source is non-null. The call is recorded in the trace; log files and
alerts are left out. -/
def CompileShader (cfg : Config) (uid : Uid) (gcode : Bool) (s : State) : Bool × State :=
  let s := { s with trace := s.trace ++ [Event.CompileShader uid] }
  let vsid := cfg.CompileSingleShader Stage.vertex uid
  let psid := cfg.CompileSingleShader Stage.fragment uid
  let gsid := if gcode then cfg.CompileSingleShader Stage.geometry uid else false
  if !vsid || !psid || (gcode && !gsid) then (false, s)
  else
    let created := glCreateProgramAs s.gl (cfg.glCreateProgram s.gl)
    let pid := created.1
    let s := { s with gl := created.2,
                      pshaders := s.pshaders.update uid fun e => { e with shader.glprogid := pid } }
    let built := cfg.ProgramBinaryOf uid
    let s := { s with gl := glLinkProgram s.gl pid (cfg.glLinkProgram uid) built.1 built.2 }
    if !glGetLinkStatus s.gl pid then
      (false, { s with gl := glDeleteProgram s.gl pid })
    else
      (true, { s with gl := SHADER.SetProgramVariables { glprogid := pid } s.gl })

/-- `ProgramShaderCache::SetShader` (ProgramShaderCache.cpp:198-278); `uid` is the
key `GetShaderId` derives. The result is the entry whose shader is returned,
`none` for `nullptr`. The debugger hooks, the statistics, the debug strings
and the debug-build dump of the sources are left out. -/
def SetShader (cfg : Config) (uid : Uid) (s : State) : Option Uid × State :=
  let s := GetShaderId cfg uid s
  if s.last_entry.isSome && uid = s.last_uid then
    (s.last_entry, bindLast s)
  else
    let s := { s with last_uid := uid }
    match s.pshaders.find uid with
    | some _ =>
      let s := { s with last_entry := some uid }
      (s.last_entry, bindLast s)
    | none =>
      let s := { s with pshaders := s.pshaders.index ({} : PCacheEntry) uid }
      let s := { s with last_entry := some uid }
      let s := { s with pshaders := s.pshaders.update uid fun e => { e with in_cache := 0 } }
      let s := { s with trace := s.trace ++ [Event.GenerateVertexShaderCodeGL uid] }
      let s := { s with trace := s.trace ++ [Event.GeneratePixelShaderCodeGL uid] }
      let gcode := cfg.bSupportsGeometryShaders && !cfg.IsPassthrough uid
      let s := if gcode then
          { s with trace := s.trace ++ [Event.GenerateGeometryShaderCode uid] }
        else s
      let r := CompileShader cfg uid gcode s
      if !r.1 then (none, r.2)
      else (r.2.last_entry, bindLast r.2)

/-- A sequence of `SetShader` calls, oldest first, with no `Shutdown` in
between. -/
def setShaders (cfg : Config) (uids : List Uid) (s : State) : State :=
  uids.foldl (fun s uid => (SetShader cfg uid s).2) s

/-- Number of `CompileShader` calls made for `uid` so far. -/
def compiles (s : State) (uid : Uid) : Nat :=
  s.trace.count (Event.CompileShader uid)

/-- Whether an event is a call of a shader source generation function. -/
def Event.isGeneration : Event → Bool
  | Event.GenerateVertexShaderCodeGL _ => true
  | Event.GeneratePixelShaderCodeGL _ => true
  | Event.GenerateGeometryShaderCode _ => true
  | _ => false

/-- The calls of source generation functions made so far, oldest first. -/
def generations (s : State) : List Event :=
  s.trace.filter Event.isGeneration

/-- The last-used slot is usable: `last_entry` is null or points to the live
entry stored under `last_uid`. -/
def lastValid (s : State) : Bool :=
  match s.last_entry with
  | none => true
  | some k => decide (k = s.last_uid) && (s.pshaders.find k).isSome

/-- A configuration with shader debugging switched on; every source compiles
and every program links; program names are handed out in increasing order. -/
def cfgDebugging : Config :=
  { bEnableShaderDebugging := true, bSupportsGeometryShaders := true,
    IsPassthrough := fun _ => false, CompileSingleShader := fun _ _ => true,
    glLinkProgram := fun _ => true, ProgramBinaryOf := fun uid => (0, [1, uid]),
    glCreateProgram := fun gl => gl.nextName,
    bSupportsGLSLCache := true, g_Config_bEnableShaderDebugging := true }

/-- A configuration with shader debugging switched off in which the sources of
uid `6` do not compile; program names are handed out in increasing order. -/
def cfgPlain : Config :=
  { bEnableShaderDebugging := false, bSupportsGeometryShaders := true,
    IsPassthrough := fun _ => false,
    CompileSingleShader := fun _ uid => decide (uid ≠ 6),
    glLinkProgram := fun _ => true, ProgramBinaryOf := fun uid => (0, [1, uid]),
    glCreateProgram := fun gl => gl.nextName,
    bSupportsGLSLCache := true, g_Config_bEnableShaderDebugging := false }

/-- A configuration with shader debugging switched off in which every source
compiles and the program of uid `6` does not link; program names are handed
out in increasing order. -/
def cfgNoLink : Config :=
  { bEnableShaderDebugging := false, bSupportsGeometryShaders := true,
    IsPassthrough := fun _ => false, CompileSingleShader := fun _ _ => true,
    glLinkProgram := fun uid => decide (uid ≠ 6), ProgramBinaryOf := fun uid => (0, [1, uid]),
    glCreateProgram := fun gl => gl.nextName,
    bSupportsGLSLCache := true, g_Config_bEnableShaderDebugging := false }

/-- The smallest positive name that is not the name of a live program: the
choice of a driver that hands the names of deleted programs out again. -/
def lowestFreeName (gl : GLContext) : GLuint :=
  ((List.range (gl.programs.length + 2)).filter fun n =>
    decide (0 < n) && decide (n ∉ gl.programs.keys)).headD (gl.programs.length + 1)

/-- The configuration `cfgNoLink` on a driver that hands the names of deleted
programs out again. -/
def cfgReuse : Config :=
  { cfgNoLink with glCreateProgram := lowestFreeName }

/-- The four bytes a store through `GLenum* prog_format` writes: the 32-bit
value, little endian. -/
def encodeGLenum (f : GLenum) : List Nat :=
  [f % 256, f / 256 % 256, f / 65536 % 256, f / 16777216 % 256]

/-- The GL call `glGetProgramBinary(program, bufSize, nullptr, &format, binary)`:
an error (`none`) if `program` names no program object, if the program is not
linked or if `bufSize` is smaller than its binary; else the format and the
bytes it writes. -/
def glGetProgramBinary (gl : GLContext) (program : GLuint) (bufSize : Nat) :
    Option (GLenum × List Nat) :=
  match gl.programs.find program with
  | none => none
  | some p =>
    if p.linkStatus && decide (p.binary.length ≤ bufSize) then some (p.binaryFormat, p.binary)
    else none

/-- The buffer `data` of `Shutdown` (ProgramShaderCache.cpp:519-522) after
`glGetProgramBinary` has written the format through `prog_format` and the
binary at `&data[sizeof(GLenum)]`: `binary_size + sizeof(GLenum)` bytes, zero
where nothing was written. -/
def shutdownData (binary_size : Nat) (prog_format : GLenum) (binary : List Nat) : List Nat :=
  encodeGLenum prog_format ++
    (binary ++ List.replicate (binary_size - binary.length) 0).take binary_size

/-- The body of the first loop of `ProgramShaderCache::Shutdown`
(ProgramShaderCache.cpp:500-528) for one entry: the value handed to `Append`,
or `none` when the iteration ends in a `continue`. A `glGetProgramiv` on a name
that is no program object raises a GL error. `GL_PROGRAM_BINARY_LENGTH` is
returned in a `GLint`, so a binary is shorter than `2 ^ 31` bytes. -/
def Shutdown_data (gl : GLContext) (entry : PCacheEntry) : Option (List Nat) :=
  if entry.in_cache ≠ 0 then none
  else
    match gl.programs.find entry.shader.glprogid with
    | none => none
    | some p =>
      let link_status := p.linkStatus
      let delete_status := p.deleteStatus
      let binary_size := p.binary.length
      if !link_status || delete_status || binary_size == 0 then none
      else
        match glGetProgramBinary gl entry.shader.glprogid binary_size with
        | none => none
        | some got => some (shutdownData binary_size got.1 got.2)

/-- One iteration of the first loop of `ProgramShaderCache::Shutdown`
(ProgramShaderCache.cpp:500-528): `Append(entry.first, &data[0], ..)` unless
the iteration ends in a `continue`. -/
def Shutdown_append (t : State) (entry : Uid × PCacheEntry) : State :=
  match Shutdown_data t.gl entry.2 with
  | none => t
  | some data => { t with disk_cache := t.disk_cache ++ [(entry.1, data)] }

/-- One iteration of the second loop of `ProgramShaderCache::Shutdown`
(ProgramShaderCache.cpp:536-539): `Destroy` deletes the program of the entry. -/
def Shutdown_destroy (t : State) (entry : Uid × PCacheEntry) : State :=
  { t with gl := glDeleteProgram t.gl entry.2.shader.glprogid }

/-- `ProgramShaderCache::Shutdown` (ProgramShaderCache.cpp:495-546): the entries
are visited in table order. The stream buffers are left out. -/
def Shutdown (cfg : Config) (s : State) : State :=
  let s := if cfg.bSupportsGLSLCache && !cfg.g_Config_bEnableShaderDebugging then
      let s := s.pshaders.foldl Shutdown_append s
      { s with trace := s.trace ++ [Event.Sync, Event.Close] }
    else s
  let s := { s with trace := s.trace ++ [Event.glUseProgram 0] }
  let s := s.pshaders.foldl Shutdown_destroy s
  { s with pshaders := [] }

/-- The records the first loop of `Shutdown` appends for the table of `s`, in
table order. -/
def appendedAtShutdown (s : State) : List (Uid × List Nat) :=
  s.pshaders.filterMap fun entry => (Shutdown_data s.gl entry.2).map fun data => (entry.1, data)

/-- Whether `CompileShader` succeeds for `uid` on a fresh program object: the
vertex and pixel sources compile, the geometry source compiles if there is
one, and the program links. -/
def compileSucceeds (cfg : Config) (uid : Uid) : Bool :=
  cfg.CompileSingleShader Stage.vertex uid && cfg.CompileSingleShader Stage.fragment uid &&
    (!(cfg.bSupportsGeometryShaders && !cfg.IsPassthrough uid) ||
      cfg.CompileSingleShader Stage.geometry uid) &&
    cfg.glLinkProgram uid

/-- No live program has the name zero or a name that was never handed out:
`nextName` is positive and every live name is positive and below it. -/
def namesOk (gl : GLContext) : Bool :=
  decide (0 < gl.nextName) &&
    gl.programs.keys.all fun n => decide (0 < n) && decide (n < gl.nextName)

/-- Every entry of the table was loaded from disk (`in_cache` set) and carries a
program name that has been handed out. -/
def allLoaded (s : State) : Bool :=
  s.pshaders.all fun entry =>
    decide (entry.2.in_cache ≠ 0) && decide (entry.2.shader.glprogid < s.gl.nextName)

/-- What the table records about the entry under `k` on a driver that never
hands out a program name again: its program name has been handed out (or is
the initial zero), and if the entry was compiled in this session, its program
is live, linked and carries the binary of `k` when the compile succeeded and
is no program object when it failed. -/
def EntryOk (cfg : Config) (gl : GLContext) (k : Uid) (e : PCacheEntry) : Prop :=
  e.shader.glprogid < gl.nextName ∧
  (e.in_cache = 0 →
    (compileSucceeds cfg k = true →
      ∃ p, gl.programs.find e.shader.glprogid = some p ∧ p.linkStatus = true ∧
        p.deleteStatus = false ∧ p.binaryFormat = (cfg.ProgramBinaryOf k).1 ∧
        p.binary = (cfg.ProgramBinaryOf k).2) ∧
    (compileSucceeds cfg k = false → gl.programs.find e.shader.glprogid = none))

/-- The invariant of a session of `SetShader` calls, on a driver that never hands
out a program name again, on a table whose entries with a key in `loaded`
come from disk: `namesOk` holds, the loaded keys stay in the table, every
entry satisfies `EntryOk`, and an entry has `in_cache == 0` exactly when its
key is not in `loaded`. -/
def SessionInv (cfg : Config) (loaded : List Uid) (s : State) : Prop :=
  namesOk s.gl = true ∧ (∀ k ∈ loaded, k ∈ s.pshaders.keys) ∧
  ∀ entry ∈ s.pshaders,
    EntryOk cfg s.gl entry.1 entry.2 ∧ (entry.2.in_cache = 0 ↔ entry.1 ∉ loaded)

/-- The state a session leaves after replaying the record `recordGood` for uid
`5` from disk and calling `SetShader` for the uids `5`, `6`, `7`, `6`, where
the program of uid `6` does not link. -/
def sessionBeforeShutdown : State :=
  setShaders cfgNoLink [5, 6, 7, 6] (OpenAndRead drvExample [(5, recordGood)] {})

end OGL

namespace D3D12

/-- One initialiser of `s_shader_constant_buffer_padded_sizes`
(ShaderConstantsManager.cpp:39-44): `(size + 0xff) & ~0xff` in `unsigned int`
arithmetic, where `~0xff` converts to `0xffffff00`. -/
def paddedSize (size : Nat) : Nat :=
  ((size + 0xff) % 2 ^ 32) &&& 0xffffff00

end D3D12

namespace MainBase

/-- `EFBAccessType` (declared in VideoCommon.h, not among the sources): the four
access types `Video_AccessEFB` distinguishes. -/
inductive EFBAccessType
  | PEEK_Z
  | POKE_Z
  | PEEK_COLOR
  | POKE_COLOR
deriving DecidableEq, Repr

/-- `EFBPeekCacheElement` (declared in VideoBackendBase.h, not among the sources):
the fields MainBase.cpp accesses. -/
structure EFBPeekCacheElement where
  ColorValue : Nat := 0
  DepthValue : Nat := 0
  ColorFrame : Nat := 0
  DepthFrame : Nat := 0
deriving DecidableEq, Repr

/-- The `AsyncRequests::Event`s `Video_AccessEFB` pushes: pokes are pushed
without blocking, peeks block until the GPU thread has written the result. -/
inductive Event
  | EFB_POKE_COLOR (x y data : Nat)
  | EFB_POKE_Z (x y data : Nat)
  | EFB_PEEK_COLOR (x y : Nat)
  | EFB_PEEK_Z (x y : Nat)
deriving DecidableEq, Repr

/-- Whether an event is a peek event. -/
def Event.isPeek : Event → Bool
  | Event.EFB_PEEK_COLOR _ _ => true
  | Event.EFB_PEEK_Z _ _ => true
  | _ => false

/-- The two switches of `g_ActiveConfig` that `Video_AccessEFB` reads. -/
structure Config where
  bEFBAccessEnable : Bool
  bEFBFastAccess : Bool
deriving DecidableEq, Repr

/-- The members of `VideoBackendBase` that the peek cache uses, the global
`s_EFB_PCache_Frame`, and the events pushed to `AsyncRequests` so far. The
members are `u32`; the array `m_EFB_PCache` is a list of its elements. -/
structure Backend where
  m_EFB_PCache_Divisor : Nat := 0
  m_EFB_PCache_Life : Nat := 0
  m_EFB_PCache_Width : Nat := 0
  m_EFB_PCache_Height : Nat := 0
  m_EFB_PCache_Size : Nat := 0
  m_EFB_PCache : List EFBPeekCacheElement := []
  m_initialized : Bool := false
  s_EFB_PCache_Frame : Nat := 0
  pushed : List Event := []
deriving DecidableEq, Repr

/-- The constructor `VideoBackendBase::VideoBackendBase` (MainBase.cpp:71-82).
`EFB_WIDTH` and `EFB_HEIGHT` are constants of VideoCommon.h (not among the
sources) and are parameters here; `fresh` gives the indeterminate content of
the elements the `new[]` expression allocates. -/
def VideoBackendBase (EFB_WIDTH EFB_HEIGHT : Nat) (fresh : Nat → EFBPeekCacheElement) :
    Backend :=
  let m_EFB_PCache_Divisor := 3
  let m_EFB_PCache_Life := 3
  let m_EFB_PCache_Width := (EFB_WIDTH >>> m_EFB_PCache_Divisor) % 2 ^ 32
  let m_EFB_PCache_Height := (EFB_HEIGHT >>> m_EFB_PCache_Divisor) % 2 ^ 32
  let m_EFB_PCache_Size := (m_EFB_PCache_Width * m_EFB_PCache_Height) % 2 ^ 32
  { m_EFB_PCache_Divisor := m_EFB_PCache_Divisor, m_EFB_PCache_Life := m_EFB_PCache_Life,
    m_EFB_PCache_Width := m_EFB_PCache_Width, m_EFB_PCache_Height := m_EFB_PCache_Height,
    m_EFB_PCache_Size := m_EFB_PCache_Size,
    m_EFB_PCache := (List.range m_EFB_PCache_Size).map fresh }

/-- `VideoBackendBase::InitializeShared` (MainBase.cpp:183-192), the part acting on
the peek cache: the `memset` zeroes every element and the frame counter
restarts at 1. -/
def InitializeShared (s : Backend) : Backend :=
  { s with m_EFB_PCache := List.replicate s.m_EFB_PCache_Size {},
           s_EFB_PCache_Frame := 1 }

/-- The local `efb_p_cache_stride` of `Video_AccessEFB` (MainBase.cpp:99), in `u32`
arithmetic. -/
def efb_p_cache_stride (s : Backend) (x y : Nat) : Nat :=
  ((y >>> s.m_EFB_PCache_Divisor) * s.m_EFB_PCache_Width + (x >>> s.m_EFB_PCache_Divisor))
    % 2 ^ 32

/-- Lines 109 and 122-128 of `Video_AccessEFB`: the poke or peek event pushed. -/
def accessEvent (type : EFBAccessType) (x y InputData : Nat) : Event :=
  match type with
  | EFBAccessType.POKE_COLOR => Event.EFB_POKE_COLOR x y InputData
  | EFBAccessType.POKE_Z => Event.EFB_POKE_Z x y InputData
  | EFBAccessType.PEEK_COLOR => Event.EFB_PEEK_COLOR x y
  | EFBAccessType.PEEK_Z => Event.EFB_PEEK_Z x y

/-- Lines 130-145 of `Video_AccessEFB`: with fast access on, `result` and the
frame until which it is valid are stored in the element at
`efb_p_cache_stride`; `none` when that element lies outside the array. -/
def Video_AccessEFB_store (cfg : Config) (type : EFBAccessType) (stride result : Nat)
    (s : Backend) : Option (Nat × Backend) :=
  if cfg.bEFBFastAccess then
    match s.m_EFB_PCache[stride]? with
    | none => none
    | some el =>
      let frame := (s.s_EFB_PCache_Frame + s.m_EFB_PCache_Life) % 2 ^ 32
      if type = EFBAccessType.PEEK_COLOR ∨ type = EFBAccessType.POKE_COLOR then
        let el := { el with ColorValue := result, ColorFrame := frame }
        some (result, { s with m_EFB_PCache := s.m_EFB_PCache.set stride el })
      else
        let el := { el with DepthValue := result, DepthFrame := frame }
        some (result, { s with m_EFB_PCache := s.m_EFB_PCache.set stride el })
  else some (result, s)

/-- Lines 120-128 of `Video_AccessEFB`: the blocking peek event; `peeked` is the
value the GPU thread writes through `e.efb_peek.data`. -/
def Video_AccessEFB_peek (cfg : Config) (peeked : Nat) (type : EFBAccessType)
    (x y stride : Nat) (s : Backend) : Option (Nat × Backend) :=
  Video_AccessEFB_store cfg type stride peeked
    { s with pushed := s.pushed ++ [accessEvent type x y 0] }

/-- `VideoBackendBase::Video_AccessEFB` (MainBase.cpp:92-146): the value returned
and the state left; `none` when an element outside the array `m_EFB_PCache`
is accessed. `peeked` is the value a blocking peek event yields. -/
def Video_AccessEFB (cfg : Config) (peeked : Nat) (type : EFBAccessType) (x y InputData : Nat)
    (s : Backend) : Option (Nat × Backend) :=
  if !(cfg.bEFBAccessEnable && s.m_initialized) then some (0, s)
  else
    let result := InputData
    let stride := efb_p_cache_stride s x y
    if type = EFBAccessType.POKE_COLOR ∨ type = EFBAccessType.POKE_Z then
      Video_AccessEFB_store cfg type stride result
        { s with pushed := s.pushed ++ [accessEvent type x y InputData] }
    else if cfg.bEFBFastAccess then
      match s.m_EFB_PCache[stride]? with
      | none => none
      | some el =>
        if type = EFBAccessType.PEEK_COLOR ∧ el.ColorFrame > s.s_EFB_PCache_Frame then
          some (el.ColorValue, s)
        else if type = EFBAccessType.PEEK_Z ∧ el.DepthFrame > s.s_EFB_PCache_Frame then
          some (el.DepthValue, s)
        else Video_AccessEFB_peek cfg peeked type x y stride s
    else Video_AccessEFB_peek cfg peeked type x y stride s

/-- The peek-cache members are as the constructor for an EFB of `W` by `H` pixels
leaves them, and the array has `m_EFB_PCache_Size` elements. -/
def Constructed (W H : Nat) (s : Backend) : Prop :=
  s.m_EFB_PCache_Divisor = 3 ∧ s.m_EFB_PCache_Life = 3 ∧
  s.m_EFB_PCache_Width = (W >>> 3) % 2 ^ 32 ∧ s.m_EFB_PCache_Height = (H >>> 3) % 2 ^ 32 ∧
  s.m_EFB_PCache_Size = ((W >>> 3) % 2 ^ 32 * ((H >>> 3) % 2 ^ 32)) % 2 ^ 32 ∧
  s.m_EFB_PCache.length = s.m_EFB_PCache_Size

/-- An initialized backend for the EFB of 640 by 528 pixels, after
`InitializeShared`. -/
def backend640 : Backend :=
  { InitializeShared (VideoBackendBase 640 528 fun _ => {}) with m_initialized := true }

/-- EFB access and fast access both enabled. -/
def cfgFast : Config := { bEFBAccessEnable := true, bEFBFastAccess := true }

/-- The element `Video_AccessEFB` stores back (MainBase.cpp:132-143): the color
pair is replaced for a color access, the depth pair otherwise. -/
def stored (type : EFBAccessType) (result frame : Nat) (el : EFBPeekCacheElement) :
    EFBPeekCacheElement :=
  if type = EFBAccessType.PEEK_COLOR ∨ type = EFBAccessType.POKE_COLOR then
    { el with ColorValue := result, ColorFrame := frame }
  else { el with DepthValue := result, DepthFrame := frame }

/-- The color slots of the peek cache: value and frame of every element. -/
def colorSlots (s : Backend) : List (Nat × Nat) :=
  s.m_EFB_PCache.map fun el => (el.ColorValue, el.ColorFrame)

/-- The depth slots of the peek cache: value and frame of every element. -/
def depthSlots (s : Backend) : List (Nat × Nat) :=
  s.m_EFB_PCache.map fun el => (el.DepthValue, el.DepthFrame)

/-- Whether an access type is a color access. -/
def EFBAccessType.isColor : EFBAccessType → Bool
  | EFBAccessType.PEEK_COLOR => true
  | EFBAccessType.POKE_COLOR => true
  | _ => false

end MainBase

namespace Rasterizer

/-- The constant `BLOCK_SIZE` (Rasterizer.cpp:21). -/
def BLOCK_SIZE : Int := 2

/-- The scissor registers of `bpmem` that `SetScissor` reads: `scissorTL.x`,
`scissorTL.y`, `scissorBR.x`, `scissorBR.y`, `scissorOffset.x`,
`scissorOffset.y`. -/
structure BPMemory where
  scissorTL_x : Int
  scissorTL_y : Int
  scissorBR_x : Int
  scissorBR_y : Int
  scissorOffset_x : Int
  scissorOffset_y : Int
deriving DecidableEq, Repr

/-- The statics `scissorLeft`, `scissorTop`, `scissorRight`, `scissorBottom`
(Rasterizer.cpp:33-36). -/
structure Scissor where
  scissorLeft : Int := 0
  scissorTop : Int := 0
  scissorRight : Int := 0
  scissorBottom : Int := 0
deriving DecidableEq, Repr

/-- `Rasterizer::SetScissor` (Rasterizer.cpp:73-93). `EFB_WIDTH` and `EFB_HEIGHT`
are constants of VideoCommon.h (not among the sources) and are parameters
here. -/
def SetScissor (EFB_WIDTH EFB_HEIGHT : Int) (bpmem : BPMemory) : Scissor :=
  let xoff := bpmem.scissorOffset_x * 2 - 342
  let yoff := bpmem.scissorOffset_y * 2 - 342
  let scissorLeft := bpmem.scissorTL_x - xoff - 342
  let scissorLeft := if scissorLeft < 0 then 0 else scissorLeft
  let scissorTop := bpmem.scissorTL_y - yoff - 342
  let scissorTop := if scissorTop < 0 then 0 else scissorTop
  let scissorRight := bpmem.scissorBR_x - xoff - 341
  let scissorRight := if scissorRight > EFB_WIDTH then EFB_WIDTH else scissorRight
  let scissorBottom := bpmem.scissorBR_y - yoff - 341
  let scissorBottom := if scissorBottom > EFB_HEIGHT then EFB_HEIGHT else scissorBottom
  { scissorLeft := scissorLeft, scissorTop := scissorTop, scissorRight := scissorRight,
    scissorBottom := scissorBottom }

/-- The 28.4 fixed-point vertex coordinates `X1 .. Y3` of
`DrawTriangleFrontFace` (Rasterizer.cpp:301-307), that is, the values
`iround(16.0f * screenPosition) - 9`. Integers are unbounded: the `s32`
arithmetic of the source is modelled where it does not overflow. -/
structure Triangle where
  X1 : Int
  Y1 : Int
  X2 : Int
  Y2 : Int
  X3 : Int
  Y3 : Int
deriving DecidableEq, Repr

/-- The deltas and the half-edge constants of a triangle after the fill
convention has been applied (Rasterizer.cpp:310-382). -/
structure Edges where
  DX12 : Int
  DX23 : Int
  DX31 : Int
  DY12 : Int
  DY23 : Int
  DY31 : Int
  C1 : Int
  C2 : Int
  C3 : Int
deriving DecidableEq, Repr

/-- A call `Draw(x, y, xi, yi)`. -/
structure DrawCall where
  x : Int
  y : Int
  xi : Int
  yi : Int
deriving DecidableEq, Repr

/-- Lines 310-317 and 374-382 of `DrawTriangleFrontFace`: deltas, half-edge
constants and the fill-convention correction. -/
def halfEdges (t : Triangle) : Edges :=
  let DX12 := t.X1 - t.X2
  let DX23 := t.X2 - t.X3
  let DX31 := t.X3 - t.X1
  let DY12 := t.Y1 - t.Y2
  let DY23 := t.Y2 - t.Y3
  let DY31 := t.Y3 - t.Y1
  let C1 := DY12 * t.X1 - DX12 * t.Y1
  let C2 := DY23 * t.X2 - DX23 * t.Y2
  let C3 := DY31 * t.X3 - DX31 * t.Y3
  let C1 := if DY12 < 0 ∨ (DY12 = 0 ∧ DX12 > 0) then C1 + 1 else C1
  let C2 := if DY23 < 0 ∨ (DY23 = 0 ∧ DX23 > 0) then C2 + 1 else C2
  let C3 := if DY31 < 0 ∨ (DY31 = 0 ∧ DX31 > 0) then C3 + 1 else C3
  { DX12 := DX12, DX23 := DX23, DX31 := DX31, DY12 := DY12, DY23 := DY23, DY31 := DY31,
    C1 := C1, C2 := C2, C3 := C3 }

/-- The value `(b00 << 0) | (b10 << 1) | (b01 << 2) | (b11 << 3)` of four `bool`s. -/
def mask (b00 b10 b01 b11 : Bool) : Nat :=
  (b00.toNat <<< 0) ||| (b10.toNat <<< 1) ||| (b01.toNat <<< 2) ||| (b11.toNat <<< 3)

/-- The inner loop over `ix` of a partially covered block (Rasterizer.cpp:447-457):
`n` iterations remain, `CX1 .. CX3` are the running half-space values. -/
def partialRow (e : Edges) (x y iy : Int) : Nat → Int → Int → Int → Int → List DrawCall
  | 0, _, _, _, _ => []
  | n + 1, ix, CX1, CX2, CX3 =>
    (if CX1 > 0 ∧ CX2 > 0 ∧ CX3 > 0 then [{ x := x + ix, y := y + iy, xi := ix, yi := iy }]
      else []) ++
      partialRow e x y iy n (ix + 1) (CX1 - e.DY12 * 16) (CX2 - e.DY23 * 16) (CX3 - e.DY31 * 16)

/-- The outer loop over `iy` of a partially covered block (Rasterizer.cpp:441-462):
`n` iterations remain, `CY1 .. CY3` are the running row values. -/
def partialRows (e : Edges) (x y : Int) : Nat → Int → Int → Int → Int → List DrawCall
  | 0, _, _, _, _ => []
  | n + 1, iy, CY1, CY2, CY3 =>
    partialRow e x y iy BLOCK_SIZE.toNat 0 CY1 CY2 CY3 ++
      partialRows e x y n (iy + 1) (CY1 + e.DX12 * 16) (CY2 + e.DX23 * 16) (CY3 + e.DX31 * 16)

/-- The `Draw` calls of a totally covered block (Rasterizer.cpp:425-434), `iy`
outer and `ix` inner. -/
def fullBlock (x y : Int) : List DrawCall :=
  [{ x := x + 0, y := y + 0, xi := 0, yi := 0 }, { x := x + 1, y := y + 0, xi := 1, yi := 0 },
   { x := x + 0, y := y + 1, xi := 0, yi := 1 }, { x := x + 1, y := y + 1, xi := 1, yi := 1 }]

/-- The body of the block loop of `DrawTriangleFrontFace` (Rasterizer.cpp:393-464)
for the block with corner `(x, y)`: the `Draw` calls it makes, in order. The
shift `v << 4` is `v * 16`. -/
def drawBlock (e : Edges) (x y : Int) : List DrawCall :=
  let x0 := x * 16
  let x1 := (x + BLOCK_SIZE - 1) * 16
  let y0 := y * 16
  let y1 := (y + BLOCK_SIZE - 1) * 16
  let a00 := decide (e.C1 + e.DX12 * y0 - e.DY12 * x0 > 0)
  let a10 := decide (e.C1 + e.DX12 * y0 - e.DY12 * x1 > 0)
  let a01 := decide (e.C1 + e.DX12 * y1 - e.DY12 * x0 > 0)
  let a11 := decide (e.C1 + e.DX12 * y1 - e.DY12 * x1 > 0)
  let a := mask a00 a10 a01 a11
  let b00 := decide (e.C2 + e.DX23 * y0 - e.DY23 * x0 > 0)
  let b10 := decide (e.C2 + e.DX23 * y0 - e.DY23 * x1 > 0)
  let b01 := decide (e.C2 + e.DX23 * y1 - e.DY23 * x0 > 0)
  let b11 := decide (e.C2 + e.DX23 * y1 - e.DY23 * x1 > 0)
  let b := mask b00 b10 b01 b11
  let c00 := decide (e.C3 + e.DX31 * y0 - e.DY31 * x0 > 0)
  let c10 := decide (e.C3 + e.DX31 * y0 - e.DY31 * x1 > 0)
  let c01 := decide (e.C3 + e.DX31 * y1 - e.DY31 * x0 > 0)
  let c11 := decide (e.C3 + e.DX31 * y1 - e.DY31 * x1 > 0)
  let c := mask c00 c10 c01 c11
  if a = 0x0 ∨ b = 0x0 ∨ c = 0x0 then []
  else if a = 0xF ∧ b = 0xF ∧ c = 0xF then fullBlock x y
  else
    let CY1 := e.C1 + e.DX12 * y0 - e.DY12 * x0
    let CY2 := e.C2 + e.DX23 * y0 - e.DY23 * x0
    let CY3 := e.C3 + e.DX31 * y0 - e.DY31 * x0
    partialRows e x y BLOCK_SIZE.toNat 0 CY1 CY2 CY3

/-- The values a loop `for (v = lo; v < hi; v += BLOCK_SIZE)` runs through. -/
def blockRange (lo hi : Int) : List Int :=
  (List.range ((hi - lo + 1) / BLOCK_SIZE).toNat).map fun (k : Nat) => lo + BLOCK_SIZE * (k : Int)

/-- `Rasterizer::DrawTriangleFrontFace` (Rasterizer.cpp:293-467) with
`BoundingBox::active` false: the `Draw` calls it makes, in order. The shift
`v >> 4` is the floor division by 16 and `v & ~(BLOCK_SIZE - 1)` clears bit 0
of `v`, which is `v - v % 2`. The slope setup does not affect which pixels
are drawn and is left out. -/
def DrawTriangleFrontFace (sc : Scissor) (t : Triangle) : List DrawCall :=
  let minx := (min (min t.X1 t.X2) t.X3 + 0xF) / 16
  let maxx := (max (max t.X1 t.X2) t.X3 + 0xF) / 16
  let miny := (min (min t.Y1 t.Y2) t.Y3 + 0xF) / 16
  let maxy := (max (max t.Y1 t.Y2) t.Y3 + 0xF) / 16
  let minx := max minx sc.scissorLeft
  let maxx := min maxx sc.scissorRight
  let miny := max miny sc.scissorTop
  let maxy := min maxy sc.scissorBottom
  if minx ≥ maxx ∨ miny ≥ maxy then []
  else
    let e := halfEdges t
    let minx := minx - minx % BLOCK_SIZE
    let miny := miny - miny % BLOCK_SIZE
    ((blockRange miny maxy).map fun y =>
      ((blockRange minx maxx).map fun x => drawBlock e x y).flatten).flatten

/-- Whether pixel `(x, y)` lies inside the scissor rectangle. -/
def inScissor (sc : Scissor) (x y : Int) : Bool :=
  decide (sc.scissorLeft ≤ x) && decide (x < sc.scissorRight) &&
    decide (sc.scissorTop ≤ y) && decide (y < sc.scissorBottom)

/-- The per-pixel half-space test: all three edge functions are positive at the
pixel `(px, py)`. -/
def halfSpace (e : Edges) (px py : Int) : Bool :=
  decide (e.C1 + e.DX12 * (py * 16) - e.DY12 * (px * 16) > 0) &&
    decide (e.C2 + e.DX23 * (py * 16) - e.DY23 * (px * 16) > 0) &&
    decide (e.C3 + e.DX31 * (py * 16) - e.DY31 * (px * 16) > 0)

/-- The pixels of the block with corner `(x, y)` that pass the per-pixel
half-space test, in the order `Draw` visits them. -/
def perPixel (e : Edges) (x y : Int) : List DrawCall :=
  (fullBlock x y).filter fun d => halfSpace e d.x d.y

/-- Scissor registers with offset `(171, 171)`, top left `(343, 342)` and bottom
right `(344, 343)`: `SetScissor` yields the rectangle `1 <= x < 3`,
`0 <= y < 2`. -/
def bpOddScissor : BPMemory :=
  { scissorTL_x := 343, scissorTL_y := 342, scissorBR_x := 344, scissorBR_y := 343,
    scissorOffset_x := 171, scissorOffset_y := 171 }

/-- A triangle with the fixed-point vertices `(-64, -64)`, `(-64, 640)`,
`(640, -64)`; it covers the pixels `(0, 0) .. (9, 9)` and more. -/
def bigTriangle : Triangle :=
  { X1 := -64, Y1 := -64, X2 := -64, Y2 := 640, X3 := 640, Y3 := -64 }

end Rasterizer

namespace VertexShaderManager

/-- The XF memory addresses `InvalidateXFRange` compares with. They are constants
of XFMemory.h (not among the sources) and are parameters here; position
matrices start at address 0. -/
structure XFLayout where
  XFMEM_POSMATRICES_END : Int
  XFMEM_NORMALMATRICES : Int
  XFMEM_NORMALMATRICES_END : Int
  XFMEM_POSTMATRICES : Int
  XFMEM_POSTMATRICES_END : Int
  XFMEM_LIGHTS : Int
  XFMEM_LIGHTS_END : Int
deriving DecidableEq, Repr

/-- The layout of the GameCube XF memory: position matrices `0x000 .. 0x100`,
normal matrices `0x400 .. 0x460`, post-transform matrices `0x500 .. 0x600`,
lights `0x600 .. 0x680`; the sizes agree with the full ranges `Dirty` sets
(VertexShaderManager.cpp:240-250). -/
def xfLayout : XFLayout :=
  { XFMEM_POSMATRICES_END := 0x100, XFMEM_NORMALMATRICES := 0x400,
    XFMEM_NORMALMATRICES_END := 0x460, XFMEM_POSTMATRICES := 0x500,
    XFMEM_POSTMATRICES_END := 0x600, XFMEM_LIGHTS := 0x600, XFMEM_LIGHTS_END := 0x680 }

/-- The four tracked ranges (VertexShaderManager.cpp:33-36), each an `int[2]`
holding min and max; `-1` in the first component means clean. -/
structure State where
  nTransformMatricesChanged : Int × Int := (-1, -1)
  nNormalMatricesChanged : Int × Int := (-1, -1)
  nPostTransformMatricesChanged : Int × Int := (-1, -1)
  nLightsChanged : Int × Int := (-1, -1)
deriving DecidableEq, Repr

/-- The update of a tracked pair shared by the normal, post-transform and light
branches of `InvalidateXFRange` (for instance VertexShaderManager.cpp:623-632). -/
def track (changed : Int × Int) (_start _end : Int) : Int × Int :=
  if changed.1 = -1 then (_start, _end)
  else
    (if changed.1 > _start then _start else changed.1,
     if changed.2 < _end then _end else changed.2)

/-- `VertexShaderManager::InvalidateXFRange` (VertexShaderManager.cpp:586-668), the
part acting on the four tracked ranges. The four `if` blocks are independent,
each reads and writes only its own pair, so the state left is given pair by
pair. The two `bTexMatricesChanged` flags set at the top do not affect the
ranges and are left out. -/
def InvalidateXFRange (L : XFLayout) (start end_ : Int) (s : State) : State :=
  let position :=
    if start < L.XFMEM_POSMATRICES_END then
      if s.nTransformMatricesChanged.1 = -1 then
        (start, if end_ > L.XFMEM_POSMATRICES_END then L.XFMEM_POSMATRICES_END else end_)
      else
        (if s.nTransformMatricesChanged.1 > start then start
          else s.nTransformMatricesChanged.1,
         if s.nTransformMatricesChanged.2 < end_ then
            (if end_ > L.XFMEM_POSMATRICES_END then L.XFMEM_POSMATRICES_END else end_)
          else s.nTransformMatricesChanged.2)
    else s.nTransformMatricesChanged
  let normal :=
    if start < L.XFMEM_NORMALMATRICES_END ∧ end_ > L.XFMEM_NORMALMATRICES then
      let _start := if start < L.XFMEM_NORMALMATRICES then 0 else start - L.XFMEM_NORMALMATRICES
      let _end := if end_ < L.XFMEM_NORMALMATRICES_END then end_ - L.XFMEM_NORMALMATRICES
        else L.XFMEM_NORMALMATRICES_END - L.XFMEM_NORMALMATRICES
      track s.nNormalMatricesChanged _start _end
    else s.nNormalMatricesChanged
  let post :=
    if start < L.XFMEM_POSTMATRICES_END ∧ end_ > L.XFMEM_POSTMATRICES then
      let _start := if start < L.XFMEM_POSTMATRICES then L.XFMEM_POSTMATRICES
        else start - L.XFMEM_POSTMATRICES
      let _end := if end_ < L.XFMEM_POSTMATRICES_END then end_ - L.XFMEM_POSTMATRICES
        else L.XFMEM_POSTMATRICES_END - L.XFMEM_POSTMATRICES
      track s.nPostTransformMatricesChanged _start _end
    else s.nPostTransformMatricesChanged
  let lights :=
    if start < L.XFMEM_LIGHTS_END ∧ end_ > L.XFMEM_LIGHTS then
      let _start := if start < L.XFMEM_LIGHTS then L.XFMEM_LIGHTS else start - L.XFMEM_LIGHTS
      let _end := if end_ < L.XFMEM_LIGHTS_END then end_ - L.XFMEM_LIGHTS
        else L.XFMEM_LIGHTS_END - L.XFMEM_LIGHTS
      track s.nLightsChanged _start _end
    else s.nLightsChanged
  { nTransformMatricesChanged := position, nNormalMatricesChanged := normal,
    nPostTransformMatricesChanged := post, nLightsChanged := lights }

/-- The property a tracked pair `[lo, hi]` of the region `[rbegin, rend)` has to
have after `[start, end_)` was invalidated:
`0 <= lo <= max(start, rbegin) - rbegin` and
`min(end_, rend) - rbegin <= hi <= rend - rbegin`. -/
def covers (rbegin rend start end_ : Int) (changed : Int × Int) : Bool :=
  decide (0 ≤ changed.1) && decide (changed.1 ≤ max start rbegin - rbegin) &&
    decide (min end_ rend - rbegin ≤ changed.2) && decide (changed.2 ≤ rend - rbegin)

/-- A tracked pair of a region of `size` words is clean, or dirty with
`0 <= lo` and `hi <= size`. -/
def rangeOk (size : Int) (changed : Int × Int) : Bool :=
  decide (changed.1 = -1) || (decide (0 ≤ changed.1) && decide (changed.2 ≤ size))

end VertexShaderManager

/-! ## Lemmas on tables -/

namespace Table

theorem find_update {ε : Type} (t : Table ε) (k k' : Uid) (f : ε → ε) :
    (t.update k f).find k' = if k = k' then (t.find k').map f else t.find k' := by
  induction t with
  | nil => simp [update, find]
  | cons p r ih =>
    obtain ⟨a, e⟩ := p
    by_cases hak : a = k <;> by_cases hk : k = k' <;> by_cases hak' : a = k' <;>
      simp_all [find, update]

theorem keys_update {ε : Type} (t : Table ε) (k : Uid) (f : ε → ε) :
    (t.update k f).keys = t.keys := by
  induction t with
  | nil => rfl
  | cons p r ih =>
    obtain ⟨a, e⟩ := p
    simp only [keys] at ih
    simp [update, keys, ih]

theorem length_update {ε : Type} (t : Table ε) (k : Uid) (f : ε → ε) :
    (t.update k f).length = t.length := by
  have := congrArg List.length (keys_update t k f)
  simpa [keys] using this

theorem find_eq_none_iff {ε : Type} (t : Table ε) (k : Uid) :
    t.find k = none ↔ k ∉ t.keys := by
  induction t with
  | nil => simp [find, keys]
  | cons p r ih =>
    obtain ⟨a, e⟩ := p
    by_cases h : a = k
    · simp [find, keys, h]
    · have h2 : ¬ k = a := fun h3 => h h3.symm
      simp only [keys] at ih
      simp [find, h, ih, keys, h2]

theorem find_index {ε : Type} (d : ε) (t : Table ε) (k k' : Uid) :
    (t.index d k).find k' = if k = k' then some ((t.find k).getD d) else t.find k' := by
  unfold index
  cases h : t.find k with
  | some e =>
    by_cases hk : k = k'
    · subst hk; simp [h]
    · simp [hk]
  | none =>
    by_cases hk : k = k'
    · simp [find, hk]
    · simp [find, hk]

theorem keys_index {ε : Type} (d : ε) (t : Table ε) (k : Uid) :
    (t.index d k).keys = if k ∈ t.keys then t.keys else k :: t.keys := by
  unfold index
  cases h : t.find k with
  | some e =>
    have : k ∈ t.keys := by
      by_contra hc
      rw [← find_eq_none_iff] at hc
      simp [hc] at h
    simp [this]
  | none =>
    have : k ∉ t.keys := (find_eq_none_iff t k).1 h
    rw [if_neg this]
    simp [keys]

end Table

/-! ## The two caches as instances of the common shape -/

namespace DX11

theorem vs_PrepareShader_eq (env : Env) :
    VertexShaderCache.PrepareShader env =
      prepareCore (VertexShaderCache.ResultHandler env) (fun _ => false)
        (env.DEBUG && env.bEnableShaderDebugging) := by
  funext uid g done s
  cases g <;> simp [VertexShaderCache.PrepareShader, prepareCore]

theorem gs_PrepareShader_eq (env : Env) :
    GeometryShaderCache.PrepareShader env =
      prepareCore (GeometryShaderCache.ResultHandler env) env.IsPassthrough
        (env.DEBUG && env.bEnableShaderDebugging) := by
  funext uid g done s
  cases g <;> simp [GeometryShaderCache.PrepareShader, prepareCore] <;> rfl

theorem vs_run_eq (env : Env) :
    VertexShaderCache.run env =
      runCore (VertexShaderCache.ResultHandler env) (fun _ => false)
        (env.DEBUG && env.bEnableShaderDebugging) := by
  funext calls s
  simp [VertexShaderCache.run, runCore, vs_PrepareShader_eq]

theorem gs_run_eq (env : Env) :
    GeometryShaderCache.run env =
      runCore (GeometryShaderCache.ResultHandler env) env.IsPassthrough
        (env.DEBUG && env.bEnableShaderDebugging) := by
  funext calls s
  simp [GeometryShaderCache.run, runCore, gs_PrepareShader_eq]

end DX11

/-! ## What a result handler may change -/

namespace DX11

theorem present_update (s : Cache) (k k' : Uid) (f : CacheEntry → CacheEntry) :
    present { s with shaders := s.shaders.update k f } k' = present s k' := by
  simp only [present, Table.find_update]
  split <;> simp

theorem vs_PushByteCode_shaders (env : Env) (b : ByteCode) (k : Uid)
    (s : Cache) :
    (VertexShaderCache.PushByteCode env b k s).shaders =
      ((s.shaders.update k fun e => { e with shader := env.CreateShaderFromByteCode b }).update k
        fun e => { e with compiled := true }).update k fun e => { e with bytecode := some b } := by
  unfold VertexShaderCache.PushByteCode
  dsimp only
  split <;> rfl

theorem vs_PushByteCode_trace (env : Env) (b : ByteCode) (k : Uid)
    (s : Cache) :
    (VertexShaderCache.PushByteCode env b k s).trace =
      s.trace ++ [Event.CreateShaderFromByteCode k b] := by
  unfold VertexShaderCache.PushByteCode
  dsimp only
  split <;> rfl

theorem vs_PushByteCode_rest (env : Env) (b : ByteCode) (k : Uid)
    (s : Cache) :
    (VertexShaderCache.PushByteCode env b k s).s_last_entry = s.s_last_entry ∧
    (VertexShaderCache.PushByteCode env b k s).s_last_uid = s.s_last_uid ∧
    (VertexShaderCache.PushByteCode env b k s).s_external_last_uid = s.s_external_last_uid ∧
    (VertexShaderCache.PushByteCode env b k s).s_compiler = s.s_compiler ∧
    (VertexShaderCache.PushByteCode env b k s).disk_cache = s.disk_cache := by
  unfold VertexShaderCache.PushByteCode
  dsimp only
  split <;> simp

theorem gs_PushByteCode_shaders (env : Env) (b : ByteCode) (k : Uid)
    (s : Cache) :
    (GeometryShaderCache.PushByteCode env b k s).shaders =
      (s.shaders.update k fun e => { e with shader := env.CreateShaderFromByteCode b }).update k
        fun e => { e with compiled := true } := by
  unfold GeometryShaderCache.PushByteCode
  dsimp only
  split <;> rfl

theorem gs_PushByteCode_trace (env : Env) (b : ByteCode) (k : Uid)
    (s : Cache) :
    (GeometryShaderCache.PushByteCode env b k s).trace =
      s.trace ++ [Event.CreateShaderFromByteCode k b] := by
  unfold GeometryShaderCache.PushByteCode
  dsimp only
  split <;> rfl

theorem gs_PushByteCode_rest (env : Env) (b : ByteCode) (k : Uid)
    (s : Cache) :
    (GeometryShaderCache.PushByteCode env b k s).s_last_entry = s.s_last_entry ∧
    (GeometryShaderCache.PushByteCode env b k s).s_last_uid = s.s_last_uid ∧
    (GeometryShaderCache.PushByteCode env b k s).s_external_last_uid = s.s_external_last_uid ∧
    (GeometryShaderCache.PushByteCode env b k s).s_compiler = s.s_compiler ∧
    (GeometryShaderCache.PushByteCode env b k s).disk_cache = s.disk_cache := by
  unfold GeometryShaderCache.PushByteCode
  dsimp only
  split <;> simp

theorem vs_ResultHandler_shaders (env : Env) (u : Uid) (r : CompileResult)
    (s : Cache) (k : Uid) :
    (VertexShaderCache.ResultHandler env u r s).shaders.find k =
      match r with
      | CompileResult.failed _ => s.shaders.find k
      | CompileResult.succeeded b =>
        if u = k then
          (s.shaders.find k).map fun e =>
            { e with shader := env.CreateShaderFromByteCode b, compiled := true,
                     bytecode := some b,
                     code := if env.DEBUG && env.bEnableShaderDebugging then some u else e.code }
        else s.shaders.find k := by
  cases r with
  | failed e => rfl
  | succeeded b =>
    unfold VertexShaderCache.ResultHandler
    dsimp only
    by_cases hu : u = k
    · subst hu
      split <;> rename_i hd
      · simp [vs_PushByteCode_shaders, Table.find_update, hd]
        cases s.shaders.find u <;> simp
      · simp [vs_PushByteCode_shaders, Table.find_update, hd]
        cases s.shaders.find u <;> simp
    · split <;> simp [vs_PushByteCode_shaders, Table.find_update, hu]

end DX11

namespace DX11

theorem gs_ResultHandler_shaders (env : Env) (u : Uid) (r : CompileResult)
    (s : Cache) (k : Uid) :
    (GeometryShaderCache.ResultHandler env u r s).shaders.find k =
      match r with
      | CompileResult.failed _ => s.shaders.find k
      | CompileResult.succeeded b =>
        if u = k then
          (s.shaders.find k).map fun e =>
            { e with shader := env.CreateShaderFromByteCode b, compiled := true,
                     code := if env.DEBUG && env.bEnableShaderDebugging then some u else e.code }
        else s.shaders.find k := by
  cases r with
  | failed e => rfl
  | succeeded b =>
    unfold GeometryShaderCache.ResultHandler
    dsimp only
    by_cases hu : u = k
    · subst hu
      split <;> rename_i hd
      · simp [gs_PushByteCode_shaders, Table.find_update, hd]
        cases s.shaders.find u <;> simp
      · simp [gs_PushByteCode_shaders, Table.find_update, hd]
        cases s.shaders.find u <;> simp
    · split <;> simp [gs_PushByteCode_shaders, Table.find_update, hu]

theorem vs_ResultHandler_keys (env : Env) (u : Uid) (r : CompileResult)
    (s : Cache) : (VertexShaderCache.ResultHandler env u r s).shaders.keys = s.shaders.keys := by
  cases r with
  | failed e => rfl
  | succeeded b =>
    unfold VertexShaderCache.ResultHandler
    dsimp only
    split <;> simp [vs_PushByteCode_shaders, Table.keys_update]

theorem gs_ResultHandler_keys (env : Env) (u : Uid) (r : CompileResult)
    (s : Cache) :
    (GeometryShaderCache.ResultHandler env u r s).shaders.keys = s.shaders.keys := by
  cases r with
  | failed e => rfl
  | succeeded b =>
    unfold GeometryShaderCache.ResultHandler
    dsimp only
    split <;> simp [gs_PushByteCode_shaders, Table.keys_update]

theorem vs_ResultHandler_fields (env : Env) (u : Uid) (r : CompileResult)
    (s : Cache) :
    (VertexShaderCache.ResultHandler env u r s).s_last_entry = s.s_last_entry ∧
    (VertexShaderCache.ResultHandler env u r s).s_last_uid = s.s_last_uid ∧
    (VertexShaderCache.ResultHandler env u r s).s_external_last_uid = s.s_external_last_uid ∧
    (VertexShaderCache.ResultHandler env u r s).s_compiler = s.s_compiler ∧
    (VertexShaderCache.ResultHandler env u r s).disk_cache =
      (match r with
        | CompileResult.failed _ => s.disk_cache
        | CompileResult.succeeded b => s.disk_cache ++ [(u, b)]) ∧
    (VertexShaderCache.ResultHandler env u r s).trace =
      (match r with
        | CompileResult.failed _ => s.trace ++ [Event.DumpFailure u]
        | CompileResult.succeeded b => s.trace ++ [Event.CreateShaderFromByteCode u b]) := by
  cases r with
  | failed e => simp [VertexShaderCache.ResultHandler]
  | succeeded b =>
    unfold VertexShaderCache.ResultHandler
    dsimp only
    split <;> simp [vs_PushByteCode_rest, vs_PushByteCode_trace]

theorem gs_ResultHandler_fields (env : Env) (u : Uid) (r : CompileResult)
    (s : Cache) :
    (GeometryShaderCache.ResultHandler env u r s).s_last_entry = s.s_last_entry ∧
    (GeometryShaderCache.ResultHandler env u r s).s_last_uid = s.s_last_uid ∧
    (GeometryShaderCache.ResultHandler env u r s).s_external_last_uid = s.s_external_last_uid ∧
    (GeometryShaderCache.ResultHandler env u r s).s_compiler = s.s_compiler ∧
    (GeometryShaderCache.ResultHandler env u r s).disk_cache =
      (match r with
        | CompileResult.failed _ => s.disk_cache
        | CompileResult.succeeded b => s.disk_cache ++ [(u, b)]) ∧
    (GeometryShaderCache.ResultHandler env u r s).trace =
      (match r with
        | CompileResult.failed _ => s.trace ++ [Event.DumpFailure u]
        | CompileResult.succeeded b => s.trace ++ [Event.CreateShaderFromByteCode u b]) := by
  cases r with
  | failed e => simp [GeometryShaderCache.ResultHandler]
  | succeeded b =>
    unfold GeometryShaderCache.ResultHandler
    dsimp only
    split <;> simp [gs_PushByteCode_rest, gs_PushByteCode_trace]

/-- A handler whose effect on the table and on the other fields is the one
computed above satisfies the frame. -/
theorem HandlerFrame.of_facts (h : Uid → CompileResult → Cache → Cache)
    (g : Uid → ByteCode → CacheEntry → CacheEntry)
    (hg : ∀ u b e, (g u b e).initialized = e.initialized ∧ (g u b e).compiled = true)
    (hfind : ∀ u r s k, (h u r s).shaders.find k =
      match r with
      | CompileResult.failed _ => s.shaders.find k
      | CompileResult.succeeded b =>
        if u = k then (s.shaders.find k).map (g u b) else s.shaders.find k)
    (hkeys : ∀ u r s, (h u r s).shaders.keys = s.shaders.keys)
    (hfields : ∀ u r s,
      (h u r s).s_last_entry = s.s_last_entry ∧
      (h u r s).s_last_uid = s.s_last_uid ∧
      (h u r s).s_external_last_uid = s.s_external_last_uid ∧
      (h u r s).s_compiler = s.s_compiler ∧
      (h u r s).disk_cache =
        (match r with
          | CompileResult.failed _ => s.disk_cache
          | CompileResult.succeeded b => s.disk_cache ++ [(u, b)]) ∧
      (h u r s).trace =
        (match r with
          | CompileResult.failed _ => s.trace ++ [Event.DumpFailure u]
          | CompileResult.succeeded b => s.trace ++ [Event.CreateShaderFromByteCode u b])) :
    HandlerFrame h where
  present_eq := by
    intro u r s k
    simp only [present, hfind]
    cases r with
    | failed e => rfl
    | succeeded b => dsimp only; split <;> simp
  keys_eq := hkeys
  claimed_eq := by
    intro u r s k
    simp only [claimed, hfind]
    cases r with
    | failed e => rfl
    | succeeded b =>
      dsimp only
      by_cases hu : u = k
      · rw [if_pos hu]
        cases s.shaders.find k <;> simp [(hg _ _ _).1]
      · rw [if_neg hu]
  compiled_other := by
    intro u r s k hk
    simp only [compiledAt, hfind]
    cases r with
    | failed e => rfl
    | succeeded b => simp [Ne.symm hk]
  compiled_failed := by
    intro u e s k
    simp only [compiledAt, hfind]
  compiled_ok := by
    intro u b s
    simp only [compiledAt, hfind, present]
    cases s.shaders.find u <;> simp [(hg _ _ _).2]
  last_entry_eq := fun u r s => (hfields u r s).1
  last_uid_eq := fun u r s => (hfields u r s).2.1
  external_eq := fun u r s => (hfields u r s).2.2.1
  queue_eq := fun u r s => (hfields u r s).2.2.2.1
  submitted_eq := by
    intro u r s k
    simp only [submitted, (hfields u r s).2.2.2.2.2]
    cases r <;> simp
  generated_eq := by
    intro u r s k
    simp only [generated, (hfields u r s).2.2.2.2.2]
    cases r <;> simp
  disk_failed := fun u e s => (hfields u (CompileResult.failed e) s).2.2.2.2.1
  disk_ok := fun u b s => (hfields u (CompileResult.succeeded b) s).2.2.2.2.1

theorem vs_handlerFrame (env : Env) :
    HandlerFrame (VertexShaderCache.ResultHandler env) :=
  HandlerFrame.of_facts _
    (fun u b e => { e with shader := env.CreateShaderFromByteCode b, compiled := true,
                           bytecode := some b,
                           code := if env.DEBUG && env.bEnableShaderDebugging then some u
                                   else e.code })
    (fun _ _ _ => ⟨rfl, rfl⟩)
    (fun u r s k => by
      rw [vs_ResultHandler_shaders])
    (vs_ResultHandler_keys env)
    (vs_ResultHandler_fields env)

theorem gs_handlerFrame (env : Env) :
    HandlerFrame (GeometryShaderCache.ResultHandler env) :=
  HandlerFrame.of_facts _
    (fun u b e => { e with shader := env.CreateShaderFromByteCode b, compiled := true,
                           code := if env.DEBUG && env.bEnableShaderDebugging then some u
                                   else e.code })
    (fun _ _ _ => ⟨rfl, rfl⟩)
    (fun u r s k => by
      rw [gs_ResultHandler_shaders])
    (gs_ResultHandler_keys env)
    (gs_ResultHandler_fields env)

end DX11

/-! ## Polling -/

namespace DX11

theorem compiledAt_le_present (s : Cache) (k : Uid) (h : compiledAt s k = true) :
    present s k = true := by
  unfold compiledAt at h
  unfold present
  cases hf : s.shaders.find k <;> simp [hf] at h ⊢

theorem claimed_le_present (s : Cache) (k : Uid) (h : claimed s k = true) :
    present s k = true := by
  unfold claimed at h
  unfold present
  cases hf : s.shaders.find k <;> simp [hf] at h ⊢

theorem present_iff_mem_keys (s : Cache) (k : Uid) :
    present s k = true ↔ k ∈ s.shaders.keys := by
  unfold present
  rw [← not_iff_not, ← Table.find_eq_none_iff]
  cases s.shaders.find k <;> simp

section deliver

variable {h : Uid → CompileResult → Cache → Cache} (F : HandlerFrame h)
include F

theorem deliver_frame (c : Completion) (s : Cache) :
    (∀ k, present (deliver h c s) k = present s k) ∧
    (deliver h c s).shaders.keys = s.shaders.keys ∧
    (∀ k, claimed (deliver h c s) k = claimed s k) ∧
    (deliver h c s).s_last_entry = s.s_last_entry ∧
    (deliver h c s).s_last_uid = s.s_last_uid ∧
    (deliver h c s).s_external_last_uid = s.s_external_last_uid ∧
    (∀ k, submitted (deliver h c s) k = submitted s k) ∧
    (∀ k, generated (deliver h c s) k = generated s k) ∧
    (deliver h c s).s_compiler = s.s_compiler.eraseIdx c.idx := by
  unfold deliver
  cases hq : s.s_compiler.get? c.idx with
  | none =>
    have : s.s_compiler.length ≤ c.idx := by
      simpa [List.get?_eq_none] using hq
    simp [List.eraseIdx_of_length_le this]
  | some w =>
    simp only
    refine ⟨fun k => ?_, ?_, fun k => ?_, ?_, ?_, ?_, fun k => ?_, fun k => ?_, ?_⟩
    · rw [F.present_eq]; rfl
    · rw [F.keys_eq]
    · rw [F.claimed_eq]; rfl
    · rw [F.last_entry_eq]
    · rw [F.last_uid_eq]
    · rw [F.external_eq]
    · rw [F.submitted_eq]; rfl
    · rw [F.generated_eq]; rfl
    · rw [F.queue_eq]

theorem deliver_compiled_mono (c : Completion) (s : Cache) (k : Uid)
    (hk : compiledAt s k = true) : compiledAt (deliver h c s) k = true := by
  unfold deliver
  cases hq : s.s_compiler.get? c.idx with
  | none => simpa using hk
  | some w =>
    simp only
    by_cases hu : k = w.uid
    · cases hr : c.cresult with
      | failed e => rw [F.compiled_failed]; exact hk
      | succeeded b =>
        rw [hu] at hk ⊢
        rw [F.compiled_ok]
        exact compiledAt_le_present s w.uid hk
    · rw [F.compiled_other _ _ _ _ hu]; exact hk

theorem deliver_compiled_idle (c : Completion) (s : Cache) (k : Uid)
    (hk : ∀ w ∈ s.s_compiler, w.uid ≠ k) :
    compiledAt (deliver h c s) k = compiledAt s k := by
  unfold deliver
  cases hq : s.s_compiler.get? c.idx with
  | none => rfl
  | some w =>
    simp only
    have hw : w ∈ s.s_compiler := List.get?_mem hq
    rw [F.compiled_other _ _ _ _ (Ne.symm (hk w hw))]
    rfl

theorem Proc_frame (done : List Completion) (s : Cache) :
    (∀ k, present (ProcCompilationResults h done s) k = present s k) ∧
    (ProcCompilationResults h done s).shaders.keys = s.shaders.keys ∧
    (∀ k, claimed (ProcCompilationResults h done s) k = claimed s k) ∧
    (ProcCompilationResults h done s).s_last_entry = s.s_last_entry ∧
    (ProcCompilationResults h done s).s_last_uid = s.s_last_uid ∧
    (ProcCompilationResults h done s).s_external_last_uid = s.s_external_last_uid ∧
    (∀ k, submitted (ProcCompilationResults h done s) k = submitted s k) ∧
    (∀ k, generated (ProcCompilationResults h done s) k = generated s k) ∧
    (ProcCompilationResults h done s).s_compiler.Sublist s.s_compiler := by
  induction done generalizing s with
  | nil => simp [ProcCompilationResults]
  | cons c r ih =>
    have hd := deliver_frame F c s
    have hr := ih (deliver h c s)
    simp only [ProcCompilationResults, List.foldl_cons] at hr ⊢
    refine ⟨fun k => ?_, ?_, fun k => ?_, ?_, ?_, ?_, fun k => ?_, fun k => ?_, ?_⟩
    · rw [hr.1, hd.1]
    · rw [hr.2.1, hd.2.1]
    · rw [hr.2.2.1, hd.2.2.1]
    · rw [hr.2.2.2.1, hd.2.2.2.1]
    · rw [hr.2.2.2.2.1, hd.2.2.2.2.1]
    · rw [hr.2.2.2.2.2.1, hd.2.2.2.2.2.1]
    · rw [hr.2.2.2.2.2.2.1, hd.2.2.2.2.2.2.1]
    · rw [hr.2.2.2.2.2.2.2.1, hd.2.2.2.2.2.2.2.1]
    · refine hr.2.2.2.2.2.2.2.2.trans ?_
      rw [hd.2.2.2.2.2.2.2.2]
      exact List.eraseIdx_sublist _ _

theorem Proc_compiled_mono (done : List Completion) (s : Cache) (k : Uid)
    (hk : compiledAt s k = true) : compiledAt (ProcCompilationResults h done s) k = true := by
  induction done generalizing s with
  | nil => simpa [ProcCompilationResults] using hk
  | cons c r ih =>
    simp only [ProcCompilationResults, List.foldl_cons] at ih ⊢
    exact ih _ (deliver_compiled_mono F c s k hk)

theorem Proc_compiled_idle (done : List Completion) (s : Cache) (k : Uid)
    (hk : ∀ w ∈ s.s_compiler, w.uid ≠ k) :
    compiledAt (ProcCompilationResults h done s) k = compiledAt s k := by
  induction done generalizing s with
  | nil => simp [ProcCompilationResults]
  | cons c r ih =>
    simp only [ProcCompilationResults, List.foldl_cons] at ih ⊢
    rw [ih, deliver_compiled_idle F c s k hk]
    intro w hw
    rw [(deliver_frame F c s).2.2.2.2.2.2.2.2] at hw
    exact hk w ((List.eraseIdx_sublist _ _).subset hw)

end deliver

end DX11

/-! ## Find-or-insert, claim and submit -/

namespace DX11

open VertexShaderCache in
theorem lookup_claimed (uid : Uid) (g : Bool) (s : Cache) (hc : claimed s uid = true) :
    PrepareShader_lookup uid g s =
      { s with s_last_entry := if g then some (EntryRef.table uid) else s.s_last_entry } := by
  unfold claimed at hc
  cases hf : s.shaders.find uid with
  | none => simp [hf] at hc
  | some e =>
    simp only [hf] at hc
    cases g <;> simp [PrepareShader_lookup, Table.index, hf, hc]

open VertexShaderCache in
theorem lookup_unclaimed (uid : Uid) (g : Bool) (s : Cache) (hc : claimed s uid = false) :
    PrepareShader_lookup uid g s =
      { s with
        shaders := (s.shaders.index {} uid).update uid fun e => { e with initialized := true },
        s_last_entry := if g then some (EntryRef.table uid) else s.s_last_entry,
        s_compiler := s.s_compiler ++ [{ uid := uid }],
        trace := s.trace ++ [Event.CompileShaderAsync uid] } := by
  have hi : ∃ e, (s.shaders.index {} uid).find uid = some e ∧ e.initialized = false := by
    rw [Table.find_index]
    simp only [if_true]
    refine ⟨_, rfl, ?_⟩
    unfold claimed at hc
    cases hf : s.shaders.find uid with
    | none => rfl
    | some e => simpa [hf] using hc
  obtain ⟨e, he, hinit⟩ := hi
  cases g <;> simp [PrepareShader_lookup, he, hinit, CompileShaderAsync]

theorem find_lookup_unclaimed (uid k : Uid) (s : Cache) :
    ((s.shaders.index {} uid).update uid fun e => { e with initialized := true }).find k =
      if uid = k then some { (s.shaders.find uid).getD {} with initialized := true }
      else s.shaders.find k := by
  rw [Table.find_update, Table.find_index]
  by_cases hk : uid = k
  · subst hk; simp
  · simp [hk]

open VertexShaderCache in
theorem lookup_present (uid : Uid) (g : Bool) (s : Cache) (k : Uid) :
    present (PrepareShader_lookup uid g s) k = (present s k || decide (uid = k)) := by
  by_cases hc : claimed s uid = true
  · rw [lookup_claimed uid g s hc]
    have hp := claimed_le_present s uid hc
    by_cases hk : uid = k
    · subst hk; simpa [present] using hp
    · simp [present, hk]
  · have hc2 : claimed s uid = false := by simpa using hc
    rw [lookup_unclaimed uid g s hc2]
    simp only [present, find_lookup_unclaimed]
    by_cases hk : uid = k <;> simp [hk]

open VertexShaderCache in
theorem lookup_claimed_at (uid : Uid) (g : Bool) (s : Cache) (k : Uid) :
    claimed (PrepareShader_lookup uid g s) k = (claimed s k || decide (uid = k)) := by
  by_cases hc : claimed s uid = true
  · rw [lookup_claimed uid g s hc]
    by_cases hk : uid = k
    · subst hk; simpa [claimed] using hc
    · simp [claimed, hk]
  · have hc2 : claimed s uid = false := by simpa using hc
    rw [lookup_unclaimed uid g s hc2]
    simp only [claimed, find_lookup_unclaimed]
    by_cases hk : uid = k <;> simp [hk]

open VertexShaderCache in
theorem lookup_compiledAt (uid : Uid) (g : Bool) (s : Cache) (k : Uid) :
    compiledAt (PrepareShader_lookup uid g s) k = compiledAt s k := by
  by_cases hc : claimed s uid = true
  · rw [lookup_claimed uid g s hc]; rfl
  · have hc2 : claimed s uid = false := by simpa using hc
    rw [lookup_unclaimed uid g s hc2]
    simp only [compiledAt, find_lookup_unclaimed]
    by_cases hk : uid = k
    · subst hk
      cases hf : s.shaders.find uid <;> simp
    · simp [hk]

open VertexShaderCache in
theorem lookup_submitted (uid : Uid) (g : Bool) (s : Cache) (k : Uid) :
    submitted (PrepareShader_lookup uid g s) k =
      submitted s k + (if uid = k ∧ claimed s uid = false then 1 else 0) := by
  by_cases hc : claimed s uid = true
  · rw [lookup_claimed uid g s hc]; simp [submitted, hc]
  · have hc2 : claimed s uid = false := by simpa using hc
    rw [lookup_unclaimed uid g s hc2]
    by_cases hk : uid = k
    · subst hk; simp [submitted, hc2]
    · simp [submitted, hk, List.count_cons]

open VertexShaderCache in
theorem lookup_generated (uid : Uid) (g : Bool) (s : Cache) (k : Uid) :
    generated (PrepareShader_lookup uid g s) k = generated s k := by
  by_cases hc : claimed s uid = true
  · rw [lookup_claimed uid g s hc]; simp [generated]
  · have hc2 : claimed s uid = false := by simpa using hc
    rw [lookup_unclaimed uid g s hc2]
    simp [generated]

open VertexShaderCache in
theorem lookup_keys (uid : Uid) (g : Bool) (s : Cache) :
    (PrepareShader_lookup uid g s).shaders.keys =
      if uid ∈ s.shaders.keys then s.shaders.keys else uid :: s.shaders.keys := by
  by_cases hc : claimed s uid = true
  · rw [lookup_claimed uid g s hc]
    have hp := (present_iff_mem_keys s uid).1 (claimed_le_present s uid hc)
    simp [hp]
  · have hc2 : claimed s uid = false := by simpa using hc
    rw [lookup_unclaimed uid g s hc2]
    simp only [Table.keys_update, Table.keys_index]

open VertexShaderCache in
theorem lookup_fields (uid : Uid) (g : Bool) (s : Cache) :
    (PrepareShader_lookup uid g s).s_last_entry =
      (if g then some (EntryRef.table uid) else s.s_last_entry) ∧
    (PrepareShader_lookup uid g s).s_last_uid = s.s_last_uid ∧
    (PrepareShader_lookup uid g s).s_external_last_uid = s.s_external_last_uid ∧
    (PrepareShader_lookup uid g s).s_compiler =
      (if claimed s uid then s.s_compiler else s.s_compiler ++ [{ uid := uid }]) ∧
    (PrepareShader_lookup uid g s).disk_cache = s.disk_cache := by
  by_cases hc : claimed s uid = true
  · rw [lookup_claimed uid g s hc]; simp [hc]
  · have hc2 : claimed s uid = false := by simpa using hc
    rw [lookup_unclaimed uid g s hc2]
    simp [hc2]

end DX11

/-! ## One call of the common shape -/

namespace DX11

theorem prepareCore_gpu (h : Uid → CompileResult → Cache → Cache) (passf : Uid → Bool)
    (dbg : Bool) (uid : Uid) (done : List Completion) (s : Cache) :
    prepareCore h passf dbg uid true done s =
      if (polled h dbg uid done s).s_last_entry.isSome ∧ uid = (polled h dbg uid done s).s_last_uid
      then polled h dbg uid done s
      else if passf uid then
        { polled h dbg uid done s with s_last_uid := uid, s_last_entry := some EntryRef.pass }
      else
        VertexShaderCache.PrepareShader_lookup uid true
          { polled h dbg uid done s with s_last_uid := uid } := by
  simp only [prepareCore, polled, if_true]
  cases dbg <;> simp

theorem prepareCore_bg (h : Uid → CompileResult → Cache → Cache) (passf : Uid → Bool)
    (dbg : Bool) (uid : Uid) (done : List Completion) (s : Cache) :
    prepareCore h passf dbg uid false done s =
      if s.s_external_last_uid = uid then s
      else VertexShaderCache.PrepareShader_lookup uid false { s with s_external_last_uid := uid } := by
  simp [prepareCore]

section polled

variable {h : Uid → CompileResult → Cache → Cache} (F : HandlerFrame h)
include F

theorem polled_frame (dbg : Bool) (uid : Uid) (done : List Completion) (s : Cache) :
    (∀ k, present (polled h dbg uid done s) k = present s k) ∧
    (polled h dbg uid done s).shaders.keys = s.shaders.keys ∧
    (∀ k, claimed (polled h dbg uid done s) k = claimed s k) ∧
    (polled h dbg uid done s).s_last_entry = s.s_last_entry ∧
    (polled h dbg uid done s).s_last_uid = s.s_last_uid ∧
    (polled h dbg uid done s).s_external_last_uid = s.s_external_last_uid ∧
    (∀ k, submitted (polled h dbg uid done s) k = submitted s k) ∧
    (∀ k, generated (polled h dbg uid done s) k =
      generated s k + (if dbg = true ∧ uid = k then 1 else 0)) ∧
    (polled h dbg uid done s).s_compiler.Sublist s.s_compiler := by
  have hp := Proc_frame F done s
  unfold polled
  cases dbg
  · simpa using hp
  · simp only [if_true, true_and]
    refine ⟨hp.1, hp.2.1, hp.2.2.1, hp.2.2.2.1, hp.2.2.2.2.1, hp.2.2.2.2.2.1,
      fun k => ?_, fun k => ?_, hp.2.2.2.2.2.2.2.2⟩
    · rw [← hp.2.2.2.2.2.2.1 k]
      simp [submitted]
    · rw [← hp.2.2.2.2.2.2.2.1 k]
      by_cases hk : uid = k
      · subst hk; simp [generated]
      · simp [generated, hk, List.count_cons]

theorem polled_compiled_mono (dbg : Bool) (uid : Uid) (done : List Completion) (s : Cache)
    (k : Uid) (hk : compiledAt s k = true) : compiledAt (polled h dbg uid done s) k = true := by
  have := Proc_compiled_mono F done s k hk
  unfold polled
  cases dbg <;> simpa [compiledAt] using this

theorem polled_compiled_idle (dbg : Bool) (uid : Uid) (done : List Completion) (s : Cache)
    (k : Uid) (hk : ∀ w ∈ s.s_compiler, w.uid ≠ k) :
    compiledAt (polled h dbg uid done s) k = compiledAt s k := by
  have := Proc_compiled_idle F done s k hk
  unfold polled
  cases dbg <;> simpa [compiledAt] using this

end polled

end DX11

namespace DX11

section step

variable {h : Uid → CompileResult → Cache → Cache} (F : HandlerFrame h)
include F

theorem step_claimed_mono (passf : Uid → Bool) (dbg : Bool) (uid : Uid) (g : Bool)
    (done : List Completion) (s : Cache) (k : Uid) (hk : claimed s k = true) :
    claimed (prepareCore h passf dbg uid g done s) k = true := by
  have hp := polled_frame F dbg uid done s
  cases g
  · rw [prepareCore_bg]
    split
    · exact hk
    · rw [lookup_claimed_at]; simp [claimed] at hk ⊢; simp [hk]
  · rw [prepareCore_gpu]
    split
    · rw [hp.2.2.1]; exact hk
    · split
      · have := hp.2.2.1 k
        simp only [claimed] at this hk ⊢
        rw [← this] at hk
        exact hk
      · rw [lookup_claimed_at]
        have := hp.2.2.1 k
        simp only [claimed] at this hk ⊢
        rw [← this] at hk
        simp [hk]

theorem step_present_mono (passf : Uid → Bool) (dbg : Bool) (uid : Uid) (g : Bool)
    (done : List Completion) (s : Cache) (k : Uid) (hk : present s k = true) :
    present (prepareCore h passf dbg uid g done s) k = true := by
  have hp := polled_frame F dbg uid done s
  cases g
  · rw [prepareCore_bg]
    split
    · exact hk
    · rw [lookup_present]; simp [present] at hk ⊢; simp [hk]
  · rw [prepareCore_gpu]
    split
    · rw [hp.1]; exact hk
    · split
      · have := hp.1 k
        simp only [present] at this hk ⊢
        rw [← this] at hk
        exact hk
      · rw [lookup_present]
        have := hp.1 k
        simp only [present] at this hk ⊢
        rw [← this] at hk
        simp [hk]

theorem step_compiled_mono (passf : Uid → Bool) (dbg : Bool) (uid : Uid) (g : Bool)
    (done : List Completion) (s : Cache) (k : Uid) (hk : compiledAt s k = true) :
    compiledAt (prepareCore h passf dbg uid g done s) k = true := by
  have hp := polled_compiled_mono F dbg uid done s k hk
  cases g
  · rw [prepareCore_bg]
    split
    · exact hk
    · rw [lookup_compiledAt]; exact hk
  · rw [prepareCore_gpu]
    split
    · exact hp
    · split
      · exact hp
      · rw [lookup_compiledAt]; exact hp

theorem step_compiled_idle (passf : Uid → Bool) (dbg : Bool) (uid : Uid) (g : Bool)
    (done : List Completion) (s : Cache) (k : Uid) (hk : ∀ w ∈ s.s_compiler, w.uid ≠ k) :
    compiledAt (prepareCore h passf dbg uid g done s) k = compiledAt s k := by
  have hp := polled_compiled_idle F dbg uid done s k hk
  cases g
  · rw [prepareCore_bg]
    split
    · rfl
    · rw [lookup_compiledAt]; rfl
  · rw [prepareCore_gpu]
    split
    · exact hp
    · split
      · exact hp
      · rw [lookup_compiledAt]; exact hp

theorem step_submitted_claimed (passf : Uid → Bool) (dbg : Bool) (uid : Uid) (g : Bool)
    (done : List Completion) (s : Cache) (k : Uid) (hk : claimed s k = true) :
    submitted (prepareCore h passf dbg uid g done s) k = submitted s k := by
  have hp := polled_frame F dbg uid done s
  cases g
  · rw [prepareCore_bg]
    split
    · rfl
    · rw [lookup_submitted]
      have : ¬ (uid = k ∧ claimed { s with s_external_last_uid := uid } uid = false) := by
        rintro ⟨rfl, h2⟩
        simp [claimed] at h2 hk
        simp [hk] at h2
      simp [this, submitted]
  · rw [prepareCore_gpu]
    split
    · exact hp.2.2.2.2.2.2.1 k
    · split
      · exact hp.2.2.2.2.2.2.1 k
      · rw [lookup_submitted]
        have hk2 := hp.2.2.1 k
        rw [hk] at hk2
        have : ¬ (uid = k ∧
            claimed { polled h dbg uid done s with s_last_uid := uid } uid = false) := by
          rintro ⟨rfl, h2⟩
          simp [claimed] at h2 hk2
          simp [hk2] at h2
        rw [if_neg this]
        exact hp.2.2.2.2.2.2.1 k

theorem step_submitted_other (passf : Uid → Bool) (dbg : Bool) (uid : Uid) (g : Bool)
    (done : List Completion) (s : Cache) (k : Uid) (hk : uid ≠ k) :
    submitted (prepareCore h passf dbg uid g done s) k = submitted s k := by
  have hp := polled_frame F dbg uid done s
  cases g
  · rw [prepareCore_bg]
    split
    · rfl
    · rw [lookup_submitted]
      simp [hk, submitted]
  · rw [prepareCore_gpu]
    split
    · exact hp.2.2.2.2.2.2.1 k
    · split
      · exact hp.2.2.2.2.2.2.1 k
      · rw [lookup_submitted]
        simp only [hk, false_and, if_false, Nat.add_zero]
        exact hp.2.2.2.2.2.2.1 k

theorem step_generated (passf : Uid → Bool) (dbg : Bool) (uid : Uid) (g : Bool)
    (done : List Completion) (s : Cache) (k : Uid) :
    generated (prepareCore h passf dbg uid g done s) k =
      generated s k + (if g = true ∧ dbg = true ∧ uid = k then 1 else 0) := by
  have hp := polled_frame F dbg uid done s
  cases g
  · rw [prepareCore_bg]
    split
    · simp
    · rw [lookup_generated]; simp [generated]
  · rw [prepareCore_gpu]
    simp only [true_and]
    split
    · exact hp.2.2.2.2.2.2.2.1 k
    · split
      · exact hp.2.2.2.2.2.2.2.1 k
      · rw [lookup_generated]
        exact hp.2.2.2.2.2.2.2.1 k

end step

end DX11

/-! ## Sequences of calls on a claimed entry -/

namespace DX11

theorem runCore_cons (h : Uid → CompileResult → Cache → Cache) (passf : Uid → Bool)
    (dbg : Bool) (c : Call) (calls : List Call) (s : Cache) :
    runCore h passf dbg (c :: calls) s =
      runCore h passf dbg calls (prepareCore h passf dbg c.uid c.ongputhread c.done s) := rfl

theorem gpuCallsFor_cons (c : Call) (calls : List Call) (k : Uid) :
    gpuCallsFor (c :: calls) k =
      (if c.ongputhread = true ∧ c.uid = k then 1 else 0) + gpuCallsFor calls k := by
  unfold gpuCallsFor
  by_cases hc : c.ongputhread = true ∧ c.uid = k
  · simp [List.filter_cons, hc.1, hc.2, Nat.add_comm]
  · rw [if_neg hc]
    have : (c.ongputhread && decide (c.uid = k)) = false := by
      cases hg : c.ongputhread <;> simp [hg] at hc ⊢
      exact hc
    simp [List.filter_cons, this]

theorem runCore_claimed {h : Uid → CompileResult → Cache → Cache} (F : HandlerFrame h)
    (passf : Uid → Bool) (dbg : Bool) (calls : List Call) (s : Cache) (k : Uid)
    (hk : claimed s k = true) :
    claimed (runCore h passf dbg calls s) k = true ∧
    submitted (runCore h passf dbg calls s) k = submitted s k ∧
    generated (runCore h passf dbg calls s) k =
      generated s k + (if dbg = true then gpuCallsFor calls k else 0) := by
  induction calls generalizing s with
  | nil => simp [runCore, gpuCallsFor, hk]
  | cons c r ih =>
    rw [runCore_cons]
    have h1 := step_claimed_mono F passf dbg c.uid c.ongputhread c.done s k hk
    have h2 := step_submitted_claimed F passf dbg c.uid c.ongputhread c.done s k hk
    have h3 := step_generated F passf dbg c.uid c.ongputhread c.done s k
    obtain ⟨i1, i2, i3⟩ := ih _ h1
    refine ⟨i1, by rw [i2, h2], ?_⟩
    rw [i3, h3, gpuCallsFor_cons]
    cases dbg
    · simp
    · simp only [true_and, if_true]
      omega

theorem runCore_compiled {h : Uid → CompileResult → Cache → Cache} (F : HandlerFrame h)
    (passf : Uid → Bool) (dbg : Bool) (calls : List Call) (s : Cache) (k : Uid)
    (hk : compiledAt s k = true) :
    compiledAt (runCore h passf dbg calls s) k = true := by
  induction calls generalizing s with
  | nil => simpa [runCore] using hk
  | cons c r ih =>
    rw [runCore_cons]
    exact ih _ (step_compiled_mono F passf dbg c.uid c.ongputhread c.done s k hk)

theorem vs_InsertByteCode_find (env : Env) (uid : Uid) (b : ByteCode)
    (s : Cache) (k : Uid) :
    (VertexShaderCache.InsertByteCode env uid b s).shaders.find k =
      if uid = k then
        some { (s.shaders.find uid).getD {} with
          shader := env.CreateShaderFromByteCode b, compiled := true, initialized := true,
          bytecode := some b }
      else s.shaders.find k := by
  unfold VertexShaderCache.InsertByteCode
  simp only [vs_PushByteCode_shaders, Table.find_update, Table.find_index]
  by_cases hk : uid = k
  · subst hk; simp
  · simp [hk]

theorem gs_InsertByteCode_find (env : Env) (uid : Uid) (b : ByteCode)
    (s : Cache) (k : Uid) :
    (GeometryShaderCache.InsertByteCode env uid b s).shaders.find k =
      if uid = k then
        some { (s.shaders.find uid).getD {} with
          shader := env.CreateShaderFromByteCode b, compiled := true, initialized := true }
      else s.shaders.find k := by
  unfold GeometryShaderCache.InsertByteCode
  simp only [gs_PushByteCode_shaders, Table.find_update, Table.find_index]
  by_cases hk : uid = k
  · subst hk; simp
  · simp [hk]

end DX11

/-! ## The last-used slot and the first call for a new key -/
namespace DX11

theorem lastEntryValid_congr (passf : Uid → Bool) (s s' : Cache)
    (h1 : s'.s_last_entry = s.s_last_entry) (h2 : s'.s_last_uid = s.s_last_uid)
    (h3 : ∀ k, present s k = true → present s' k = true) (hv : lastEntryValid passf s = true) :
    lastEntryValid passf s' = true := by
  unfold lastEntryValid at hv ⊢
  rw [h1, h2]
  cases hl : s.s_last_entry with
  | none => rfl
  | some r =>
    cases r with
    | pass => simpa [hl] using hv
    | table k =>
      simp only [hl, Bool.and_eq_true, decide_eq_true_eq] at hv ⊢
      exact ⟨hv.1, h3 k hv.2⟩

section first

variable {h : Uid → CompileResult → Cache → Cache} (F : HandlerFrame h)
include F

theorem step_valid (passf : Uid → Bool) (dbg : Bool) (uid : Uid) (g : Bool)
    (done : List Completion) (s : Cache) (hv : lastEntryValid passf s = true) :
    lastEntryValid passf (prepareCore h passf dbg uid g done s) = true := by
  have hp := polled_frame F dbg uid done s
  cases g
  · rw [prepareCore_bg]
    split
    · exact hv
    · refine lastEntryValid_congr passf s _ ?_ ?_ ?_ hv
      · rw [(lookup_fields _ _ _).1]; rfl
      · rw [(lookup_fields _ _ _).2.1]
      · intro k hk
        rw [lookup_present]
        simp only [present] at hk ⊢
        simp [hk]
  · rw [prepareCore_gpu]
    split
    · exact lastEntryValid_congr passf s _ hp.2.2.2.1 hp.2.2.2.2.1
        (fun k hk => by rw [hp.1]; exact hk) hv
    · split
      · rename_i hpass
        simp [lastEntryValid, hpass]
      · unfold lastEntryValid
        rw [(lookup_fields _ _ _).1, (lookup_fields _ _ _).2.1]
        simp [lookup_present]

theorem step_last_entry_gpu (passf : Uid → Bool) (dbg : Bool) (uid : Uid)
    (done : List Completion) (s : Cache) (hv : lastEntryValid passf s = true)
    (hpass : passf uid = false) :
    (prepareCore h passf dbg uid true done s).s_last_entry = some (EntryRef.table uid) := by
  have hp := polled_frame F dbg uid done s
  rw [prepareCore_gpu]
  split
  · rename_i hfast
    rw [hp.2.2.2.1, hp.2.2.2.2.1] at hfast
    rw [hp.2.2.2.1]
    unfold lastEntryValid at hv
    cases hl : s.s_last_entry with
    | none => simp [hl] at hfast
    | some r =>
      cases r with
      | pass =>
        simp only [hl] at hv
        rw [← hfast.2, hpass] at hv
        exact absurd hv (by simp)
      | table k =>
        simp only [hl, Bool.and_eq_true, decide_eq_true_eq] at hv
        rw [hv.1, hfast.2]
  · simp only [hpass, Bool.false_eq_true, if_false]
    rw [(lookup_fields _ _ _).1]
    rfl

theorem step_keys_present (passf : Uid → Bool) (dbg : Bool) (uid : Uid) (g : Bool)
    (done : List Completion) (s : Cache) (hk : present s uid = true) :
    (prepareCore h passf dbg uid g done s).shaders.keys = s.shaders.keys := by
  have hp := polled_frame F dbg uid done s
  have hm := (present_iff_mem_keys s uid).1 hk
  cases g
  · rw [prepareCore_bg]
    split
    · rfl
    · rw [lookup_keys]
      simp [hm]
  · rw [prepareCore_gpu]
    split
    · exact hp.2.1
    · split
      · exact hp.2.1
      · rw [lookup_keys]
        have : uid ∈ (polled h dbg uid done s).shaders.keys := by rw [hp.2.1]; exact hm
        simp only [this, if_true]
        exact hp.2.1

/-- The first call for a key with no entry, arriving on a usable slot: it inserts
the entry, claims it and submits one unit. -/
theorem step_first (passf : Uid → Bool) (dbg : Bool) (uid : Uid) (g : Bool)
    (done : List Completion) (s : Cache) (habs : present s uid = false)
    (hv : lastEntryValid passf s = true) (hpass : passf uid = false)
    (hext : g = false → s.s_external_last_uid ≠ uid) :
    submitted (prepareCore h passf dbg uid g done s) uid = submitted s uid + 1 ∧
    claimed (prepareCore h passf dbg uid g done s) uid = true ∧
    compiledAt (prepareCore h passf dbg uid g done s) uid = false ∧
    (prepareCore h passf dbg uid g done s).shaders.keys = uid :: s.shaders.keys ∧
    (prepareCore h passf dbg uid g done s).s_compiler.getLast? = some { uid := uid } ∧
    (prepareCore h passf dbg uid g done s).disk_cache =
      (if g then (ProcCompilationResults h done s).disk_cache else s.disk_cache) := by
  have hp := polled_frame F dbg uid done s
  have hnm : uid ∉ s.shaders.keys := by
    rw [← present_iff_mem_keys]; simp [habs]
  have hnc : claimed s uid = false := by
    cases hc : claimed s uid
    · rfl
    · rw [claimed_le_present s uid hc] at habs; exact absurd habs (by simp)
  have hncomp : compiledAt s uid = false := by
    cases hc : compiledAt s uid
    · rfl
    · rw [compiledAt_le_present s uid hc] at habs; exact absurd habs (by simp)
  cases g
  · rw [prepareCore_bg, if_neg (hext rfl)]
    have hnc2 : claimed { s with s_external_last_uid := uid } uid = false := hnc
    refine ⟨?_, ?_, ?_, ?_, ?_, ?_⟩
    · rw [lookup_submitted]; simp [hnc2, submitted]
    · rw [lookup_claimed_at]; simp
    · rw [lookup_compiledAt]; exact hncomp
    · rw [lookup_keys]; simp [hnm]
    · rw [(lookup_fields _ _ _).2.2.2.1]; simp [hnc2]
    · rw [(lookup_fields _ _ _).2.2.2.2]; rfl
  · have hfast : ¬ ((polled h dbg uid done s).s_last_entry.isSome ∧
        uid = (polled h dbg uid done s).s_last_uid) := by
      rw [hp.2.2.2.1, hp.2.2.2.2.1]
      rintro ⟨h1, h2⟩
      unfold lastEntryValid at hv
      cases hl : s.s_last_entry with
      | none => simp [hl] at h1
      | some r =>
        cases r with
        | pass =>
          simp only [hl] at hv
          rw [← h2, hpass] at hv
          exact absurd hv (by simp)
        | table k =>
          simp only [hl, Bool.and_eq_true, decide_eq_true_eq] at hv
          rw [hv.1, ← h2, habs] at hv
          exact absurd hv.2 (by simp)
    rw [prepareCore_gpu, if_neg hfast]
    simp only [hpass, Bool.false_eq_true, if_false]
    have hnc2 : claimed { polled h dbg uid done s with s_last_uid := uid } uid = false := by
      have := hp.2.2.1 uid
      rw [hnc] at this
      exact this
    have hcomp2 : compiledAt (polled h dbg uid done s) uid = false := by
      cases hc : compiledAt (polled h dbg uid done s) uid
      · rfl
      · have := compiledAt_le_present _ _ hc
        rw [hp.1, habs] at this
        exact absurd this (by simp)
    refine ⟨?_, ?_, ?_, ?_, ?_, ?_⟩
    · rw [lookup_submitted]
      simp only [hnc2, and_self, if_true]
      have := hp.2.2.2.2.2.2.1 uid
      simp only [submitted] at this ⊢
      rw [this]
    · rw [lookup_claimed_at]; simp
    · rw [lookup_compiledAt]; exact hcomp2
    · rw [lookup_keys]
      have : uid ∉ (polled h dbg uid done s).shaders.keys := by rw [hp.2.1]; exact hnm
      simp only [this, if_false]
      rw [hp.2.1]
    · rw [(lookup_fields _ _ _).2.2.2.1]; simp [hnc2]
    · rw [(lookup_fields _ _ _).2.2.2.2]
      simp only [if_true, polled]
      cases dbg <;> simp

end first

end DX11

/-! ## Repeated calls for one key -/

namespace DX11

theorem runCore_same_key {h : Uid → CompileResult → Cache → Cache} (F : HandlerFrame h)
    (passf : Uid → Bool) (dbg : Bool) (K : Uid) (hpass : passf K = false)
    (calls : List Call) (s : Cache) (hall : ∀ c ∈ calls, c.uid = K)
    (hc : claimed s K = true) (hv : lastEntryValid passf s = true) :
    (runCore h passf dbg calls s).shaders.keys = s.shaders.keys ∧
    claimed (runCore h passf dbg calls s) K = true ∧
    lastEntryValid passf (runCore h passf dbg calls s) = true ∧
    (∀ c, calls.getLast? = some c → c.ongputhread = true →
      (runCore h passf dbg calls s).s_last_entry = some (EntryRef.table K)) := by
  induction calls generalizing s with
  | nil => simp [runCore, hc, hv]
  | cons c r ih =>
    have hcK : c.uid = K := hall c (List.mem_cons_self _ _)
    have hr : ∀ c' ∈ r, c'.uid = K := fun c' hc' => hall c' (List.mem_cons_of_mem _ hc')
    rw [runCore_cons]
    have h1 := step_claimed_mono F passf dbg c.uid c.ongputhread c.done s K hc
    have h2 := step_valid F passf dbg c.uid c.ongputhread c.done s hv
    have h3 := step_keys_present F passf dbg c.uid c.ongputhread c.done s
      (by rw [hcK]; exact claimed_le_present s K hc)
    obtain ⟨i1, i2, i3, i4⟩ := ih _ hr h1 h2
    refine ⟨by rw [i1, h3], i2, i3, ?_⟩
    intro c' hlast hg
    cases r with
    | nil =>
      simp only [List.getLast?_singleton, Option.some.injEq] at hlast
      subst hlast
      simp only [runCore, List.foldl_nil]
      have := step_last_entry_gpu F passf dbg c.uid c.done s hv (by rw [hcK]; exact hpass)
      rw [hg, hcK]
      rw [hcK] at this
      exact this
    | cons c2 r2 =>
      rw [List.getLast?_cons_cons] at hlast
      exact i4 c' hlast hg

/-- Exactly one submission for a new key, in the common shape. -/
theorem runCore_exactly_one {h : Uid → CompileResult → Cache → Cache} (F : HandlerFrame h)
    (passf : Uid → Bool) (dbg : Bool) (K : Uid) (calls : List Call) (s : Cache)
    (hne : calls ≠ []) (hall : ∀ c ∈ calls, c.uid = K)
    (habs : present s K = false) (hv : lastEntryValid passf s = true)
    (hpass : passf K = false)
    (hext : ∀ c, calls.head? = some c → c.ongputhread = false → s.s_external_last_uid ≠ K) :
    submitted (runCore h passf dbg calls s) K = submitted s K + 1 ∧
    ∀ pre c post, calls = pre ++ c :: post →
      (runCore h passf dbg (pre ++ [c]) s).shaders.keys = K :: s.shaders.keys ∧
      claimed (runCore h passf dbg (pre ++ [c]) s) K = true ∧
      (c.ongputhread = true →
        (runCore h passf dbg (pre ++ [c]) s).s_last_entry = some (EntryRef.table K)) := by
  cases calls with
  | nil => exact absurd rfl hne
  | cons c0 r =>
    have hc0 : c0.uid = K := hall c0 (List.mem_cons_self _ _)
    have hr : ∀ c' ∈ r, c'.uid = K := fun c' hc' => hall c' (List.mem_cons_of_mem _ hc')
    have hf := step_first F passf dbg K c0.ongputhread c0.done s habs hv hpass
      (fun hg => hext c0 rfl hg)
    have hv1 := step_valid F passf dbg K c0.ongputhread c0.done s hv
    refine ⟨?_, ?_⟩
    · rw [runCore_cons, hc0, (runCore_claimed F passf dbg r _ K hf.2.1).2.1, hf.1]
    · intro pre c post hsplit
      cases pre with
      | nil =>
        simp only [List.nil_append, List.cons.injEq] at hsplit
        obtain ⟨rfl, -⟩ := hsplit
        simp only [List.nil_append, runCore, List.foldl_cons, List.foldl_nil, hc0]
        refine ⟨hf.2.2.2.1, hf.2.1, fun hg => ?_⟩
        have := step_last_entry_gpu F passf dbg K c0.done s hv hpass
        rw [hg]
        exact this
      | cons p pre2 =>
        simp only [List.cons_append, List.cons.injEq] at hsplit
        obtain ⟨rfl, hr2⟩ := hsplit
        have hall2 : ∀ c' ∈ pre2 ++ [c], c'.uid = K := by
          intro c' hc'
          apply hr
          rw [hr2]
          simp only [List.mem_append, List.mem_singleton] at hc'
          rcases hc' with h1 | h1
          · exact List.mem_append_left _ h1
          · exact List.mem_append_right _ (by rw [h1]; exact List.mem_cons_self _ _)
        rw [List.cons_append, runCore_cons, hc0]
        obtain ⟨j1, j2, -, j4⟩ := runCore_same_key F passf dbg K hpass (pre2 ++ [c]) _ hall2
          hf.2.1 hv1
        refine ⟨by rw [j1, hf.2.2.2.1], j2, fun hg => j4 c (by simp) hg⟩

end DX11

/-! ## A unit that failed -/

namespace DX11

theorem eraseIdx_uid_ne {α β : Type} (f : α → β) (l : List α) (hn : (l.map f).Nodup)
    (i : Nat) (w : α) (hw : l.get? i = some w) : ∀ x ∈ l.eraseIdx i, f x ≠ f w := by
  induction l generalizing i with
  | nil => simp at hw
  | cons a r ih =>
    rw [List.map_cons, List.nodup_cons] at hn
    cases i with
    | zero =>
      simp only [List.get?_cons_zero, Option.some.injEq] at hw
      subst hw
      intro x hx hfx
      simp only [List.eraseIdx_cons_zero] at hx
      exact hn.1 (by rw [← hfx]; exact List.mem_map_of_mem f hx)
    | succ j =>
      simp only [List.get?_cons_succ] at hw
      intro x hx
      simp only [List.eraseIdx_cons_succ, List.mem_cons] at hx
      rcases hx with rfl | hx
      · intro hfx
        exact hn.1 (by rw [hfx]; exact List.mem_map_of_mem f (List.get?_mem hw))
      · exact ih hn.2 j hw x hx

section failed

variable {h : Uid → CompileResult → Cache → Cache} (F : HandlerFrame h)
include F

theorem step_queue (passf : Uid → Bool) (dbg : Bool) (uid : Uid) (g : Bool)
    (done : List Completion) (s : Cache) :
    ∀ w ∈ (prepareCore h passf dbg uid g done s).s_compiler,
      w ∈ s.s_compiler ∨ (w.uid = uid ∧ claimed s uid = false) := by
  have hp := polled_frame F dbg uid done s
  intro w hw
  cases g
  · rw [prepareCore_bg] at hw
    split at hw
    · exact Or.inl hw
    · rw [(lookup_fields _ _ _).2.2.2.1] at hw
      split at hw
      · exact Or.inl hw
      · rename_i hc
        simp only [List.mem_append, List.mem_singleton] at hw
        rcases hw with hw | hw
        · exact Or.inl hw
        · exact Or.inr ⟨by rw [hw], by simpa [claimed] using hc⟩
  · rw [prepareCore_gpu] at hw
    split at hw
    · exact Or.inl (hp.2.2.2.2.2.2.2.2.subset hw)
    · split at hw
      · exact Or.inl (hp.2.2.2.2.2.2.2.2.subset hw)
      · rw [(lookup_fields _ _ _).2.2.2.1] at hw
        split at hw
        · exact Or.inl (hp.2.2.2.2.2.2.2.2.subset hw)
        · rename_i hc
          simp only [List.mem_append, List.mem_singleton] at hw
          rcases hw with hw | hw
          · exact Or.inl (hp.2.2.2.2.2.2.2.2.subset hw)
          · refine Or.inr ⟨by rw [hw], ?_⟩
            have := hp.2.2.1 uid
            simp only [claimed] at this hc ⊢
            rw [← this]
            simpa using hc

/-- Once the entry of `K` is claimed, not compiled and has no unit in flight, no
sequence of calls compiles it or submits for it again. -/
theorem runCore_failed_forever (passf : Uid → Bool) (dbg : Bool) (K : Uid)
    (calls : List Call) (s : Cache) (hc : claimed s K = true)
    (hn : compiledAt s K = false) (hq : ∀ w ∈ s.s_compiler, w.uid ≠ K) :
    compiledAt (runCore h passf dbg calls s) K = false ∧
    submitted (runCore h passf dbg calls s) K = submitted s K := by
  induction calls generalizing s with
  | nil => simp [runCore, hn]
  | cons c r ih =>
    rw [runCore_cons]
    have h1 := step_claimed_mono F passf dbg c.uid c.ongputhread c.done s K hc
    have h2 := step_compiled_idle F passf dbg c.uid c.ongputhread c.done s K hq
    have h3 := step_submitted_claimed F passf dbg c.uid c.ongputhread c.done s K hc
    have h4 : ∀ w ∈ (prepareCore h passf dbg c.uid c.ongputhread c.done s).s_compiler,
        w.uid ≠ K := by
      intro w hw
      rcases step_queue F passf dbg c.uid c.ongputhread c.done s w hw with h5 | ⟨h5, h6⟩
      · exact hq w h5
      · intro h7
        rw [h5] at h7
        rw [h7, hc] at h6
        exact absurd h6 (by simp)
    obtain ⟨i1, i2⟩ := ih _ h1 (by rw [h2, hn]) h4
    exact ⟨i1, by rw [i2, h3]⟩

/-- The poll that hands back the unit of `K` as failed, possibly together with
further units, leaves the entry of `K` claimed, not compiled and without a unit
in flight. -/
theorem Proc_failed (K : Uid) (s : Cache) (idx : Nat) (error : ByteCode)
    (rest : List Completion) (hq : queueValid s = true)
    (hidx : s.s_compiler.get? idx = some { uid := K }) :
    claimed (ProcCompilationResults h
      ({ idx := idx, cresult := CompileResult.failed error } :: rest) s) K = true ∧
    compiledAt (ProcCompilationResults h
      ({ idx := idx, cresult := CompileResult.failed error } :: rest) s) K = false ∧
    (∀ w ∈ (ProcCompilationResults h
      ({ idx := idx, cresult := CompileResult.failed error } :: rest) s).s_compiler,
        w.uid ≠ K) ∧
    (∀ k, submitted (ProcCompilationResults h
      ({ idx := idx, cresult := CompileResult.failed error } :: rest) s) k = submitted s k) := by
  unfold queueValid at hq
  simp only [Bool.and_eq_true, decide_eq_true_eq, List.all_eq_true, Bool.not_eq_true'] at hq
  obtain ⟨hnd, hall⟩ := hq
  have hmem : ({ uid := K } : ShaderCompilerWorkUnit) ∈ s.s_compiler := List.get?_mem hidx
  have hK := hall _ hmem
  have hd := deliver_frame F { idx := idx, cresult := CompileResult.failed error } s
  have hdc : compiledAt (deliver h { idx := idx, cresult := CompileResult.failed error } s) K
      = false := by
    unfold deliver
    simp only [hidx]
    rw [F.compiled_failed]
    exact hK.2
  have hdq : ∀ w ∈ (deliver h { idx := idx, cresult := CompileResult.failed error } s).s_compiler,
      w.uid ≠ K := by
    rw [hd.2.2.2.2.2.2.2.2]
    exact eraseIdx_uid_ne (fun w => w.uid) s.s_compiler hnd idx _ hidx
  have hr := Proc_frame F rest (deliver h { idx := idx, cresult := CompileResult.failed error } s)
  simp only [ProcCompilationResults, List.foldl_cons] at hr ⊢
  refine ⟨?_, ?_, ?_, fun k => ?_⟩
  · rw [hr.2.2.1, hd.2.2.1]; exact hK.1
  · have := Proc_compiled_idle F rest _ K hdq
    simp only [ProcCompilationResults] at this
    rw [this, hdc]
  · intro w hw
    exact hdq w (hr.2.2.2.2.2.2.2.2.subset hw)
  · rw [hr.2.2.2.2.2.2.1, hd.2.2.2.2.2.2.1]

end failed

end DX11

/-! ## Replay of the disk cache -/

namespace DX11

theorem lastRecord_cons (r : Uid × ByteCode) (rest : List (Uid × ByteCode)) (K : Uid) :
    lastRecord (r :: rest) K =
      match lastRecord rest K with
      | some b => some b
      | none => if r.1 = K then some r.2 else none := by
  unfold lastRecord
  by_cases hr : r.1 = K
  · simp only [List.filter_cons, hr, decide_True, if_true]
    cases hf : rest.filter (fun r => decide (r.1 = K)) with
    | nil => simp
    | cons a l =>
      rw [List.getLast?_cons_cons]
      cases hx : (a :: l).getLast? with
      | none => simp at hx
      | some x => rfl
  · have hfil : List.filter (fun r => decide (r.1 = K)) (r :: rest)
        = List.filter (fun r => decide (r.1 = K)) rest := by
      simp [List.filter_cons, hr]
    rw [hfil]
    cases ((rest.filter fun r => decide (r.1 = K)).getLast?) <;> simp [hr]

theorem recordsFor_cons (r : Uid × ByteCode) (rest : List (Uid × ByteCode)) (K : Uid) :
    recordsFor (r :: rest) K = (if r.1 = K then [r.2] else []) ++ recordsFor rest K := by
  unfold recordsFor
  by_cases hr : r.1 = K <;> simp [List.filter_cons, hr]

/-- Last write wins: an observation that each insertion overwrites, independently
of the state before, shows after the replay what the last record for the key
wrote. -/
theorem fold_last {σ α : Type} (ins : Uid → ByteCode → σ → σ) (obs : σ → Uid → α)
    (v : Uid → ByteCode → α)
    (hobs : ∀ u b s k, obs (ins u b s) k = if u = k then v u b else obs s k)
    (records : List (Uid × ByteCode)) (s : σ) (K : Uid) :
    obs (records.foldl (fun s r => ins r.1 r.2 s) s) K =
      match lastRecord records K with
      | some b => v K b
      | none => obs s K := by
  induction records generalizing s with
  | nil => simp [lastRecord]
  | cons r rest ih =>
    rw [List.foldl_cons, ih, lastRecord_cons]
    cases hl : lastRecord rest K with
    | some b => rfl
    | none =>
      simp only [hobs]
      by_cases hr : r.1 = K
      · simp [hr]
      · simp [hr]

/-- An append-only log under replay: every record for the key adds its item. -/
theorem fold_log {σ : Type} (ins : Uid → ByteCode → σ → σ) (log : σ → Uid → List ByteCode)
    (hlog : ∀ u b s k, log (ins u b s) k = log s k ++ (if u = k then [b] else []))
    (records : List (Uid × ByteCode)) (s : σ) (K : Uid) :
    log (records.foldl (fun s r => ins r.1 r.2 s) s) K = log s K ++ recordsFor records K := by
  induction records generalizing s with
  | nil => simp [recordsFor]
  | cons r rest ih =>
    rw [List.foldl_cons, ih, hlog, recordsFor_cons, List.append_assoc]

/-- Keys under replay: a key is inserted when its first record arrives. -/
theorem fold_keys {σ : Type} (ins : Uid → ByteCode → σ → σ) (keys : σ → List Uid)
    (hkeys : ∀ u b s, keys (ins u b s) = if u ∈ keys s then keys s else u :: keys s)
    (records : List (Uid × ByteCode)) (s : σ) (hnd : (keys s).Nodup) :
    (keys (records.foldl (fun s r => ins r.1 r.2 s) s)).Nodup ∧
    ∀ k, k ∈ keys (records.foldl (fun s r => ins r.1 r.2 s) s) ↔
      k ∈ keys s ∨ k ∈ records.map Prod.fst := by
  induction records generalizing s with
  | nil => simp [hnd]
  | cons r rest ih =>
    rw [List.foldl_cons]
    have hnd2 : (keys (ins r.1 r.2 s)).Nodup := by
      rw [hkeys]
      split
      · exact hnd
      · rename_i hm
        exact List.nodup_cons.2 ⟨hm, hnd⟩
    obtain ⟨i1, i2⟩ := ih (ins r.1 r.2 s) hnd2
    refine ⟨i1, fun k => ?_⟩
    rw [i2, hkeys]
    by_cases hm : r.1 ∈ keys s
    · simp only [hm, if_true, List.map_cons, List.mem_cons]
      constructor
      · rintro (h1 | h1)
        · exact Or.inl h1
        · exact Or.inr (Or.inr h1)
      · rintro (h1 | h1 | h1)
        · exact Or.inl h1
        · exact Or.inl (h1 ▸ hm)
        · exact Or.inr h1
    · simp only [hm, if_false, List.map_cons, List.mem_cons]
      constructor
      · rintro ((h1 | h1) | h1)
        · exact Or.inr (Or.inl h1)
        · exact Or.inl h1
        · exact Or.inr (Or.inr h1)
      · rintro (h1 | h1 | h1)
        · exact Or.inl (Or.inr h1)
        · exact Or.inl (Or.inl h1)
        · exact Or.inr h1

theorem nodup_length_eq_dedup (l m : List Uid) (hnd : l.Nodup) (hmem : ∀ k, k ∈ l ↔ k ∈ m) :
    l.length = m.dedup.length := by
  rw [← List.toFinset_card_of_nodup hnd, ← List.card_toFinset]
  congr 1
  ext k
  simp [hmem]

theorem vs_InsertByteCode_trace (env : Env) (uid : Uid) (b : ByteCode) (s : Cache) :
    (VertexShaderCache.InsertByteCode env uid b s).trace =
      s.trace ++ [Event.CreateShaderFromByteCode uid b] := by
  unfold VertexShaderCache.InsertByteCode
  rw [vs_PushByteCode_trace]

theorem gs_InsertByteCode_trace (env : Env) (uid : Uid) (b : ByteCode) (s : Cache) :
    (GeometryShaderCache.InsertByteCode env uid b s).trace =
      s.trace ++ [Event.CreateShaderFromByteCode uid b] := by
  unfold GeometryShaderCache.InsertByteCode
  rw [gs_PushByteCode_trace]

theorem vs_InsertByteCode_keys (env : Env) (uid : Uid) (b : ByteCode) (s : Cache) :
    (VertexShaderCache.InsertByteCode env uid b s).shaders.keys =
      if uid ∈ s.shaders.keys then s.shaders.keys else uid :: s.shaders.keys := by
  unfold VertexShaderCache.InsertByteCode
  simp only [vs_PushByteCode_shaders, Table.keys_update, Table.keys_index]

theorem gs_InsertByteCode_keys (env : Env) (uid : Uid) (b : ByteCode) (s : Cache) :
    (GeometryShaderCache.InsertByteCode env uid b s).shaders.keys =
      if uid ∈ s.shaders.keys then s.shaders.keys else uid :: s.shaders.keys := by
  unfold GeometryShaderCache.InsertByteCode
  simp only [gs_PushByteCode_shaders, Table.keys_update, Table.keys_index]

theorem created_append (s s' : Cache) (uid : Uid) (b : ByteCode) (k : Uid)
    (ht : s'.trace = s.trace ++ [Event.CreateShaderFromByteCode uid b]) :
    created s' k = created s k ++ (if uid = k then [b] else []) := by
  unfold created
  rw [ht]
  by_cases hk : uid = k <;> simp [List.filterMap_append, hk]

theorem lastRecord_isSome_of_mem (records : List (Uid × ByteCode)) (r : Uid × ByteCode)
    (hr : r ∈ records) : (lastRecord records r.1).isSome = true := by
  induction records with
  | nil => simp at hr
  | cons a rest ih =>
    rw [lastRecord_cons]
    cases hl : lastRecord rest r.1 with
    | some b => rfl
    | none =>
      rcases List.mem_cons.1 hr with h1 | h1
      · subst h1; simp
      · have := ih h1
        rw [hl] at this
        exact absurd this (by simp)

theorem vs_InsertByteCode_obs (env : Env) (u : Uid) (b : ByteCode) (s : Cache) (k : Uid) :
    (shaderAt (VertexShaderCache.InsertByteCode env u b s) k =
      if u = k then env.CreateShaderFromByteCode b else shaderAt s k) ∧
    (compiledAt (VertexShaderCache.InsertByteCode env u b s) k =
      if u = k then true else compiledAt s k) ∧
    (claimed (VertexShaderCache.InsertByteCode env u b s) k =
      if u = k then true else claimed s k) := by
  simp only [shaderAt, compiledAt, claimed, vs_InsertByteCode_find]
  by_cases hk : u = k <;> simp [hk]

theorem gs_InsertByteCode_obs (env : Env) (u : Uid) (b : ByteCode) (s : Cache) (k : Uid) :
    (shaderAt (GeometryShaderCache.InsertByteCode env u b s) k =
      if u = k then env.CreateShaderFromByteCode b else shaderAt s k) ∧
    (compiledAt (GeometryShaderCache.InsertByteCode env u b s) k =
      if u = k then true else compiledAt s k) ∧
    (claimed (GeometryShaderCache.InsertByteCode env u b s) k =
      if u = k then true else claimed s k) := by
  simp only [shaderAt, compiledAt, claimed, gs_InsertByteCode_find]
  by_cases hk : u = k <;> simp [hk]

/-- What the replay of a record stream leaves in the vertex cache. -/
theorem vs_OpenAndRead_spec (env : Env) (records : List (Uid × ByteCode)) (s : Cache)
    (K : Uid) :
    (shaderAt (VertexShaderCache.OpenAndRead env records s) K =
      match lastRecord records K with
      | some b => env.CreateShaderFromByteCode b
      | none => shaderAt s K) ∧
    (compiledAt (VertexShaderCache.OpenAndRead env records s) K =
      match lastRecord records K with
      | some _ => true
      | none => compiledAt s K) ∧
    (claimed (VertexShaderCache.OpenAndRead env records s) K =
      match lastRecord records K with
      | some _ => true
      | none => claimed s K) ∧
    created (VertexShaderCache.OpenAndRead env records s) K = created s K ++ recordsFor records K := by
  unfold VertexShaderCache.OpenAndRead
  refine ⟨?_, ?_, ?_, ?_⟩
  · exact fold_last (VertexShaderCache.InsertByteCode env) shaderAt
      (fun _ b => env.CreateShaderFromByteCode b)
      (fun u b s k => (vs_InsertByteCode_obs env u b s k).1) records _ K
  · exact fold_last (VertexShaderCache.InsertByteCode env) compiledAt (fun _ _ => true)
      (fun u b s k => (vs_InsertByteCode_obs env u b s k).2.1) records _ K
  · exact fold_last (VertexShaderCache.InsertByteCode env) claimed (fun _ _ => true)
      (fun u b s k => (vs_InsertByteCode_obs env u b s k).2.2) records _ K
  · exact fold_log (VertexShaderCache.InsertByteCode env) created
      (fun u b s k => created_append s _ u b k (vs_InsertByteCode_trace env u b s)) records _ K

/-- What the replay of a record stream leaves in the geometry cache. -/
theorem gs_OpenAndRead_spec (env : Env) (records : List (Uid × ByteCode)) (s : Cache)
    (K : Uid) :
    (shaderAt (GeometryShaderCache.OpenAndRead env records s) K =
      match lastRecord records K with
      | some b => env.CreateShaderFromByteCode b
      | none => shaderAt s K) ∧
    (compiledAt (GeometryShaderCache.OpenAndRead env records s) K =
      match lastRecord records K with
      | some _ => true
      | none => compiledAt s K) ∧
    (claimed (GeometryShaderCache.OpenAndRead env records s) K =
      match lastRecord records K with
      | some _ => true
      | none => claimed s K) ∧
    created (GeometryShaderCache.OpenAndRead env records s) K
      = created s K ++ recordsFor records K := by
  unfold GeometryShaderCache.OpenAndRead
  refine ⟨?_, ?_, ?_, ?_⟩
  · exact fold_last (GeometryShaderCache.InsertByteCode env) shaderAt
      (fun _ b => env.CreateShaderFromByteCode b)
      (fun u b s k => (gs_InsertByteCode_obs env u b s k).1) records _ K
  · exact fold_last (GeometryShaderCache.InsertByteCode env) compiledAt (fun _ _ => true)
      (fun u b s k => (gs_InsertByteCode_obs env u b s k).2.1) records _ K
  · exact fold_last (GeometryShaderCache.InsertByteCode env) claimed (fun _ _ => true)
      (fun u b s k => (gs_InsertByteCode_obs env u b s k).2.2) records _ K
  · exact fold_log (GeometryShaderCache.InsertByteCode env) created
      (fun u b s k => created_append s _ u b k (gs_InsertByteCode_trace env u b s)) records _ K

/-- The keys after a replay into a cleared vertex cache. -/
theorem vs_OpenAndRead_keys (env : Env) (records : List (Uid × ByteCode)) (s : Cache) :
    (VertexShaderCache.OpenAndRead env records (VertexShaderCache.Clear s)).shaders.keys.Nodup ∧
    ∀ k, k ∈ (VertexShaderCache.OpenAndRead env records
        (VertexShaderCache.Clear s)).shaders.keys ↔ k ∈ records.map Prod.fst := by
  unfold VertexShaderCache.OpenAndRead
  have := fold_keys (VertexShaderCache.InsertByteCode env) (fun s => s.shaders.keys)
    (vs_InsertByteCode_keys env) records
    { VertexShaderCache.Clear s with disk_cache := records } (by simp [VertexShaderCache.Clear, Table.keys])
  refine ⟨this.1, fun k => ?_⟩
  rw [this.2]
  simp [VertexShaderCache.Clear, Table.keys]

/-- The keys after a replay into a cleared geometry cache. -/
theorem gs_OpenAndRead_keys (env : Env) (records : List (Uid × ByteCode)) (s : Cache) :
    (GeometryShaderCache.OpenAndRead env records
      (GeometryShaderCache.Clear s)).shaders.keys.Nodup ∧
    ∀ k, k ∈ (GeometryShaderCache.OpenAndRead env records
        (GeometryShaderCache.Clear s)).shaders.keys ↔ k ∈ records.map Prod.fst := by
  unfold GeometryShaderCache.OpenAndRead
  have := fold_keys (GeometryShaderCache.InsertByteCode env) (fun s => s.shaders.keys)
    (gs_InsertByteCode_keys env) records
    { GeometryShaderCache.Clear s with disk_cache := records }
    (by simp [GeometryShaderCache.Clear, Table.keys])
  refine ⟨this.1, fun k => ?_⟩
  rw [this.2]
  simp [GeometryShaderCache.Clear, Table.keys]

theorem keys_count_of_nodup (l m : List Uid) (hnd : l.Nodup) (hmem : ∀ k, k ∈ l ↔ k ∈ m)
    (K : Uid) : l.count K = if K ∈ m then 1 else 0 := by
  by_cases hK : K ∈ m
  · rw [if_pos hK]
    exact List.count_eq_one_of_mem hnd ((hmem K).2 hK)
  · rw [if_neg hK]
    exact List.count_eq_zero_of_not_mem (fun h => hK ((hmem K).1 h))

end DX11

/-! ## The OpenGL inserter -/

namespace Table

theorem update_of_not_mem {ε : Type} (t : Table ε) (k : Uid) (f : ε → ε) (hk : k ∉ t.keys) :
    t.update k f = t := by
  induction t with
  | nil => rfl
  | cons p r ih =>
    obtain ⟨a, e⟩ := p
    simp only [keys, List.map_cons, List.mem_cons, not_or] at hk
    have ha : ¬ a = k := fun h => hk.1 h.symm
    simp only [update, ha, if_false]
    rw [ih (by simpa [keys] using hk.2)]

end Table

namespace OGL

theorem not_mem_of_glFresh (gl : GLContext) (hf : glFresh gl = true) :
    gl.nextName ∉ gl.programs.keys := by
  unfold glFresh at hf
  rw [List.all_eq_true] at hf
  intro hm
  have := hf _ hm
  simp at this

theorem loadRecord_neg (drv : Driver) (value : List Nat) (gl : GLContext)
    (hneg : binarySizeOf value.length < 0) :
    loadRecord drv value gl =
      { nextName := gl.nextName + 1, programs := (gl.nextName, {}) :: gl.programs } := by
  unfold loadRecord glProgramBinary
  rw [if_pos hneg]
  rfl

theorem loadRecord_nonneg (drv : Driver) (value : List Nat) (gl : GLContext)
    (hneg : ¬ binarySizeOf value.length < 0) :
    loadRecord drv value gl =
      { nextName := gl.nextName + 1,
        programs := (gl.nextName,
            { linkStatus := drv.ProgramBinaryLinks (decodeGLenum value)
                ((value.drop sizeofGLenum).take (binarySizeOf value.length).toNat),
              binaryFormat := decodeGLenum value,
              binary := (value.drop sizeofGLenum).take (binarySizeOf value.length).toNat }) ::
          gl.programs.update gl.nextName fun p =>
            { p with
              linkStatus := drv.ProgramBinaryLinks (decodeGLenum value)
                ((value.drop sizeofGLenum).take (binarySizeOf value.length).toNat),
              binaryFormat := decodeGLenum value,
              binary := (value.drop sizeofGLenum).take (binarySizeOf value.length).toNat } } := by
  unfold loadRecord glProgramBinary
  rw [if_neg hneg]
  generalize binarySizeOf value.length = n
  simp only [glCreateProgram, Table.update, if_true]

end OGL

namespace Table
theorem find_cons_self {ε : Type} (k : Uid) (e : ε) (r : Table ε) :
    find ((k, e) :: r) k = some e := by
  show (if k = k then some e else find r k) = some e
  rw [if_pos rfl]
end Table
namespace OGL
theorem Read_success (drv : Driver) (value : List Nat) (gl : GLContext) :
    glGetLinkStatus (loadRecord drv value gl) gl.nextName = recordLinks drv value := by
  rw [recordLinks, glGetLinkStatus]
  by_cases hneg : binarySizeOf value.length < 0
  · have h0 : ¬ (0 ≤ binarySizeOf value.length) := by omega
    rw [loadRecord_neg drv value gl hneg, decide_eq_false h0, Table.find_cons_self]
    rfl
  · have h0 : 0 ≤ binarySizeOf value.length := by omega
    rw [loadRecord_nonneg drv value gl hneg, decide_eq_true h0, Table.find_cons_self]
    rfl

theorem Read_of_fails (drv : Driver) (key : Uid) (value : List Nat) (s : State)
    (hl : recordLinks drv value = false) :
    ProgramShaderCacheInserter.Read drv key value s =
      { s with gl := glDeleteProgram (loadRecord drv value s.gl) s.gl.nextName } := by
  have hs := Read_success drv value s.gl
  rw [hl] at hs
  rw [ProgramShaderCacheInserter.Read]
  dsimp only
  have e1 : (glCreateProgram s.gl).1 = s.gl.nextName := rfl
  have e2 : glProgramBinary drv (glCreateProgram s.gl).2 (glCreateProgram s.gl).1
      (decodeGLenum value) (List.drop sizeofGLenum value) (binarySizeOf value.length)
      = loadRecord drv value s.gl := rfl
  rw [e2, e1, hs]
  rfl

theorem Read_of_links (drv : Driver) (key : Uid) (value : List Nat) (s : State)
    (hl : recordLinks drv value = true) :
    ProgramShaderCacheInserter.Read drv key value s =
      { s with
        pshaders := (s.pshaders.index ({} : PCacheEntry) key).update key fun _ =>
          { shader := { glprogid := s.gl.nextName }, in_cache := 1 },
        gl := SHADER.SetProgramVariables { glprogid := s.gl.nextName }
          (loadRecord drv value s.gl) } := by
  have hs := Read_success drv value s.gl
  rw [hl] at hs
  rw [ProgramShaderCacheInserter.Read]
  dsimp only
  have e1 : (glCreateProgram s.gl).1 = s.gl.nextName := rfl
  have e2 : glProgramBinary drv (glCreateProgram s.gl).2 (glCreateProgram s.gl).1
      (decodeGLenum value) (List.drop sizeofGLenum value) (binarySizeOf value.length)
      = loadRecord drv value s.gl := rfl
  rw [e2, e1, hs]
  rfl

theorem glDeleteProgram_nextName (gl : GLContext) (p : GLuint) :
    (glDeleteProgram gl p).nextName = gl.nextName := rfl

theorem SetProgramVariables_nextName (sh : SHADER) (gl : GLContext) :
    (sh.SetProgramVariables gl).nextName = gl.nextName := rfl

theorem loadRecord_nextName (drv : Driver) (value : List Nat) (gl : GLContext) :
    (loadRecord drv value gl).nextName = gl.nextName + 1 := by
  by_cases hneg : binarySizeOf value.length < 0
  · rw [loadRecord_neg drv value gl hneg]
  · rw [loadRecord_nonneg drv value gl hneg]

theorem Read_nextName (drv : Driver) (key : Uid) (value : List Nat) (s : State) :
    (ProgramShaderCacheInserter.Read drv key value s).gl.nextName = s.gl.nextName + 1 := by
  cases hl : recordLinks drv value
  · rw [Read_of_fails drv key value s hl]
    dsimp only
    rw [glDeleteProgram_nextName, loadRecord_nextName]
  · rw [Read_of_links drv key value s hl]
    dsimp only
    rw [SetProgramVariables_nextName, loadRecord_nextName]

theorem Read_find (drv : Driver) (key : Uid) (value : List Nat) (s : State) (k : Uid) :
    (ProgramShaderCacheInserter.Read drv key value s).pshaders.find k =
      if recordLinks drv value = true ∧ key = k then
        some { shader := { glprogid := s.gl.nextName }, in_cache := 1 }
      else s.pshaders.find k := by
  cases hl : recordLinks drv value
  · rw [Read_of_fails drv key value s hl]
    rw [if_neg (by simp)]
  · rw [Read_of_links drv key value s hl]
    dsimp only
    rw [Table.find_update, Table.find_index]
    by_cases hk : key = k
    · rw [if_pos hk, if_pos hk, if_pos ⟨rfl, hk⟩]
      rfl
    · rw [if_neg hk, if_neg hk, if_neg (fun h => hk h.2)]

theorem OpenAndRead_cons (drv : Driver) (r : Uid × List Nat) (rest : List (Uid × List Nat))
    (s : State) :
    OpenAndRead drv (r :: rest) s
      = OpenAndRead drv rest (ProgramShaderCacheInserter.Read drv r.1 r.2 s) := by
  rw [OpenAndRead, OpenAndRead, List.foldl_cons]

theorem lastLinking_cons (drv : Driver) (K : Uid) (r : Uid × List Nat)
    (rest : List (Uid × List Nat)) :
    lastLinking drv K (r :: rest) =
      match lastLinking drv K rest with
      | some j => some (j + 1)
      | none => if r.1 = K ∧ recordLinks drv r.2 = true then some 0 else none := rfl

theorem OpenAndRead_nextName (drv : Driver) (records : List (Uid × List Nat)) (s : State) :
    (OpenAndRead drv records s).gl.nextName = s.gl.nextName + records.length := by
  induction records generalizing s with
  | nil => rfl
  | cons r rest ih =>
    rw [OpenAndRead_cons, ih, Read_nextName, List.length_cons, Nat.add_assoc,
      Nat.add_comm 1 rest.length]

theorem OpenAndRead_find (drv : Driver) (records : List (Uid × List Nat)) (s : State)
    (K : Uid) :
    (OpenAndRead drv records s).pshaders.find K =
      match lastLinking drv K records with
      | some j => some { shader := { glprogid := s.gl.nextName + j }, in_cache := 1 }
      | none => s.pshaders.find K := by
  induction records generalizing s with
  | nil => rfl
  | cons r rest ih =>
    rw [OpenAndRead_cons, ih, Read_nextName, Read_find, lastLinking_cons]
    cases hl : lastLinking drv K rest with
    | some j =>
      dsimp only
      rw [Nat.add_assoc, Nat.add_comm 1 j]
    | none =>
      dsimp only
      by_cases hc : recordLinks drv r.2 = true ∧ r.1 = K
      · rw [if_pos hc, if_pos ⟨hc.2, hc.1⟩]
        rfl
      · have hc2 : ¬ (r.1 = K ∧ recordLinks drv r.2 = true) := fun h => hc ⟨h.2, h.1⟩
        rw [if_neg hc, if_neg hc2]

theorem Read_fails_restores (drv : Driver) (key : Uid) (value : List Nat) (s : State)
    (hf : glFresh s.gl = true) (hl : recordLinks drv value = false) :
    (ProgramShaderCacheInserter.Read drv key value s).pshaders = s.pshaders ∧
    (ProgramShaderCacheInserter.Read drv key value s).gl.programs = s.gl.programs := by
  have hm := not_mem_of_glFresh s.gl hf
  rw [Read_of_fails drv key value s hl]
  refine ⟨rfl, ?_⟩
  dsimp only
  rw [glDeleteProgram]
  dsimp only
  by_cases hneg : binarySizeOf value.length < 0
  · rw [loadRecord_neg drv value s.gl hneg]
    dsimp only [Table.erase]
    rw [if_pos rfl]
  · rw [loadRecord_nonneg drv value s.gl hneg]
    dsimp only [Table.erase]
    rw [if_pos rfl, Table.update_of_not_mem _ _ _ hm]

end OGL

/-! ## A unit that succeeded -/

namespace DX11

theorem Proc_succeeded {h : Uid → CompileResult → Cache → Cache} (F : HandlerFrame h)
    (K : Uid) (s : Cache) (bytecode : ByteCode)
    (hlast : s.s_compiler.getLast? = some { uid := K }) :
    (ProcCompilationResults h
      [{ idx := s.s_compiler.length - 1, cresult := CompileResult.succeeded bytecode }] s).disk_cache
      = s.disk_cache ++ [(K, bytecode)] ∧
    compiledAt (ProcCompilationResults h
      [{ idx := s.s_compiler.length - 1, cresult := CompileResult.succeeded bytecode }] s) K
      = present s K := by
  have hget : s.s_compiler.get? (s.s_compiler.length - 1) = some { uid := K } := by
    rw [List.get?_eq_getElem?, ← List.getLast?_eq_getElem?]
    exact hlast
  simp only [ProcCompilationResults, List.foldl_cons, List.foldl_nil, deliver, hget]
  refine ⟨?_, ?_⟩
  · rw [F.disk_ok]
  · rw [F.compiled_ok]; rfl

end DX11

/-! ## The consistency of the queue with the table is an invariant -/

namespace DX11

theorem queueValid_iff (s : Cache) :
    queueValid s = true ↔
      (s.s_compiler.map fun w => w.uid).Nodup ∧
        ∀ w ∈ s.s_compiler, claimed s w.uid = true ∧ compiledAt s w.uid = false := by
  unfold queueValid
  simp only [Bool.and_eq_true, decide_eq_true_eq, List.all_eq_true, Bool.not_eq_true']

section invariant

variable {h : Uid → CompileResult → Cache → Cache} (F : HandlerFrame h)
include F

theorem deliver_consistent (c : Completion) (s : Cache) (hq : queueValid s = true)
    (he : CompiledAreClaimed s) :
    queueValid (deliver h c s) = true ∧ CompiledAreClaimed (deliver h c s) := by
  rw [queueValid_iff] at hq ⊢
  have hd := deliver_frame F c s
  cases hg : s.s_compiler.get? c.idx with
  | none =>
    have hsame : deliver h c s = s := by unfold deliver; rw [hg]
    rw [hsame]
    exact ⟨hq, he⟩
  | some w =>
    have hw : w ∈ s.s_compiler := List.get?_mem hg
    have hne := eraseIdx_uid_ne (fun w => w.uid) s.s_compiler hq.1 c.idx w hg
    have hcomp : ∀ k, k ≠ w.uid → compiledAt (deliver h c s) k = compiledAt s k := by
      intro k hk
      unfold deliver
      rw [hg]
      dsimp only
      rw [F.compiled_other _ _ _ _ hk]
      rfl
    refine ⟨⟨?_, ?_⟩, ?_⟩
    · rw [hd.2.2.2.2.2.2.2.2]
      exact hq.1.sublist ((List.eraseIdx_sublist _ _).map _)
    · intro w2 hw2
      rw [hd.2.2.2.2.2.2.2.2] at hw2
      have hw2s : w2 ∈ s.s_compiler := (List.eraseIdx_sublist _ _).subset hw2
      rw [hd.2.2.1, hcomp _ (hne w2 hw2)]
      exact hq.2 w2 hw2s
    · intro k hk
      rw [hd.2.2.1]
      by_cases hkw : k = w.uid
      · rw [hkw]; exact (hq.2 w hw).1
      · rw [hcomp k hkw] at hk
        exact he k hk

theorem Proc_consistent (done : List Completion) (s : Cache) (hq : queueValid s = true)
    (he : CompiledAreClaimed s) :
    queueValid (ProcCompilationResults h done s) = true ∧
      CompiledAreClaimed (ProcCompilationResults h done s) := by
  induction done generalizing s with
  | nil => exact ⟨hq, he⟩
  | cons c r ih =>
    have hd := deliver_consistent F c s hq he
    simp only [ProcCompilationResults, List.foldl_cons] at ih ⊢
    exact ih _ hd.1 hd.2

end invariant

theorem consistent_of_views (s s' : Cache) (hq : s'.s_compiler = s.s_compiler)
    (hc : ∀ k, claimed s' k = claimed s k) (hm : ∀ k, compiledAt s' k = compiledAt s k)
    (h1 : queueValid s = true) (h2 : CompiledAreClaimed s) :
    queueValid s' = true ∧ CompiledAreClaimed s' := by
  rw [queueValid_iff] at h1 ⊢
  rw [hq]
  refine ⟨⟨h1.1, fun w hw => ?_⟩, fun k hk => ?_⟩
  · rw [hc, hm]; exact h1.2 w hw
  · rw [hc]; rw [hm] at hk; exact h2 k hk

theorem lookup_consistent (uid : Uid) (g : Bool) (s : Cache) (hq : queueValid s = true)
    (he : CompiledAreClaimed s) :
    queueValid (VertexShaderCache.PrepareShader_lookup uid g s) = true ∧
      CompiledAreClaimed (VertexShaderCache.PrepareShader_lookup uid g s) := by
  have hf := lookup_fields uid g s
  rw [queueValid_iff] at hq ⊢
  refine ⟨⟨?_, ?_⟩, ?_⟩
  · rw [hf.2.2.2.1]
    cases hc : claimed s uid
    · simp only [Bool.false_eq_true, if_false, List.map_append, List.map_cons, List.map_nil]
      rw [List.nodup_append]
      refine ⟨hq.1, List.nodup_singleton _, ?_⟩
      intro a ha hb
      simp only [List.mem_singleton] at hb
      subst hb
      obtain ⟨w, hw, rfl⟩ := List.mem_map.1 ha
      have := (hq.2 w hw).1
      rw [hc] at this
      exact absurd this (by simp)
    · simpa using hq.1
  · intro w hw
    rw [hf.2.2.2.1] at hw
    rw [lookup_claimed_at, lookup_compiledAt]
    cases hc : claimed s uid
    · rw [hc] at hw
      simp only [Bool.false_eq_true, if_false, List.mem_append, List.mem_singleton] at hw
      rcases hw with hw | hw
      · exact ⟨by rw [(hq.2 w hw).1]; rfl, (hq.2 w hw).2⟩
      · subst hw
        refine ⟨by simp, ?_⟩
        cases hm : compiledAt s uid
        · rfl
        · have := he uid hm
          rw [hc] at this
          exact absurd this (by simp)
    · rw [hc] at hw
      simp only [if_true] at hw
      exact ⟨by rw [(hq.2 w hw).1]; rfl, (hq.2 w hw).2⟩
  · intro k hk
    rw [lookup_compiledAt] at hk
    rw [lookup_claimed_at, he k hk]
    rfl

/-- Every call of the common shape keeps the units in flight consistent with the
table, so the hypothesis of C3 holds in every state reached from a consistent
one by `PrepareShader` calls. -/
theorem step_consistent {h : Uid → CompileResult → Cache → Cache} (F : HandlerFrame h)
    (passf : Uid → Bool) (dbg : Bool) (uid : Uid) (g : Bool) (done : List Completion)
    (s : Cache) (hq : queueValid s = true) (he : CompiledAreClaimed s) :
    queueValid (prepareCore h passf dbg uid g done s) = true ∧
      CompiledAreClaimed (prepareCore h passf dbg uid g done s) := by
  have hP := Proc_consistent F done s hq he
  have hpol : queueValid (polled h dbg uid done s) = true ∧
      CompiledAreClaimed (polled h dbg uid done s) := by
    unfold polled
    cases dbg
    · exact hP
    · exact consistent_of_views _ _ rfl (fun _ => rfl) (fun _ => rfl) hP.1 hP.2
  cases g
  · rw [prepareCore_bg]
    split
    · exact ⟨hq, he⟩
    · have hs := consistent_of_views s { s with s_external_last_uid := uid } rfl
        (fun _ => rfl) (fun _ => rfl) hq he
      exact lookup_consistent uid false _ hs.1 hs.2
  · rw [prepareCore_gpu]
    split
    · exact hpol
    · split
      · exact consistent_of_views (polled h dbg uid done s) _ rfl (fun _ => rfl)
          (fun _ => rfl) hpol.1 hpol.2
      · have hs := consistent_of_views (polled h dbg uid done s)
          { polled h dbg uid done s with s_last_uid := uid } rfl
          (fun _ => rfl) (fun _ => rfl) hpol.1 hpol.2
        exact lookup_consistent uid true _ hs.1 hs.2

theorem replay_idle (ins : Uid → ByteCode → Cache → Cache)
    (hins : ∀ u b t, (ins u b t).s_compiler = t.s_compiler)
    (records : List (Uid × ByteCode)) (t : Cache) :
    (records.foldl (fun s r => ins r.1 r.2 s) t).s_compiler = t.s_compiler := by
  induction records generalizing t with
  | nil => rfl
  | cons r rest ih => rw [List.foldl_cons, ih, hins]

theorem vs_InsertByteCode_queue (env : Env) (u : Uid) (b : ByteCode) (t : Cache) :
    (VertexShaderCache.InsertByteCode env u b t).s_compiler = t.s_compiler := by
  unfold VertexShaderCache.InsertByteCode
  rw [(vs_PushByteCode_rest env b u _).2.2.2.1]

theorem gs_InsertByteCode_queue (env : Env) (u : Uid) (b : ByteCode) (t : Cache) :
    (GeometryShaderCache.InsertByteCode env u b t).s_compiler = t.s_compiler := by
  unfold GeometryShaderCache.InsertByteCode
  rw [(gs_PushByteCode_rest env b u _).2.2.2.1]

theorem consistent_of_idle (s : Cache) (hidle : s.s_compiler = []) : queueValid s = true := by
  rw [queueValid_iff, hidle]
  simp

/-- A vertex cache initialised while no unit is in flight is consistent, its
entries are compiled only when claimed, and its last-used slot is usable,
whatever the cache file holds. -/
theorem vs_Init_consistent (env : Env) (file : List (Uid × ByteCode)) (s : Cache)
    (hidle : s.s_compiler = []) :
    queueValid (VertexShaderCache.Init env file s) = true ∧
    CompiledAreClaimed (VertexShaderCache.Init env file s) ∧
    lastEntryValid (fun _ => false) (VertexShaderCache.Init env file s) = true := by
  have hrep := vs_OpenAndRead_spec env file
    { VertexShaderCache.Clear s with numShadersCreated := 0, numShadersAlive := 0 }
  have hq : (VertexShaderCache.OpenAndRead env file
      { VertexShaderCache.Clear s with numShadersCreated := 0, numShadersAlive := 0 }).s_compiler
      = [] := by
    unfold VertexShaderCache.OpenAndRead
    rw [replay_idle _ (vs_InsertByteCode_queue env)]
    exact hidle
  unfold VertexShaderCache.Init
  dsimp only
  cases env.g_Config_bEnableShaderDebugging
  · refine ⟨consistent_of_idle _ hq, ?_, rfl⟩
    intro k hk
    have h1 := (hrep k).2.1
    have h2 := (hrep k).2.2.1
    change compiledAt (VertexShaderCache.OpenAndRead env file
      { VertexShaderCache.Clear s with numShadersCreated := 0, numShadersAlive := 0 }) k = true
      at hk
    change claimed (VertexShaderCache.OpenAndRead env file
      { VertexShaderCache.Clear s with numShadersCreated := 0, numShadersAlive := 0 }) k = true
    cases hl : lastRecord file k with
    | some b => rw [hl] at h2; exact h2
    | none =>
      rw [hl] at h1
      rw [h1] at hk
      exact absurd hk (by simp [compiledAt, VertexShaderCache.Clear, Table.find])
  · refine ⟨consistent_of_idle _ hq, ?_, rfl⟩
    intro k hk
    exact absurd hk (by simp [compiledAt, VertexShaderCache.Clear, Table.find])

/-- The geometry-cache counterpart of `vs_Init_consistent`. -/
theorem gs_Init_consistent (env : Env) (file : List (Uid × ByteCode)) (s : Cache)
    (hidle : s.s_compiler = []) :
    queueValid (GeometryShaderCache.Init env file s) = true ∧
    CompiledAreClaimed (GeometryShaderCache.Init env file s) ∧
    lastEntryValid env.IsPassthrough (GeometryShaderCache.Init env file s) = true := by
  have hrep := gs_OpenAndRead_spec env file (GeometryShaderCache.Clear s)
  have hq : (GeometryShaderCache.OpenAndRead env file
      (GeometryShaderCache.Clear s)).s_compiler = [] := by
    unfold GeometryShaderCache.OpenAndRead
    rw [replay_idle _ (gs_InsertByteCode_queue env)]
    exact hidle
  unfold GeometryShaderCache.Init
  dsimp only
  cases env.g_Config_bEnableShaderDebugging
  · refine ⟨consistent_of_idle _ hq, ?_, rfl⟩
    intro k hk
    have h1 := (hrep k).2.1
    have h2 := (hrep k).2.2.1
    change compiledAt (GeometryShaderCache.OpenAndRead env file
      (GeometryShaderCache.Clear s)) k = true at hk
    change claimed (GeometryShaderCache.OpenAndRead env file
      (GeometryShaderCache.Clear s)) k = true
    cases hl : lastRecord file k with
    | some b => rw [hl] at h2; exact h2
    | none =>
      rw [hl] at h1
      rw [h1] at hk
      exact absurd hk (by simp [compiledAt, GeometryShaderCache.Clear, Table.find])
  · refine ⟨consistent_of_idle _ hq, ?_, rfl⟩
    intro k hk
    exact absurd hk (by simp [compiledAt, GeometryShaderCache.Clear, Table.find])

theorem runCore_consistent {h : Uid → CompileResult → Cache → Cache} (F : HandlerFrame h)
    (passf : Uid → Bool) (dbg : Bool) (calls : List Call) (s : Cache)
    (hq : queueValid s = true) (he : CompiledAreClaimed s)
    (hv : lastEntryValid passf s = true) :
    queueValid (runCore h passf dbg calls s) = true ∧
    CompiledAreClaimed (runCore h passf dbg calls s) ∧
    lastEntryValid passf (runCore h passf dbg calls s) = true := by
  induction calls generalizing s with
  | nil => exact ⟨hq, he, hv⟩
  | cons c r ih =>
    rw [runCore_cons]
    have h1 := step_consistent F passf dbg c.uid c.ongputhread c.done s hq he
    have h2 := step_valid F passf dbg c.uid c.ongputhread c.done s hv
    exact ih _ h1.1 h1.2 h2

/-- Every state that either DX11 cache reaches from `Init` (run while no unit is in
flight) by `PrepareShader` calls of both roles satisfies the side conditions used
by the claims: the units in flight are consistent with the table, entries are
compiled only when claimed, and the GPU-thread last-used slot is usable. -/
theorem reachable_states_are_consistent (env : Env) (file : List (Uid × ByteCode))
    (calls : List Call) (s : Cache) (hidle : s.s_compiler = []) :
    (queueValid (VertexShaderCache.run env calls (VertexShaderCache.Init env file s)) = true ∧
      CompiledAreClaimed (VertexShaderCache.run env calls (VertexShaderCache.Init env file s)) ∧
      lastEntryValid (fun _ => false)
        (VertexShaderCache.run env calls (VertexShaderCache.Init env file s)) = true) ∧
    (queueValid (GeometryShaderCache.run env calls (GeometryShaderCache.Init env file s)) = true ∧
      CompiledAreClaimed
        (GeometryShaderCache.run env calls (GeometryShaderCache.Init env file s)) ∧
      lastEntryValid env.IsPassthrough
        (GeometryShaderCache.run env calls (GeometryShaderCache.Init env file s)) = true) := by
  have hv := vs_Init_consistent env file s hidle
  have hg := gs_Init_consistent env file s hidle
  rw [vs_run_eq, gs_run_eq]
  exact ⟨runCore_consistent (vs_handlerFrame env) _ _ calls _ hv.1 hv.2.1 hv.2.2,
    runCore_consistent (gs_handlerFrame env) _ _ calls _ hg.1 hg.2.1 hg.2.2⟩

end DX11

/-! ## The fresh-name discipline is kept by the inserter -/

namespace OGL

theorem glFresh_iff (gl : GLContext) :
    glFresh gl = true ↔ ∀ n ∈ gl.programs.keys, n < gl.nextName := by
  unfold glFresh
  simp only [List.all_eq_true, decide_eq_true_eq]

theorem loadRecord_keys (drv : Driver) (value : List Nat) (gl : GLContext) :
    (loadRecord drv value gl).programs.keys = gl.nextName :: gl.programs.keys := by
  by_cases hneg : binarySizeOf value.length < 0
  · rw [loadRecord_neg drv value gl hneg]
    rfl
  · rw [loadRecord_nonneg drv value gl hneg]
    dsimp only [Table.keys, List.map_cons]
    have := Table.keys_update gl.programs gl.nextName fun p =>
      { p with
        linkStatus := drv.ProgramBinaryLinks (decodeGLenum value)
          ((value.drop sizeofGLenum).take (binarySizeOf value.length).toNat),
        binaryFormat := decodeGLenum value,
        binary := (value.drop sizeofGLenum).take (binarySizeOf value.length).toNat }
    rw [Table.keys] at this
    rw [this]
    rfl

theorem Table_keys_erase_subset {ε : Type} (t : Table ε) (k : Uid) :
    ∀ n ∈ (t.erase k).keys, n ∈ t.keys := by
  induction t with
  | nil => intro n hn; exact hn
  | cons p r ih =>
    obtain ⟨a, e⟩ := p
    intro n hn
    by_cases ha : a = k
    · rw [Table.erase, if_pos ha] at hn
      exact List.mem_cons_of_mem _ hn
    · rw [Table.erase, if_neg ha] at hn
      rcases List.mem_cons.1 hn with h1 | h1
      · rw [h1]; exact List.mem_cons_self _ _
      · exact List.mem_cons_of_mem _ (ih n h1)

/-- `Read` keeps every live program name below the next unused name, so the
hypothesis of C9 holds for every record of a replay that starts on a context
with that discipline. -/
theorem Read_glFresh (drv : Driver) (key : Uid) (value : List Nat) (s : State)
    (hf : glFresh s.gl = true) :
    glFresh (ProgramShaderCacheInserter.Read drv key value s).gl = true := by
  rw [glFresh_iff] at hf ⊢
  have hk := loadRecord_keys drv value s.gl
  have hn := loadRecord_nextName drv value s.gl
  have hload : ∀ n ∈ (loadRecord drv value s.gl).programs.keys,
      n < (loadRecord drv value s.gl).nextName := by
    intro n hm
    rw [hk] at hm
    rw [hn]
    rcases List.mem_cons.1 hm with h1 | h1
    · rw [h1]; exact Nat.lt_succ_self _
    · exact Nat.lt_succ_of_lt (hf n h1)
  cases hl : recordLinks drv value
  · rw [Read_of_fails drv key value s hl]
    dsimp only
    intro n hm
    rw [glDeleteProgram_nextName]
    rw [glDeleteProgram] at hm
    exact hload n (Table_keys_erase_subset _ _ n hm)
  · rw [Read_of_links drv key value s hl]
    dsimp only
    intro n hm
    rw [SetProgramVariables_nextName]
    rw [SHADER.SetProgramVariables] at hm
    dsimp only at hm
    rw [Table.keys_update] at hm
    exact hload n hm

end OGL

/-! ## Waiting for the last-used entry -/

namespace DX11

theorem vs_TestShader_eq (env : Env) (fuel count : Nat) (polls : List (List Completion))
    (s : Cache) :
    VertexShaderCache.TestShader_loop env fuel count polls s =
      testCore (VertexShaderCache.ResultHandler env) VertexShaderCache.lastEntry
        env.bFullAsyncShaderCompilation fuel count polls s := by
  induction fuel generalizing count polls s with
  | zero => rfl
  | succ n ih =>
    rw [VertexShaderCache.TestShader_loop, testCore]
    simp only [ih]

theorem gs_TestShader_eq (env : Env) (fuel count : Nat) (polls : List (List Completion))
    (s : Cache) :
    GeometryShaderCache.TestShader_loop env fuel count polls s =
      testCore (GeometryShaderCache.ResultHandler env) GeometryShaderCache.lastEntry
        env.bFullAsyncShaderCompilation fuel count polls s := by
  induction fuel generalizing count polls s with
  | zero => rfl
  | succ n ih =>
    rw [GeometryShaderCache.TestShader_loop, testCore]
    simp only [ih]

/-- Whatever a poll preserves, a bounded run of the loop preserves. -/
theorem testCore_state (h : Uid → CompileResult → Cache → Cache)
    (deref : Cache → Option CacheEntry) (full : Bool) (P : Cache → Prop)
    (hP : ∀ done s, P s → P (ProcCompilationResults h done s))
    (fuel count : Nat) (polls : List (List Completion)) (s s0 : Cache) (h0 : P s0) (hs : P s) :
    P ((testCore h deref full fuel count polls s).state s0) := by
  induction fuel generalizing count polls s with
  | zero =>
    rw [testCore]
    cases deref s with
    | none => exact h0
    | some e =>
      dsimp only
      split
      · exact hs
      · exact hs
  | succ n ih =>
    rw [testCore]
    cases deref s with
    | none => exact h0
    | some e =>
      dsimp only
      split
      · exact hs
      · split
        · cases deref (ProcCompilationResults h (polls.headD []) s) with
          | none => exact h0
          | some e2 => exact hP _ _ hs
        · exact ih _ _ _ (hP _ _ hs)

end DX11

namespace DX11

theorem testCore_async (h : Uid → CompileResult → Cache → Cache)
    (deref : Cache → Option CacheEntry) (fuel count : Nat) (polls : List (List Completion))
    (s : Cache) (e : CacheEntry) (hd : deref s = some e) :
    testCore h deref true (fuel + 1) count polls s =
      if e.compiled then TestOutcome.returned (e.shader.isSome && e.compiled) count s
      else
        match deref (ProcCompilationResults h (polls.headD []) s) with
        | none => TestOutcome.invalid
        | some e2 =>
          TestOutcome.returned (e2.shader.isSome && e2.compiled) (count + 1)
            (ProcCompilationResults h (polls.headD []) s) := by
  rw [testCore, hd]
  dsimp only
  by_cases hc : e.compiled = true
  · rw [if_pos hc, if_pos hc]
  · rw [if_neg hc, if_neg hc]
    cases deref (ProcCompilationResults h (polls.headD []) s) <;> simp

section wait

variable {h : Uid → CompileResult → Cache → Cache} (F : HandlerFrame h)
include F

theorem vs_lastEntry_stable (done : List Completion) (s : Cache)
    (hd : (VertexShaderCache.lastEntry s).isSome = true) :
    (VertexShaderCache.lastEntry (ProcCompilationResults h done s)).isSome = true := by
  have hf := Proc_frame F done s
  unfold VertexShaderCache.lastEntry at hd ⊢
  rw [hf.2.2.2.1]
  cases hl : s.s_last_entry with
  | none => rw [hl] at hd; simp at hd
  | some r =>
    cases r with
    | pass => rw [hl] at hd; simp at hd
    | table k =>
      rw [hl] at hd
      have := hf.1 k
      unfold present at this
      simpa [this] using hd

theorem gs_lastEntry_stable (done : List Completion) (s : Cache)
    (hd : (GeometryShaderCache.lastEntry s).isSome = true) :
    (GeometryShaderCache.lastEntry (ProcCompilationResults h done s)).isSome = true := by
  have hf := Proc_frame F done s
  unfold GeometryShaderCache.lastEntry at hd ⊢
  rw [hf.2.2.2.1]
  cases hl : s.s_last_entry with
  | none => rw [hl] at hd; simp at hd
  | some r =>
    cases r with
    | pass => simp
    | table k =>
      rw [hl] at hd
      have := hf.1 k
      unfold present at this
      simpa [this] using hd

/-- In synchronous mode the loop never returns while the last-used entry is
not compiled and no unit is in flight for it. -/
theorem testCore_stuck (deref : Cache → Option CacheEntry) (K : Uid)
    (hderef : ∀ t : Cache, t.s_last_entry = some (EntryRef.table K) → deref t = t.shaders.find K)
    (fuel count : Nat) (polls : List (List Completion)) (s : Cache)
    (hl : s.s_last_entry = some (EntryRef.table K)) (hp : present s K = true)
    (hc : compiledAt s K = false) (hq : ∀ w ∈ s.s_compiler, w.uid ≠ K) :
    (testCore h deref false fuel count polls s).isReturned = false := by
  induction fuel generalizing count polls s with
  | zero =>
    rw [testCore, hderef s hl]
    unfold present at hp
    unfold compiledAt at hc
    cases hf : s.shaders.find K with
    | none => rw [hf] at hp; simp at hp
    | some e =>
      rw [hf] at hc
      simp only at hc
      simp [hc, TestOutcome.isReturned]
  | succ n ih =>
    rw [testCore, hderef s hl]
    unfold present at hp
    unfold compiledAt at hc
    cases hf : s.shaders.find K with
    | none => rw [hf] at hp; simp at hp
    | some e =>
      rw [hf] at hc
      simp only at hc
      simp only [hc, Bool.false_eq_true, if_false]
      have hfr := Proc_frame F (polls.headD []) s
      apply ih
      · rw [hfr.2.2.2.1]; exact hl
      · rw [hfr.1]; unfold present; rw [hf]; rfl
      · rw [Proc_compiled_idle F _ s K hq]; unfold compiledAt; rw [hf]; exact hc
      · intro w hw
        exact hq w (hfr.2.2.2.2.2.2.2.2.subset hw)

/-- Handing back the unit at the head of the queue once for each unit in flight
empties the queue. -/
theorem drain_all (outcome : Uid → CompileResult) (s : Cache) :
    (ProcCompilationResults h
      (s.s_compiler.map fun w => { idx := 0, cresult := outcome w.uid }) s).s_compiler = [] := by
  generalize hq : s.s_compiler = q
  induction q generalizing s with
  | nil => simp [ProcCompilationResults, hq]
  | cons w r ih =>
    simp only [List.map_cons, ProcCompilationResults, List.foldl_cons]
    have hd := (deliver_frame F { idx := 0, cresult := outcome w.uid } s).2.2.2.2.2.2.2.2
    rw [hq] at hd
    simp only [List.eraseIdx_cons_zero] at hd
    exact ih _ hd

end wait

section trace

variable {h : Uid → CompileResult → Cache → Cache}
  (htr : ∀ u r s, ∃ ev, (h u r s).trace = s.trace ++ [ev] ∧ ev.fromHandler = true)
include htr

theorem deliver_trace (c : Completion) (s : Cache) :
    ∃ evs, (deliver h c s).trace = s.trace ++ evs ∧ evs.all Event.fromHandler = true := by
  unfold deliver
  cases hq : s.s_compiler.get? c.idx with
  | none => exact ⟨[], by simp, rfl⟩
  | some w =>
    obtain ⟨ev, h1, h2⟩ := htr w.uid c.cresult { s with s_compiler := s.s_compiler.eraseIdx c.idx }
    exact ⟨[ev], h1, by simp [h2]⟩

theorem Proc_trace (done : List Completion) (s : Cache) :
    ∃ evs, (ProcCompilationResults h done s).trace = s.trace ++ evs ∧
      evs.all Event.fromHandler = true := by
  induction done generalizing s with
  | nil => exact ⟨[], by simp [ProcCompilationResults], rfl⟩
  | cons c r ih =>
    obtain ⟨e1, h1, h2⟩ := deliver_trace htr c s
    obtain ⟨e2, h3, h4⟩ := ih (deliver h c s)
    refine ⟨e1 ++ e2, ?_, by simp [h2, h4]⟩
    simp only [ProcCompilationResults, List.foldl_cons] at h3 ⊢
    rw [h3, h1, List.append_assoc]

end trace

theorem vs_handler_trace (env : Env) (u : Uid) (r : CompileResult) (s : Cache) :
    ∃ ev, (VertexShaderCache.ResultHandler env u r s).trace = s.trace ++ [ev] ∧
      ev.fromHandler = true := by
  have hf := (vs_ResultHandler_fields env u r s).2.2.2.2.2
  cases r with
  | failed e => exact ⟨_, hf, rfl⟩
  | succeeded b => exact ⟨_, hf, rfl⟩

theorem gs_handler_trace (env : Env) (u : Uid) (r : CompileResult) (s : Cache) :
    ∃ ev, (GeometryShaderCache.ResultHandler env u r s).trace = s.trace ++ [ev] ∧
      ev.fromHandler = true := by
  have hf := (gs_ResultHandler_fields env u r s).2.2.2.2.2
  cases r with
  | failed e => exact ⟨_, hf, rfl⟩
  | succeeded b => exact ⟨_, hf, rfl⟩

theorem WaitForFinish_spec {h : Uid → CompileResult → Cache → Cache} (F : HandlerFrame h)
    (htr : ∀ u r s, ∃ ev, (h u r s).trace = s.trace ++ [ev] ∧ ev.fromHandler = true)
    (outcome : Uid → CompileResult) (s : Cache) :
    (WaitForFinish h outcome s).s_compiler = [] ∧
    ∃ evs, (WaitForFinish h outcome s).trace = s.trace ++ evs ++ [Event.WaitForFinish] ∧
      evs.all Event.fromHandler = true := by
  unfold WaitForFinish
  refine ⟨drain_all F outcome s, ?_⟩
  obtain ⟨evs, h1, h2⟩ := Proc_trace htr
    (s.s_compiler.map fun w => { idx := 0, cresult := outcome w.uid }) s
  exact ⟨evs, by simp only [h1], h2⟩

end DX11

/-! ## Sessions of steps -/

namespace DX11

theorem Grows.refl (s : Cache) : Grows s s := fun _ => ⟨id, id, id⟩

theorem Grows.trans {a b c : Cache} (h1 : Grows a b) (h2 : Grows b c) : Grows a c :=
  fun k => ⟨fun x => (h2 k).1 ((h1 k).1 x), fun x => (h2 k).2.1 ((h1 k).2.1 x),
    fun x => (h2 k).2.2 ((h1 k).2.2 x)⟩

theorem weak_of_views (s t : Cache) (hq : t.s_compiler = s.s_compiler)
    (hc : ∀ k, claimed t k = claimed s k) (hm : ∀ k, compiledAt t k = compiledAt s k)
    (h1 : QueueClaimed s) (h2 : CompiledAreClaimed s) :
    QueueClaimed t ∧ CompiledAreClaimed t := by
  refine ⟨fun w hw => ?_, fun k hk => ?_⟩
  · rw [hq] at hw; rw [hc]; exact h1 w hw
  · rw [hc]; rw [hm] at hk; exact h2 k hk

section weak

variable {h : Uid → CompileResult → Cache → Cache} (F : HandlerFrame h)
include F

theorem deliver_weak (c : Completion) (s : Cache) (hq : QueueClaimed s)
    (he : CompiledAreClaimed s) :
    QueueClaimed (deliver h c s) ∧ CompiledAreClaimed (deliver h c s) := by
  have hd := deliver_frame F c s
  refine ⟨fun w hw => ?_, fun k hk => ?_⟩
  · rw [hd.2.2.1]
    rw [hd.2.2.2.2.2.2.2.2] at hw
    exact hq w ((List.eraseIdx_sublist _ _).subset hw)
  · rw [hd.2.2.1]
    unfold deliver at hk
    cases hg : s.s_compiler.get? c.idx with
    | none => rw [hg] at hk; exact he k hk
    | some w =>
      rw [hg] at hk
      simp only at hk
      by_cases hu : k = w.uid
      · rw [hu]; exact hq w (List.get?_mem hg)
      · rw [F.compiled_other _ _ _ _ hu] at hk
        exact he k hk

theorem Proc_weak (done : List Completion) (s : Cache) (hq : QueueClaimed s)
    (he : CompiledAreClaimed s) :
    QueueClaimed (ProcCompilationResults h done s) ∧
      CompiledAreClaimed (ProcCompilationResults h done s) := by
  induction done generalizing s with
  | nil => exact ⟨hq, he⟩
  | cons c r ih =>
    have hd := deliver_weak F c s hq he
    simp only [ProcCompilationResults, List.foldl_cons] at ih ⊢
    exact ih _ hd.1 hd.2

theorem Proc_grows (done : List Completion) (s : Cache) :
    Grows s (ProcCompilationResults h done s) := by
  have hf := Proc_frame F done s
  intro k
  refine ⟨fun x => ?_, fun x => ?_, fun x => Proc_compiled_mono F done s k x⟩
  · rw [hf.1]; exact x
  · rw [hf.2.2.1]; exact x

theorem prepareCore_grows (passf : Uid → Bool) (dbg : Bool) (uid : Uid) (g : Bool)
    (done : List Completion) (s : Cache) :
    Grows s (prepareCore h passf dbg uid g done s) :=
  fun k => ⟨step_present_mono F passf dbg uid g done s k,
    step_claimed_mono F passf dbg uid g done s k,
    step_compiled_mono F passf dbg uid g done s k⟩

end weak

theorem lookup_weak (uid : Uid) (g : Bool) (s : Cache) (hq : QueueClaimed s)
    (he : CompiledAreClaimed s) :
    QueueClaimed (VertexShaderCache.PrepareShader_lookup uid g s) ∧
      CompiledAreClaimed (VertexShaderCache.PrepareShader_lookup uid g s) := by
  have hf := lookup_fields uid g s
  refine ⟨fun w hw => ?_, fun k hk => ?_⟩
  · rw [hf.2.2.2.1] at hw
    rw [lookup_claimed_at]
    cases hc : claimed s uid
    · rw [hc] at hw
      simp only [Bool.false_eq_true, if_false, List.mem_append, List.mem_singleton] at hw
      rcases hw with hw | hw
      · rw [hq w hw]; rfl
      · subst hw; simp
    · rw [hc] at hw
      simp only [if_true] at hw
      rw [hq w hw]; rfl
  · rw [lookup_compiledAt] at hk
    rw [lookup_claimed_at, he k hk]
    rfl

theorem prepareCore_weak {h : Uid → CompileResult → Cache → Cache} (F : HandlerFrame h)
    (passf : Uid → Bool) (dbg : Bool) (uid : Uid) (g : Bool) (done : List Completion)
    (s : Cache) (hq : QueueClaimed s) (he : CompiledAreClaimed s) :
    QueueClaimed (prepareCore h passf dbg uid g done s) ∧
      CompiledAreClaimed (prepareCore h passf dbg uid g done s) := by
  have hP := Proc_weak F done s hq he
  have hpol : QueueClaimed (polled h dbg uid done s) ∧
      CompiledAreClaimed (polled h dbg uid done s) := by
    unfold polled
    cases dbg
    · exact hP
    · exact weak_of_views _ _ rfl (fun _ => rfl) (fun _ => rfl) hP.1 hP.2
  cases g
  · rw [prepareCore_bg]
    split
    · exact ⟨hq, he⟩
    · have hs := weak_of_views s { s with s_external_last_uid := uid } rfl
        (fun _ => rfl) (fun _ => rfl) hq he
      exact lookup_weak uid false _ hs.1 hs.2
  · rw [prepareCore_gpu]
    split
    · exact hpol
    · split
      · exact weak_of_views (polled h dbg uid done s) _ rfl (fun _ => rfl)
          (fun _ => rfl) hpol.1 hpol.2
      · have hs := weak_of_views (polled h dbg uid done s)
          { polled h dbg uid done s with s_last_uid := uid } rfl
          (fun _ => rfl) (fun _ => rfl) hpol.1 hpol.2
        exact lookup_weak uid true _ hs.1 hs.2

/-- What the proofs about sessions need to know of an `InsertByteCode`. -/
theorem insert_facts (ins : Uid → ByteCode → Cache → Cache)
    (hfind : ∀ u b s k, (ins u b s).shaders.find k ≠ none ↔ (u = k ∨ s.shaders.find k ≠ none))
    (hobs : ∀ u b s k,
      (compiledAt (ins u b s) k = if u = k then true else compiledAt s k) ∧
      (claimed (ins u b s) k = if u = k then true else claimed s k))
    (hqueue : ∀ u b s, (ins u b s).s_compiler = s.s_compiler)
    (u : Uid) (b : ByteCode) (s : Cache) :
    Grows s (ins u b s) ∧
    (QueueClaimed s → CompiledAreClaimed s →
      QueueClaimed (ins u b s) ∧ CompiledAreClaimed (ins u b s)) := by
  refine ⟨fun k => ⟨fun x => ?_, fun x => ?_, fun x => ?_⟩, fun hq he => ⟨fun w hw => ?_, fun k hk => ?_⟩⟩
  · unfold present at x ⊢
    have := (hfind u b s k).2 (Or.inr (by intro hn; rw [hn] at x; simp at x))
    cases hf : (ins u b s).shaders.find k with
    | none => exact absurd hf this
    | some e => rfl
  · rw [(hobs u b s k).2]; split <;> simp [x]
  · rw [(hobs u b s k).1]; split <;> simp [x]
  · rw [hqueue] at hw
    rw [(hobs u b s w.uid).2]; split
    · rfl
    · exact hq w hw
  · rw [(hobs u b s k).2]
    rw [(hobs u b s k).1] at hk
    split
    · rfl
    · rename_i hne
      rw [if_neg hne] at hk
      exact he k hk

theorem vs_insert_facts (env : Env) (u : Uid) (b : ByteCode) (s : Cache) :
    Grows s (VertexShaderCache.InsertByteCode env u b s) ∧
    (QueueClaimed s → CompiledAreClaimed s →
      QueueClaimed (VertexShaderCache.InsertByteCode env u b s) ∧
        CompiledAreClaimed (VertexShaderCache.InsertByteCode env u b s)) := by
  refine insert_facts (VertexShaderCache.InsertByteCode env) ?_ ?_ ?_ u b s
  · intro u b s k
    rw [vs_InsertByteCode_find]
    by_cases hu : u = k <;> simp [hu]
  · intro u b s k
    exact (vs_InsertByteCode_obs env u b s k).2
  · intro u b s
    exact vs_InsertByteCode_queue env u b s

theorem gs_insert_facts (env : Env) (u : Uid) (b : ByteCode) (s : Cache) :
    Grows s (GeometryShaderCache.InsertByteCode env u b s) ∧
    (QueueClaimed s → CompiledAreClaimed s →
      QueueClaimed (GeometryShaderCache.InsertByteCode env u b s) ∧
        CompiledAreClaimed (GeometryShaderCache.InsertByteCode env u b s)) := by
  refine insert_facts (GeometryShaderCache.InsertByteCode env) ?_ ?_ ?_ u b s
  · intro u b s k
    rw [gs_InsertByteCode_find]
    by_cases hu : u = k <;> simp [hu]
  · intro u b s k
    exact (gs_InsertByteCode_obs env u b s k).2
  · intro u b s
    exact gs_InsertByteCode_queue env u b s

/-- A bounded run of `TestShader` only polls. -/
theorem test_facts {h : Uid → CompileResult → Cache → Cache} (F : HandlerFrame h)
    (deref : Cache → Option CacheEntry) (full : Bool) (fuel count : Nat)
    (polls : List (List Completion)) (s : Cache) :
    Grows s ((testCore h deref full fuel count polls s).state s) ∧
    (QueueClaimed s → CompiledAreClaimed s →
      QueueClaimed ((testCore h deref full fuel count polls s).state s) ∧
        CompiledAreClaimed ((testCore h deref full fuel count polls s).state s)) ∧
    ((testCore h deref full fuel count polls s).state s).s_last_entry = s.s_last_entry ∧
    ((testCore h deref full fuel count polls s).state s).s_last_uid = s.s_last_uid := by
  refine ⟨?_, fun hq he => ?_, ?_⟩
  · exact testCore_state h deref full (fun t => Grows s t)
      (fun done t ht => ht.trans (Proc_grows F done t)) fuel count polls s s
      (Grows.refl s) (Grows.refl s)
  · exact testCore_state h deref full (fun t => QueueClaimed t ∧ CompiledAreClaimed t)
      (fun done t ht => Proc_weak F done t ht.1 ht.2) fuel count polls s s ⟨hq, he⟩ ⟨hq, he⟩
  · exact testCore_state h deref full
      (fun t => t.s_last_entry = s.s_last_entry ∧ t.s_last_uid = s.s_last_uid)
      (fun done t ht => by
        have hf := Proc_frame F done t
        exact ⟨hf.2.2.2.1.trans ht.1, hf.2.2.2.2.1.trans ht.2⟩)
      fuel count polls s s ⟨rfl, rfl⟩ ⟨rfl, rfl⟩

end DX11

namespace DX11

theorem vs_step_facts (env : Env) (st : Step) (s : Cache) (hno : st.noClear = true) :
    Grows s (VertexShaderCache.step env st s) ∧
    (QueueClaimed s → CompiledAreClaimed s →
      QueueClaimed (VertexShaderCache.step env st s) ∧
        CompiledAreClaimed (VertexShaderCache.step env st s)) := by
  cases st with
  | Init file => simp [Step.noClear] at hno
  | Clear => simp [Step.noClear] at hno
  | PrepareShader c =>
    rw [VertexShaderCache.step, vs_PrepareShader_eq]
    exact ⟨prepareCore_grows (vs_handlerFrame env) _ _ _ _ _ _,
      prepareCore_weak (vs_handlerFrame env) _ _ _ _ _ _⟩
  | InsertByteCode uid bytecode => exact vs_insert_facts env uid bytecode s
  | ProcCompilationResults done =>
    exact ⟨Proc_grows (vs_handlerFrame env) done s, Proc_weak (vs_handlerFrame env) done s⟩
  | TestShader fuel polls =>
    rw [VertexShaderCache.step, VertexShaderCache.TestShader, vs_TestShader_eq]
    have := test_facts (vs_handlerFrame env) VertexShaderCache.lastEntry
      env.bFullAsyncShaderCompilation fuel 0 polls s
    exact ⟨this.1, this.2.1⟩

theorem gs_step_facts (env : Env) (st : Step) (s : Cache) (hno : st.noClear = true) :
    Grows s (GeometryShaderCache.step env st s) ∧
    (QueueClaimed s → CompiledAreClaimed s →
      QueueClaimed (GeometryShaderCache.step env st s) ∧
        CompiledAreClaimed (GeometryShaderCache.step env st s)) := by
  cases st with
  | Init file => simp [Step.noClear] at hno
  | Clear => simp [Step.noClear] at hno
  | PrepareShader c =>
    rw [GeometryShaderCache.step, gs_PrepareShader_eq]
    exact ⟨prepareCore_grows (gs_handlerFrame env) _ _ _ _ _ _,
      prepareCore_weak (gs_handlerFrame env) _ _ _ _ _ _⟩
  | InsertByteCode uid bytecode => exact gs_insert_facts env uid bytecode s
  | ProcCompilationResults done =>
    exact ⟨Proc_grows (gs_handlerFrame env) done s, Proc_weak (gs_handlerFrame env) done s⟩
  | TestShader fuel polls =>
    rw [GeometryShaderCache.step, GeometryShaderCache.TestShader, gs_TestShader_eq]
    have := test_facts (gs_handlerFrame env) GeometryShaderCache.lastEntry
      env.bFullAsyncShaderCompilation fuel 0 polls s
    exact ⟨this.1, this.2.1⟩

/-- A session whose every step grows the table and keeps the invariant does so as
a whole. -/
theorem session_facts (step : Step → Cache → Cache)
    (hstep : ∀ st s, st.noClear = true → Grows s (step st s) ∧
      (QueueClaimed s → CompiledAreClaimed s →
        QueueClaimed (step st s) ∧ CompiledAreClaimed (step st s)))
    (l : List Step) (s : Cache) (hno : ∀ st ∈ l, st.noClear = true) :
    Grows s (l.foldl (fun s st => step st s) s) ∧
    (QueueClaimed s → CompiledAreClaimed s →
      QueueClaimed (l.foldl (fun s st => step st s) s) ∧
        CompiledAreClaimed (l.foldl (fun s st => step st s) s)) := by
  induction l generalizing s with
  | nil => exact ⟨Grows.refl s, fun hq he => ⟨hq, he⟩⟩
  | cons st r ih =>
    have h1 := hstep st s (hno st (List.mem_cons_self _ _))
    have h2 := ih (step st s) (fun x hx => hno x (List.mem_cons_of_mem _ hx))
    rw [List.foldl_cons]
    refine ⟨h1.1.trans h2.1, fun hq he => ?_⟩
    have h3 := h1.2 hq he
    exact h2.2 h3.1 h3.2

theorem valid_of_grows (passf : Uid → Bool) (s t : Cache) (hg : Grows s t)
    (h1 : t.s_last_entry = s.s_last_entry) (h2 : t.s_last_uid = s.s_last_uid)
    (hv : lastEntryValid passf s = true) : lastEntryValid passf t = true :=
  lastEntryValid_congr passf s t h1 h2 (fun k => (hg k).1) hv

theorem vs_InsertByteCode_last (env : Env) (u : Uid) (b : ByteCode) (s : Cache) :
    (VertexShaderCache.InsertByteCode env u b s).s_last_entry = s.s_last_entry ∧
    (VertexShaderCache.InsertByteCode env u b s).s_last_uid = s.s_last_uid := by
  unfold VertexShaderCache.InsertByteCode
  have := vs_PushByteCode_rest env b u
    { s with shaders := (s.shaders.index {} u).update u fun e => { e with initialized := true } }
  exact ⟨this.1, this.2.1⟩

theorem gs_InsertByteCode_last (env : Env) (u : Uid) (b : ByteCode) (s : Cache) :
    (GeometryShaderCache.InsertByteCode env u b s).s_last_entry = s.s_last_entry ∧
    (GeometryShaderCache.InsertByteCode env u b s).s_last_uid = s.s_last_uid := by
  unfold GeometryShaderCache.InsertByteCode
  have := gs_PushByteCode_rest env b u
    { s with shaders := (s.shaders.index {} u).update u fun e => { e with initialized := true } }
  exact ⟨this.1, this.2.1⟩

theorem vs_step_valid (env : Env) (st : Step) (s : Cache)
    (hv : lastEntryValid (fun _ => false) s = true) :
    lastEntryValid (fun _ => false) (VertexShaderCache.step env st s) = true := by
  cases st with
  | Init file => rfl
  | Clear => rfl
  | PrepareShader c =>
    rw [VertexShaderCache.step, vs_PrepareShader_eq]
    exact step_valid (vs_handlerFrame env) _ _ _ _ _ _ hv
  | InsertByteCode uid bytecode =>
    exact valid_of_grows _ s _ (vs_insert_facts env uid bytecode s).1
      (vs_InsertByteCode_last env uid bytecode s).1
      (vs_InsertByteCode_last env uid bytecode s).2 hv
  | ProcCompilationResults done =>
    have hf := Proc_frame (vs_handlerFrame env) done s
    exact valid_of_grows _ s _ (Proc_grows (vs_handlerFrame env) done s)
      hf.2.2.2.1 hf.2.2.2.2.1 hv
  | TestShader fuel polls =>
    rw [VertexShaderCache.step, VertexShaderCache.TestShader, vs_TestShader_eq]
    have := test_facts (vs_handlerFrame env) VertexShaderCache.lastEntry
      env.bFullAsyncShaderCompilation fuel 0 polls s
    exact valid_of_grows _ s _ this.1 this.2.2.1 this.2.2.2 hv

theorem gs_step_valid (env : Env) (st : Step) (s : Cache)
    (hv : lastEntryValid env.IsPassthrough s = true) :
    lastEntryValid env.IsPassthrough (GeometryShaderCache.step env st s) = true := by
  cases st with
  | Init file => rfl
  | Clear => rfl
  | PrepareShader c =>
    rw [GeometryShaderCache.step, gs_PrepareShader_eq]
    exact step_valid (gs_handlerFrame env) _ _ _ _ _ _ hv
  | InsertByteCode uid bytecode =>
    exact valid_of_grows _ s _ (gs_insert_facts env uid bytecode s).1
      (gs_InsertByteCode_last env uid bytecode s).1
      (gs_InsertByteCode_last env uid bytecode s).2 hv
  | ProcCompilationResults done =>
    have hf := Proc_frame (gs_handlerFrame env) done s
    exact valid_of_grows _ s _ (Proc_grows (gs_handlerFrame env) done s)
      hf.2.2.2.1 hf.2.2.2.2.1 hv
  | TestShader fuel polls =>
    rw [GeometryShaderCache.step, GeometryShaderCache.TestShader, gs_TestShader_eq]
    have := test_facts (gs_handlerFrame env) GeometryShaderCache.lastEntry
      env.bFullAsyncShaderCompilation fuel 0 polls s
    exact valid_of_grows _ s _ this.1 this.2.2.1 this.2.2.2 hv

theorem session_valid (step : Step → Cache → Cache) (P : Cache → Prop)
    (hstep : ∀ st s, P s → P (step st s)) (l : List Step) (s : Cache) (hs : P s) :
    P (l.foldl (fun s st => step st s) s) := by
  induction l generalizing s with
  | nil => exact hs
  | cons st r ih => exact ih _ (hstep st s hs)

end DX11

/-! ## The OpenGL program cache: `SetShader` -/

namespace OGL

theorem Bind_fields (shader : SHADER) (s : State) :
    (shader.Bind s).pshaders = s.pshaders ∧ (shader.Bind s).last_entry = s.last_entry ∧
    (shader.Bind s).last_uid = s.last_uid ∧
    (∀ K, compiles (shader.Bind s) K = compiles s K) ∧
    generations (shader.Bind s) = generations s := by
  unfold SHADER.Bind
  split
  · refine ⟨rfl, rfl, rfl, fun K => ?_, ?_⟩
    · simp [compiles, List.count_append]
    · simp [generations, List.filter_append, Event.isGeneration]
  · exact ⟨rfl, rfl, rfl, fun _ => rfl, rfl⟩

theorem bindLast_fields (s : State) :
    (bindLast s).pshaders = s.pshaders ∧ (bindLast s).last_entry = s.last_entry ∧
    (bindLast s).last_uid = s.last_uid ∧
    (∀ K, compiles (bindLast s) K = compiles s K) ∧
    generations (bindLast s) = generations s := by
  unfold bindLast
  split
  · exact ⟨rfl, rfl, rfl, fun _ => rfl, rfl⟩
  · split
    · exact ⟨rfl, rfl, rfl, fun _ => rfl, rfl⟩
    · exact Bind_fields _ s

theorem GetShaderId_fields (cfg : Config) (uid : Uid) (s : State) :
    (GetShaderId cfg uid s).pshaders = s.pshaders ∧
    (GetShaderId cfg uid s).last_entry = s.last_entry ∧
    (GetShaderId cfg uid s).last_uid = s.last_uid ∧
    (∀ K, compiles (GetShaderId cfg uid s) K = compiles s K) ∧
    generations (GetShaderId cfg uid s) = generations s ++
      (if cfg.bEnableShaderDebugging then
        [Event.GeneratePixelShaderCodeGL uid, Event.GenerateVertexShaderCodeGL uid,
         Event.GenerateGeometryShaderCode uid]
       else []) := by
  unfold GetShaderId
  cases cfg.bEnableShaderDebugging
  · simp
  · refine ⟨rfl, rfl, rfl, fun K => ?_, ?_⟩
    · simp [compiles, List.count_append]
    · simp [generations, List.filter_append, Event.isGeneration]

theorem CompileShader_fields (cfg : Config) (uid : Uid) (gcode : Bool) (s : State) :
    (CompileShader cfg uid gcode s).2.pshaders.keys = s.pshaders.keys ∧
    (∀ k, ((CompileShader cfg uid gcode s).2.pshaders.find k).isSome
      = (s.pshaders.find k).isSome) ∧
    (CompileShader cfg uid gcode s).2.last_entry = s.last_entry ∧
    (CompileShader cfg uid gcode s).2.last_uid = s.last_uid ∧
    (CompileShader cfg uid gcode s).2.trace = s.trace ++ [Event.CompileShader uid] := by
  unfold CompileShader
  dsimp only
  split_ifs <;> refine ⟨?_, fun k => ?_, rfl, rfl, rfl⟩
  all_goals first
    | rfl
    | exact Table.keys_update _ _ _
    | (simp only [Table.find_update]; split <;> simp)

/-- The call finds an existing entry: the last-used slot matches, or the table
holds an entry under the uid. -/
theorem SetShader_found (cfg : Config) (uid : Uid) (s : State)
    (hit : (s.last_entry.isSome = true ∧ uid = s.last_uid) ∨ (s.pshaders.find uid).isSome = true) :
    (SetShader cfg uid s).2.pshaders = s.pshaders ∧
    (∀ K, compiles (SetShader cfg uid s).2 K = compiles s K) ∧
    generations (SetShader cfg uid s).2 = generations s ++
      (if cfg.bEnableShaderDebugging then
        [Event.GeneratePixelShaderCodeGL uid, Event.GenerateVertexShaderCodeGL uid,
         Event.GenerateGeometryShaderCode uid]
       else []) ∧
    (SetShader cfg uid s).2.last_uid = uid ∧
    ((SetShader cfg uid s).2.last_entry =
      if s.last_entry.isSome = true ∧ uid = s.last_uid then s.last_entry else some uid) := by
  have hg := GetShaderId_fields cfg uid s
  unfold SetShader
  dsimp only
  rw [hg.2.1, hg.2.2.1]
  by_cases hA : s.last_entry.isSome = true ∧ uid = s.last_uid
  · have hA2 : (s.last_entry.isSome && decide (uid = s.last_uid)) = true := by
      simp [hA.1, hA.2]
    rw [if_pos hA2, if_pos hA]
    have hb := bindLast_fields (GetShaderId cfg uid s)
    dsimp only
    refine ⟨hb.1.trans hg.1, fun K => (hb.2.2.2.1 K).trans (hg.2.2.2.1 K),
      hb.2.2.2.2.trans hg.2.2.2.2, ?_, ?_⟩
    · rw [hb.2.2.1, hg.2.2.1]; exact hA.2.symm
    · rw [hb.2.1, hg.2.1]
  · have hA2 : ¬ (s.last_entry.isSome && decide (uid = s.last_uid)) = true := by
      intro hc
      simp only [Bool.and_eq_true, decide_eq_true_eq] at hc
      exact hA hc
    rw [if_neg hA2, if_neg hA]
    have hp : (s.pshaders.find uid).isSome = true := by
      rcases hit with h1 | h1
      · exact absurd h1 hA
      · exact h1
    obtain ⟨e, he⟩ := Option.isSome_iff_exists.1 hp
    have he2 : (GetShaderId cfg uid s).pshaders.find uid = some e := by rw [hg.1]; exact he
    rw [he2]
    dsimp only
    have hb := bindLast_fields
      { GetShaderId cfg uid s with last_uid := uid, last_entry := some uid }
    refine ⟨hb.1.trans hg.1, fun K => (hb.2.2.2.1 K).trans (hg.2.2.2.1 K),
      hb.2.2.2.2.trans hg.2.2.2.2, ?_, ?_⟩
    · rw [hb.2.2.1]
    · exact hb.2.1

end OGL

namespace OGL

theorem compiles_append (s : State) (evs : List Event) (K : Uid) (t : State)
    (ht : t.trace = s.trace ++ evs) :
    compiles t K = compiles s K + evs.count (Event.CompileShader K) := by
  unfold compiles
  rw [ht, List.count_append]

theorem generations_append (s : State) (evs : List Event) (t : State)
    (ht : t.trace = s.trace ++ evs) :
    generations t = generations s ++ evs.filter Event.isGeneration := by
  unfold generations
  rw [ht, List.filter_append]

/-- The call finds no entry: neither the last-used slot nor the table holds the
uid. -/
theorem SetShader_missed (cfg : Config) (uid : Uid) (s : State)
    (hA : ¬ (s.last_entry.isSome = true ∧ uid = s.last_uid))
    (hf : s.pshaders.find uid = none) :
    (SetShader cfg uid s).2.pshaders.keys = uid :: s.pshaders.keys ∧
    (∀ K, compiles (SetShader cfg uid s).2 K = compiles s K + (if uid = K then 1 else 0)) ∧
    generations (SetShader cfg uid s).2 = generations s ++
      (if cfg.bEnableShaderDebugging then
        [Event.GeneratePixelShaderCodeGL uid, Event.GenerateVertexShaderCodeGL uid,
         Event.GenerateGeometryShaderCode uid]
       else []) ++
      [Event.GenerateVertexShaderCodeGL uid, Event.GeneratePixelShaderCodeGL uid] ++
      (if cfg.bSupportsGeometryShaders && !cfg.IsPassthrough uid then
        [Event.GenerateGeometryShaderCode uid] else []) ∧
    (SetShader cfg uid s).2.last_uid = uid ∧
    (SetShader cfg uid s).2.last_entry = some uid := by
  have hg := GetShaderId_fields cfg uid s
  have hA2 : ¬ (s.last_entry.isSome && decide (uid = s.last_uid)) = true := by
    intro hc
    simp only [Bool.and_eq_true, decide_eq_true_eq] at hc
    exact hA hc
  have hf2 : (GetShaderId cfg uid s).pshaders.find uid = none := by rw [hg.1]; exact hf
  have hmem : uid ∉ (GetShaderId cfg uid s).pshaders.keys :=
    (Table.find_eq_none_iff _ _).1 hf2
  -- the state handed to `CompileShader` and what the call returns
  obtain ⟨X, hX1, hX2, hX3, hX4, hXr⟩ : ∃ X : State,
      X.pshaders.keys = uid :: s.pshaders.keys ∧ X.last_entry = some uid ∧ X.last_uid = uid ∧
      X.trace = (GetShaderId cfg uid s).trace ++
        ([Event.GenerateVertexShaderCodeGL uid, Event.GeneratePixelShaderCodeGL uid] ++
          (if cfg.bSupportsGeometryShaders && !cfg.IsPassthrough uid then
            [Event.GenerateGeometryShaderCode uid] else [])) ∧
      SetShader cfg uid s =
        if !(CompileShader cfg uid (cfg.bSupportsGeometryShaders && !cfg.IsPassthrough uid) X).1
        then (none, (CompileShader cfg uid
          (cfg.bSupportsGeometryShaders && !cfg.IsPassthrough uid) X).2)
        else ((CompileShader cfg uid
            (cfg.bSupportsGeometryShaders && !cfg.IsPassthrough uid) X).2.last_entry,
          bindLast (CompileShader cfg uid
            (cfg.bSupportsGeometryShaders && !cfg.IsPassthrough uid) X).2) := by
    refine ⟨if cfg.bSupportsGeometryShaders && !cfg.IsPassthrough uid then
        { pshaders := ((GetShaderId cfg uid s).pshaders.index ({} : PCacheEntry) uid).update uid
            fun e => { e with in_cache := 0 },
          last_entry := some uid, last_uid := uid, gl := (GetShaderId cfg uid s).gl,
          CurrentProgram := (GetShaderId cfg uid s).CurrentProgram,
          trace := (GetShaderId cfg uid s).trace ++ [Event.GenerateVertexShaderCodeGL uid]
            ++ [Event.GeneratePixelShaderCodeGL uid] ++ [Event.GenerateGeometryShaderCode uid],
          disk_cache := (GetShaderId cfg uid s).disk_cache }
      else
        { pshaders := ((GetShaderId cfg uid s).pshaders.index ({} : PCacheEntry) uid).update uid
            fun e => { e with in_cache := 0 },
          last_entry := some uid, last_uid := uid, gl := (GetShaderId cfg uid s).gl,
          CurrentProgram := (GetShaderId cfg uid s).CurrentProgram,
          trace := (GetShaderId cfg uid s).trace ++ [Event.GenerateVertexShaderCodeGL uid]
            ++ [Event.GeneratePixelShaderCodeGL uid],
          disk_cache := (GetShaderId cfg uid s).disk_cache }, ?_, ?_, ?_, ?_, ?_⟩
    · cases (cfg.bSupportsGeometryShaders && !cfg.IsPassthrough uid) <;>
        simp only [if_true, if_false, Bool.false_eq_true] <;>
        rw [Table.keys_update, Table.keys_index, if_neg hmem, hg.1]
    · cases (cfg.bSupportsGeometryShaders && !cfg.IsPassthrough uid) <;> rfl
    · cases (cfg.bSupportsGeometryShaders && !cfg.IsPassthrough uid) <;> rfl
    · cases (cfg.bSupportsGeometryShaders && !cfg.IsPassthrough uid) <;> simp
    · unfold SetShader
      dsimp only
      rw [hg.2.1, hg.2.2.1, if_neg hA2, hf2]
  have hc := CompileShader_fields cfg uid
    (cfg.bSupportsGeometryShaders && !cfg.IsPassthrough uid) X
  have hb := bindLast_fields (CompileShader cfg uid
    (cfg.bSupportsGeometryShaders && !cfg.IsPassthrough uid) X).2
  have htr : (CompileShader cfg uid
      (cfg.bSupportsGeometryShaders && !cfg.IsPassthrough uid) X).2.trace =
      (GetShaderId cfg uid s).trace ++
        (([Event.GenerateVertexShaderCodeGL uid, Event.GeneratePixelShaderCodeGL uid] ++
          (if cfg.bSupportsGeometryShaders && !cfg.IsPassthrough uid then
            [Event.GenerateGeometryShaderCode uid] else [])) ++ [Event.CompileShader uid]) := by
    rw [hc.2.2.2.2, hX4, List.append_assoc]
  have hcount := fun K => compiles_append _ _ K _ htr
  have hgen := generations_append _ _ _ htr
  have hfacts : (CompileShader cfg uid
        (cfg.bSupportsGeometryShaders && !cfg.IsPassthrough uid) X).2.pshaders.keys
        = uid :: s.pshaders.keys ∧
      (∀ K, compiles (CompileShader cfg uid
        (cfg.bSupportsGeometryShaders && !cfg.IsPassthrough uid) X).2 K
        = compiles s K + (if uid = K then 1 else 0)) ∧
      generations (CompileShader cfg uid
        (cfg.bSupportsGeometryShaders && !cfg.IsPassthrough uid) X).2 = generations s ++
        (if cfg.bEnableShaderDebugging then
          [Event.GeneratePixelShaderCodeGL uid, Event.GenerateVertexShaderCodeGL uid,
           Event.GenerateGeometryShaderCode uid]
         else []) ++
        [Event.GenerateVertexShaderCodeGL uid, Event.GeneratePixelShaderCodeGL uid] ++
        (if cfg.bSupportsGeometryShaders && !cfg.IsPassthrough uid then
          [Event.GenerateGeometryShaderCode uid] else []) := by
    refine ⟨hc.1.trans hX1, fun K => ?_, ?_⟩
    · rw [hcount K, hg.2.2.2.1 K]
      have hone : List.count (Event.CompileShader K) [Event.CompileShader uid]
          = if uid = K then 1 else 0 := by
        by_cases hk : uid = K
        · subst hk; simp
        · rw [if_neg hk, List.count_eq_zero]
          simp only [List.mem_singleton, Event.CompileShader.injEq]
          exact fun hx => hk hx.symm
      rw [List.count_append, hone]
      cases (cfg.bSupportsGeometryShaders && !cfg.IsPassthrough uid) <;> simp
    · rw [hgen, hg.2.2.2.2]
      cases (cfg.bSupportsGeometryShaders && !cfg.IsPassthrough uid) <;>
        simp [Event.isGeneration]
  rw [hXr]
  split
  · exact ⟨hfacts.1, hfacts.2.1, hfacts.2.2, hc.2.2.2.1.trans hX3, hc.2.2.1.trans hX2⟩
  · refine ⟨?_, fun K => ?_, ?_, ?_, ?_⟩
    · dsimp only; rw [hb.1]; exact hfacts.1
    · dsimp only; rw [hb.2.2.2.1 K]; exact hfacts.2.1 K
    · dsimp only; rw [hb.2.2.2.2]; exact hfacts.2.2
    · dsimp only; rw [hb.2.2.1]; exact hc.2.2.2.1.trans hX3
    · dsimp only; rw [hb.2.1]; exact hc.2.2.1.trans hX2

end OGL

namespace OGL

theorem found_of_valid (uid : Uid) (s : State) (hv : lastValid s = true)
    (hA : s.last_entry.isSome = true ∧ uid = s.last_uid) :
    (s.pshaders.find uid).isSome = true := by
  unfold lastValid at hv
  obtain ⟨k, hk⟩ := Option.isSome_iff_exists.1 hA.1
  rw [hk] at hv
  simp only [Bool.and_eq_true, decide_eq_true_eq] at hv
  rw [hA.2, ← hv.1]
  exact hv.2

theorem isSome_find_iff (t : Table PCacheEntry) (k : Uid) :
    (t.find k).isSome = true ↔ k ∈ t.keys := by
  rw [← not_iff_not, ← Table.find_eq_none_iff]
  cases t.find k <;> simp

/-- One `SetShader` call from a state with a usable last-used slot. -/
theorem SetShader_step (cfg : Config) (uid : Uid) (s : State) (hv : lastValid s = true) :
    lastValid (SetShader cfg uid s).2 = true ∧
    (SetShader cfg uid s).2.pshaders.keys =
      (if uid ∈ s.pshaders.keys then s.pshaders.keys else uid :: s.pshaders.keys) ∧
    (∀ K, compiles (SetShader cfg uid s).2 K =
      compiles s K + (if uid = K ∧ uid ∉ s.pshaders.keys then 1 else 0)) := by
  by_cases hp : (s.pshaders.find uid).isSome = true
  · have hf := SetShader_found cfg uid s (Or.inr hp)
    have hmem := (isSome_find_iff _ _).1 hp
    refine ⟨?_, ?_, fun K => ?_⟩
    · unfold lastValid
      rw [hf.2.2.2.2, hf.2.2.2.1, hf.1]
      by_cases hA : s.last_entry.isSome = true ∧ uid = s.last_uid
      · rw [if_pos hA]
        unfold lastValid at hv
        obtain ⟨k, hk⟩ := Option.isSome_iff_exists.1 hA.1
        rw [hk] at hv ⊢
        simp only [Bool.and_eq_true, decide_eq_true_eq] at hv ⊢
        exact ⟨hv.1.trans hA.2.symm, hv.2⟩
      · rw [if_neg hA]
        simp [hp]
    · rw [hf.1, if_pos hmem]
    · rw [hf.2.1 K, if_neg (fun hc => hc.2 hmem)]
      rfl
  · have hnone : s.pshaders.find uid = none := by
      cases hx : s.pshaders.find uid with
      | none => rfl
      | some e => rw [hx] at hp; simp at hp
    have hA : ¬ (s.last_entry.isSome = true ∧ uid = s.last_uid) :=
      fun hA => hp (found_of_valid uid s hv hA)
    have hmem : uid ∉ s.pshaders.keys := (Table.find_eq_none_iff _ _).1 hnone
    have hm := SetShader_missed cfg uid s hA hnone
    refine ⟨?_, ?_, fun K => ?_⟩
    · unfold lastValid
      rw [hm.2.2.2.2, hm.2.2.2.1]
      have : uid ∈ (SetShader cfg uid s).2.pshaders.keys := by
        rw [hm.1]; exact List.mem_cons_self _ _
      simp [(isSome_find_iff _ _).2 this]
    · rw [hm.1, if_neg hmem]
    · rw [hm.2.1 K]
      by_cases hk : uid = K
      · rw [if_pos hk, if_pos ⟨hk, hmem⟩]
      · rw [if_neg hk, if_neg (fun hc => hk hc.1)]

theorem setShaders_cons (cfg : Config) (uid : Uid) (uids : List Uid) (s : State) :
    setShaders cfg (uid :: uids) s = setShaders cfg uids (SetShader cfg uid s).2 := rfl

theorem setShaders_append (cfg : Config) (xs ys : List Uid) (s : State) :
    setShaders cfg (xs ++ ys) s = setShaders cfg ys (setShaders cfg xs s) := by
  unfold setShaders
  rw [List.foldl_append]

/-- A sequence of `SetShader` calls from a state with a usable last-used slot and
one entry per key. -/
theorem setShaders_spec (cfg : Config) (uids : List Uid) (s : State)
    (hv : lastValid s = true) (hn : s.pshaders.keys.Nodup) :
    lastValid (setShaders cfg uids s) = true ∧
    (setShaders cfg uids s).pshaders.keys.Nodup ∧
    (∀ K, K ∈ (setShaders cfg uids s).pshaders.keys ↔ K ∈ s.pshaders.keys ∨ K ∈ uids) ∧
    (∀ K, compiles (setShaders cfg uids s) K =
      compiles s K + (if K ∈ uids ∧ K ∉ s.pshaders.keys then 1 else 0)) := by
  induction uids generalizing s with
  | nil =>
    refine ⟨hv, hn, fun K => by simp [setShaders], fun K => by simp [setShaders]⟩
  | cons u r ih =>
    have h1 := SetShader_step cfg u s hv
    have hn1 : (SetShader cfg u s).2.pshaders.keys.Nodup := by
      rw [h1.2.1]
      split
      · exact hn
      · rename_i hu
        exact List.nodup_cons.2 ⟨hu, hn⟩
    have hmem1 : ∀ K, K ∈ (SetShader cfg u s).2.pshaders.keys ↔ K ∈ s.pshaders.keys ∨ K = u := by
      intro K
      rw [h1.2.1]
      split
      · rename_i hu
        constructor
        · exact fun h => Or.inl h
        · rintro (h | h)
          · exact h
          · rw [h]; exact hu
      · simp only [List.mem_cons]
        tauto
    have h2 := ih (SetShader cfg u s).2 h1.1 hn1
    rw [setShaders_cons]
    refine ⟨h2.1, h2.2.1, fun K => ?_, fun K => ?_⟩
    · rw [h2.2.2.1 K, hmem1 K, List.mem_cons]
      tauto
    · rw [h2.2.2.2 K, h1.2.2 K]
      have hm := hmem1 K
      by_cases hk : K = u
      · subst hk
        have hin : K ∈ (SetShader cfg K s).2.pshaders.keys := hm.2 (Or.inr rfl)
        by_cases hs : K ∈ s.pshaders.keys <;> simp [hs, hin]
      · have hk2 : ¬ u = K := fun h => hk h.symm
        have hiff : K ∈ (SetShader cfg u s).2.pshaders.keys ↔ K ∈ s.pshaders.keys := by
          rw [hm]; simp [hk]
        by_cases hs : K ∈ s.pshaders.keys <;> by_cases hr : K ∈ r <;>
          simp [hs, hr, hk, hk2, hiff]

end OGL

/-! ## The OpenGL program cache: failed compiles and `Shutdown` -/

namespace OGL

/-- A call that finds the uid in the table returns the entry, whatever became
of its compile. -/
theorem SetShader_returns_entry (cfg : Config) (uid : Uid) (s : State)
    (hv : lastValid s = true) (hp : (s.pshaders.find uid).isSome = true) :
    (SetShader cfg uid s).1 = some uid := by
  have hg := GetShaderId_fields cfg uid s
  unfold SetShader
  dsimp only
  rw [hg.2.1, hg.2.2.1]
  by_cases hA : s.last_entry.isSome = true ∧ uid = s.last_uid
  · have hA2 : (s.last_entry.isSome && decide (uid = s.last_uid)) = true := by
      simp [hA.1, hA.2]
    rw [if_pos hA2]
    dsimp only
    try rw [hg.2.1]
    unfold lastValid at hv
    obtain ⟨k, hk⟩ := Option.isSome_iff_exists.1 hA.1
    rw [hk] at hv ⊢
    simp only [Bool.and_eq_true, decide_eq_true_eq] at hv
    rw [hv.1, hA.2]
  · have hA2 : ¬ (s.last_entry.isSome && decide (uid = s.last_uid)) = true := by
      intro hc
      simp only [Bool.and_eq_true, decide_eq_true_eq] at hc
      exact hA hc
    rw [if_neg hA2]
    obtain ⟨e, he⟩ := Option.isSome_iff_exists.1 hp
    have he2 : (GetShaderId cfg uid s).pshaders.find uid = some e := by rw [hg.1]; exact he
    rw [he2]

end OGL

namespace Table

theorem find_erase_ne {ε : Type} (t : Table ε) (k n : Uid) (h : k ≠ n) :
    (t.erase k).find n = t.find n := by
  induction t with
  | nil => rfl
  | cons p r ih =>
    obtain ⟨a, e⟩ := p
    by_cases ha : a = k
    · rw [erase, if_pos ha]
      have : ¬ a = n := fun hn => h (ha.symm.trans hn)
      simp only [find, this, if_false]
    · rw [erase, if_neg ha]
      simp only [find, ih]

theorem mem_keys_of_mem {ε : Type} (t : Table ε) (k : Uid) (e : ε) (h : (k, e) ∈ t) :
    k ∈ t.keys :=
  List.mem_map.2 ⟨(k, e), h, rfl⟩

theorem exists_mem_of_mem_keys {ε : Type} (t : Table ε) (k : Uid) (h : k ∈ t.keys) :
    ∃ e, (k, e) ∈ t := by
  obtain ⟨p, hp, rfl⟩ := List.mem_map.1 h
  exact ⟨p.2, hp⟩

theorem mem_update {ε : Type} (t : Table ε) (uid : Uid) (f : ε → ε) (x : Uid × ε)
    (h : x ∈ t.update uid f) :
    ∃ e, (x.1, e) ∈ t ∧ x.2 = if x.1 = uid then f e else e := by
  induction t with
  | nil => simp [update] at h
  | cons p r ih =>
    obtain ⟨a, e⟩ := p
    rw [update] at h
    rcases List.mem_cons.1 h with h1 | h1
    · refine ⟨e, ?_, ?_⟩
      · rw [h1]; exact List.mem_cons_self _ _
      · rw [h1]
    · obtain ⟨e2, h2, h3⟩ := ih h1
      exact ⟨e2, List.mem_cons_of_mem _ h2, h3⟩

end Table

namespace OGL

theorem namesOk_iff (gl : GLContext) :
    namesOk gl = true ↔ 0 < gl.nextName ∧ ∀ n ∈ gl.programs.keys, 0 < n ∧ n < gl.nextName := by
  unfold namesOk
  simp only [Bool.and_eq_true, decide_eq_true_eq, List.all_eq_true]

theorem fresh_of_namesOk (gl : GLContext) (h : namesOk gl = true) :
    gl.nextName ∉ gl.programs.keys := by
  intro hm
  exact absurd (((namesOk_iff gl).1 h).2 _ hm).2 (Nat.lt_irrefl _)

theorem find_none_of_not_mem {ε : Type} (t : Table ε) (k : Uid) (h : k ∉ t.keys) :
    t.find k = none :=
  (Table.find_eq_none_iff t k).2 h

/-- What `CompileShader` leaves: its result, the table and the GL context, when
the driver returns a name that is not in use. -/
theorem CompileShader_state (cfg : Config) (uid : Uid) (gcode : Bool) (s : State)
    (hfresh : cfg.glCreateProgram s.gl ∉ s.gl.programs.keys) :
    (CompileShader cfg uid gcode s).1 =
      (cfg.CompileSingleShader Stage.vertex uid && cfg.CompileSingleShader Stage.fragment uid &&
        (!gcode || cfg.CompileSingleShader Stage.geometry uid) && cfg.glLinkProgram uid) ∧
    (CompileShader cfg uid gcode s).2.pshaders =
      (if (cfg.CompileSingleShader Stage.vertex uid &&
          cfg.CompileSingleShader Stage.fragment uid &&
          (!gcode || cfg.CompileSingleShader Stage.geometry uid)) = true then
        s.pshaders.update uid fun e => { e with shader.glprogid := cfg.glCreateProgram s.gl }
      else s.pshaders) ∧
    (CompileShader cfg uid gcode s).2.gl =
      (if (cfg.CompileSingleShader Stage.vertex uid &&
          cfg.CompileSingleShader Stage.fragment uid &&
          (!gcode || cfg.CompileSingleShader Stage.geometry uid)) = true then
        if cfg.glLinkProgram uid = true then
          { nextName := max s.gl.nextName (cfg.glCreateProgram s.gl + 1),
            programs := (cfg.glCreateProgram s.gl,
              { linkStatus := true, binaryFormat := (cfg.ProgramBinaryOf uid).1,
                binary := (cfg.ProgramBinaryOf uid).2, variablesSet := true,
                deleteStatus := false }) :: s.gl.programs }
        else { nextName := max s.gl.nextName (cfg.glCreateProgram s.gl + 1),
               programs := s.gl.programs }
      else s.gl) := by
  have hupd : ∀ f : GLProgram → GLProgram,
      s.gl.programs.update (cfg.glCreateProgram s.gl) f = s.gl.programs :=
    fun f => Table.update_of_not_mem _ _ f hfresh
  unfold CompileShader
  dsimp only
  cases hv : cfg.CompileSingleShader Stage.vertex uid <;>
  cases hp : cfg.CompileSingleShader Stage.fragment uid <;>
  cases gcode <;>
  cases hgs : cfg.CompileSingleShader Stage.geometry uid <;>
  cases hl : cfg.glLinkProgram uid <;>
  simp [glCreateProgramAs, glLinkProgram, glGetLinkStatus, glDeleteProgram,
    SHADER.SetProgramVariables, Table.update, Table.find, Table.erase, hupd]

end OGL

namespace OGL

theorem Bind_gl (shader : SHADER) (s : State) :
    (shader.Bind s).gl = s.gl ∧ (shader.Bind s).disk_cache = s.disk_cache := by
  unfold SHADER.Bind
  split <;> exact ⟨rfl, rfl⟩

theorem bindLast_gl (s : State) :
    (bindLast s).gl = s.gl ∧ (bindLast s).disk_cache = s.disk_cache := by
  unfold bindLast
  split
  · exact ⟨rfl, rfl⟩
  · split
    · exact ⟨rfl, rfl⟩
    · exact Bind_gl _ s

theorem GetShaderId_gl (cfg : Config) (uid : Uid) (s : State) :
    (GetShaderId cfg uid s).gl = s.gl ∧ (GetShaderId cfg uid s).disk_cache = s.disk_cache := by
  unfold GetShaderId
  split <;> exact ⟨rfl, rfl⟩

/-- A call that finds an existing entry leaves the GL context alone. -/
theorem SetShader_found_gl (cfg : Config) (uid : Uid) (s : State)
    (hit : (s.last_entry.isSome = true ∧ uid = s.last_uid) ∨
      (s.pshaders.find uid).isSome = true) :
    (SetShader cfg uid s).2.gl = s.gl := by
  have hg := GetShaderId_fields cfg uid s
  have hgl := GetShaderId_gl cfg uid s
  unfold SetShader
  dsimp only
  rw [hg.2.1, hg.2.2.1]
  by_cases hA : s.last_entry.isSome = true ∧ uid = s.last_uid
  · have hA2 : (s.last_entry.isSome && decide (uid = s.last_uid)) = true := by
      simp [hA.1, hA.2]
    rw [if_pos hA2]
    exact (bindLast_gl _).1.trans hgl.1
  · have hA2 : ¬ (s.last_entry.isSome && decide (uid = s.last_uid)) = true := by
      intro hc
      simp only [Bool.and_eq_true, decide_eq_true_eq] at hc
      exact hA hc
    rw [if_neg hA2]
    have hp : (s.pshaders.find uid).isSome = true := by
      rcases hit with h1 | h1
      · exact absurd h1 hA
      · exact h1
    obtain ⟨e, he⟩ := Option.isSome_iff_exists.1 hp
    have he2 : (GetShaderId cfg uid s).pshaders.find uid = some e := by rw [hg.1]; exact he
    rw [he2]
    exact (bindLast_gl _).1.trans hgl.1

theorem result_pshaders (c : Bool) (a b : Option Uid) (R : State) :
    (if c = true then (a, R) else (b, bindLast R)).2.pshaders = R.pshaders := by
  cases c
  · exact (bindLast_fields R).1
  · rfl

theorem result_gl (c : Bool) (a b : Option Uid) (R : State) :
    (if c = true then (a, R) else (b, bindLast R)).2.gl = R.gl := by
  cases c
  · exact (bindLast_gl R).1
  · rfl

/-- The table `CompileShader` leaves, whatever name the driver returns. -/
theorem CompileShader_pshaders (cfg : Config) (uid : Uid) (gcode : Bool) (s : State) :
    (CompileShader cfg uid gcode s).2.pshaders =
      (if (cfg.CompileSingleShader Stage.vertex uid &&
          cfg.CompileSingleShader Stage.fragment uid &&
          (!gcode || cfg.CompileSingleShader Stage.geometry uid)) = true then
        s.pshaders.update uid fun e => { e with shader.glprogid := cfg.glCreateProgram s.gl }
      else s.pshaders) := by
  unfold CompileShader
  dsimp only
  cases hv : cfg.CompileSingleShader Stage.vertex uid <;>
  cases hp : cfg.CompileSingleShader Stage.fragment uid <;>
  cases gcode <;>
  cases hgs : cfg.CompileSingleShader Stage.geometry uid <;>
  simp only [Bool.not_true, Bool.not_false, Bool.or_false, Bool.or_true, Bool.and_true,
    Bool.and_false, Bool.true_and, Bool.false_and, Bool.false_eq_true, if_true, if_false,
    glCreateProgramAs] <;>
  split <;> rfl

/-- A call that finds no entry hands `CompileShader` the table with the fresh
entry of the uid in front and the GL context as it was. -/
theorem SetShader_missed_via (cfg : Config) (uid : Uid) (s : State)
    (hA : ¬ (s.last_entry.isSome = true ∧ uid = s.last_uid))
    (hf : s.pshaders.find uid = none) :
    ∃ X : State,
      X.pshaders = (uid, ({} : PCacheEntry)) :: s.pshaders ∧ X.gl = s.gl ∧
      (SetShader cfg uid s).2.pshaders = (CompileShader cfg uid
        (cfg.bSupportsGeometryShaders && !cfg.IsPassthrough uid) X).2.pshaders ∧
      (SetShader cfg uid s).2.gl = (CompileShader cfg uid
        (cfg.bSupportsGeometryShaders && !cfg.IsPassthrough uid) X).2.gl := by
  have hg := GetShaderId_fields cfg uid s
  have hgl := GetShaderId_gl cfg uid s
  have hA2 : ¬ (s.last_entry.isSome && decide (uid = s.last_uid)) = true := by
    intro hc
    simp only [Bool.and_eq_true, decide_eq_true_eq] at hc
    exact hA hc
  have hf2 : (GetShaderId cfg uid s).pshaders.find uid = none := by rw [hg.1]; exact hf
  have hmem : uid ∉ s.pshaders.keys := (Table.find_eq_none_iff _ _).1 hf
  refine ⟨if cfg.bSupportsGeometryShaders && !cfg.IsPassthrough uid then
      { pshaders := ((GetShaderId cfg uid s).pshaders.index ({} : PCacheEntry) uid).update uid
          fun e => { e with in_cache := 0 },
        last_entry := some uid, last_uid := uid, gl := (GetShaderId cfg uid s).gl,
        CurrentProgram := (GetShaderId cfg uid s).CurrentProgram,
        trace := (GetShaderId cfg uid s).trace ++ [Event.GenerateVertexShaderCodeGL uid]
          ++ [Event.GeneratePixelShaderCodeGL uid] ++ [Event.GenerateGeometryShaderCode uid],
        disk_cache := (GetShaderId cfg uid s).disk_cache }
    else
      { pshaders := ((GetShaderId cfg uid s).pshaders.index ({} : PCacheEntry) uid).update uid
          fun e => { e with in_cache := 0 },
        last_entry := some uid, last_uid := uid, gl := (GetShaderId cfg uid s).gl,
        CurrentProgram := (GetShaderId cfg uid s).CurrentProgram,
        trace := (GetShaderId cfg uid s).trace ++ [Event.GenerateVertexShaderCodeGL uid]
          ++ [Event.GeneratePixelShaderCodeGL uid],
        disk_cache := (GetShaderId cfg uid s).disk_cache }, ?_, ?_, ?_, ?_⟩
  · have hidx : (GetShaderId cfg uid s).pshaders.index ({} : PCacheEntry) uid
        = (uid, ({} : PCacheEntry)) :: s.pshaders := by
      rw [hg.1, Table.index, hf]
    cases (cfg.bSupportsGeometryShaders && !cfg.IsPassthrough uid) <;>
      simp only [if_true, if_false, Bool.false_eq_true] <;>
      rw [hidx, Table.update, if_pos rfl, Table.update_of_not_mem _ _ _ hmem]
  · cases (cfg.bSupportsGeometryShaders && !cfg.IsPassthrough uid) <;> exact hgl.1
  · unfold SetShader
    dsimp only
    rw [hg.2.1, hg.2.2.1, if_neg hA2, hf2]
    cases (cfg.bSupportsGeometryShaders && !cfg.IsPassthrough uid) <;>
      simp only [Bool.false_eq_true, if_false, if_true] <;>
      exact result_pshaders _ _ _ _
  · unfold SetShader
    dsimp only
    rw [hg.2.1, hg.2.2.1, if_neg hA2, hf2]
    cases (cfg.bSupportsGeometryShaders && !cfg.IsPassthrough uid) <;>
      simp only [Bool.false_eq_true, if_false, if_true] <;>
      exact result_gl _ _ _ _

/-- A call that finds no entry puts the entry of the uid, with `in_cache == 0`, in
front of the table, whatever name the driver returns. -/
theorem SetShader_missed_pshaders (cfg : Config) (uid : Uid) (s : State)
    (hA : ¬ (s.last_entry.isSome = true ∧ uid = s.last_uid))
    (hf : s.pshaders.find uid = none) :
    ∃ g : GLuint, (SetShader cfg uid s).2.pshaders =
      (uid, { shader := { glprogid := g }, in_cache := 0 }) :: s.pshaders := by
  have hmem : uid ∉ s.pshaders.keys := (Table.find_eq_none_iff _ _).1 hf
  obtain ⟨X, hX1, _, hXp, _⟩ := SetShader_missed_via cfg uid s hA hf
  rw [hXp, CompileShader_pshaders, hX1]
  split
  · exact ⟨_, by rw [Table.update, if_pos rfl, Table.update_of_not_mem _ _ _ hmem]⟩
  · exact ⟨0, rfl⟩

/-- A call that finds no entry: the table gains the entry of the uid, with the
name of the new program if the sources compiled, and the GL context is the
one `CompileShader` leaves. -/
theorem SetShader_missed_state (cfg : Config) (uid : Uid) (s : State)
    (hA : ¬ (s.last_entry.isSome = true ∧ uid = s.last_uid))
    (hf : s.pshaders.find uid = none)
    (hfresh : cfg.glCreateProgram s.gl ∉ s.gl.programs.keys) :
    (SetShader cfg uid s).2.pshaders =
      (uid, { shader := { glprogid :=
          if (cfg.CompileSingleShader Stage.vertex uid &&
            cfg.CompileSingleShader Stage.fragment uid &&
            (!(cfg.bSupportsGeometryShaders && !cfg.IsPassthrough uid) ||
              cfg.CompileSingleShader Stage.geometry uid)) = true
          then cfg.glCreateProgram s.gl else 0 }, in_cache := 0 }) :: s.pshaders ∧
    (SetShader cfg uid s).2.gl =
      (if (cfg.CompileSingleShader Stage.vertex uid &&
          cfg.CompileSingleShader Stage.fragment uid &&
          (!(cfg.bSupportsGeometryShaders && !cfg.IsPassthrough uid) ||
            cfg.CompileSingleShader Stage.geometry uid)) = true then
        if cfg.glLinkProgram uid = true then
          { nextName := max s.gl.nextName (cfg.glCreateProgram s.gl + 1),
            programs := (cfg.glCreateProgram s.gl,
              { linkStatus := true, binaryFormat := (cfg.ProgramBinaryOf uid).1,
                binary := (cfg.ProgramBinaryOf uid).2, variablesSet := true,
                deleteStatus := false }) :: s.gl.programs }
        else { nextName := max s.gl.nextName (cfg.glCreateProgram s.gl + 1),
               programs := s.gl.programs }
      else s.gl) := by
  have hmem : uid ∉ s.pshaders.keys := (Table.find_eq_none_iff _ _).1 hf
  obtain ⟨X, hX1, hX2, hXp, hXg⟩ := SetShader_missed_via cfg uid s hA hf
  have hfreshX : cfg.glCreateProgram X.gl ∉ X.gl.programs.keys := by rw [hX2]; exact hfresh
  have hc := CompileShader_state cfg uid
    (cfg.bSupportsGeometryShaders && !cfg.IsPassthrough uid) X hfreshX
  rw [hXp, hXg, hc.2.1, hc.2.2, hX1, hX2]
  refine ⟨?_, rfl⟩
  split
  · rw [Table.update, if_pos rfl, Table.update_of_not_mem _ _ _ hmem]
  · rfl

/-- Which entries have `in_cache == 0` does not depend on the names the driver
returns: after a `SetShader` call the keys in `loaded` are still in the table
and an entry has `in_cache == 0` exactly when its key is not in `loaded`. -/
theorem SetShader_in_cache (cfg : Config) (loaded : List Uid) (uid : Uid) (s : State)
    (hv : lastValid s = true) (h1 : ∀ k ∈ loaded, k ∈ s.pshaders.keys)
    (h2 : ∀ entry ∈ s.pshaders, (entry.2.in_cache = 0 ↔ entry.1 ∉ loaded)) :
    (∀ k ∈ loaded, k ∈ (SetShader cfg uid s).2.pshaders.keys) ∧
    ∀ entry ∈ (SetShader cfg uid s).2.pshaders, (entry.2.in_cache = 0 ↔ entry.1 ∉ loaded) := by
  by_cases hp : (s.pshaders.find uid).isSome = true
  · rw [(SetShader_found cfg uid s (Or.inr hp)).1]
    exact ⟨h1, h2⟩
  · have hnone : s.pshaders.find uid = none := by
      cases hx : s.pshaders.find uid with
      | none => rfl
      | some e => rw [hx] at hp; simp at hp
    have hA : ¬ (s.last_entry.isSome = true ∧ uid = s.last_uid) :=
      fun hA => hp (found_of_valid uid s hv hA)
    have hmem : uid ∉ s.pshaders.keys := (Table.find_eq_none_iff _ _).1 hnone
    obtain ⟨g, hg⟩ := SetShader_missed_pshaders cfg uid s hA hnone
    rw [hg]
    refine ⟨fun k hk => List.mem_cons_of_mem _ (h1 k hk), fun entry he => ?_⟩
    rcases List.mem_cons.1 he with he1 | he1
    · rw [he1]
      have huid : uid ∉ loaded := fun h => hmem (h1 uid h)
      simp [huid]
    · exact h2 entry he1

theorem setShaders_in_cache (cfg : Config) (loaded : List Uid) (uids : List Uid) (s : State)
    (hv : lastValid s = true) (h1 : ∀ k ∈ loaded, k ∈ s.pshaders.keys)
    (h2 : ∀ entry ∈ s.pshaders, (entry.2.in_cache = 0 ↔ entry.1 ∉ loaded)) :
    (∀ k ∈ loaded, k ∈ (setShaders cfg uids s).pshaders.keys) ∧
    ∀ entry ∈ (setShaders cfg uids s).pshaders, (entry.2.in_cache = 0 ↔ entry.1 ∉ loaded) := by
  induction uids generalizing s with
  | nil => exact ⟨h1, h2⟩
  | cons u r ih =>
    rw [setShaders_cons]
    have hs := SetShader_in_cache cfg loaded u s hv h1 h2
    exact ih _ (SetShader_step cfg u s hv).1 hs.1 hs.2

end OGL

namespace OGL

theorem EntryOk_mono (cfg : Config) (gl gl2 : GLContext) (k : Uid) (e : PCacheEntry)
    (hn : gl.nextName ≤ gl2.nextName)
    (hf : ∀ n, n < gl.nextName → gl2.programs.find n = gl.programs.find n)
    (h : EntryOk cfg gl k e) : EntryOk cfg gl2 k e := by
  unfold EntryOk at h ⊢
  rw [hf _ h.1]
  exact ⟨Nat.lt_of_lt_of_le h.1 hn, h.2⟩

theorem compileSucceeds_eq (cfg : Config) (uid : Uid) :
    compileSucceeds cfg uid =
      ((cfg.CompileSingleShader Stage.vertex uid && cfg.CompileSingleShader Stage.fragment uid &&
        (!(cfg.bSupportsGeometryShaders && !cfg.IsPassthrough uid) ||
          cfg.CompileSingleShader Stage.geometry uid)) && cfg.glLinkProgram uid) := rfl

/-- One `SetShader` call keeps the invariant of the session when the driver
never hands out a program name again. -/
theorem SetShader_inv (cfg : Config) (loaded : List Uid) (uid : Uid) (s : State)
    (hpol : ∀ gl, gl.nextName ≤ cfg.glCreateProgram gl)
    (hv : lastValid s = true) (hI : SessionInv cfg loaded s) :
    SessionInv cfg loaded (SetShader cfg uid s).2 := by
  by_cases hp : (s.pshaders.find uid).isSome = true
  · unfold SessionInv
    rw [SetShader_found_gl cfg uid s (Or.inr hp), (SetShader_found cfg uid s (Or.inr hp)).1]
    exact hI
  · have hnone : s.pshaders.find uid = none := by
      cases hx : s.pshaders.find uid with
      | none => rfl
      | some e => rw [hx] at hp; simp at hp
    have hA : ¬ (s.last_entry.isSome = true ∧ uid = s.last_uid) :=
      fun hA => hp (found_of_valid uid s hv hA)
    have hmem : uid ∉ s.pshaders.keys := (Table.find_eq_none_iff _ _).1 hnone
    obtain ⟨hnames, hload, hent⟩ := hI
    have hnm := (namesOk_iff s.gl).1 hnames
    have hP : s.gl.nextName ≤ cfg.glCreateProgram s.gl := hpol s.gl
    have hfresh : cfg.glCreateProgram s.gl ∉ s.gl.programs.keys :=
      fun hm => Nat.lt_irrefl _ (Nat.lt_of_lt_of_le (hnm.2 _ hm).2 hP)
    have hzero : s.gl.programs.find 0 = none :=
      find_none_of_not_mem _ _ (fun h0 => Nat.lt_irrefl 0 (hnm.2 0 h0).1)
    have hfr : s.gl.programs.find (cfg.glCreateProgram s.gl) = none :=
      find_none_of_not_mem _ _ hfresh
    have hmax : max s.gl.nextName (cfg.glCreateProgram s.gl + 1)
        = cfg.glCreateProgram s.gl + 1 := max_eq_right (Nat.le_succ_of_le hP)
    have hm := SetShader_missed_state cfg uid s hA hnone hfresh
    rw [hmax] at hm
    have hcs := compileSucceeds_eq cfg uid
    have huid : uid ∉ loaded := fun h => hmem (hload uid h)
    unfold SessionInv
    rw [hm.1, hm.2]
    generalize (cfg.CompileSingleShader Stage.vertex uid &&
      cfg.CompileSingleShader Stage.fragment uid &&
      (!(cfg.bSupportsGeometryShaders && !cfg.IsPassthrough uid) ||
        cfg.CompileSingleShader Stage.geometry uid)) = st at hcs ⊢
    generalize cfg.glLinkProgram uid = lk at hcs ⊢
    generalize cfg.glCreateProgram s.gl = P at hP hfr ⊢
    have hkeys : ∀ k ∈ loaded, ∀ e0 : PCacheEntry,
        k ∈ Table.keys ((uid, e0) :: s.pshaders) :=
      fun k hk _ => List.mem_cons_of_mem _ (hload k hk)
    have hlive : ∀ n ∈ s.gl.programs.keys, 0 < n ∧ n < P + 1 :=
      fun n hn => ⟨(hnm.2 n hn).1,
        Nat.lt_succ_of_le (Nat.le_trans (Nat.le_of_lt (hnm.2 n hn).2) hP)⟩
    cases st <;> cases lk
    all_goals simp only [Bool.false_eq_true, if_false, if_true]
    all_goals refine ⟨?_, fun k hk => hkeys k hk _, ?_⟩
    -- the names
    · exact hnames
    · intro entry he
      rcases List.mem_cons.1 he with h1 | h1
      · rw [h1]
        refine ⟨⟨hnm.1, fun _ => ⟨fun hs => ?_, fun _ => hzero⟩⟩, ?_⟩
        · rw [hcs] at hs; simp at hs
        · simp [huid]
      · exact hent entry h1
    · exact hnames
    · intro entry he
      rcases List.mem_cons.1 he with h1 | h1
      · rw [h1]
        refine ⟨⟨hnm.1, fun _ => ⟨fun hs => ?_, fun _ => hzero⟩⟩, ?_⟩
        · rw [hcs] at hs; simp at hs
        · simp [huid]
      · exact hent entry h1
    · rw [namesOk_iff]
      exact ⟨Nat.succ_pos _, hlive⟩
    · intro entry he
      rcases List.mem_cons.1 he with h1 | h1
      · rw [h1]
        refine ⟨⟨Nat.lt_succ_self _, fun _ => ⟨fun hs => ?_, fun _ => hfr⟩⟩, ?_⟩
        · rw [hcs] at hs; simp at hs
        · simp [huid]
      · refine ⟨EntryOk_mono cfg s.gl _ _ _ (Nat.le_succ_of_le hP) (fun _ _ => rfl)
          (hent entry h1).1, (hent entry h1).2⟩
    · rw [namesOk_iff]
      refine ⟨Nat.succ_pos _, fun n hn => ?_⟩
      rcases List.mem_cons.1 hn with h1 | h1
      · rw [h1]; exact ⟨Nat.lt_of_lt_of_le hnm.1 hP, Nat.lt_succ_self _⟩
      · exact hlive n h1
    · intro entry he
      rcases List.mem_cons.1 he with h1 | h1
      · rw [h1]
        refine ⟨⟨Nat.lt_succ_self _, fun _ => ⟨fun _ => ?_, fun hs => ?_⟩⟩, ?_⟩
        · exact ⟨_, Table.find_cons_self _ _ _, rfl, rfl, rfl, rfl⟩
        · rw [hcs] at hs; simp at hs
        · simp [huid]
      · refine ⟨EntryOk_mono cfg s.gl _ _ _ (Nat.le_succ_of_le hP) (fun n hn => ?_)
          (hent entry h1).1, (hent entry h1).2⟩
        show (if P = n then _ else s.gl.programs.find n) = _
        have hne : ¬ P = n :=
          fun h => Nat.lt_irrefl n (Nat.lt_of_lt_of_le hn (by rw [← h]; exact hP))
        rw [if_neg hne]

/-- A sequence of `SetShader` calls keeps the invariant of the session when the
driver never hands out a program name again. -/
theorem setShaders_inv (cfg : Config) (loaded : List Uid) (uids : List Uid) (s : State)
    (hpol : ∀ gl, gl.nextName ≤ cfg.glCreateProgram gl)
    (hv : lastValid s = true) (hI : SessionInv cfg loaded s) :
    SessionInv cfg loaded (setShaders cfg uids s) := by
  induction uids generalizing s with
  | nil => exact hI
  | cons u r ih =>
    rw [setShaders_cons]
    exact ih _ (SetShader_step cfg u s hv).1 (SetShader_inv cfg loaded u s hpol hv hI)

/-- A table loaded from disk satisfies the invariant of a session. -/
theorem SessionInv_start (cfg : Config) (s : State) (hn : namesOk s.gl = true)
    (hl : allLoaded s = true) : SessionInv cfg s.pshaders.keys s := by
  unfold allLoaded at hl
  rw [List.all_eq_true] at hl
  refine ⟨hn, fun k hk => hk, fun entry he => ?_⟩
  have := hl entry he
  simp only [Bool.and_eq_true, decide_eq_true_eq] at this
  refine ⟨⟨this.2, fun h0 => absurd h0 this.1⟩, ?_⟩
  constructor
  · intro h0; exact absurd h0 this.1
  · intro hk; exact absurd (Table.mem_keys_of_mem _ _ _ he) hk

end OGL

namespace Table

theorem eq_of_mem_of_nodup {ε : Type} (t : Table ε) (k : Uid) (e e2 : ε) (hn : t.keys.Nodup)
    (h1 : (k, e) ∈ t) (h2 : (k, e2) ∈ t) : e = e2 := by
  have := List.inj_on_of_nodup_map hn h1 h2 rfl
  exact (Prod.mk.inj this).2

end Table

namespace OGL

theorem shutdownData_exact (prog_format : GLenum) (binary : List Nat) :
    shutdownData binary.length prog_format binary = encodeGLenum prog_format ++ binary := by
  unfold shutdownData
  simp

theorem Shutdown_data_eq (gl : GLContext) (e : PCacheEntry) :
    Shutdown_data gl e =
      if e.in_cache ≠ 0 then none
      else
        match gl.programs.find e.shader.glprogid with
        | none => none
        | some p =>
          if p.linkStatus = true ∧ p.deleteStatus = false ∧ p.binary.length ≠ 0 then
            some (encodeGLenum p.binaryFormat ++ p.binary)
          else none := by
  unfold Shutdown_data
  by_cases hc : e.in_cache = 0
  · rw [if_neg (fun h => h hc), if_neg (fun h => h hc)]
    cases hf : gl.programs.find e.shader.glprogid with
    | none => rfl
    | some p =>
      simp only [glGetProgramBinary, hf]
      cases hl : p.linkStatus <;> cases hd : p.deleteStatus <;>
        by_cases hb : p.binary.length = 0 <;>
        simp [hb, shutdownData_exact]
  · rw [if_pos hc, if_pos hc]

/-- When one iteration of the first loop of `Shutdown` appends, and what. -/
theorem Shutdown_data_iff (gl : GLContext) (e : PCacheEntry) (data : List Nat) :
    Shutdown_data gl e = some data ↔
      e.in_cache = 0 ∧ ∃ p, gl.programs.find e.shader.glprogid = some p ∧
        p.linkStatus = true ∧ p.deleteStatus = false ∧ p.binary.length ≠ 0 ∧
        data = encodeGLenum p.binaryFormat ++ p.binary := by
  rw [Shutdown_data_eq]
  by_cases hc : e.in_cache = 0
  · rw [if_neg (fun h => h hc)]
    cases hf : gl.programs.find e.shader.glprogid with
    | none =>
      constructor
      · intro h; exact absurd h (by simp)
      · rintro ⟨_, p, hp, _⟩; exact absurd hp (by simp)
    | some p =>
      dsimp only
      by_cases hq : p.linkStatus = true ∧ p.deleteStatus = false ∧ p.binary.length ≠ 0
      · rw [if_pos hq]
        constructor
        · intro h
          exact ⟨hc, p, rfl, hq.1, hq.2.1, hq.2.2, (Option.some.inj h).symm⟩
        · rintro ⟨_, p2, hp, _, _, _, hdata⟩
          rw [← Option.some.inj hp] at hdata
          rw [hdata]
      · rw [if_neg hq]
        constructor
        · intro h; exact absurd h (by simp)
        · rintro ⟨_, p2, hp, h1, h2, h3, _⟩
          rw [← Option.some.inj hp] at h1 h2 h3
          exact absurd ⟨h1, h2, h3⟩ hq
  · rw [if_pos hc]
    constructor
    · intro h; exact absurd h (by simp)
    · rintro ⟨h0, _⟩; exact absurd h0 hc

theorem Shutdown_append_loop (l : Table PCacheEntry) (t : State) :
    l.foldl Shutdown_append t =
      { t with disk_cache := t.disk_cache ++
          l.filterMap fun entry => (Shutdown_data t.gl entry.2).map fun data => (entry.1, data) } := by
  induction l generalizing t with
  | nil => simp
  | cons x r ih =>
    rw [List.foldl_cons, ih]
    unfold Shutdown_append
    cases hx : Shutdown_data t.gl x.2 with
    | none => simp [hx]
    | some d => simp [hx]

theorem Shutdown_destroy_loop (l : Table PCacheEntry) (t : State) :
    (l.foldl Shutdown_destroy t).disk_cache = t.disk_cache := by
  induction l generalizing t with
  | nil => rfl
  | cons x r ih => rw [List.foldl_cons, ih]; rfl

/-- The records `Shutdown` appends to the disk cache. -/
theorem Shutdown_disk_cache (cfg : Config) (s : State) :
    (Shutdown cfg s).disk_cache = s.disk_cache ++
      (if (cfg.bSupportsGLSLCache && !cfg.g_Config_bEnableShaderDebugging) = true
       then appendedAtShutdown s else []) := by
  unfold Shutdown
  dsimp only
  rw [Shutdown_destroy_loop]
  split
  · rw [Shutdown_append_loop]
    rfl
  · simp

theorem mem_appended_iff (s : State) (K : Uid) (data : List Nat) :
    (K, data) ∈ appendedAtShutdown s ↔
      ∃ e, (K, e) ∈ s.pshaders ∧ Shutdown_data s.gl e = some data := by
  unfold appendedAtShutdown
  rw [List.mem_filterMap]
  constructor
  · rintro ⟨entry, he, hd⟩
    cases hx : Shutdown_data s.gl entry.2 with
    | none => rw [hx] at hd; simp at hd
    | some d =>
      rw [hx] at hd
      simp only [Option.map_some', Option.some.injEq, Prod.mk.injEq] at hd
      refine ⟨entry.2, ?_, ?_⟩
      · rw [← hd.1]; exact he
      · rw [hx, hd.2]
  · rintro ⟨e, he, hd⟩
    exact ⟨(K, e), he, by simp [hd]⟩

theorem appended_keys_nodup (s : State) (hn : s.pshaders.keys.Nodup) :
    ((appendedAtShutdown s).map Prod.fst).Nodup := by
  unfold appendedAtShutdown
  have hsub : ((s.pshaders.filterMap fun entry =>
      (Shutdown_data s.gl entry.2).map fun data => (entry.1, data)).map Prod.fst).Sublist
      s.pshaders.keys := by
    unfold Table.keys
    induction s.pshaders with
    | nil => simp
    | cons x r ih =>
      cases hx : Shutdown_data s.gl x.2 with
      | none =>
        simp only [List.filterMap_cons, hx, Option.map_none', List.map_cons]
        exact ih.trans (List.sublist_cons_self _ _)
      | some d =>
        simp only [List.filterMap_cons, hx, Option.map_some', List.map_cons]
        exact ih.cons₂ _
  exact hsub.nodup hn

end OGL

namespace OGL

theorem Read_pshaders (drv : Driver) (key : Uid) (value : List Nat) (s : State) :
    (ProgramShaderCacheInserter.Read drv key value s).pshaders =
      (if recordLinks drv value = true then
        (s.pshaders.index ({} : PCacheEntry) key).update key fun _ =>
          { shader := { glprogid := s.gl.nextName }, in_cache := 1 }
      else s.pshaders) ∧
    (ProgramShaderCacheInserter.Read drv key value s).last_entry = s.last_entry ∧
    (ProgramShaderCacheInserter.Read drv key value s).last_uid = s.last_uid := by
  cases hlk : recordLinks drv value
  · rw [Read_of_fails drv key value s hlk]
    exact ⟨rfl, rfl, rfl⟩
  · rw [Read_of_links drv key value s hlk]
    exact ⟨rfl, rfl, rfl⟩

theorem Read_keys_subset (drv : Driver) (key : Uid) (value : List Nat) (s : State) :
    ∀ n ∈ (ProgramShaderCacheInserter.Read drv key value s).gl.programs.keys,
      n ∈ s.gl.nextName :: s.gl.programs.keys := by
  have hk := loadRecord_keys drv value s.gl
  cases hlk : recordLinks drv value
  · rw [Read_of_fails drv key value s hlk]
    dsimp only
    intro n hm
    rw [glDeleteProgram] at hm
    rw [← hk]
    exact Table_keys_erase_subset _ _ n hm
  · rw [Read_of_links drv key value s hlk]
    dsimp only
    intro n hm
    rw [SHADER.SetProgramVariables] at hm
    dsimp only at hm
    rw [Table.keys_update] at hm
    rw [← hk]
    exact hm

end OGL

namespace Table

theorem mem_index {ε : Type} (d : ε) (t : Table ε) (k : Uid) (x : Uid × ε)
    (h : x ∈ t.index d k) : x ∈ t ∨ x.1 = k := by
  unfold index at h
  cases hf : t.find k with
  | none =>
    rw [hf] at h
    rcases List.mem_cons.1 h with h1 | h1
    · exact Or.inr (by rw [h1])
    · exact Or.inl h1
  | some e =>
    rw [hf] at h
    exact Or.inl h

end Table

namespace OGL

theorem allLoaded_iff (s : State) :
    allLoaded s = true ↔
      ∀ entry ∈ s.pshaders, entry.2.in_cache ≠ 0 ∧ entry.2.shader.glprogid < s.gl.nextName := by
  unfold allLoaded
  simp only [List.all_eq_true, Bool.and_eq_true, decide_eq_true_eq]

/-- Replaying one record keeps what a session starts from: names handed out in
order, every entry loaded from disk, one entry per key, and the last-used
slot as it was. -/
theorem Read_loaded (drv : Driver) (key : Uid) (value : List Nat) (s : State)
    (hn : namesOk s.gl = true) (hl : allLoaded s = true) (hd : s.pshaders.keys.Nodup) :
    namesOk (ProgramShaderCacheInserter.Read drv key value s).gl = true ∧
    allLoaded (ProgramShaderCacheInserter.Read drv key value s) = true ∧
    (ProgramShaderCacheInserter.Read drv key value s).pshaders.keys.Nodup := by
  have hnm := (namesOk_iff s.gl).1 hn
  have hal := (allLoaded_iff s).1 hl
  have hnext := Read_nextName drv key value s
  have hsub := Read_keys_subset drv key value s
  have hps := (Read_pshaders drv key value s).1
  refine ⟨?_, ?_, ?_⟩
  · rw [namesOk_iff, hnext]
    refine ⟨Nat.succ_pos _, fun n hm => ?_⟩
    rcases List.mem_cons.1 (hsub n hm) with h1 | h1
    · rw [h1]; exact ⟨hnm.1, Nat.lt_succ_self _⟩
    · exact ⟨(hnm.2 n h1).1, Nat.lt_succ_of_lt (hnm.2 n h1).2⟩
  · rw [allLoaded_iff, hnext, hps]
    intro entry he
    by_cases hlk : recordLinks drv value = true
    · rw [if_pos hlk] at he
      obtain ⟨e, he1, he2⟩ := Table.mem_update _ _ _ _ he
      by_cases hkey : entry.1 = key
      · rw [if_pos hkey] at he2
        rw [he2]
        exact ⟨Nat.one_ne_zero, Nat.lt_succ_self _⟩
      · rw [if_neg hkey] at he2
        rcases Table.mem_index _ _ _ _ he1 with h1 | h1
        · have := hal _ h1
          rw [he2]
          exact ⟨this.1, Nat.lt_succ_of_lt this.2⟩
        · exact absurd h1 hkey
    · rw [if_neg hlk] at he
      exact ⟨(hal entry he).1, Nat.lt_succ_of_lt (hal entry he).2⟩
  · rw [hps]
    split
    · rw [Table.keys_update, Table.keys_index]
      split
      · exact hd
      · rename_i hk2
        exact List.nodup_cons.2 ⟨hk2, hd⟩
    · exact hd

/-- Replaying a cache file keeps what a session starts from. -/
theorem OpenAndRead_loaded (drv : Driver) (records : List (Uid × List Nat)) (s : State)
    (hn : namesOk s.gl = true) (hl : allLoaded s = true) (hd : s.pshaders.keys.Nodup)
    (hv : s.last_entry = none) :
    namesOk (OpenAndRead drv records s).gl = true ∧
    allLoaded (OpenAndRead drv records s) = true ∧
    (OpenAndRead drv records s).pshaders.keys.Nodup ∧
    lastValid (OpenAndRead drv records s) = true := by
  induction records generalizing s with
  | nil =>
    refine ⟨hn, hl, hd, ?_⟩
    unfold lastValid
    rw [show (OpenAndRead drv [] s).last_entry = s.last_entry from rfl, hv]
  | cons r rest ih =>
    rw [OpenAndRead_cons]
    have h1 := Read_loaded drv r.1 r.2 s hn hl hd
    exact ih _ h1.1 h1.2.1 h1.2.2 ((Read_pshaders drv r.1 r.2 s).2.1.trans hv)

end OGL

namespace OGL

end OGL

namespace DX11

/-! ## The last-used slot after a GPU-thread `PrepareShader` -/

theorem prepareCore_gpu_some {h : Uid → CompileResult → Cache → Cache} (passf : Uid → Bool)
    (dbg : Bool) (uid : Uid) (done : List Completion) (s : Cache) :
    (prepareCore h passf dbg uid true done s).s_last_entry.isSome = true := by
  rw [prepareCore_gpu]
  split
  · rename_i hfast
    exact hfast.1
  · split
    · rfl
    · rw [(lookup_fields _ _ _).1]
      rfl

theorem prepareCore_bg_last (h : Uid → CompileResult → Cache → Cache) (passf : Uid → Bool)
    (dbg : Bool) (uid : Uid) (done : List Completion) (s : Cache) :
    (prepareCore h passf dbg uid false done s).s_last_entry = s.s_last_entry := by
  rw [prepareCore_bg]
  split
  · rfl
  · rw [(lookup_fields _ _ _).1]
    rfl

theorem vs_step_last (env : Env) (st : Step) (s : Cache) :
    (st.noClear = true → s.s_last_entry.isSome = true →
      (VertexShaderCache.step env st s).s_last_entry.isSome = true) ∧
    (st.isGpuPrepare = false → s.s_last_entry = none →
      (VertexShaderCache.step env st s).s_last_entry = none) := by
  cases st with
  | Init file => exact ⟨fun h => by simp [Step.noClear] at h, fun _ _ => rfl⟩
  | Clear => exact ⟨fun h => by simp [Step.noClear] at h, fun _ _ => rfl⟩
  | PrepareShader c =>
    rw [VertexShaderCache.step, vs_PrepareShader_eq]
    cases hg : c.ongputhread
    · rw [prepareCore_bg_last]
      exact ⟨fun _ hs => hs, fun _ hs => hs⟩
    · exact ⟨fun _ _ => prepareCore_gpu_some _ _ _ _ _,
        fun hb => by simp [Step.isGpuPrepare, hg] at hb⟩
  | InsertByteCode uid bytecode =>
    rw [VertexShaderCache.step, (vs_InsertByteCode_last env uid bytecode s).1]
    exact ⟨fun _ hs => hs, fun _ hs => hs⟩
  | ProcCompilationResults done =>
    rw [VertexShaderCache.step, (Proc_frame (vs_handlerFrame env) done s).2.2.2.1]
    exact ⟨fun _ hs => hs, fun _ hs => hs⟩
  | TestShader fuel polls =>
    rw [VertexShaderCache.step, VertexShaderCache.TestShader, vs_TestShader_eq,
      (test_facts (vs_handlerFrame env) VertexShaderCache.lastEntry
        env.bFullAsyncShaderCompilation fuel 0 polls s).2.2.1]
    exact ⟨fun _ hs => hs, fun _ hs => hs⟩

theorem gs_step_last (env : Env) (st : Step) (s : Cache) :
    (st.noClear = true → s.s_last_entry.isSome = true →
      (GeometryShaderCache.step env st s).s_last_entry.isSome = true) ∧
    (st.isGpuPrepare = false → s.s_last_entry = none →
      (GeometryShaderCache.step env st s).s_last_entry = none) := by
  cases st with
  | Init file => exact ⟨fun h => by simp [Step.noClear] at h, fun _ _ => rfl⟩
  | Clear => exact ⟨fun h => by simp [Step.noClear] at h, fun _ _ => rfl⟩
  | PrepareShader c =>
    rw [GeometryShaderCache.step, gs_PrepareShader_eq]
    cases hg : c.ongputhread
    · rw [prepareCore_bg_last]
      exact ⟨fun _ hs => hs, fun _ hs => hs⟩
    · exact ⟨fun _ _ => prepareCore_gpu_some _ _ _ _ _,
        fun hb => by simp [Step.isGpuPrepare, hg] at hb⟩
  | InsertByteCode uid bytecode =>
    rw [GeometryShaderCache.step, (gs_InsertByteCode_last env uid bytecode s).1]
    exact ⟨fun _ hs => hs, fun _ hs => hs⟩
  | ProcCompilationResults done =>
    rw [GeometryShaderCache.step, (Proc_frame (gs_handlerFrame env) done s).2.2.2.1]
    exact ⟨fun _ hs => hs, fun _ hs => hs⟩
  | TestShader fuel polls =>
    rw [GeometryShaderCache.step, GeometryShaderCache.TestShader, gs_TestShader_eq,
      (test_facts (gs_handlerFrame env) GeometryShaderCache.lastEntry
        env.bFullAsyncShaderCompilation fuel 0 polls s).2.2.1]
    exact ⟨fun _ hs => hs, fun _ hs => hs⟩

theorem session_last (step : Step → Cache → Cache)
    (hstep : ∀ st s, (st.noClear = true → s.s_last_entry.isSome = true →
        (step st s).s_last_entry.isSome = true) ∧
      (st.isGpuPrepare = false → s.s_last_entry = none → (step st s).s_last_entry = none))
    (l : List Step) (s : Cache) :
    ((∀ st ∈ l, st.noClear = true) → s.s_last_entry.isSome = true →
      (l.foldl (fun s st => step st s) s).s_last_entry.isSome = true) ∧
    ((∀ st ∈ l, st.isGpuPrepare = false) → s.s_last_entry = none →
      (l.foldl (fun s st => step st s) s).s_last_entry = none) := by
  induction l generalizing s with
  | nil => exact ⟨fun _ hs => hs, fun _ hs => hs⟩
  | cons st r ih =>
    rw [List.foldl_cons]
    refine ⟨fun hno hs => ?_, fun hbg hs => ?_⟩
    · exact (ih (step st s)).1 (fun x hx => hno x (List.mem_cons_of_mem _ hx))
        ((hstep st s).1 (hno st (List.mem_cons_self _ _)) hs)
    · exact (ih (step st s)).2 (fun x hx => hbg x (List.mem_cons_of_mem _ hx))
        ((hstep st s).2 (hbg st (List.mem_cons_self _ _)) hs)

theorem vs_lastEntry_some (s : Cache) (hv : lastEntryValid (fun _ => false) s = true)
    (hs : s.s_last_entry.isSome = true) : (VertexShaderCache.lastEntry s).isSome = true := by
  unfold lastEntryValid at hv
  unfold VertexShaderCache.lastEntry
  cases hl : s.s_last_entry with
  | none => rw [hl] at hs; exact absurd hs (by simp)
  | some r =>
    cases r with
    | pass => simp [hl] at hv
    | table k =>
      simp only [hl, Bool.and_eq_true, decide_eq_true_eq] at hv
      exact hv.2

theorem gs_lastEntry_some (passf : Uid → Bool) (s : Cache)
    (hv : lastEntryValid passf s = true)
    (hs : s.s_last_entry.isSome = true) : (GeometryShaderCache.lastEntry s).isSome = true := by
  unfold lastEntryValid at hv
  unfold GeometryShaderCache.lastEntry
  cases hl : s.s_last_entry with
  | none => rw [hl] at hs; exact absurd hs (by simp)
  | some r =>
    cases r with
    | pass => rfl
    | table k =>
      simp only [hl, Bool.and_eq_true, decide_eq_true_eq] at hv
      exact hv.2

theorem testCore_not_invalid (h : Uid → CompileResult → Cache → Cache)
    (deref : Cache → Option CacheEntry) (full : Bool) (I : Cache → Prop)
    (hderef : ∀ t, I t → (deref t).isSome = true)
    (hproc : ∀ done t, I t → I (ProcCompilationResults h done t))
    (fuel count : Nat) (polls : List (List Completion)) (s : Cache) (hs : I s) :
    testCore h deref full fuel count polls s ≠ TestOutcome.invalid := by
  induction fuel generalizing count polls s with
  | zero =>
    unfold testCore
    have := hderef s hs
    cases hd : deref s with
    | none => rw [hd] at this; exact absurd this (by simp)
    | some e =>
      dsimp only
      split <;> simp
  | succ n ih =>
    unfold testCore
    have := hderef s hs
    cases hd : deref s with
    | none => rw [hd] at this; exact absurd this (by simp)
    | some e =>
      dsimp only
      split
      · simp
      · have hI := hproc (polls.headD []) s hs
        have h2 := hderef _ hI
        cases full
        · simp only [Bool.false_eq_true, if_false]
          exact ih _ _ _ hI
        · simp only [if_true]
          cases hd2 : deref (ProcCompilationResults h (polls.headD []) s) with
          | none => rw [hd2] at h2; exact absurd h2 (by simp)
          | some e2 => simp

theorem usable_proc {h : Uid → CompileResult → Cache → Cache} (F : HandlerFrame h)
    (passf : Uid → Bool) (done : List Completion) (t : Cache)
    (ht : lastEntryValid passf t = true ∧ t.s_last_entry.isSome = true) :
    lastEntryValid passf (ProcCompilationResults h done t) = true ∧
      (ProcCompilationResults h done t).s_last_entry.isSome = true := by
  have hf := Proc_frame F done t
  refine ⟨lastEntryValid_congr passf t _ hf.2.2.2.1 hf.2.2.2.2.1
    (fun k hk => by rw [hf.1]; exact hk) ht.1, ?_⟩
  rw [hf.2.2.2.1]
  exact ht.2

end DX11

namespace D3D12

/-! ## D3D12 constant buffers: padded sizes -/

theorem and_mask_eq (m : Nat) (hm : m < 2 ^ 32) : m &&& 0xffffff00 = m / 256 * 256 := by
  apply Nat.eq_of_testBit_eq
  intro i
  have hc : (0xffffff00 : Nat) = 2 ^ 8 * (2 ^ 24 - 1) := by norm_num
  have hd : m / 256 * 256 = 2 ^ 8 * (m / 2 ^ 8) := by rw [Nat.mul_comm]; norm_num
  rw [Nat.testBit_and, hc, hd, Nat.testBit_mul_pow_two, Nat.testBit_mul_pow_two,
    Nat.testBit_two_pow_sub_one, ← Nat.shiftRight_eq_div_pow, Nat.testBit_shiftRight]
  by_cases h8 : 8 ≤ i
  · have e : 8 + (i - 8) = i := by omega
    rw [e]
    by_cases h32 : i < 32
    · have : i - 8 < 24 := by omega
      simp [h8, this]
    · have hlt : m < 2 ^ i :=
        lt_of_lt_of_le hm (Nat.pow_le_pow_right (by decide) (by omega))
      simp [Nat.testBit_lt_two_pow hlt]
  · simp [h8]

theorem paddedSize_eq (n : Nat) (h : n + 255 < 2 ^ 32) :
    paddedSize n = (n + 255) / 256 * 256 := by
  unfold paddedSize
  rw [Nat.mod_eq_of_lt h, and_mask_eq _ h]

end D3D12

namespace MainBase

/-! ## The EFB peek cache -/

theorem cell_bounds (W H x y : Nat) (hW : W % 8 = 0) (hH : H % 8 = 0)
    (hfit : W / 8 * (H / 8) < 2 ^ 32) (hx : x < W) (hy : y < H) :
    W / 8 < 2 ^ 32 ∧ H / 8 < 2 ^ 32 ∧ y / 8 * (W / 8) + x / 8 < W / 8 * (H / 8) := by
  have hx8 : x / 8 < W / 8 := by omega
  have hy8 : y / 8 + 1 ≤ H / 8 := by omega
  have hW1 : 0 < W / 8 := by omega
  have hH1 : 0 < H / 8 := by omega
  refine ⟨lt_of_le_of_lt (Nat.le_mul_of_pos_right _ hH1) hfit,
    lt_of_le_of_lt (Nat.le_mul_of_pos_left _ hW1) hfit, ?_⟩
  calc y / 8 * (W / 8) + x / 8 < y / 8 * (W / 8) + W / 8 := Nat.add_lt_add_left hx8 _
    _ = (y / 8 + 1) * (W / 8) := by ring
    _ ≤ H / 8 * (W / 8) := Nat.mul_le_mul_right _ hy8
    _ = W / 8 * (H / 8) := Nat.mul_comm _ _

theorem shift3 (n : Nat) : n >>> 3 = n / 8 := by
  simp [Nat.shiftRight_eq_div_pow]

theorem stride_eq (W H : Nat) (s : Backend) (x y : Nat) (hc : Constructed W H s)
    (hW : W % 8 = 0) (hH : H % 8 = 0) (hfit : W / 8 * (H / 8) < 2 ^ 32)
    (hx : x < W) (hy : y < H) :
    efb_p_cache_stride s x y = y / 8 * (W / 8) + x / 8 ∧
    s.m_EFB_PCache_Size = W / 8 * (H / 8) ∧
    s.m_EFB_PCache.length = W / 8 * (H / 8) ∧
    efb_p_cache_stride s x y < s.m_EFB_PCache.length := by
  obtain ⟨h1, h2, h3, h4, h5, h6⟩ := hc
  have hb := cell_bounds W H x y hW hH hfit hx hy
  have hsize : s.m_EFB_PCache_Size = W / 8 * (H / 8) := by
    rw [h5, shift3, shift3, Nat.mod_eq_of_lt hb.1, Nat.mod_eq_of_lt hb.2.1,
      Nat.mod_eq_of_lt hfit]
  have hstride : efb_p_cache_stride s x y = y / 8 * (W / 8) + x / 8 := by
    unfold efb_p_cache_stride
    rw [h1, h3, shift3, shift3, shift3, Nat.mod_eq_of_lt hb.1]
    exact Nat.mod_eq_of_lt (lt_trans hb.2.2 hfit)
  refine ⟨hstride, hsize, h6.trans hsize, ?_⟩
  rw [hstride, h6, hsize]
  exact hb.2.2

theorem stride_cell (s : Backend) (x y x' y' : Nat) (h3 : s.m_EFB_PCache_Divisor = 3)
    (hx : x' / 8 = x / 8) (hy : y' / 8 = y / 8) :
    efb_p_cache_stride s x' y' = efb_p_cache_stride s x y := by
  unfold efb_p_cache_stride
  rw [h3, shift3, shift3, shift3, shift3, hx, hy]

theorem Constructed_new (W H : Nat) (fresh : Nat → EFBPeekCacheElement) :
    Constructed W H (VideoBackendBase W H fresh) := by
  refine ⟨rfl, rfl, rfl, rfl, rfl, ?_⟩
  simp [VideoBackendBase]

theorem Constructed_InitializeShared (W H : Nat) (s : Backend) (hc : Constructed W H s) :
    Constructed W H (InitializeShared s) := by
  obtain ⟨h1, h2, h3, h4, h5, h6⟩ := hc
  refine ⟨h1, h2, h3, h4, h5, ?_⟩
  simp [InitializeShared]

theorem store_eq (cfg : Config) (hfast : cfg.bEFBFastAccess = true) (type : EFBAccessType)
    (i result : Nat) (s : Backend) (el : EFBPeekCacheElement)
    (hel : s.m_EFB_PCache[i]? = some el) :
    Video_AccessEFB_store cfg type i result s =
      some (result,
        { s with
          m_EFB_PCache :=
            s.m_EFB_PCache.set i
              (stored type result ((s.s_EFB_PCache_Frame + s.m_EFB_PCache_Life) % 2 ^ 32)
                el) }) := by
  unfold Video_AccessEFB_store stored
  rw [if_pos hfast, hel]
  dsimp only
  split <;> rfl

end MainBase

namespace MainBase

theorem access_enabled (cfg : Config) (s : Backend) (hacc : cfg.bEFBAccessEnable = true)
    (hinit : s.m_initialized = true) :
    (!(cfg.bEFBAccessEnable && s.m_initialized)) = false := by
  rw [hacc, hinit]; rfl

theorem access_poke (cfg : Config) (peeked : Nat) (type : EFBAccessType) (x y d : Nat)
    (s : Backend) (el : EFBPeekCacheElement)
    (hacc : cfg.bEFBAccessEnable = true) (hfast : cfg.bEFBFastAccess = true)
    (hinit : s.m_initialized = true)
    (hty : type = EFBAccessType.POKE_COLOR ∨ type = EFBAccessType.POKE_Z)
    (hel : s.m_EFB_PCache[efb_p_cache_stride s x y]? = some el) :
    Video_AccessEFB cfg peeked type x y d s =
      some (d,
        { s with
          pushed := s.pushed ++ [accessEvent type x y d]
          m_EFB_PCache :=
            s.m_EFB_PCache.set (efb_p_cache_stride s x y)
              (stored type d ((s.s_EFB_PCache_Frame + s.m_EFB_PCache_Life) % 2 ^ 32) el) }) := by
  unfold Video_AccessEFB
  rw [access_enabled cfg s hacc hinit]
  simp only [Bool.false_eq_true, if_false]
  rw [if_pos hty]
  exact store_eq cfg hfast type _ d _ el hel

theorem access_peek_miss (cfg : Config) (peeked : Nat) (type : EFBAccessType) (x y d : Nat)
    (s : Backend) (el : EFBPeekCacheElement)
    (hacc : cfg.bEFBAccessEnable = true) (hfast : cfg.bEFBFastAccess = true)
    (hinit : s.m_initialized = true)
    (hty : ¬ (type = EFBAccessType.POKE_COLOR ∨ type = EFBAccessType.POKE_Z))
    (hel : s.m_EFB_PCache[efb_p_cache_stride s x y]? = some el)
    (hc : ¬ (type = EFBAccessType.PEEK_COLOR ∧ el.ColorFrame > s.s_EFB_PCache_Frame))
    (hz : ¬ (type = EFBAccessType.PEEK_Z ∧ el.DepthFrame > s.s_EFB_PCache_Frame)) :
    Video_AccessEFB cfg peeked type x y d s =
      some (peeked,
        { s with
          pushed := s.pushed ++ [accessEvent type x y 0]
          m_EFB_PCache :=
            s.m_EFB_PCache.set (efb_p_cache_stride s x y)
              (stored type peeked ((s.s_EFB_PCache_Frame + s.m_EFB_PCache_Life) % 2 ^ 32)
                el) }) := by
  unfold Video_AccessEFB
  rw [access_enabled cfg s hacc hinit]
  simp only [Bool.false_eq_true, if_false]
  rw [if_neg hty, if_pos hfast, hel]
  dsimp only
  rw [if_neg hc, if_neg hz]
  exact store_eq cfg hfast type _ peeked _ el hel

theorem access_hit_color (cfg : Config) (peeked : Nat) (x y d : Nat)
    (s : Backend) (el : EFBPeekCacheElement)
    (hacc : cfg.bEFBAccessEnable = true) (hfast : cfg.bEFBFastAccess = true)
    (hinit : s.m_initialized = true)
    (hel : s.m_EFB_PCache[efb_p_cache_stride s x y]? = some el)
    (hc : el.ColorFrame > s.s_EFB_PCache_Frame) :
    Video_AccessEFB cfg peeked EFBAccessType.PEEK_COLOR x y d s = some (el.ColorValue, s) := by
  unfold Video_AccessEFB
  rw [access_enabled cfg s hacc hinit]
  simp only [Bool.false_eq_true, if_false]
  rw [if_neg (by simp), if_pos hfast, hel]
  dsimp only
  rw [if_pos ⟨trivial, hc⟩]

theorem access_hit_depth (cfg : Config) (peeked : Nat) (x y d : Nat)
    (s : Backend) (el : EFBPeekCacheElement)
    (hacc : cfg.bEFBAccessEnable = true) (hfast : cfg.bEFBFastAccess = true)
    (hinit : s.m_initialized = true)
    (hel : s.m_EFB_PCache[efb_p_cache_stride s x y]? = some el)
    (hc : el.DepthFrame > s.s_EFB_PCache_Frame) :
    Video_AccessEFB cfg peeked EFBAccessType.PEEK_Z x y d s = some (el.DepthValue, s) := by
  unfold Video_AccessEFB
  rw [access_enabled cfg s hacc hinit]
  simp only [Bool.false_eq_true, if_false]
  rw [if_neg (by simp), if_pos hfast, hel]
  dsimp only
  rw [if_neg (by simp), if_pos ⟨trivial, hc⟩]

theorem colorSlots_set (l : List EFBPeekCacheElement) (i : Nat) (type : EFBAccessType)
    (r f : Nat) (el : EFBPeekCacheElement) (hel : l[i]? = some el)
    (hty : type.isColor = false) :
    (l.set i (stored type r f el)).map (fun e => (e.ColorValue, e.ColorFrame)) =
      l.map fun e => (e.ColorValue, e.ColorFrame) := by
  apply List.ext_getElem?
  intro j
  rw [List.getElem?_map, List.getElem?_map, List.getElem?_set]
  by_cases hij : i = j
  · subst hij
    rw [if_pos rfl, hel]
    obtain ⟨hi, _⟩ := List.getElem?_eq_some.1 hel
    cases type <;> simp [EFBAccessType.isColor] at hty <;> simp [stored, hi]
  · rw [if_neg hij]

theorem depthSlots_set (l : List EFBPeekCacheElement) (i : Nat) (type : EFBAccessType)
    (r f : Nat) (el : EFBPeekCacheElement) (hel : l[i]? = some el)
    (hty : type.isColor = true) :
    (l.set i (stored type r f el)).map (fun e => (e.DepthValue, e.DepthFrame)) =
      l.map fun e => (e.DepthValue, e.DepthFrame) := by
  apply List.ext_getElem?
  intro j
  rw [List.getElem?_map, List.getElem?_map, List.getElem?_set]
  by_cases hij : i = j
  · subst hij
    rw [if_pos rfl, hel]
    obtain ⟨hi, _⟩ := List.getElem?_eq_some.1 hel
    cases type <;> simp [EFBAccessType.isColor] at hty <;> simp [stored, hi]
  · rw [if_neg hij]

end MainBase

namespace MainBase

theorem access_total (cfg : Config) (peeked : Nat) (type : EFBAccessType) (x y d : Nat)
    (s : Backend) (hacc : cfg.bEFBAccessEnable = true) (hfast : cfg.bEFBFastAccess = true)
    (hinit : s.m_initialized = true)
    (hi : efb_p_cache_stride s x y < s.m_EFB_PCache.length) :
    ∃ r s2, Video_AccessEFB cfg peeked type x y d s = some (r, s2) ∧
      s2.s_EFB_PCache_Frame = s.s_EFB_PCache_Frame ∧ s2.m_initialized = s.m_initialized ∧
      (∀ a b, efb_p_cache_stride s2 a b = efb_p_cache_stride s a b) ∧
      s2.m_EFB_PCache.length = s.m_EFB_PCache.length ∧
      (type.isColor = false → colorSlots s2 = colorSlots s) ∧
      (type.isColor = true → depthSlots s2 = depthSlots s) := by
  have hel : s.m_EFB_PCache[efb_p_cache_stride s x y]? =
      some (s.m_EFB_PCache[efb_p_cache_stride s x y]) := List.getElem?_eq_getElem hi
  generalize s.m_EFB_PCache[efb_p_cache_stride s x y] = el at hel
  have hset : ∀ (r : Nat) (ev : Event),
      ∃ r2 s2, some (r,
        ({ s with
          pushed := s.pushed ++ [ev]
          m_EFB_PCache :=
            s.m_EFB_PCache.set (efb_p_cache_stride s x y)
              (stored type r ((s.s_EFB_PCache_Frame + s.m_EFB_PCache_Life) % 2 ^ 32)
                el) } : Backend)) = some (r2, s2) ∧
      s2.s_EFB_PCache_Frame = s.s_EFB_PCache_Frame ∧ s2.m_initialized = s.m_initialized ∧
      (∀ a b, efb_p_cache_stride s2 a b = efb_p_cache_stride s a b) ∧
      s2.m_EFB_PCache.length = s.m_EFB_PCache.length ∧
      (type.isColor = false → colorSlots s2 = colorSlots s) ∧
      (type.isColor = true → depthSlots s2 = depthSlots s) := by
    intro r ev
    refine ⟨_, _, rfl, rfl, rfl, fun _ _ => rfl, List.length_set _ _ _, fun h => ?_, fun h => ?_⟩
    · exact colorSlots_set _ _ _ _ _ _ hel h
    · exact depthSlots_set _ _ _ _ _ _ hel h
  have hsame : ∀ r : Nat, ∃ r2 s2, some (r, s) = some (r2, s2) ∧
      s2.s_EFB_PCache_Frame = s.s_EFB_PCache_Frame ∧ s2.m_initialized = s.m_initialized ∧
      (∀ a b, efb_p_cache_stride s2 a b = efb_p_cache_stride s a b) ∧
      s2.m_EFB_PCache.length = s.m_EFB_PCache.length ∧
      (type.isColor = false → colorSlots s2 = colorSlots s) ∧
      (type.isColor = true → depthSlots s2 = depthSlots s) :=
    fun r => ⟨r, s, rfl, rfl, rfl, fun _ _ => rfl, rfl, fun _ => rfl, fun _ => rfl⟩
  by_cases hty : type = EFBAccessType.POKE_COLOR ∨ type = EFBAccessType.POKE_Z
  · rw [access_poke cfg peeked type x y d s el hacc hfast hinit hty hel]
    exact hset d _
  · by_cases hc : type = EFBAccessType.PEEK_COLOR ∧ el.ColorFrame > s.s_EFB_PCache_Frame
    · rw [hc.1, access_hit_color cfg peeked x y d s el hacc hfast hinit hel hc.2]
      rw [hc.1] at hsame
      exact hsame _
    · by_cases hz : type = EFBAccessType.PEEK_Z ∧ el.DepthFrame > s.s_EFB_PCache_Frame
      · rw [hz.1, access_hit_depth cfg peeked x y d s el hacc hfast hinit hel hz.2]
        rw [hz.1] at hsame
        exact hsame _
      · rw [access_peek_miss cfg peeked type x y d s el hacc hfast hinit hty hel hc hz]
        exact hset peeked _

theorem access_isSome (cfg : Config) (peeked : Nat) (type : EFBAccessType) (x y d : Nat)
    (s : Backend) (hi : efb_p_cache_stride s x y < s.m_EFB_PCache.length) :
    (Video_AccessEFB cfg peeked type x y d s).isSome = true := by
  have hel : s.m_EFB_PCache[efb_p_cache_stride s x y]? =
      some (s.m_EFB_PCache[efb_p_cache_stride s x y]) := List.getElem?_eq_getElem hi
  generalize s.m_EFB_PCache[efb_p_cache_stride s x y] = el at hel
  unfold Video_AccessEFB Video_AccessEFB_peek Video_AccessEFB_store
  simp only [hel]
  split_ifs <;> rfl

theorem colorSlots_get (s : Backend) (i : Nat) (v f : Nat)
    (h : (colorSlots s)[i]? = some (v, f)) :
    ∃ el, s.m_EFB_PCache[i]? = some el ∧ el.ColorValue = v ∧ el.ColorFrame = f := by
  unfold colorSlots at h
  rw [List.getElem?_map] at h
  cases hel : s.m_EFB_PCache[i]? with
  | none => rw [hel] at h; cases h
  | some el =>
    rw [hel] at h
    simp only [Option.map_some'] at h
    injection h with h
    injection h with h1 h2
    exact ⟨el, rfl, h1, h2⟩

theorem depthSlots_get (s : Backend) (i : Nat) (v f : Nat)
    (h : (depthSlots s)[i]? = some (v, f)) :
    ∃ el, s.m_EFB_PCache[i]? = some el ∧ el.DepthValue = v ∧ el.DepthFrame = f := by
  unfold depthSlots at h
  rw [List.getElem?_map] at h
  cases hel : s.m_EFB_PCache[i]? with
  | none => rw [hel] at h; cases h
  | some el =>
    rw [hel] at h
    simp only [Option.map_some'] at h
    injection h with h
    injection h with h1 h2
    exact ⟨el, rfl, h1, h2⟩

theorem peek_color_hit (cfg : Config) (peeked : Nat) (x y inp v f : Nat) (s : Backend)
    (hacc : cfg.bEFBAccessEnable = true) (hfast : cfg.bEFBFastAccess = true)
    (hinit : s.m_initialized = true)
    (h : (colorSlots s)[efb_p_cache_stride s x y]? = some (v, f))
    (hf : f > s.s_EFB_PCache_Frame) :
    Video_AccessEFB cfg peeked EFBAccessType.PEEK_COLOR x y inp s = some (v, s) := by
  obtain ⟨el, hel, h1, h2⟩ := colorSlots_get s _ v f h
  rw [access_hit_color cfg peeked x y inp s el hacc hfast hinit hel (by rw [h2]; exact hf), h1]

theorem peek_depth_hit (cfg : Config) (peeked : Nat) (x y inp v f : Nat) (s : Backend)
    (hacc : cfg.bEFBAccessEnable = true) (hfast : cfg.bEFBFastAccess = true)
    (hinit : s.m_initialized = true)
    (h : (depthSlots s)[efb_p_cache_stride s x y]? = some (v, f))
    (hf : f > s.s_EFB_PCache_Frame) :
    Video_AccessEFB cfg peeked EFBAccessType.PEEK_Z x y inp s = some (v, s) := by
  obtain ⟨el, hel, h1, h2⟩ := depthSlots_get s _ v f h
  rw [access_hit_depth cfg peeked x y inp s el hacc hfast hinit hel (by rw [h2]; exact hf), h1]

theorem poke_facts (cfg : Config) (type : EFBAccessType) (x y d : Nat)
    (s : Backend) (hacc : cfg.bEFBAccessEnable = true) (hfast : cfg.bEFBFastAccess = true)
    (hinit : s.m_initialized = true)
    (hty : type = EFBAccessType.POKE_COLOR ∨ type = EFBAccessType.POKE_Z)
    (hi : efb_p_cache_stride s x y < s.m_EFB_PCache.length) :
    ∃ s1, (∀ p, Video_AccessEFB cfg p type x y d s = some (d, s1)) ∧
      s1.pushed = s.pushed ++ [accessEvent type x y d] ∧
      s1.s_EFB_PCache_Frame = s.s_EFB_PCache_Frame ∧ s1.m_initialized = s.m_initialized ∧
      (∀ a b, efb_p_cache_stride s1 a b = efb_p_cache_stride s a b) ∧
      s1.m_EFB_PCache.length = s.m_EFB_PCache.length ∧
      (type.isColor = false → colorSlots s1 = colorSlots s) ∧
      (type.isColor = true → depthSlots s1 = depthSlots s) ∧
      (type = EFBAccessType.POKE_COLOR → (colorSlots s1)[efb_p_cache_stride s x y]? =
        some (d, (s.s_EFB_PCache_Frame + s.m_EFB_PCache_Life) % 2 ^ 32)) ∧
      (type = EFBAccessType.POKE_Z → (depthSlots s1)[efb_p_cache_stride s x y]? =
        some (d, (s.s_EFB_PCache_Frame + s.m_EFB_PCache_Life) % 2 ^ 32)) := by
  have hel : s.m_EFB_PCache[efb_p_cache_stride s x y]? =
      some (s.m_EFB_PCache[efb_p_cache_stride s x y]) := List.getElem?_eq_getElem hi
  generalize s.m_EFB_PCache[efb_p_cache_stride s x y] = el at hel
  refine ⟨_, fun p => access_poke cfg p type x y d s el hacc hfast hinit hty hel, rfl, rfl, rfl,
    fun _ _ => rfl, List.length_set _ _ _, fun h => colorSlots_set _ _ _ _ _ _ hel h,
    fun h => depthSlots_set _ _ _ _ _ _ hel h, fun h => ?_, fun h => ?_⟩
  · subst h
    simp [colorSlots, stored, hi]
  · subst h
    simp [depthSlots, stored, hi]

theorem Constructed_backend640 : Constructed 640 528 backend640 :=
  ⟨rfl, rfl, rfl, rfl, rfl, by simp [backend640, InitializeShared]⟩

end MainBase

namespace Rasterizer

/-! ## The software rasterizer: blocks and pixels -/

theorem mask_eq_zero (b00 b10 b01 b11 : Bool) :
    mask b00 b10 b01 b11 = 0 ↔ (b00 = false ∧ b10 = false ∧ b01 = false ∧ b11 = false) := by
  cases b00 <;> cases b10 <;> cases b01 <;> cases b11 <;> decide

theorem mask_eq_full (b00 b10 b01 b11 : Bool) :
    mask b00 b10 b01 b11 = 0xF ↔ (b00 = true ∧ b10 = true ∧ b01 = true ∧ b11 = true) := by
  cases b00 <;> cases b10 <;> cases b01 <;> cases b11 <;> decide

theorem halfSpace_iff (e : Edges) (px py : Int) :
    halfSpace e px py = true ↔
      (e.C1 + e.DX12 * (py * 16) - e.DY12 * (px * 16) > 0 ∧
       e.C2 + e.DX23 * (py * 16) - e.DY23 * (px * 16) > 0 ∧
       e.C3 + e.DX31 * (py * 16) - e.DY31 * (px * 16) > 0) := by
  simp [halfSpace, and_assoc]

theorem partialRow_eq (e : Edges) (x y iy CY1 CY2 CY3 : Int)
    (h1 : CY1 = e.C1 + e.DX12 * ((y + iy) * 16) - e.DY12 * (x * 16))
    (h2 : CY2 = e.C2 + e.DX23 * ((y + iy) * 16) - e.DY23 * (x * 16))
    (h3 : CY3 = e.C3 + e.DX31 * ((y + iy) * 16) - e.DY31 * (x * 16)) :
    partialRow e x y iy 2 0 CY1 CY2 CY3 =
      [({ x := x + 0, y := y + iy, xi := 0, yi := iy } : DrawCall),
       { x := x + 1, y := y + iy, xi := 1, yi := iy }].filter fun d => halfSpace e d.x d.y := by
  have cA : (CY1 > 0 ∧ CY2 > 0 ∧ CY3 > 0) ↔ halfSpace e (x + 0) (y + iy) = true := by
    rw [halfSpace_iff, h1, h2, h3]
    constructor <;> rintro ⟨a, b, c⟩ <;> refine ⟨?_, ?_, ?_⟩ <;> linarith
  have cB : (CY1 - e.DY12 * 16 > 0 ∧ CY2 - e.DY23 * 16 > 0 ∧ CY3 - e.DY31 * 16 > 0) ↔
      halfSpace e (x + 1) (y + iy) = true := by
    rw [halfSpace_iff, h1, h2, h3]
    constructor <;> rintro ⟨a, b, c⟩ <;> refine ⟨?_, ?_, ?_⟩ <;> linarith
  rw [add_zero] at cA ⊢
  simp only [partialRow, cA, cB, List.filter_cons, List.filter_nil, zero_add, List.append_nil]
  by_cases hA : halfSpace e x (y + iy) = true <;>
    by_cases hB : halfSpace e (x + 1) (y + iy) = true <;> simp [hA, hB]

theorem partialRows_eq (e : Edges) (x y : Int) :
    partialRows e x y 2 0 (e.C1 + e.DX12 * (y * 16) - e.DY12 * (x * 16))
      (e.C2 + e.DX23 * (y * 16) - e.DY23 * (x * 16))
      (e.C3 + e.DX31 * (y * 16) - e.DY31 * (x * 16)) = perPixel e x y := by
  have hb : BLOCK_SIZE.toNat = 2 := rfl
  simp only [partialRows, hb, zero_add, List.append_nil]
  rw [partialRow_eq e x y 0 _ _ _ (by ring) (by ring) (by ring),
    partialRow_eq e x y 1 _ _ _ (by ring) (by ring) (by ring)]
  unfold perPixel fullBlock
  rw [← List.filter_append]
  rfl

end Rasterizer

namespace Rasterizer

theorem mem_blockRange (lo hi v : Int) (h : v ∈ blockRange lo hi) : lo ≤ v ∧ v + 1 ≤ hi := by
  unfold blockRange BLOCK_SIZE at h
  rw [List.mem_map] at h
  obtain ⟨k, hk, rfl⟩ := h
  rw [List.mem_range] at hk
  have hk2 : (k : Int) < ((hi - lo + 1) / 2).toNat := by exact_mod_cast hk
  have hpos : 0 < (hi - lo + 1) / 2 := by
    by_contra hneg
    rw [Int.toNat_of_nonpos (by omega)] at hk2
    omega
  rw [Int.toNat_of_nonneg (le_of_lt hpos)] at hk2
  omega

theorem drawBlock_subset (e : Edges) (x y : Int) (d : DrawCall) (h : d ∈ drawBlock e x y) :
    (d.x = x ∨ d.x = x + 1) ∧ (d.y = y ∨ d.y = y + 1) := by
  have hx1 : x + BLOCK_SIZE - 1 = x + 1 := by unfold BLOCK_SIZE; ring
  have hy1 : y + BLOCK_SIZE - 1 = y + 1 := by unfold BLOCK_SIZE; ring
  have hb : BLOCK_SIZE.toNat = 2 := rfl
  have hfull : ∀ d ∈ fullBlock x y, (d.x = x ∨ d.x = x + 1) ∧ (d.y = y ∨ d.y = y + 1) := by
    intro d hd
    simp only [fullBlock, List.mem_cons, List.mem_singleton, List.mem_nil_iff, or_false] at hd
    rcases hd with rfl | rfl | rfl | rfl <;> simp
  unfold drawBlock at h
  simp only [hx1, hy1, hb] at h
  split_ifs at h with hskip hall
  · cases h
  · exact hfull d h
  · rw [partialRows_eq] at h
    exact hfull d (List.mem_of_mem_filter h)

theorem mem_DrawTriangleFrontFace (sc : Scissor) (t : Triangle) (d : DrawCall)
    (h : d ∈ DrawTriangleFrontFace sc t) :
    sc.scissorLeft - 1 ≤ d.x ∧ d.x ≤ sc.scissorRight ∧
    sc.scissorTop - 1 ≤ d.y ∧ d.y ≤ sc.scissorBottom := by
  unfold DrawTriangleFrontFace at h
  dsimp only at h
  split_ifs at h with hempty
  · cases h
  · simp only [List.mem_flatten, List.mem_map] at h
    obtain ⟨row, ⟨y, hy, rfl⟩, hrow⟩ := h
    simp only [List.mem_flatten, List.mem_map] at hrow
    obtain ⟨blk, ⟨x, hx, rfl⟩, hd⟩ := hrow
    have hxr := mem_blockRange _ _ _ hx
    have hyr := mem_blockRange _ _ _ hy
    have hdb := drawBlock_subset _ _ _ _ hd
    unfold BLOCK_SIZE at hxr hyr
    have h1 := le_max_right ((min (min t.X1 t.X2) t.X3 + 0xF) / 16) sc.scissorLeft
    have h2 := min_le_right ((max (max t.X1 t.X2) t.X3 + 0xF) / 16) sc.scissorRight
    have h3 := le_max_right ((min (min t.Y1 t.Y2) t.Y3 + 0xF) / 16) sc.scissorTop
    have h4 := min_le_right ((max (max t.Y1 t.Y2) t.Y3 + 0xF) / 16) sc.scissorBottom
    omega

end Rasterizer

namespace VertexShaderManager

/-! ## Dirty ranges of the XF memory -/

theorem Invalidate_position (L : XFLayout) (start end_ : Int) (s : State) :
    (InvalidateXFRange L start end_ s).nTransformMatricesChanged =
      if start < L.XFMEM_POSMATRICES_END then
        if s.nTransformMatricesChanged.1 = -1 then
          (start, if end_ > L.XFMEM_POSMATRICES_END then L.XFMEM_POSMATRICES_END else end_)
        else
          (if s.nTransformMatricesChanged.1 > start then start
            else s.nTransformMatricesChanged.1,
           if s.nTransformMatricesChanged.2 < end_ then
              (if end_ > L.XFMEM_POSMATRICES_END then L.XFMEM_POSMATRICES_END else end_)
            else s.nTransformMatricesChanged.2)
      else s.nTransformMatricesChanged := by
  rfl

theorem Invalidate_normal (L : XFLayout) (start end_ : Int) (s : State) :
    (InvalidateXFRange L start end_ s).nNormalMatricesChanged =
      if start < L.XFMEM_NORMALMATRICES_END ∧ end_ > L.XFMEM_NORMALMATRICES then
        track s.nNormalMatricesChanged
          (if start < L.XFMEM_NORMALMATRICES then 0 else start - L.XFMEM_NORMALMATRICES)
          (if end_ < L.XFMEM_NORMALMATRICES_END then end_ - L.XFMEM_NORMALMATRICES
            else L.XFMEM_NORMALMATRICES_END - L.XFMEM_NORMALMATRICES)
      else s.nNormalMatricesChanged := by
  rfl

theorem Invalidate_post (L : XFLayout) (start end_ : Int) (s : State) :
    (InvalidateXFRange L start end_ s).nPostTransformMatricesChanged =
      if start < L.XFMEM_POSTMATRICES_END ∧ end_ > L.XFMEM_POSTMATRICES then
        track s.nPostTransformMatricesChanged
          (if start < L.XFMEM_POSTMATRICES then L.XFMEM_POSTMATRICES
            else start - L.XFMEM_POSTMATRICES)
          (if end_ < L.XFMEM_POSTMATRICES_END then end_ - L.XFMEM_POSTMATRICES
            else L.XFMEM_POSTMATRICES_END - L.XFMEM_POSTMATRICES)
      else s.nPostTransformMatricesChanged := by
  rfl

theorem Invalidate_lights (L : XFLayout) (start end_ : Int) (s : State) :
    (InvalidateXFRange L start end_ s).nLightsChanged =
      if start < L.XFMEM_LIGHTS_END ∧ end_ > L.XFMEM_LIGHTS then
        track s.nLightsChanged
          (if start < L.XFMEM_LIGHTS then L.XFMEM_LIGHTS else start - L.XFMEM_LIGHTS)
          (if end_ < L.XFMEM_LIGHTS_END then end_ - L.XFMEM_LIGHTS
            else L.XFMEM_LIGHTS_END - L.XFMEM_LIGHTS)
      else s.nLightsChanged := by
  rfl

theorem covers_iff (rbegin rend start end_ : Int) (c : Int × Int) :
    covers rbegin rend start end_ c = true ↔
      (0 ≤ c.1 ∧ c.1 ≤ max start rbegin - rbegin ∧ min end_ rend - rbegin ≤ c.2 ∧
        c.2 ≤ rend - rbegin) := by
  simp [covers, and_assoc]

theorem rangeOk_iff (size : Int) (c : Int × Int) :
    rangeOk size c = true ↔ (c.1 = -1 ∨ (0 ≤ c.1 ∧ c.2 ≤ size)) := by
  simp [rangeOk]

/-- The tracked pair after `track` with an offset `_start` that is at most the
offset of the first invalidated word and an `_end` that is the offset of the
end of the overlap. -/
theorem track_covers (rbegin rend start end_ : Int) (c : Int × Int) (_start _end : Int)
    (hok : rangeOk (rend - rbegin) c = true)
    (hs0 : 0 ≤ _start) (hs : _start ≤ max start rbegin - rbegin)
    (he : _end = min end_ rend - rbegin) (hle : _end ≤ rend - rbegin) :
    covers rbegin rend start end_ (track c _start _end) = true := by
  rw [covers_iff]
  rw [rangeOk_iff] at hok
  unfold track
  split_ifs with h1 <;> dsimp only <;> omega

theorem position_covers (L : XFLayout) (start end_ : Int) (s : State) (h0 : 0 ≤ start)
    (hin : start < L.XFMEM_POSMATRICES_END)
    (hok : rangeOk L.XFMEM_POSMATRICES_END s.nTransformMatricesChanged = true) :
    covers 0 L.XFMEM_POSMATRICES_END start end_
      (InvalidateXFRange L start end_ s).nTransformMatricesChanged = true := by
  rw [Invalidate_position, covers_iff, if_pos hin]
  rw [rangeOk_iff] at hok
  simp only [min_def, max_def]
  split_ifs <;> dsimp only <;> omega

theorem region_covers (rbegin rend start end_ : Int) (c : Int × Int)
    (hok : rangeOk (rend - rbegin) c = true) :
    covers rbegin rend start end_
      (track c (if start < rbegin then 0 else start - rbegin)
        (if end_ < rend then end_ - rbegin else rend - rbegin)) = true := by
  apply track_covers rbegin rend start end_ c _ _ hok
  · split_ifs <;> omega
  · simp only [max_def]
    split_ifs <;> omega
  · simp only [min_def]
    split_ifs <;> omega
  · split_ifs <;> omega

end VertexShaderManager

/-! ## Claims -/

namespace DX11

/-- C2, counterexample: in a debug build with shader debugging on, a GPU-thread
`PrepareShader` call for a key that was replayed from disk runs the source
generator once, so "runs no source generation" fails as stated. -/
theorem C2_generation_in_debug_build :
    generated (VertexShaderCache.PrepareShader envDebug 7 true []
        (VertexShaderCache.InsertByteCode envDebug 7 [1] {})) 7 = 1 ∧
    generated (VertexShaderCache.InsertByteCode envDebug 7 [1] {}) 7 = 0 := by
  decide

/-- C2, amended: after `InsertByteCode` has replayed a record for `K`, every later
sequence of `PrepareShader` calls (any uids, either role, no `Clear`) submits no
work unit for `K` and leaves the entry for `K` compiled, in both DX11 caches; the
source generator runs for `K` exactly once per GPU-thread call for `K` when the
build is a debug build with shader debugging on, and never otherwise. -/
theorem C2_replayed_key_never_recompiled (env : Env) (K : Uid) (bytecode : ByteCode)
    (calls : List Call) (s : Cache) :
    (submitted (VertexShaderCache.run env calls (VertexShaderCache.InsertByteCode env K bytecode s)) K
        = submitted (VertexShaderCache.InsertByteCode env K bytecode s) K ∧
      compiledAt (VertexShaderCache.run env calls
        (VertexShaderCache.InsertByteCode env K bytecode s)) K = true ∧
      generated (VertexShaderCache.run env calls
        (VertexShaderCache.InsertByteCode env K bytecode s)) K
        = generated (VertexShaderCache.InsertByteCode env K bytecode s) K +
          (if (env.DEBUG && env.bEnableShaderDebugging) = true then gpuCallsFor calls K else 0)) ∧
    (submitted (GeometryShaderCache.run env calls
        (GeometryShaderCache.InsertByteCode env K bytecode s)) K
        = submitted (GeometryShaderCache.InsertByteCode env K bytecode s) K ∧
      compiledAt (GeometryShaderCache.run env calls
        (GeometryShaderCache.InsertByteCode env K bytecode s)) K = true ∧
      generated (GeometryShaderCache.run env calls
        (GeometryShaderCache.InsertByteCode env K bytecode s)) K
        = generated (GeometryShaderCache.InsertByteCode env K bytecode s) K +
          (if (env.DEBUG && env.bEnableShaderDebugging) = true then gpuCallsFor calls K else 0)) := by
  have hv1 : claimed (VertexShaderCache.InsertByteCode env K bytecode s) K = true := by
    simp [claimed, vs_InsertByteCode_find]
  have hv2 : compiledAt (VertexShaderCache.InsertByteCode env K bytecode s) K = true := by
    simp [compiledAt, vs_InsertByteCode_find]
  have hg1 : claimed (GeometryShaderCache.InsertByteCode env K bytecode s) K = true := by
    simp [claimed, gs_InsertByteCode_find]
  have hg2 : compiledAt (GeometryShaderCache.InsertByteCode env K bytecode s) K = true := by
    simp [compiledAt, gs_InsertByteCode_find]
  rw [vs_run_eq, gs_run_eq]
  have a := runCore_claimed (vs_handlerFrame env) (fun _ => false)
    (env.DEBUG && env.bEnableShaderDebugging) calls _ K hv1
  have b := runCore_compiled (vs_handlerFrame env) (fun _ => false)
    (env.DEBUG && env.bEnableShaderDebugging) calls _ K hv2
  have c := runCore_claimed (gs_handlerFrame env) env.IsPassthrough
    (env.DEBUG && env.bEnableShaderDebugging) calls _ K hg1
  have d := runCore_compiled (gs_handlerFrame env) env.IsPassthrough
    (env.DEBUG && env.bEnableShaderDebugging) calls _ K hg2
  exact ⟨⟨a.2.1, b, a.2.2⟩, ⟨c.2.1, d, c.2.2⟩⟩

end DX11

namespace DX11

/-- C1 (the claim fails): after `Clear` the table holds no entry for uid `5`, yet
two background `PrepareShader` calls for `5` submit nothing and insert nothing,
because `Clear` has reset `s_last_entry` but not `s_external_last_uid`, which
still equals `5`. A GPU-thread call in the same state inserts the entry and
submits one unit. The geometry cache behaves the same. -/
theorem C1_stale_background_slot :
    present vsAfterClear 5 = false ∧
    vsAfterClear.s_external_last_uid = 5 ∧ vsAfterClear.s_last_entry = none ∧
    submitted (VertexShaderCache.run envRelease
      [{ uid := 5, ongputhread := false, done := [] },
       { uid := 5, ongputhread := false, done := [] }] vsAfterClear) 5
      = submitted vsAfterClear 5 ∧
    present (VertexShaderCache.run envRelease
      [{ uid := 5, ongputhread := false, done := [] },
       { uid := 5, ongputhread := false, done := [] }] vsAfterClear) 5 = false ∧
    submitted (VertexShaderCache.run envRelease
      [{ uid := 5, ongputhread := true, done := [] }] vsAfterClear) 5
      = submitted vsAfterClear 5 + 1 ∧
    present (VertexShaderCache.run envRelease
      [{ uid := 5, ongputhread := true, done := [] }] vsAfterClear) 5 = true ∧
    present (GeometryShaderCache.Clear gsBeforeClear) 5 = false ∧
    submitted (GeometryShaderCache.run envRelease
      [{ uid := 5, ongputhread := false, done := [] },
       { uid := 5, ongputhread := false, done := [] }] (GeometryShaderCache.Clear gsBeforeClear)) 5
      = submitted (GeometryShaderCache.Clear gsBeforeClear) 5 := by
  decide

/-- C1, away from the stale background slot: let the table hold no entry for `K`,
let the GPU-thread last-used slot be usable, and let the background last-used
key differ from `K` unless the first call comes from the GPU thread. Then every
non-empty sequence of `PrepareShader` calls for `K` (either role, polls in
between, no `Clear`) submits exactly one work unit for `K` in the vertex cache
and, for `K` not pass-through, in the geometry cache; after every call the table
is the old one plus the single entry under `K`, that entry is claimed, and after
every GPU-thread call `s_last_entry` points to it. -/
theorem C1_exactly_one_submission (env : Env) (K : Uid) (calls : List Call) (s : Cache)
    (hne : calls ≠ []) (hall : ∀ c ∈ calls, c.uid = K) (habs : present s K = false)
    (hext : s.s_external_last_uid ≠ K ∨ calls.head?.map Call.ongputhread = some true) :
    (lastEntryValid (fun _ => false) s = true →
      submitted (VertexShaderCache.run env calls s) K = submitted s K + 1 ∧
      ∀ pre c post, calls = pre ++ c :: post →
        (VertexShaderCache.run env (pre ++ [c]) s).shaders.keys = K :: s.shaders.keys ∧
        claimed (VertexShaderCache.run env (pre ++ [c]) s) K = true ∧
        (c.ongputhread = true →
          (VertexShaderCache.run env (pre ++ [c]) s).s_last_entry = some (EntryRef.table K))) ∧
    (lastEntryValid env.IsPassthrough s = true → env.IsPassthrough K = false →
      submitted (GeometryShaderCache.run env calls s) K = submitted s K + 1 ∧
      ∀ pre c post, calls = pre ++ c :: post →
        (GeometryShaderCache.run env (pre ++ [c]) s).shaders.keys = K :: s.shaders.keys ∧
        claimed (GeometryShaderCache.run env (pre ++ [c]) s) K = true ∧
        (c.ongputhread = true →
          (GeometryShaderCache.run env (pre ++ [c]) s).s_last_entry
            = some (EntryRef.table K))) := by
  have hext2 : ∀ c, calls.head? = some c → c.ongputhread = false →
      s.s_external_last_uid ≠ K := by
    intro c hc hg
    rcases hext with h1 | h1
    · exact h1
    · rw [hc] at h1
      simp only [Option.map_some', Option.some.injEq] at h1
      rw [hg] at h1
      exact absurd h1 (by simp)
  rw [vs_run_eq, gs_run_eq]
  exact ⟨fun hv => runCore_exactly_one (vs_handlerFrame env) _ _ K calls s
      hne hall habs hv rfl hext2,
    fun hv hp => runCore_exactly_one (gs_handlerFrame env) _ _ K calls s
      hne hall habs hv hp hext2⟩

/-- C1, witness: three calls for uid `5` (GPU thread, background, GPU thread) on the
freshly initialised caches submit one unit in each cache. -/
theorem C1_exactly_one_submission_witness :
    submitted (VertexShaderCache.run envRelease callsFor5 {}) 5 = submitted {} 5 + 1 ∧
    submitted (GeometryShaderCache.run envRelease callsFor5 {}) 5 = submitted {} 5 + 1 :=
  ⟨((C1_exactly_one_submission envRelease 5 callsFor5 {} (by decide) (by decide) (by decide)
      (by decide)).1 (by decide)).1,
   ((C1_exactly_one_submission envRelease 5 callsFor5 {} (by decide) (by decide) (by decide)
      (by decide)).2 (by decide) (by decide)).1⟩

end DX11

namespace DX11

/-- C3: when the unit in flight for `K2` is handed back with a failed compile
result (possibly together with further completions of the same poll), the entry
for `K2` is not compiled, and after every later sequence of `PrepareShader` calls
(any uids, either role, no `Clear`) it is still not compiled and no further unit
has been submitted for `K2`, in both DX11 caches. -/
theorem C3_failed_compile_is_permanent (env : Env) (K2 : Uid) (s : Cache) (idx : Nat)
    (error : ByteCode) (rest : List Completion) (calls : List Call)
    (hq : queueValid s = true) (hidx : s.s_compiler.get? idx = some { uid := K2 }) :
    (compiledAt (ProcCompilationResults (VertexShaderCache.ResultHandler env)
        ({ idx := idx, cresult := CompileResult.failed error } :: rest) s) K2 = false ∧
      compiledAt (VertexShaderCache.run env calls
        (ProcCompilationResults (VertexShaderCache.ResultHandler env)
          ({ idx := idx, cresult := CompileResult.failed error } :: rest) s)) K2 = false ∧
      submitted (VertexShaderCache.run env calls
        (ProcCompilationResults (VertexShaderCache.ResultHandler env)
          ({ idx := idx, cresult := CompileResult.failed error } :: rest) s)) K2
        = submitted s K2) ∧
    (compiledAt (ProcCompilationResults (GeometryShaderCache.ResultHandler env)
        ({ idx := idx, cresult := CompileResult.failed error } :: rest) s) K2 = false ∧
      compiledAt (GeometryShaderCache.run env calls
        (ProcCompilationResults (GeometryShaderCache.ResultHandler env)
          ({ idx := idx, cresult := CompileResult.failed error } :: rest) s)) K2 = false ∧
      submitted (GeometryShaderCache.run env calls
        (ProcCompilationResults (GeometryShaderCache.ResultHandler env)
          ({ idx := idx, cresult := CompileResult.failed error } :: rest) s)) K2
        = submitted s K2) := by
  have hv := Proc_failed (vs_handlerFrame env) K2 s idx error rest hq hidx
  have hg := Proc_failed (gs_handlerFrame env) K2 s idx error rest hq hidx
  have rv := runCore_failed_forever (vs_handlerFrame env) (fun _ => false)
    (env.DEBUG && env.bEnableShaderDebugging) K2 calls _ hv.1 hv.2.1 hv.2.2.1
  have rg := runCore_failed_forever (gs_handlerFrame env) env.IsPassthrough
    (env.DEBUG && env.bEnableShaderDebugging) K2 calls _ hg.1 hg.2.1 hg.2.2.1
  rw [vs_run_eq, gs_run_eq]
  exact ⟨⟨hv.2.1, rv.1, by rw [rv.2, hv.2.2.2]⟩, ⟨hg.2.1, rg.1, by rw [rg.2, hg.2.2.2]⟩⟩

/-- C3, witness: the unit of uid `5` fails; three later calls for `5` leave the
entry uncompiled and the submission count at one. -/
theorem C3_failed_compile_is_permanent_witness :
    queueValid oneInFlight = true ∧ submitted oneInFlight 5 = 1 ∧
    compiledAt (VertexShaderCache.run envRelease callsFor5
      (ProcCompilationResults (VertexShaderCache.ResultHandler envRelease)
        [{ idx := 0, cresult := CompileResult.failed [] }] oneInFlight)) 5 = false ∧
    submitted (VertexShaderCache.run envRelease callsFor5
      (ProcCompilationResults (VertexShaderCache.ResultHandler envRelease)
        [{ idx := 0, cresult := CompileResult.failed [] }] oneInFlight)) 5
      = submitted oneInFlight 5 :=
  ⟨by decide, by decide,
   (C3_failed_compile_is_permanent envRelease 5 oneInFlight 0 [] [] callsFor5
      (by decide) (by decide)).1.2.1,
   (C3_failed_compile_is_permanent envRelease 5 oneInFlight 0 [] [] callsFor5
      (by decide) (by decide)).1.2.2⟩

end DX11

namespace DX11

/-- C4, the code at the failing input: `Clear` does not reset
`s_external_last_uid`, so a background `PrepareShader` for the uid the background
role used last returns on its fast path and leaves the cleared cache as it is, in
both caches and for every state. Concretely, uid `5` was compiled before the
`Clear` and was the last uid of both roles; the first background call for `5`
after the `Clear` inserts no entry and submits nothing, whereas a GPU-thread call
inserts the entry and submits one unit. -/
theorem C4_background_call_after_clear_does_nothing :
    (∀ (env : Env) (done : List Completion) (s : Cache),
      VertexShaderCache.PrepareShader env s.s_external_last_uid false done
          (VertexShaderCache.Clear s) = VertexShaderCache.Clear s ∧
      GeometryShaderCache.PrepareShader env s.s_external_last_uid false done
          (GeometryShaderCache.Clear s) = GeometryShaderCache.Clear s) ∧
    (compiledAt vsBeforeClear 5 = true ∧ vsBeforeClear.s_external_last_uid = 5 ∧
      vsBeforeClear.s_last_uid = 5 ∧ vsBeforeClear.s_compiler = [] ∧
      (VertexShaderCache.PrepareShader envRelease 5 false []
        (VertexShaderCache.Clear vsBeforeClear)).shaders = [] ∧
      submitted (VertexShaderCache.PrepareShader envRelease 5 false []
        (VertexShaderCache.Clear vsBeforeClear)) 5
        = submitted (VertexShaderCache.Clear vsBeforeClear) 5 ∧
      submitted (VertexShaderCache.PrepareShader envRelease 5 true []
        (VertexShaderCache.Clear vsBeforeClear)) 5
        = submitted (VertexShaderCache.Clear vsBeforeClear) 5 + 1) ∧
    (compiledAt gsBeforeClear 5 = true ∧ gsBeforeClear.s_external_last_uid = 5 ∧
      gsBeforeClear.s_last_uid = 5 ∧ gsBeforeClear.s_compiler = [] ∧
      (GeometryShaderCache.PrepareShader envRelease 5 false []
        (GeometryShaderCache.Clear gsBeforeClear)).shaders = [] ∧
      submitted (GeometryShaderCache.PrepareShader envRelease 5 false []
        (GeometryShaderCache.Clear gsBeforeClear)) 5
        = submitted (GeometryShaderCache.Clear gsBeforeClear) 5 ∧
      submitted (GeometryShaderCache.PrepareShader envRelease 5 true []
        (GeometryShaderCache.Clear gsBeforeClear)) 5
        = submitted (GeometryShaderCache.Clear gsBeforeClear) 5 + 1) := by
  refine ⟨fun env done s => ⟨?_, ?_⟩, by decide, by decide⟩
  · simp [VertexShaderCache.PrepareShader, VertexShaderCache.Clear]
  · simp [GeometryShaderCache.PrepareShader, GeometryShaderCache.Clear]

/-- C5, the code at the failing input: uid `1` is pass-through. A background
`PrepareShader` call for it on the freshly initialised geometry cache inserts an
entry under uid `1` and submits one work unit, whereas the GPU-thread call
inserts nothing, submits nothing and sets `s_last_entry` to the sentinel. -/
theorem C5_background_call_compiles_passthrough :
    envRelease.IsPassthrough 1 = true ∧
    (GeometryShaderCache.Init envRelease [] {}).shaders = [] ∧
    (GeometryShaderCache.PrepareShader envRelease 1 false []
      (GeometryShaderCache.Init envRelease [] {})).shaders = [(1, { initialized := true })] ∧
    submitted (GeometryShaderCache.PrepareShader envRelease 1 false []
      (GeometryShaderCache.Init envRelease [] {})) 1 = 1 ∧
    (GeometryShaderCache.PrepareShader envRelease 1 true []
      (GeometryShaderCache.Init envRelease [] {})).shaders = [] ∧
    submitted (GeometryShaderCache.PrepareShader envRelease 1 true []
      (GeometryShaderCache.Init envRelease [] {})) 1 = 0 ∧
    (GeometryShaderCache.PrepareShader envRelease 1 true []
      (GeometryShaderCache.Init envRelease [] {})).s_last_entry = some EntryRef.pass := by
  decide

end DX11

namespace DX11

/-- C6, counterexample: the record stream carries uid `5` twice; after the replay
the entry holds the shader created from the second record, not from the first,
and `CreateVertexShaderFromByteCode` ran for both records. -/
theorem C6_duplicate_record_overwrites :
    firstRecord duplicateRecords 5 = some [1] ∧
    shaderAt (VertexShaderCache.OpenAndRead envRelease duplicateRecords
      (VertexShaderCache.Clear {})) 5 = envRelease.CreateShaderFromByteCode [2] ∧
    envRelease.CreateShaderFromByteCode [2] ≠ envRelease.CreateShaderFromByteCode [1] ∧
    created (VertexShaderCache.OpenAndRead envRelease duplicateRecords
      (VertexShaderCache.Clear {})) 5 = [[1], [2]] := by
  decide

/-- C6, amended: disk replay is last-match-wins. In the DX11 vertex and geometry
caches the entry for `K` after the replay holds the shader created from the last
record that carries `K`, and the creation step ran once for every record that
carries `K`. In the OpenGL cache a program is created for every record, and the
entry for `K` is the one built from the last record for `K` whose binary links. -/
theorem C6_replay_is_last_match_wins (env : Env) (drv : OGL.Driver)
    (records : List (Uid × ByteCode)) (glrecords : List (Uid × List Nat)) (K : Uid)
    (s : Cache) (t : OGL.State) :
    (shaderAt (VertexShaderCache.OpenAndRead env records s) K =
        (match lastRecord records K with
          | some b => env.CreateShaderFromByteCode b
          | none => shaderAt s K) ∧
      created (VertexShaderCache.OpenAndRead env records s) K
        = created s K ++ recordsFor records K) ∧
    (shaderAt (GeometryShaderCache.OpenAndRead env records s) K =
        (match lastRecord records K with
          | some b => env.CreateShaderFromByteCode b
          | none => shaderAt s K) ∧
      created (GeometryShaderCache.OpenAndRead env records s) K
        = created s K ++ recordsFor records K) ∧
    ((OGL.OpenAndRead drv glrecords t).pshaders.find K =
        (match OGL.lastLinking drv K glrecords with
          | some j => some { shader := { glprogid := t.gl.nextName + j }, in_cache := 1 }
          | none => t.pshaders.find K) ∧
      (OGL.OpenAndRead drv glrecords t).gl.nextName = t.gl.nextName + glrecords.length) := by
  have hv := vs_OpenAndRead_spec env records s K
  have hg := gs_OpenAndRead_spec env records s K
  exact ⟨⟨hv.1, hv.2.2.2⟩, ⟨hg.1, hg.2.2.2⟩,
    ⟨OGL.OpenAndRead_find drv glrecords t K, OGL.OpenAndRead_nextName drv glrecords t⟩⟩

/-- C7: after the replay of a record stream into a cleared table, the table of
either DX11 cache holds as many entries as the stream has distinct keys, and
exactly one entry for every key of the stream (none for any other key). -/
theorem C7_one_entry_per_distinct_key (env : Env) (records : List (Uid × ByteCode))
    (K : Uid) (s : Cache) :
    ((VertexShaderCache.OpenAndRead env records (VertexShaderCache.Clear s)).shaders.length
        = (records.map Prod.fst).dedup.length ∧
      (VertexShaderCache.OpenAndRead env records (VertexShaderCache.Clear s)).shaders.keys.count K
        = if K ∈ records.map Prod.fst then 1 else 0) ∧
    ((GeometryShaderCache.OpenAndRead env records (GeometryShaderCache.Clear s)).shaders.length
        = (records.map Prod.fst).dedup.length ∧
      (GeometryShaderCache.OpenAndRead env records
          (GeometryShaderCache.Clear s)).shaders.keys.count K
        = if K ∈ records.map Prod.fst then 1 else 0) := by
  have hv := vs_OpenAndRead_keys env records s
  have hg := gs_OpenAndRead_keys env records s
  refine ⟨⟨?_, keys_count_of_nodup _ _ hv.1 hv.2 K⟩, ⟨?_, keys_count_of_nodup _ _ hg.1 hg.2 K⟩⟩
  · have := nodup_length_eq_dedup _ _ hv.1 hv.2
    simpa [Table.keys] using this
  · have := nodup_length_eq_dedup _ _ hg.1 hg.2
    simpa [Table.keys] using this

/-- C8, counterexample: the bytecode of the record for uid `5` yields no shader
object; the replay nevertheless leaves an entry for `5` that is claimed and
compiled with a null shader, and a later GPU-thread `PrepareShader` for `5`
submits nothing. -/
theorem C8_bad_record_is_not_skipped :
    envRelease.CreateShaderFromByteCode [] = none ∧
    claimed (VertexShaderCache.OpenAndRead envRelease badThenGood
      (VertexShaderCache.Clear {})) 5 = true ∧
    compiledAt (VertexShaderCache.OpenAndRead envRelease badThenGood
      (VertexShaderCache.Clear {})) 5 = true ∧
    shaderAt (VertexShaderCache.OpenAndRead envRelease badThenGood
      (VertexShaderCache.Clear {})) 5 = none ∧
    submitted (VertexShaderCache.PrepareShader envRelease 5 true []
      (VertexShaderCache.OpenAndRead envRelease badThenGood (VertexShaderCache.Clear {}))) 5 = 0 := by
  decide

/-- C8, amended: a replayed record whose bytecode yields no shader object is not
skipped. When it is the last record for `K`, the replay leaves in either DX11
cache an entry for `K` that is claimed and has `compiled == true` with a null
shader, no later sequence of `PrepareShader` calls submits a compile for `K`, and
every record of the stream, before or after the bad one, has been replayed into
a compiled entry. -/
theorem C8_bad_record_leaves_compiled_null_entry (env : Env)
    (records : List (Uid × ByteCode)) (K : Uid) (b : ByteCode) (calls : List Call) (s : Cache)
    (hlast : lastRecord records K = some b) (hnull : env.CreateShaderFromByteCode b = none) :
    (claimed (VertexShaderCache.OpenAndRead env records s) K = true ∧
      compiledAt (VertexShaderCache.OpenAndRead env records s) K = true ∧
      shaderAt (VertexShaderCache.OpenAndRead env records s) K = none ∧
      submitted (VertexShaderCache.run env calls (VertexShaderCache.OpenAndRead env records s)) K
        = submitted (VertexShaderCache.OpenAndRead env records s) K ∧
      ∀ r ∈ records, compiledAt (VertexShaderCache.OpenAndRead env records s) r.1 = true) ∧
    (claimed (GeometryShaderCache.OpenAndRead env records s) K = true ∧
      compiledAt (GeometryShaderCache.OpenAndRead env records s) K = true ∧
      shaderAt (GeometryShaderCache.OpenAndRead env records s) K = none ∧
      submitted (GeometryShaderCache.run env calls
          (GeometryShaderCache.OpenAndRead env records s)) K
        = submitted (GeometryShaderCache.OpenAndRead env records s) K ∧
      ∀ r ∈ records, compiledAt (GeometryShaderCache.OpenAndRead env records s) r.1 = true) := by
  have hv := vs_OpenAndRead_spec env records s K
  have hg := gs_OpenAndRead_spec env records s K
  rw [hlast] at hv hg
  have hvc : claimed (VertexShaderCache.OpenAndRead env records s) K = true := hv.2.2.1
  have hgc : claimed (GeometryShaderCache.OpenAndRead env records s) K = true := hg.2.2.1
  have rv := runCore_claimed (vs_handlerFrame env) (fun _ => false)
    (env.DEBUG && env.bEnableShaderDebugging) calls _ K hvc
  have rg := runCore_claimed (gs_handlerFrame env) env.IsPassthrough
    (env.DEBUG && env.bEnableShaderDebugging) calls _ K hgc
  rw [vs_run_eq, gs_run_eq]
  refine ⟨⟨hvc, hv.2.1, by rw [hv.1]; exact hnull, rv.2.1, ?_⟩,
    ⟨hgc, hg.2.1, by rw [hg.1]; exact hnull, rg.2.1, ?_⟩⟩
  · intro r hr
    have h1 := (vs_OpenAndRead_spec env records s r.1).2.1
    have h2 := lastRecord_isSome_of_mem records r hr
    cases hl : lastRecord records r.1 with
    | none => rw [hl] at h2; exact absurd h2 (by simp)
    | some b2 => rw [hl] at h1; exact h1
  · intro r hr
    have h1 := (gs_OpenAndRead_spec env records s r.1).2.1
    have h2 := lastRecord_isSome_of_mem records r hr
    cases hl : lastRecord records r.1 with
    | none => rw [hl] at h2; exact absurd h2 (by simp)
    | some b2 => rw [hl] at h1; exact h1

/-- C8, witness: the stream `badThenGood` replayed into a fresh cache, followed by
three calls for uid `5`. -/
theorem C8_bad_record_leaves_compiled_null_entry_witness :
    lastRecord badThenGood 5 = some [] ∧ envRelease.CreateShaderFromByteCode [] = none ∧
    compiledAt (VertexShaderCache.OpenAndRead envRelease badThenGood {}) 5 = true ∧
    shaderAt (GeometryShaderCache.OpenAndRead envRelease badThenGood {}) 5 = none :=
  ⟨by decide, by decide,
   (C8_bad_record_leaves_compiled_null_entry envRelease badThenGood 5 [] callsFor5 {}
      (by decide) (by decide)).1.2.1,
   (C8_bad_record_leaves_compiled_null_entry envRelease badThenGood 5 [] callsFor5 {}
      (by decide) (by decide)).2.2.2.1⟩

/-- C10, Scenario A: for a key `K1` with no entry, the first GPU-thread
`PrepareShader` submits one unit, which is the newest unit in flight, and leaves
the entry not compiled; when the poll hands that unit back with a successful
result, the disk cache has been appended with `(K1, bytecode)` and the entry is
compiled, and it stays compiled over the next GPU-thread call for `K1`. Holds in
the vertex cache and, for `K1` not pass-through, in the geometry cache, from every
state whose GPU-thread last-used slot is usable. -/
theorem C10_scenario_A (env : Env) (K1 : Uid) (bytecode : ByteCode)
    (done done2 : List Completion) (s : Cache) (habs : present s K1 = false) :
    (lastEntryValid (fun _ => false) s = true →
      submitted (VertexShaderCache.PrepareShader env K1 true done s) K1 = submitted s K1 + 1 ∧
      compiledAt (VertexShaderCache.PrepareShader env K1 true done s) K1 = false ∧
      (VertexShaderCache.PrepareShader env K1 true done s).s_compiler.getLast?
        = some { uid := K1 } ∧
      (ProcCompilationResults (VertexShaderCache.ResultHandler env)
        [{ idx := (VertexShaderCache.PrepareShader env K1 true done s).s_compiler.length - 1,
           cresult := CompileResult.succeeded bytecode }]
        (VertexShaderCache.PrepareShader env K1 true done s)).disk_cache
        = (VertexShaderCache.PrepareShader env K1 true done s).disk_cache ++ [(K1, bytecode)] ∧
      compiledAt (ProcCompilationResults (VertexShaderCache.ResultHandler env)
        [{ idx := (VertexShaderCache.PrepareShader env K1 true done s).s_compiler.length - 1,
           cresult := CompileResult.succeeded bytecode }]
        (VertexShaderCache.PrepareShader env K1 true done s)) K1 = true ∧
      compiledAt (VertexShaderCache.PrepareShader env K1 true done2
        (ProcCompilationResults (VertexShaderCache.ResultHandler env)
          [{ idx := (VertexShaderCache.PrepareShader env K1 true done s).s_compiler.length - 1,
             cresult := CompileResult.succeeded bytecode }]
          (VertexShaderCache.PrepareShader env K1 true done s))) K1 = true) ∧
    (lastEntryValid env.IsPassthrough s = true → env.IsPassthrough K1 = false →
      submitted (GeometryShaderCache.PrepareShader env K1 true done s) K1 = submitted s K1 + 1 ∧
      compiledAt (GeometryShaderCache.PrepareShader env K1 true done s) K1 = false ∧
      (GeometryShaderCache.PrepareShader env K1 true done s).s_compiler.getLast?
        = some { uid := K1 } ∧
      (ProcCompilationResults (GeometryShaderCache.ResultHandler env)
        [{ idx := (GeometryShaderCache.PrepareShader env K1 true done s).s_compiler.length - 1,
           cresult := CompileResult.succeeded bytecode }]
        (GeometryShaderCache.PrepareShader env K1 true done s)).disk_cache
        = (GeometryShaderCache.PrepareShader env K1 true done s).disk_cache ++ [(K1, bytecode)] ∧
      compiledAt (ProcCompilationResults (GeometryShaderCache.ResultHandler env)
        [{ idx := (GeometryShaderCache.PrepareShader env K1 true done s).s_compiler.length - 1,
           cresult := CompileResult.succeeded bytecode }]
        (GeometryShaderCache.PrepareShader env K1 true done s)) K1 = true ∧
      compiledAt (GeometryShaderCache.PrepareShader env K1 true done2
        (ProcCompilationResults (GeometryShaderCache.ResultHandler env)
          [{ idx := (GeometryShaderCache.PrepareShader env K1 true done s).s_compiler.length - 1,
             cresult := CompileResult.succeeded bytecode }]
          (GeometryShaderCache.PrepareShader env K1 true done s))) K1 = true) := by
  rw [vs_PrepareShader_eq, gs_PrepareShader_eq]
  constructor
  · intro hv
    have hf := step_first (vs_handlerFrame env) (fun _ => false)
      (env.DEBUG && env.bEnableShaderDebugging) K1 true done s habs hv rfl (by simp)
    have hs := Proc_succeeded (vs_handlerFrame env) K1 _ bytecode hf.2.2.2.2.1
    have hp := claimed_le_present _ _ hf.2.1
    have hc : compiledAt (ProcCompilationResults (VertexShaderCache.ResultHandler env)
        [{ idx := (prepareCore (VertexShaderCache.ResultHandler env) (fun _ => false)
              (env.DEBUG && env.bEnableShaderDebugging) K1 true done s).s_compiler.length - 1,
           cresult := CompileResult.succeeded bytecode }]
        (prepareCore (VertexShaderCache.ResultHandler env) (fun _ => false)
          (env.DEBUG && env.bEnableShaderDebugging) K1 true done s)) K1 = true := by
      rw [hs.2, hp]
    exact ⟨hf.1, hf.2.2.1, hf.2.2.2.2.1, hs.1, hc,
      step_compiled_mono (vs_handlerFrame env) _ _ K1 true done2 _ K1 hc⟩
  · intro hv hpass
    have hf := step_first (gs_handlerFrame env) env.IsPassthrough
      (env.DEBUG && env.bEnableShaderDebugging) K1 true done s habs hv hpass (by simp)
    have hs := Proc_succeeded (gs_handlerFrame env) K1 _ bytecode hf.2.2.2.2.1
    have hp := claimed_le_present _ _ hf.2.1
    have hc : compiledAt (ProcCompilationResults (GeometryShaderCache.ResultHandler env)
        [{ idx := (prepareCore (GeometryShaderCache.ResultHandler env) env.IsPassthrough
              (env.DEBUG && env.bEnableShaderDebugging) K1 true done s).s_compiler.length - 1,
           cresult := CompileResult.succeeded bytecode }]
        (prepareCore (GeometryShaderCache.ResultHandler env) env.IsPassthrough
          (env.DEBUG && env.bEnableShaderDebugging) K1 true done s)) K1 = true := by
      rw [hs.2, hp]
    exact ⟨hf.1, hf.2.2.1, hf.2.2.2.2.1, hs.1, hc,
      step_compiled_mono (gs_handlerFrame env) _ _ K1 true done2 _ K1 hc⟩

/-- C10, witness: uid `5` on the freshly initialised caches of a release build;
the unit comes back compiled to `[1]`. -/
theorem C10_scenario_A_witness :
    present (VertexShaderCache.Init envRelease [] {}) 5 = false ∧
    (ProcCompilationResults (VertexShaderCache.ResultHandler envRelease)
      [{ idx := (VertexShaderCache.PrepareShader envRelease 5 true []
            (VertexShaderCache.Init envRelease [] {})).s_compiler.length - 1,
         cresult := CompileResult.succeeded [1] }]
      (VertexShaderCache.PrepareShader envRelease 5 true []
        (VertexShaderCache.Init envRelease [] {}))).disk_cache
      = (VertexShaderCache.PrepareShader envRelease 5 true []
          (VertexShaderCache.Init envRelease [] {})).disk_cache ++ [(5, [1])] ∧
    compiledAt (ProcCompilationResults (GeometryShaderCache.ResultHandler envRelease)
      [{ idx := (GeometryShaderCache.PrepareShader envRelease 5 true []
            (VertexShaderCache.Init envRelease [] {})).s_compiler.length - 1,
         cresult := CompileResult.succeeded [1] }]
      (GeometryShaderCache.PrepareShader envRelease 5 true []
        (VertexShaderCache.Init envRelease [] {}))) 5 = true :=
  ⟨by decide,
   ((C10_scenario_A envRelease 5 [1] [] [] (VertexShaderCache.Init envRelease [] {})
      (by decide)).1 (by decide)).2.2.2.1,
   ((C10_scenario_A envRelease 5 [1] [] [] (VertexShaderCache.Init envRelease [] {})
      (by decide)).2 (by decide) (by decide)).2.2.2.2.1⟩

end DX11

namespace OGL

theorem glGetLinkStatus_SetProgramVariables (sh : SHADER) (gl : GLContext) (n : GLuint) :
    glGetLinkStatus (sh.SetProgramVariables gl) n = glGetLinkStatus gl n := by
  rw [glGetLinkStatus, glGetLinkStatus, SHADER.SetProgramVariables]
  dsimp only
  rw [Table.find_update]
  by_cases hn : sh.glprogid = n
  · rw [if_pos hn]
    cases gl.programs.find n <;> rfl
  · rw [if_neg hn]

theorem Read_gl_of_links (drv : Driver) (key : Uid) (value : List Nat) (s : State)
    (hl : recordLinks drv value = true) :
    (ProgramShaderCacheInserter.Read drv key value s).gl =
      SHADER.SetProgramVariables { glprogid := s.gl.nextName } (loadRecord drv value s.gl) := by
  rw [Read_of_links drv key value s hl]

theorem Read_links_status (drv : Driver) (key : Uid) (value : List Nat) (s : State)
    (hl : recordLinks drv value = true) :
    glGetLinkStatus (ProgramShaderCacheInserter.Read drv key value s).gl s.gl.nextName = true := by
  rw [Read_gl_of_links drv key value s hl, glGetLinkStatus_SetProgramVariables, Read_success, hl]

/-- C9: in the OpenGL program cache a replayed record whose program binary does
not link is skipped: `Read` leaves `pshaders` as it was and the temporary program
is deleted, so the live programs are the ones from before. A record that links
leaves under its key an entry with `in_cache == 1` whose program is the newly
created one, linked, and no other key is touched. -/
theorem C9_unlinkable_record_is_skipped (drv : Driver) (key : Uid) (value : List Nat)
    (s : State) (hfresh : glFresh s.gl = true) :
    (recordLinks drv value = false →
      (ProgramShaderCacheInserter.Read drv key value s).pshaders = s.pshaders ∧
      (ProgramShaderCacheInserter.Read drv key value s).gl.programs = s.gl.programs) ∧
    (recordLinks drv value = true →
      (ProgramShaderCacheInserter.Read drv key value s).pshaders.find key
        = some { shader := { glprogid := s.gl.nextName }, in_cache := 1 } ∧
      glGetLinkStatus (ProgramShaderCacheInserter.Read drv key value s).gl s.gl.nextName = true ∧
      ∀ k, k ≠ key →
        (ProgramShaderCacheInserter.Read drv key value s).pshaders.find k = s.pshaders.find k) := by
  refine ⟨fun hl => Read_fails_restores drv key value s hfresh hl, fun hl => ⟨?_, ?_, ?_⟩⟩
  · rw [Read_find, if_pos ⟨hl, rfl⟩]
  · exact Read_links_status drv key value s hl
  · intro k hk
    rw [Read_find, if_neg (fun h => hk h.2.symm)]

/-- C9, witness: on a fresh context the record `recordBad` is skipped and the
record `recordGood` is inserted under its key with `in_cache == 1`. -/
theorem C9_unlinkable_record_is_skipped_witness :
    (ProgramShaderCacheInserter.Read drvExample 5 recordBad {}).pshaders = [] ∧
    (ProgramShaderCacheInserter.Read drvExample 5 recordBad {}).gl.programs = [] ∧
    (ProgramShaderCacheInserter.Read drvExample 5 recordGood {}).pshaders.find 5
      = some { shader := { glprogid := 1 }, in_cache := 1 } :=
  ⟨((C9_unlinkable_record_is_skipped drvExample 5 recordBad {} (by decide)).1
      (by unfold recordLinks binarySizeOf; decide)).1,
   ((C9_unlinkable_record_is_skipped drvExample 5 recordBad {} (by decide)).1
      (by unfold recordLinks binarySizeOf; decide)).2,
   ((C9_unlinkable_record_is_skipped drvExample 5 recordGood {} (by decide)).2
      (by unfold recordLinks binarySizeOf; decide)).1⟩

end OGL

namespace DX11

/-- C11: the result handler of a work unit appends exactly one record
`(uid, bytecode)` to the disk cache when the compile succeeded and leaves the
disk cache as it was when the compile failed, in both DX11 caches. -/
theorem C11_disk_cache_appended_only_on_success (env : Env) (uid : Uid)
    (bytecode error : ByteCode) (s : Cache) :
    (VertexShaderCache.ResultHandler env uid (CompileResult.succeeded bytecode) s).disk_cache
      = s.disk_cache ++ [(uid, bytecode)] ∧
    (VertexShaderCache.ResultHandler env uid (CompileResult.failed error) s).disk_cache
      = s.disk_cache ∧
    (GeometryShaderCache.ResultHandler env uid (CompileResult.succeeded bytecode) s).disk_cache
      = s.disk_cache ++ [(uid, bytecode)] ∧
    (GeometryShaderCache.ResultHandler env uid (CompileResult.failed error) s).disk_cache
      = s.disk_cache :=
  ⟨(vs_ResultHandler_fields env uid _ s).2.2.2.2.1, (vs_ResultHandler_fields env uid _ s).2.2.2.2.1,
   (gs_ResultHandler_fields env uid _ s).2.2.2.2.1, (gs_ResultHandler_fields env uid _ s).2.2.2.2.1⟩

end DX11

namespace DX11

/-- C12, counterexample: when the vertex cache publishes bytecode `[1]` onto the
fresh entry of uid `5`, the state after the second store has `compiled == true`
while the entry holds no bytecode yet, so `compiled` is not the last field
written. -/
theorem C12_vertex_compiled_before_bytecode :
    ((VertexShaderCache.PushByteCode_stores envRelease [1] 5 oneInFlight).map
      fun t => (compiledAt t 5, shaderAt t 5, bytecodeAt t 5))
      = [(false, some 1, none), (true, some 1, none), (true, some 1, some [1])] := by
  decide

/-- C12, amended: in every state `PushByteCode` passes through after its first
store, in both DX11 caches, an entry with `compiled == true` already holds the
shader object created from the bytecode being published; in the geometry cache
`compiled` is the last field written; in the vertex cache the bytecode is
stored after `compiled`, so it is guaranteed only in the final state. The last
state listed is the table `PushByteCode` returns. -/
theorem C12_compiled_implies_shader_written (env : Env) (bytecode : ByteCode) (entry : Uid)
    (s : Cache) :
    ((VertexShaderCache.PushByteCode_stores env bytecode entry s).all fun t =>
      !compiledAt t entry || decide (shaderAt t entry = env.CreateShaderFromByteCode bytecode))
      = true ∧
    ((GeometryShaderCache.PushByteCode_stores env bytecode entry s).all fun t =>
      !compiledAt t entry || decide (shaderAt t entry = env.CreateShaderFromByteCode bytecode))
      = true ∧
    ((VertexShaderCache.PushByteCode_stores env bytecode entry s).map Cache.shaders).getLast?
      = some (VertexShaderCache.PushByteCode env bytecode entry s).shaders ∧
    ((GeometryShaderCache.PushByteCode_stores env bytecode entry s).map Cache.shaders).getLast?
      = some (GeometryShaderCache.PushByteCode env bytecode entry s).shaders ∧
    ((GeometryShaderCache.PushByteCode_stores env bytecode entry s).map
      fun t => compiledAt t entry) = [compiledAt s entry, present s entry] ∧
    bytecodeAt (VertexShaderCache.PushByteCode env bytecode entry s) entry
      = (if present s entry then some bytecode else none) := by
  refine ⟨?_, ?_, ?_, ?_, ?_, ?_⟩
  · simp only [VertexShaderCache.PushByteCode_stores, List.all_cons, List.all_nil, compiledAt,
      shaderAt, Table.find_update, if_true, Bool.and_true]
    cases s.shaders.find entry <;> simp
  · simp only [GeometryShaderCache.PushByteCode_stores, List.all_cons, List.all_nil, compiledAt,
      shaderAt, Table.find_update, if_true, Bool.and_true]
    cases s.shaders.find entry <;> simp
  · rw [vs_PushByteCode_shaders]
    simp [VertexShaderCache.PushByteCode_stores]
  · rw [gs_PushByteCode_shaders]
    simp [GeometryShaderCache.PushByteCode_stores]
  · simp only [GeometryShaderCache.PushByteCode_stores, List.map_cons, List.map_nil, compiledAt,
      present, Table.find_update, if_true]
    cases s.shaders.find entry <;> simp
  · unfold bytecodeAt present
    rw [vs_PushByteCode_shaders]
    simp only [Table.find_update, if_true]
    cases s.shaders.find entry <;> simp

end DX11

namespace DX11

/-- C13: in synchronous mode, with the unit of the last-used entry (uid `5`) in
flight, a first poll that hands the unit back as failed leaves `TestShader`
spinning for every bound on its iterations and whatever the later polls hand
back, in both DX11 caches: the result was delivered (nothing is in flight and
the failure was dumped), yet the entry never becomes compiled. The same unit
handed back as succeeded makes `TestShader` return `true` after that one poll.
The start state is the one a GPU-thread `PrepareShader` call for uid `5` leaves
on a freshly initialised cache, the same in both caches. -/
theorem C13_failed_compile_spins_forever (fuel : Nat) (error : ByteCode)
    (later : List (List Completion)) :
    (VertexShaderCache.TestShader envSync fuel
      ([{ idx := 0, cresult := CompileResult.failed error }] :: later)
      oneInFlightSync).isReturned = false ∧
    (GeometryShaderCache.TestShader envSync fuel
      ([{ idx := 0, cresult := CompileResult.failed error }] :: later)
      oneInFlightSync).isReturned = false ∧
    (ProcCompilationResults (VertexShaderCache.ResultHandler envSync)
      [{ idx := 0, cresult := CompileResult.failed error }] oneInFlightSync).s_compiler = [] ∧
    (ProcCompilationResults (VertexShaderCache.ResultHandler envSync)
      [{ idx := 0, cresult := CompileResult.failed error }] oneInFlightSync).trace.getLast?
      = some (Event.DumpFailure 5) ∧
    (VertexShaderCache.TestShader envSync (fuel + 1)
      ([{ idx := 0, cresult := CompileResult.succeeded [1] }] :: later) oneInFlightSync)
      = TestOutcome.returned true 1
          (ProcCompilationResults (VertexShaderCache.ResultHandler envSync)
            [{ idx := 0, cresult := CompileResult.succeeded [1] }] oneInFlightSync) ∧
    GeometryShaderCache.PrepareShader envSync 5 true [] (GeometryShaderCache.Init envSync [] {})
      = oneInFlightSync := by
  refine ⟨?_, ?_, rfl, rfl, ?_, by decide⟩
  · cases fuel with
    | zero => rfl
    | succ n =>
      have h1 : VertexShaderCache.TestShader envSync (n + 1)
          ([{ idx := 0, cresult := CompileResult.failed error }] :: later) oneInFlightSync =
          VertexShaderCache.TestShader_loop envSync n 1 later
            (ProcCompilationResults (VertexShaderCache.ResultHandler envSync)
              [{ idx := 0, cresult := CompileResult.failed error }] oneInFlightSync) := rfl
      rw [h1, vs_TestShader_eq]
      refine testCore_stuck (vs_handlerFrame envSync) VertexShaderCache.lastEntry 5 ?_ n 1 later _
        rfl rfl rfl ?_
      · intro t ht
        unfold VertexShaderCache.lastEntry
        rw [ht]
      · intro w hw
        exact absurd hw (List.not_mem_nil w)
  · cases fuel with
    | zero => rfl
    | succ n =>
      have h1 : GeometryShaderCache.TestShader envSync (n + 1)
          ([{ idx := 0, cresult := CompileResult.failed error }] :: later) oneInFlightSync =
          GeometryShaderCache.TestShader_loop envSync n 1 later
            (ProcCompilationResults (GeometryShaderCache.ResultHandler envSync)
              [{ idx := 0, cresult := CompileResult.failed error }] oneInFlightSync) := rfl
      rw [h1, gs_TestShader_eq]
      refine testCore_stuck (gs_handlerFrame envSync) GeometryShaderCache.lastEntry 5 ?_ n 1 later _
        rfl rfl rfl ?_
      · intro t ht
        unfold GeometryShaderCache.lastEntry
        rw [ht]
      · intro w hw
        exact absurd hw (List.not_mem_nil w)
  · cases fuel <;> rfl

end DX11

namespace DX11

/-- C14: in asynchronous mode, whenever `s_last_entry` points to an entry (a live
table entry or the pass-through sentinel), `TestShader` returns after at most
one poll and one loop iteration, in both DX11 caches: with no poll when the
entry is already compiled, else after exactly one `ProcCompilationResults`; the
value returned is `shader != null && compiled` of the last-used entry in the
state reached. -/
theorem C14_async_TestShader_polls_at_most_once (env : Env) (fuel : Nat)
    (polls : List (List Completion)) (s : Cache)
    (hfull : env.bFullAsyncShaderCompilation = true) :
    ((VertexShaderCache.lastEntry s).isSome = true →
      ∃ n t e, VertexShaderCache.TestShader env (fuel + 1) polls s
          = TestOutcome.returned (e.shader.isSome && e.compiled) n t ∧
        VertexShaderCache.lastEntry t = some e ∧
        ((n = 0 ∧ t = s) ∨
         (n = 1 ∧ t = ProcCompilationResults (VertexShaderCache.ResultHandler env)
            (polls.headD []) s))) ∧
    ((GeometryShaderCache.lastEntry s).isSome = true →
      ∃ n t e, GeometryShaderCache.TestShader env (fuel + 1) polls s
          = TestOutcome.returned (e.shader.isSome && e.compiled) n t ∧
        GeometryShaderCache.lastEntry t = some e ∧
        ((n = 0 ∧ t = s) ∨
         (n = 1 ∧ t = ProcCompilationResults (GeometryShaderCache.ResultHandler env)
            (polls.headD []) s))) := by
  constructor
  · intro hd
    obtain ⟨e, he⟩ := Option.isSome_iff_exists.1 hd
    obtain ⟨e2, he2⟩ := Option.isSome_iff_exists.1
      (vs_lastEntry_stable (vs_handlerFrame env) (polls.headD []) s hd)
    rw [VertexShaderCache.TestShader, vs_TestShader_eq, hfull,
      testCore_async _ _ fuel 0 polls s e he]
    by_cases hc : e.compiled = true
    · exact ⟨0, s, e, by rw [if_pos hc], he, Or.inl ⟨rfl, rfl⟩⟩
    · refine ⟨1, _, e2, ?_, he2, Or.inr ⟨rfl, rfl⟩⟩
      rw [if_neg hc, he2]
  · intro hd
    obtain ⟨e, he⟩ := Option.isSome_iff_exists.1 hd
    obtain ⟨e2, he2⟩ := Option.isSome_iff_exists.1
      (gs_lastEntry_stable (gs_handlerFrame env) (polls.headD []) s hd)
    rw [GeometryShaderCache.TestShader, gs_TestShader_eq, hfull,
      testCore_async _ _ fuel 0 polls s e he]
    by_cases hc : e.compiled = true
    · exact ⟨0, s, e, by rw [if_pos hc], he, Or.inl ⟨rfl, rfl⟩⟩
    · refine ⟨1, _, e2, ?_, he2, Or.inr ⟨rfl, rfl⟩⟩
      rw [if_neg hc, he2]

/-- C14, witness: in asynchronous mode `TestShader` on the state with the unit of
the last-used entry in flight returns after at most one poll, in both caches. -/
theorem C14_async_TestShader_polls_at_most_once_witness :
    (∃ n t e, VertexShaderCache.TestShader envRelease (0 + 1) [] oneInFlight
        = TestOutcome.returned (e.shader.isSome && e.compiled) n t ∧
      VertexShaderCache.lastEntry t = some e ∧
      ((n = 0 ∧ t = oneInFlight) ∨
       (n = 1 ∧ t = ProcCompilationResults (VertexShaderCache.ResultHandler envRelease)
          (([] : List (List Completion)).headD []) oneInFlight))) ∧
    (∃ n t e, GeometryShaderCache.TestShader envRelease (0 + 1) [] oneInFlight
        = TestOutcome.returned (e.shader.isSome && e.compiled) n t ∧
      GeometryShaderCache.lastEntry t = some e ∧
      ((n = 0 ∧ t = oneInFlight) ∨
       (n = 1 ∧ t = ProcCompilationResults (GeometryShaderCache.ResultHandler envRelease)
          (([] : List (List Completion)).headD []) oneInFlight))) :=
  ⟨(C14_async_TestShader_polls_at_most_once envRelease 0 [] oneInFlight rfl).1 (by decide),
   (C14_async_TestShader_polls_at_most_once envRelease 0 [] oneInFlight rfl).2 (by decide)⟩

end DX11

namespace DX11

/-- C16: `Shutdown` of both DX11 caches first waits for the async compiler
(result handlers may run during the wait), then clears the table, then syncs
and closes the disk cache, in this order; afterwards the table is empty, the
last-used entry is null and no unit is in flight. -/
theorem C16_shutdown_order (env : Env) (outcome : Uid → CompileResult) (s : Cache) :
    (∃ evs, (VertexShaderCache.Shutdown env outcome s).trace
        = s.trace ++ evs ++ [Event.WaitForFinish, Event.Clear, Event.Sync, Event.Close] ∧
      evs.all Event.fromHandler = true) ∧
    (VertexShaderCache.Shutdown env outcome s).shaders = [] ∧
    (VertexShaderCache.Shutdown env outcome s).s_last_entry = none ∧
    (VertexShaderCache.Shutdown env outcome s).s_compiler = [] ∧
    (∃ evs, (GeometryShaderCache.Shutdown env outcome s).trace
        = s.trace ++ evs ++ [Event.WaitForFinish, Event.Clear, Event.Sync, Event.Close] ∧
      evs.all Event.fromHandler = true) ∧
    (GeometryShaderCache.Shutdown env outcome s).shaders = [] ∧
    (GeometryShaderCache.Shutdown env outcome s).s_last_entry = none ∧
    (GeometryShaderCache.Shutdown env outcome s).s_compiler = [] := by
  have hv := WaitForFinish_spec (vs_handlerFrame env) (vs_handler_trace env) outcome s
  have hg := WaitForFinish_spec (gs_handlerFrame env) (gs_handler_trace env) outcome s
  obtain ⟨hv1, ev, hv2, hv3⟩ := hv
  obtain ⟨hg1, eg, hg2, hg3⟩ := hg
  refine ⟨⟨ev, ?_, hv3⟩, rfl, rfl, hv1, ⟨eg, ?_, hg3⟩, rfl, rfl, hg1⟩
  · show (((WaitForFinish (VertexShaderCache.ResultHandler env) outcome s).trace ++ [Event.Clear])
      ++ [Event.Sync]) ++ [Event.Close] = _
    rw [hv2]
    simp
  · show (((WaitForFinish (GeometryShaderCache.ResultHandler env) outcome s).trace
      ++ [Event.Clear]) ++ [Event.Sync]) ++ [Event.Close] = _
    rw [hg2]
    simp

end DX11

namespace DX11

/-- C17: over every session of `PrepareShader`, `InsertByteCode`, poll (result
handler) and `TestShader` steps without `Clear` or `Init`, started in a state
where every compiled entry and every entry with a unit in flight is claimed,
in both DX11 caches: between any two points of the session no entry is
removed, a claimed entry stays claimed and a compiled entry stays compiled, and
at every point every compiled entry is claimed. -/
theorem C17_entry_lifecycle_monotone (env : Env) (pre post : List Step) (s : Cache)
    (hno : ∀ st ∈ pre ++ post, st.noClear = true)
    (hq : QueueClaimed s) (he : CompiledAreClaimed s) :
    (Grows (VertexShaderCache.steps env pre s) (VertexShaderCache.steps env (pre ++ post) s) ∧
      CompiledAreClaimed (VertexShaderCache.steps env pre s) ∧
      CompiledAreClaimed (VertexShaderCache.steps env (pre ++ post) s)) ∧
    (Grows (GeometryShaderCache.steps env pre s)
        (GeometryShaderCache.steps env (pre ++ post) s) ∧
      CompiledAreClaimed (GeometryShaderCache.steps env pre s) ∧
      CompiledAreClaimed (GeometryShaderCache.steps env (pre ++ post) s)) := by
  have hpre : ∀ st ∈ pre, st.noClear = true :=
    fun st hst => hno st (List.mem_append_left _ hst)
  have hpost : ∀ st ∈ post, st.noClear = true :=
    fun st hst => hno st (List.mem_append_right _ hst)
  constructor
  · have h1 := session_facts (VertexShaderCache.step env) (vs_step_facts env) pre s hpre
    have h2 := session_facts (VertexShaderCache.step env) (vs_step_facts env) post
      (VertexShaderCache.steps env pre s) hpost
    have h3 := h1.2 hq he
    unfold VertexShaderCache.steps at h1 h2 h3 ⊢
    rw [List.foldl_append]
    exact ⟨h2.1, h3.2, (h2.2 h3.1 h3.2).2⟩
  · have h1 := session_facts (GeometryShaderCache.step env) (gs_step_facts env) pre s hpre
    have h2 := session_facts (GeometryShaderCache.step env) (gs_step_facts env) post
      (GeometryShaderCache.steps env pre s) hpost
    have h3 := h1.2 hq he
    unfold GeometryShaderCache.steps at h1 h2 h3 ⊢
    rw [List.foldl_append]
    exact ⟨h2.1, h3.2, (h2.2 h3.1 h3.2).2⟩

/-- C17, witness: a session on the empty vertex cache that replays a record for
uid `7`, prepares uid `5` on the GPU thread, polls the unit back as compiled
and tests the shader. -/
theorem C17_entry_lifecycle_monotone_witness :
    Grows
      (VertexShaderCache.steps envRelease
        [Step.InsertByteCode 7 [1],
         Step.PrepareShader { uid := 5, ongputhread := true, done := [] }] {})
      (VertexShaderCache.steps envRelease
        ([Step.InsertByteCode 7 [1],
          Step.PrepareShader { uid := 5, ongputhread := true, done := [] }] ++
         [Step.ProcCompilationResults [{ idx := 0, cresult := CompileResult.succeeded [2] }],
          Step.TestShader 1 []]) {}) :=
  (C17_entry_lifecycle_monotone envRelease
    [Step.InsertByteCode 7 [1],
     Step.PrepareShader { uid := 5, ongputhread := true, done := [] }]
    [Step.ProcCompilationResults [{ idx := 0, cresult := CompileResult.succeeded [2] }],
     Step.TestShader 1 []] {}
    (by decide) (fun w hw => absurd hw (List.not_mem_nil w))
    (fun k hk => absurd hk (by simp [compiledAt, Table.find]))).1.1

end DX11

namespace DX11

/-- C18, counterexample: a GPU-thread `PrepareShader` call that takes the fast
path (last-used entry non-null, uid equal to `s_last_uid`) still changes the
table when its poll hands back a finished unit: the entry of uid `5` becomes
compiled. -/
theorem C18_fast_path_call_changes_table :
    oneInFlight.s_last_entry = some (EntryRef.table 5) ∧ oneInFlight.s_last_uid = 5 ∧
    (VertexShaderCache.PrepareShader envRelease 5 true
      [{ idx := 0, cresult := CompileResult.succeeded [1] }] oneInFlight).shaders
      ≠ oneInFlight.shaders ∧
    compiledAt oneInFlight 5 = false ∧
    compiledAt (VertexShaderCache.PrepareShader envRelease 5 true
      [{ idx := 0, cresult := CompileResult.succeeded [1] }] oneInFlight) 5 = true := by
  decide

/-- C18, amended: a GPU-thread call on the fast path (last-used entry non-null,
uid equal to `s_last_uid`) does what its poll and the debug-only source
generation do and nothing else, in both DX11 caches: the keys of the table, the
claim flags, `s_last_entry`, `s_last_uid` and `s_external_last_uid` are
unchanged, no work unit is submitted, compiled entries stay compiled, and the
table is unchanged when the poll hands back nothing. A background call whose
uid equals `s_external_last_uid` changes nothing at all. -/
theorem C18_fast_path_frame (env : Env) (done : List Completion) (s : Cache)
    (hl : s.s_last_entry.isSome = true) :
    (VertexShaderCache.PrepareShader env s.s_last_uid true done s
        = polled (VertexShaderCache.ResultHandler env)
            (env.DEBUG && env.bEnableShaderDebugging) s.s_last_uid done s ∧
      (VertexShaderCache.PrepareShader env s.s_last_uid true done s).shaders.keys
        = s.shaders.keys ∧
      (∀ k, claimed (VertexShaderCache.PrepareShader env s.s_last_uid true done s) k
        = claimed s k) ∧
      (∀ k, compiledAt s k = true →
        compiledAt (VertexShaderCache.PrepareShader env s.s_last_uid true done s) k = true) ∧
      (VertexShaderCache.PrepareShader env s.s_last_uid true done s).s_last_entry
        = s.s_last_entry ∧
      (VertexShaderCache.PrepareShader env s.s_last_uid true done s).s_last_uid
        = s.s_last_uid ∧
      (VertexShaderCache.PrepareShader env s.s_last_uid true done s).s_external_last_uid
        = s.s_external_last_uid ∧
      (∀ k, submitted (VertexShaderCache.PrepareShader env s.s_last_uid true done s) k
        = submitted s k) ∧
      (VertexShaderCache.PrepareShader env s.s_last_uid true [] s).shaders = s.shaders ∧
      VertexShaderCache.PrepareShader env s.s_external_last_uid false done s = s) ∧
    (GeometryShaderCache.PrepareShader env s.s_last_uid true done s
        = polled (GeometryShaderCache.ResultHandler env)
            (env.DEBUG && env.bEnableShaderDebugging) s.s_last_uid done s ∧
      (GeometryShaderCache.PrepareShader env s.s_last_uid true done s).shaders.keys
        = s.shaders.keys ∧
      (∀ k, claimed (GeometryShaderCache.PrepareShader env s.s_last_uid true done s) k
        = claimed s k) ∧
      (∀ k, compiledAt s k = true →
        compiledAt (GeometryShaderCache.PrepareShader env s.s_last_uid true done s) k = true) ∧
      (GeometryShaderCache.PrepareShader env s.s_last_uid true done s).s_last_entry
        = s.s_last_entry ∧
      (GeometryShaderCache.PrepareShader env s.s_last_uid true done s).s_last_uid
        = s.s_last_uid ∧
      (GeometryShaderCache.PrepareShader env s.s_last_uid true done s).s_external_last_uid
        = s.s_external_last_uid ∧
      (∀ k, submitted (GeometryShaderCache.PrepareShader env s.s_last_uid true done s) k
        = submitted s k) ∧
      (GeometryShaderCache.PrepareShader env s.s_last_uid true [] s).shaders = s.shaders ∧
      GeometryShaderCache.PrepareShader env s.s_external_last_uid false done s = s) := by
  have key : ∀ (h : Uid → CompileResult → Cache → Cache) (F : HandlerFrame h)
      (passf : Uid → Bool) (dbg : Bool),
      prepareCore h passf dbg s.s_last_uid true done s = polled h dbg s.s_last_uid done s ∧
      (prepareCore h passf dbg s.s_last_uid true done s).shaders.keys = s.shaders.keys ∧
      (∀ k, claimed (prepareCore h passf dbg s.s_last_uid true done s) k = claimed s k) ∧
      (∀ k, compiledAt s k = true →
        compiledAt (prepareCore h passf dbg s.s_last_uid true done s) k = true) ∧
      (prepareCore h passf dbg s.s_last_uid true done s).s_last_entry = s.s_last_entry ∧
      (prepareCore h passf dbg s.s_last_uid true done s).s_last_uid = s.s_last_uid ∧
      (prepareCore h passf dbg s.s_last_uid true done s).s_external_last_uid
        = s.s_external_last_uid ∧
      (∀ k, submitted (prepareCore h passf dbg s.s_last_uid true done s) k = submitted s k) ∧
      (prepareCore h passf dbg s.s_last_uid true [] s).shaders = s.shaders ∧
      prepareCore h passf dbg s.s_external_last_uid false done s = s := by
    intro h F passf dbg
    have hp := polled_frame F dbg s.s_last_uid done s
    have hfast : ∀ d, prepareCore h passf dbg s.s_last_uid true d s
        = polled h dbg s.s_last_uid d s := by
      intro d
      have hd := polled_frame F dbg s.s_last_uid d s
      rw [prepareCore_gpu, if_pos]
      rw [hd.2.2.2.1, hd.2.2.2.2.1]
      exact ⟨hl, rfl⟩
    refine ⟨hfast done, ?_, ?_, ?_, ?_, ?_, ?_, ?_, ?_, ?_⟩
    · rw [hfast]; exact hp.2.1
    · rw [hfast]; exact hp.2.2.1
    · intro k hk
      exact step_compiled_mono F passf dbg _ true done s k hk
    · rw [hfast]; exact hp.2.2.2.1
    · rw [hfast]; exact hp.2.2.2.2.1
    · rw [hfast]; exact hp.2.2.2.2.2.1
    · rw [hfast]; exact hp.2.2.2.2.2.2.1
    · rw [hfast]
      unfold polled
      cases dbg <;> rfl
    · rw [prepareCore_bg, if_pos rfl]
  rw [vs_PrepareShader_eq, gs_PrepareShader_eq]
  exact ⟨key _ (vs_handlerFrame env) _ _, key _ (gs_handlerFrame env) _ _⟩

/-- C18, witness: the fast path of a GPU-thread call for uid `5` on the state
whose last-used entry is the entry of uid `5`. -/
theorem C18_fast_path_frame_witness :
    (VertexShaderCache.PrepareShader envRelease oneInFlight.s_last_uid true [] oneInFlight).shaders
      = oneInFlight.shaders :=
  (C18_fast_path_frame envRelease [] oneInFlight (by decide)).1.2.2.2.2.2.2.2.2.1

end DX11

namespace DX11

/-- C19: after every session of `Init`, `Clear`, `PrepareShader`, `InsertByteCode`,
poll (result handler) and `TestShader` steps started with a usable last-used
slot, the GPU-thread last-used entry is null, or the live table entry stored
under `s_last_uid`, or (geometry cache only) the pass-through sentinel with
`s_last_uid` a pass-through uid; `Clear` and `Init` always reset it to null. -/
theorem C19_last_used_slot_valid (env : Env) (l : List Step) (s : Cache)
    (hv : lastEntryValid env.IsPassthrough s = true) :
    lastEntryValid env.IsPassthrough (GeometryShaderCache.steps env l s) = true ∧
    (lastEntryValid (fun _ => false) s = true →
      lastEntryValid (fun _ => false) (VertexShaderCache.steps env l s) = true) ∧
    (VertexShaderCache.Clear s).s_last_entry = none ∧
    (GeometryShaderCache.Clear s).s_last_entry = none ∧
    (∀ file, (VertexShaderCache.Init env file s).s_last_entry = none) ∧
    (∀ file, (GeometryShaderCache.Init env file s).s_last_entry = none) :=
  ⟨session_valid (GeometryShaderCache.step env) _ (gs_step_valid env) l s hv,
   fun hs => session_valid (VertexShaderCache.step env) _ (vs_step_valid env) l s hs,
   rfl, rfl, fun _ => rfl, fun _ => rfl⟩

/-- C19, witness: a session on the empty caches that prepares uid `5`, clears the
table and prepares the pass-through uid `1` keeps the last-used slot usable. -/
theorem C19_last_used_slot_valid_witness :
    lastEntryValid envRelease.IsPassthrough
      (GeometryShaderCache.steps envRelease
        [Step.PrepareShader { uid := 5, ongputhread := true, done := [] }, Step.Clear,
         Step.PrepareShader { uid := 1, ongputhread := true, done := [] }] {}) = true ∧
    lastEntryValid (fun _ => false)
      (VertexShaderCache.steps envRelease
        [Step.PrepareShader { uid := 5, ongputhread := true, done := [] }, Step.Clear,
         Step.PrepareShader { uid := 1, ongputhread := true, done := [] }] {}) = true :=
  ⟨(C19_last_used_slot_valid envRelease
      [Step.PrepareShader { uid := 5, ongputhread := true, done := [] }, Step.Clear,
       Step.PrepareShader { uid := 1, ongputhread := true, done := [] }] {} (by decide)).1,
   (C19_last_used_slot_valid envRelease
      [Step.PrepareShader { uid := 5, ongputhread := true, done := [] }, Step.Clear,
       Step.PrepareShader { uid := 1, ongputhread := true, done := [] }] {} (by decide)).2.1
      (by decide)⟩

end DX11

namespace OGL

/-- C15, counterexample: with `bEnableShaderDebugging` on, a second `SetShader`
call for uid `5` finds the entry the first call made (it is the last-used
entry, the table is left as it is and nothing is compiled), yet the pixel, vertex
and geometry source generators each run once more. -/
theorem C15_generation_on_last_used_hit :
    (SetShader cfgDebugging 5 {}).2.last_entry = some 5 ∧
    (SetShader cfgDebugging 5 {}).2.last_uid = 5 ∧
    (SetShader cfgDebugging 5 (SetShader cfgDebugging 5 {}).2).2.pshaders
      = (SetShader cfgDebugging 5 {}).2.pshaders ∧
    compiles (SetShader cfgDebugging 5 (SetShader cfgDebugging 5 {}).2).2 5
      = compiles (SetShader cfgDebugging 5 {}).2 5 ∧
    generations (SetShader cfgDebugging 5 (SetShader cfgDebugging 5 {}).2).2
      = generations (SetShader cfgDebugging 5 {}).2 ++
        [Event.GeneratePixelShaderCodeGL 5, Event.GenerateVertexShaderCodeGL 5,
         Event.GenerateGeometryShaderCode 5] := by
  decide

/-- C15, amended: a call that finds an existing entry compiles nothing and runs
the source generators only for debugging. An OpenGL `SetShader` call whose uid
is the last-used one or is in the table runs no generator when
`bEnableShaderDebugging` is off and runs the pixel, vertex and geometry
generators once each (inside `GetShaderId`) when it is on. A DX11
`PrepareShader` call for a uid whose entry is claimed submits no work unit and
runs the generator once exactly when it is a GPU-thread call of a debug build
with `bEnableShaderDebugging` on, and never otherwise. -/
theorem C15_generation_only_for_debugging_on_hit (cfg : Config) (env : DX11.Env) (uid : Uid)
    (s : State) (c : DX11.Cache) (ongputhread : Bool) (done : List DX11.Completion)
    (hit : (s.last_entry.isSome = true ∧ uid = s.last_uid) ∨
      (s.pshaders.find uid).isSome = true)
    (hc : DX11.claimed c uid = true) :
    (generations (SetShader cfg uid s).2 = generations s ++
        (if cfg.bEnableShaderDebugging then
          [Event.GeneratePixelShaderCodeGL uid, Event.GenerateVertexShaderCodeGL uid,
           Event.GenerateGeometryShaderCode uid]
         else []) ∧
      (∀ K, compiles (SetShader cfg uid s).2 K = compiles s K) ∧
      (SetShader cfg uid s).2.pshaders = s.pshaders) ∧
    ((∀ k, DX11.generated (DX11.VertexShaderCache.PrepareShader env uid ongputhread done c) k
        = DX11.generated c k +
          (if ongputhread = true ∧ (env.DEBUG && env.bEnableShaderDebugging) = true ∧ uid = k
           then 1 else 0)) ∧
      DX11.submitted (DX11.VertexShaderCache.PrepareShader env uid ongputhread done c) uid
        = DX11.submitted c uid) ∧
    ((∀ k, DX11.generated (DX11.GeometryShaderCache.PrepareShader env uid ongputhread done c) k
        = DX11.generated c k +
          (if ongputhread = true ∧ (env.DEBUG && env.bEnableShaderDebugging) = true ∧ uid = k
           then 1 else 0)) ∧
      DX11.submitted (DX11.GeometryShaderCache.PrepareShader env uid ongputhread done c) uid
        = DX11.submitted c uid) := by
  have hf := SetShader_found cfg uid s hit
  rw [DX11.vs_PrepareShader_eq, DX11.gs_PrepareShader_eq]
  exact ⟨⟨hf.2.2.1, hf.2.1, hf.1⟩,
    ⟨fun k => DX11.step_generated (DX11.vs_handlerFrame env) _ _ uid ongputhread done c k,
     DX11.step_submitted_claimed (DX11.vs_handlerFrame env) _ _ uid ongputhread done c uid hc⟩,
    ⟨fun k => DX11.step_generated (DX11.gs_handlerFrame env) _ _ uid ongputhread done c k,
     DX11.step_submitted_claimed (DX11.gs_handlerFrame env) _ _ uid ongputhread done c uid hc⟩⟩

/-- C15, witness: with debugging off, a `SetShader` call for the last-used uid
`5` runs no generator, and a background `PrepareShader` call for the claimed
uid `5` of the vertex cache runs none either. -/
theorem C15_generation_only_for_debugging_on_hit_witness :
    generations (SetShader cfgPlain 5 (SetShader cfgPlain 5 {}).2).2
      = generations (SetShader cfgPlain 5 {}).2 ++
        (if cfgPlain.bEnableShaderDebugging then
          [Event.GeneratePixelShaderCodeGL 5, Event.GenerateVertexShaderCodeGL 5,
           Event.GenerateGeometryShaderCode 5]
         else []) :=
  (C15_generation_only_for_debugging_on_hit cfgPlain DX11.envRelease 5 (SetShader cfgPlain 5 {}).2
    DX11.oneInFlight false [] (by decide) (by decide)).1.1

end OGL

namespace OGL

/-- C20: over every sequence of `SetShader` calls (no `Shutdown` in between) from
a state with a usable last-used slot and one entry per key, `CompileShader` is
called for a uid `K` exactly once if `K` is requested and was not in the table
(not loaded from disk), and not at all if `K` was in the table; the one call
happens in the first `SetShader` call for `K`, whatever its result; and
`pshaders` holds exactly one entry for each uid requested. -/
theorem C20_one_CompileShader_per_new_uid (cfg : Config) (uids : List Uid) (s : State) (K : Uid)
    (hv : lastValid s = true) (hn : s.pshaders.keys.Nodup) :
    compiles (setShaders cfg uids s) K =
      compiles s K + (if K ∈ uids ∧ s.pshaders.find K = none then 1 else 0) ∧
    (K ∈ uids → (setShaders cfg uids s).pshaders.keys.count K = 1) ∧
    (∀ pre post, uids = pre ++ K :: post → K ∉ pre →
      compiles (setShaders cfg pre s) K = compiles s K ∧
      compiles (setShaders cfg (pre ++ [K]) s) K = compiles (setShaders cfg uids s) K) := by
  have hspec := fun l => setShaders_spec cfg l s hv hn
  have hform : ∀ l, compiles (setShaders cfg l s) K =
      compiles s K + (if K ∈ l ∧ s.pshaders.find K = none then 1 else 0) := by
    intro l
    rw [(hspec l).2.2.2 K]
    have hiff := Table.find_eq_none_iff s.pshaders K
    by_cases hk : K ∈ s.pshaders.keys
    · rw [if_neg (fun hc => hc.2 hk), if_neg (fun hc => hiff.1 hc.2 hk)]
    · by_cases hl : K ∈ l
      · rw [if_pos ⟨hl, hk⟩, if_pos ⟨hl, hiff.2 hk⟩]
      · rw [if_neg (fun hc => hl hc.1), if_neg (fun hc => hl hc.1)]
  refine ⟨hform uids, fun hK => ?_, fun pre post hu hpre => ?_⟩
  · exact List.count_eq_one_of_mem (hspec uids).2.1 (((hspec uids).2.2.1 K).2 (Or.inr hK))
  · rw [hform pre, hform (pre ++ [K]), hform uids, hu]
    refine ⟨by simp [hpre], ?_⟩
    simp

/-- C20, witness: four calls for the uids `5, 6, 5, 6` on the empty cache, where
the sources of uid `6` do not compile, call `CompileShader` once for uid `6`
and leave one entry for it. -/
theorem C20_one_CompileShader_per_new_uid_witness :
    compiles (setShaders cfgPlain [5, 6, 5, 6] {}) 6 = 1 ∧
    (setShaders cfgPlain [5, 6, 5, 6] {}).pshaders.keys.count 6 = 1 :=
  ⟨(C20_one_CompileShader_per_new_uid cfgPlain [5, 6, 5, 6] {} 6 (by decide)
      List.nodup_nil).1,
   (C20_one_CompileShader_per_new_uid cfgPlain [5, 6, 5, 6] {} 6 (by decide)
      List.nodup_nil).2.1 (by decide)⟩

end OGL

namespace OGL

/-- C21: a `SetShader` call for uid `6`, whose sources do not compile, returns
`nullptr` after one `CompileShader` call; every later `SetShader` call for
uid `6`, immediately (last-used fast path) or after calls for other uids
(table hit), returns the shader of the failed entry instead of `nullptr`, and
compiles nothing. The entry returned has program name `0`, which is no
program object. The same happens when the sources compile and the program
does not link: the entry returned names the program that was deleted. -/
theorem C21_failed_uid_is_returned_on_later_calls (others : List Uid) :
    (SetShader cfgPlain 6 {}).1 = none ∧
    compiles (SetShader cfgPlain 6 {}).2 6 = 1 ∧
    (SetShader cfgPlain 6 (SetShader cfgPlain 6 {}).2).1 = some 6 ∧
    (SetShader cfgPlain 6 (setShaders cfgPlain others (SetShader cfgPlain 6 {}).2)).1 = some 6 ∧
    compiles (SetShader cfgPlain 6 (setShaders cfgPlain others (SetShader cfgPlain 6 {}).2)).2 6
      = 1 ∧
    ((SetShader cfgPlain 6 {}).2.pshaders.find 6).map (fun e => e.shader.glprogid) = some 0 ∧
    (SetShader cfgPlain 6 {}).2.gl.programs.find 0 = none ∧
    (SetShader cfgNoLink 6 {}).1 = none ∧
    (SetShader cfgNoLink 6 (SetShader cfgNoLink 6 {}).2).1 = some 6 ∧
    ((SetShader cfgNoLink 6 {}).2.pshaders.find 6).map (fun e => e.shader.glprogid) = some 1 ∧
    (SetShader cfgNoLink 6 {}).2.gl.programs.find 1 = none := by
  have hv : lastValid (SetShader cfgPlain 6 {}).2 = true := by decide
  have hn : (SetShader cfgPlain 6 {}).2.pshaders.keys.Nodup := by decide
  have hspec := setShaders_spec cfgPlain others (SetShader cfgPlain 6 {}).2 hv hn
  have hmem : 6 ∈ (setShaders cfgPlain others (SetShader cfgPlain 6 {}).2).pshaders.keys :=
    (hspec.2.2.1 6).2 (Or.inl (by decide))
  have hstep := SetShader_step cfgPlain 6 _ hspec.1
  refine ⟨by decide, by decide, by decide, ?_, ?_, by decide, by decide, by decide, by decide,
    by decide, by decide⟩
  · exact SetShader_returns_entry cfgPlain 6 _ hspec.1 ((isSome_find_iff _ _).2 hmem)
  · rw [hstep.2.2 6, hspec.2.2.2 6]
    have h6 : (6 : Uid) ∈ (SetShader cfgPlain 6 {}).2.pshaders.keys := by decide
    rw [if_neg (fun hc => hc.2 h6), if_neg (fun hc => hc.2 hmem)]
    decide

end OGL

namespace OGL

/-- What `Shutdown` appends after a session of `SetShader` calls, whatever names
the driver returns: the records of `appendedAtShutdown`, one for each entry
that passes the tests of the loop, and none for an entry that was in the table
with `in_cache` set when the session began. -/
theorem Shutdown_session_any (cfg : Config) (uids : List Uid) (s0 : State)
    (hflags : (cfg.bSupportsGLSLCache && !cfg.g_Config_bEnableShaderDebugging) = true)
    (hv : lastValid s0 = true) (hd : s0.pshaders.keys.Nodup)
    (hl : ∀ entry ∈ s0.pshaders, entry.2.in_cache ≠ 0) :
    (Shutdown cfg (setShaders cfg uids s0)).disk_cache =
      (setShaders cfg uids s0).disk_cache ++ appendedAtShutdown (setShaders cfg uids s0) ∧
    (∀ entry ∈ (setShaders cfg uids s0).pshaders, ∀ data,
      (entry.1, data) ∈ appendedAtShutdown (setShaders cfg uids s0) ↔
        (entry.2.in_cache = 0 ∧
          ∃ p, (setShaders cfg uids s0).gl.programs.find entry.2.shader.glprogid = some p ∧
            p.linkStatus = true ∧ p.deleteStatus = false ∧ p.binary.length ≠ 0 ∧
            data = encodeGLenum p.binaryFormat ++ p.binary)) ∧
    ((appendedAtShutdown (setShaders cfg uids s0)).map Prod.fst).Nodup ∧
    (∀ K data, (K, data) ∈ appendedAtShutdown (setShaders cfg uids s0) →
      K ∈ uids ∧ K ∉ s0.pshaders.keys) := by
  have hspec := setShaders_spec cfg uids s0 hv hd
  have hin := setShaders_in_cache cfg s0.pshaders.keys uids s0 hv (fun k hk => hk)
    (fun entry he => ⟨fun h0 => absurd h0 (hl entry he),
      fun hk => absurd (Table.mem_keys_of_mem _ _ _ he) hk⟩)
  refine ⟨?_, ?_, appended_keys_nodup _ hspec.2.1, ?_⟩
  · rw [Shutdown_disk_cache, if_pos hflags]
  · intro entry he data
    rw [mem_appended_iff, ← Shutdown_data_iff]
    constructor
    · rintro ⟨e, hme, hde⟩
      have := Table.eq_of_mem_of_nodup _ _ _ _ hspec.2.1 hme he
      rw [← this]
      exact hde
    · intro hde
      exact ⟨entry.2, he, hde⟩
  · intro K data hK
    obtain ⟨e, hme, hde⟩ := (mem_appended_iff _ K data).1 hK
    have hc : e.in_cache = 0 := ((Shutdown_data_iff _ _ _).1 hde).1
    have hK0 : K ∉ s0.pshaders.keys := (hin.2 (K, e) hme).1 hc
    rcases (hspec.2.2.1 K).1 (Table.mem_keys_of_mem _ _ _ hme) with h1 | h1
    · exact absurd h1 hK0
    · exact ⟨h1, hK0⟩

/-- What `Shutdown` appends after a session of `SetShader` calls on a driver that
never hands out a program name again: a record for exactly the uids requested
in the session that were not in the table before and whose compile and link
succeeded with a non-empty binary. -/
theorem Shutdown_session_fresh (cfg : Config) (uids : List Uid) (s0 : State)
    (hpol : ∀ gl, gl.nextName ≤ cfg.glCreateProgram gl)
    (hn : namesOk s0.gl = true) (hl : allLoaded s0 = true) (hv : lastValid s0 = true)
    (hd : s0.pshaders.keys.Nodup) (K : Uid) (data : List Nat) :
    (K, data) ∈ appendedAtShutdown (setShaders cfg uids s0) ↔
      (K ∈ uids ∧ K ∉ s0.pshaders.keys ∧ compileSucceeds cfg K = true ∧
        (cfg.ProgramBinaryOf K).2 ≠ [] ∧
        data = encodeGLenum (cfg.ProgramBinaryOf K).1 ++ (cfg.ProgramBinaryOf K).2) := by
  have hI := setShaders_inv cfg s0.pshaders.keys uids s0 hpol hv (SessionInv_start cfg s0 hn hl)
  have hspec := setShaders_spec cfg uids s0 hv hd
  rw [mem_appended_iff]
  constructor
  · rintro ⟨e, hme, hde⟩
    obtain ⟨hc, p, hp, hlink, hdel, hlen, hdata⟩ := (Shutdown_data_iff _ _ _).1 hde
    obtain ⟨hok, hin⟩ := hI.2.2 (K, e) hme
    have hK : K ∉ s0.pshaders.keys := hin.1 hc
    have hKu : K ∈ uids := by
      rcases (hspec.2.2.1 K).1 (Table.mem_keys_of_mem _ _ _ hme) with h1 | h1
      · exact absurd h1 hK
      · exact h1
    have hsucc : compileSucceeds cfg K = true := by
      cases hcs : compileSucceeds cfg K
      · have := (hok.2 hc).2 hcs
        rw [hp] at this
        exact absurd this (by simp)
      · rfl
    obtain ⟨p2, hp2, _, _, hfmt, hbin⟩ := (hok.2 hc).1 hsucc
    have hpp : p = p2 := Option.some.inj (hp.symm.trans hp2)
    rw [hpp] at hlen hdata
    rw [hfmt, hbin] at hdata
    refine ⟨hKu, hK, hsucc, ?_, hdata⟩
    intro hnil
    rw [hbin, hnil] at hlen
    exact hlen rfl
  · rintro ⟨hKu, hK, hsucc, hne, hdata⟩
    obtain ⟨e, hme⟩ := Table.exists_mem_of_mem_keys _ _ ((hspec.2.2.1 K).2 (Or.inr hKu))
    obtain ⟨hok, hin⟩ := hI.2.2 (K, e) hme
    have hc : e.in_cache = 0 := hin.2 hK
    obtain ⟨p, hp, hlink, hdel, hfmt, hbin⟩ := (hok.2 hc).1 hsucc
    refine ⟨e, hme, (Shutdown_data_iff _ _ _).2 ⟨hc, p, hp, hlink, hdel, ?_, ?_⟩⟩
    · rw [hbin]
      intro h0
      exact hne (List.length_eq_zero.1 h0)
    · rw [hfmt, hbin]; exact hdata

/-- C22 (the claim fails for entries whose link failed): on a driver that hands
the name of a deleted program out again, `SetShader` for uid `6`, whose
program does not link, followed by `SetShader` for uid `7` leaves both
entries with program name `1`, and `Shutdown` appends a record for the failed
uid `6` that carries the binary of uid `7`; on a driver that hands names out
in increasing order the same session appends the record of uid `7` only. For
every driver, configuration with the GLSL cache supported and shader debugging
off, and session of `SetShader` calls on a table loaded from disk, `Shutdown`
appends, once per entry and in table order, a record for exactly the entries
with `in_cache == 0` whose program is a program object with link status true,
delete status false and a non-zero binary length, and none for an entry
loaded from disk. If the driver never hands out a program name again, the
records appended are exactly those of the uids requested in the session that
were not loaded from disk and whose compile and link succeeded with a
non-empty binary. -/
theorem C22_failed_link_appended_when_name_reused :
    compileSucceeds cfgReuse 6 = false ∧
    (SetShader cfgReuse 6 {}).1 = none ∧
    (setShaders cfgReuse [6, 7] {}).pshaders =
      [(7, { shader := { glprogid := 1 }, in_cache := 0 }),
       (6, { shader := { glprogid := 1 }, in_cache := 0 })] ∧
    (Shutdown cfgReuse (setShaders cfgReuse [6, 7] {})).disk_cache =
      [(7, [0, 0, 0, 0, 1, 7]), (6, [0, 0, 0, 0, 1, 7])] ∧
    (Shutdown cfgNoLink (setShaders cfgNoLink [6, 7] {})).disk_cache =
      [(7, [0, 0, 0, 0, 1, 7])] ∧
    (∀ (cfg : Config) (uids : List Uid) (s0 : State),
      (cfg.bSupportsGLSLCache && !cfg.g_Config_bEnableShaderDebugging) = true →
      lastValid s0 = true → s0.pshaders.keys.Nodup →
      (∀ entry ∈ s0.pshaders, entry.2.in_cache ≠ 0) →
      (Shutdown cfg (setShaders cfg uids s0)).disk_cache =
        (setShaders cfg uids s0).disk_cache ++ appendedAtShutdown (setShaders cfg uids s0) ∧
      (∀ entry ∈ (setShaders cfg uids s0).pshaders, ∀ data,
        (entry.1, data) ∈ appendedAtShutdown (setShaders cfg uids s0) ↔
          (entry.2.in_cache = 0 ∧
            ∃ p, (setShaders cfg uids s0).gl.programs.find entry.2.shader.glprogid = some p ∧
              p.linkStatus = true ∧ p.deleteStatus = false ∧ p.binary.length ≠ 0 ∧
              data = encodeGLenum p.binaryFormat ++ p.binary)) ∧
      ((appendedAtShutdown (setShaders cfg uids s0)).map Prod.fst).Nodup ∧
      (∀ K data, (K, data) ∈ appendedAtShutdown (setShaders cfg uids s0) →
        K ∈ uids ∧ K ∉ s0.pshaders.keys)) ∧
    (∀ (cfg : Config) (uids : List Uid) (s0 : State),
      (∀ gl, gl.nextName ≤ cfg.glCreateProgram gl) →
      namesOk s0.gl = true → allLoaded s0 = true → lastValid s0 = true →
      s0.pshaders.keys.Nodup →
      ∀ K data, (K, data) ∈ appendedAtShutdown (setShaders cfg uids s0) ↔
        (K ∈ uids ∧ K ∉ s0.pshaders.keys ∧ compileSucceeds cfg K = true ∧
          (cfg.ProgramBinaryOf K).2 ≠ [] ∧
          data = encodeGLenum (cfg.ProgramBinaryOf K).1 ++ (cfg.ProgramBinaryOf K).2)) :=
  ⟨by decide, by decide, by decide, by decide, by decide,
    fun cfg uids s0 hflags hv hd hl => Shutdown_session_any cfg uids s0 hflags hv hd hl,
    fun cfg uids s0 hpol hn hl hv hd K data =>
      Shutdown_session_fresh cfg uids s0 hpol hn hl hv hd K data⟩

/-- C22, witness: after replaying a record for uid `5` from disk and calling
`SetShader` for the uids `5`, `6`, `7`, `6` on a driver that hands names out in
increasing order, where the program of uid `6` does not link, a record for
uid `6` is not among those `Shutdown` appends, whatever its data. -/
theorem C22_failed_link_appended_when_name_reused_witness :
    ∀ data, (6, data) ∉ appendedAtShutdown sessionBeforeShutdown :=
  fun data h =>
    absurd
      ((C22_failed_link_appended_when_name_reused.2.2.2.2.2.2 cfgNoLink [5, 6, 7, 6]
        (OpenAndRead drvExample [(5, recordGood)] {}) (fun _ => Nat.le_refl _)
        (OpenAndRead_loaded drvExample _ {} rfl rfl List.nodup_nil rfl).1
        (OpenAndRead_loaded drvExample _ {} rfl rfl List.nodup_nil rfl).2.1
        (OpenAndRead_loaded drvExample _ {} rfl rfl List.nodup_nil rfl).2.2.2
        (OpenAndRead_loaded drvExample _ {} rfl rfl List.nodup_nil rfl).2.2.1 6 data).1 h).2.2.1
      (by decide)

end OGL

namespace OGL

end OGL

namespace DX11

/-- C25: in both DX11 caches, once a `PrepareShader` call with
`ongputhread == true` has completed and only steps other than `Init` and
`Clear` follow (`PrepareShader` of either role, `InsertByteCode`, polls,
`TestShader`), `s_last_entry` is non-null, whatever the state before that call
was; if the last-used slot was usable before the call, `s_last_entry` then
points to a live entry (or the pass-through sentinel) and a `TestShader` run of
any length dereferences it safely. Background calls do not establish this: a
session without a GPU-thread `PrepareShader` leaves a null `s_last_entry`
null. -/
theorem C25_last_entry_set_after_gpu_PrepareShader (env : Env) (uid : Uid)
    (done : List Completion) (post : List Step) (s : Cache)
    (hno : ∀ st ∈ post, st.noClear = true) :
    (VertexShaderCache.steps env
      (Step.PrepareShader { uid := uid, ongputhread := true, done := done } :: post)
      s).s_last_entry.isSome = true ∧
    (GeometryShaderCache.steps env
      (Step.PrepareShader { uid := uid, ongputhread := true, done := done } :: post)
      s).s_last_entry.isSome = true ∧
    (lastEntryValid (fun _ => false) s = true → ∀ fuel polls,
      (VertexShaderCache.lastEntry (VertexShaderCache.steps env
        (Step.PrepareShader { uid := uid, ongputhread := true, done := done } :: post)
        s)).isSome = true ∧
      VertexShaderCache.TestShader env fuel polls (VertexShaderCache.steps env
        (Step.PrepareShader { uid := uid, ongputhread := true, done := done } :: post) s)
        ≠ TestOutcome.invalid) ∧
    (lastEntryValid env.IsPassthrough s = true → ∀ fuel polls,
      (GeometryShaderCache.lastEntry (GeometryShaderCache.steps env
        (Step.PrepareShader { uid := uid, ongputhread := true, done := done } :: post)
        s)).isSome = true ∧
      GeometryShaderCache.TestShader env fuel polls (GeometryShaderCache.steps env
        (Step.PrepareShader { uid := uid, ongputhread := true, done := done } :: post) s)
        ≠ TestOutcome.invalid) ∧
    (∀ l : List Step, (∀ st ∈ l, st.isGpuPrepare = false) → s.s_last_entry = none →
      (VertexShaderCache.steps env l s).s_last_entry = none ∧
      (GeometryShaderCache.steps env l s).s_last_entry = none) := by
  have hall : ∀ st ∈ Step.PrepareShader { uid := uid, ongputhread := true, done := done } :: post,
      st.noClear = true := by
    intro st hst
    rcases List.mem_cons.1 hst with h1 | h1
    · rw [h1]; rfl
    · exact hno st h1
  have hvs : (VertexShaderCache.steps env
      (Step.PrepareShader { uid := uid, ongputhread := true, done := done } :: post)
      s).s_last_entry.isSome = true := by
    unfold VertexShaderCache.steps
    rw [List.foldl_cons]
    refine (session_last (VertexShaderCache.step env) (vs_step_last env) post _).1 hno ?_
    rw [VertexShaderCache.step, vs_PrepareShader_eq]
    exact prepareCore_gpu_some _ _ _ _ _
  have hgs : (GeometryShaderCache.steps env
      (Step.PrepareShader { uid := uid, ongputhread := true, done := done } :: post)
      s).s_last_entry.isSome = true := by
    unfold GeometryShaderCache.steps
    rw [List.foldl_cons]
    refine (session_last (GeometryShaderCache.step env) (gs_step_last env) post _).1 hno ?_
    rw [GeometryShaderCache.step, gs_PrepareShader_eq]
    exact prepareCore_gpu_some _ _ _ _ _
  refine ⟨hvs, hgs, fun hv fuel polls => ?_, fun hv fuel polls => ?_, fun l hl hs => ?_⟩
  · have hval := session_valid (VertexShaderCache.step env) _ (vs_step_valid env)
      (Step.PrepareShader { uid := uid, ongputhread := true, done := done } :: post) s hv
    refine ⟨vs_lastEntry_some _ hval hvs, ?_⟩
    rw [VertexShaderCache.TestShader, vs_TestShader_eq]
    exact testCore_not_invalid _ _ _
      (fun t => lastEntryValid (fun _ => false) t = true ∧ t.s_last_entry.isSome = true)
      (fun t ht => vs_lastEntry_some t ht.1 ht.2)
      (fun d t ht => usable_proc (vs_handlerFrame env) _ d t ht) fuel 0 polls _ ⟨hval, hvs⟩
  · have hval := session_valid (GeometryShaderCache.step env) _ (gs_step_valid env)
      (Step.PrepareShader { uid := uid, ongputhread := true, done := done } :: post) s hv
    refine ⟨gs_lastEntry_some _ _ hval hgs, ?_⟩
    rw [GeometryShaderCache.TestShader, gs_TestShader_eq]
    exact testCore_not_invalid _ _ _
      (fun t => lastEntryValid env.IsPassthrough t = true ∧ t.s_last_entry.isSome = true)
      (fun t ht => gs_lastEntry_some _ t ht.1 ht.2)
      (fun d t ht => usable_proc (gs_handlerFrame env) _ d t ht) fuel 0 polls _ ⟨hval, hgs⟩
  · exact ⟨(session_last (VertexShaderCache.step env) (vs_step_last env) l s).2 hl hs,
      (session_last (GeometryShaderCache.step env) (gs_step_last env) l s).2 hl hs⟩

/-- C25, witness: on the empty vertex cache a GPU-thread `PrepareShader` for uid
`5` followed by a background call for uid `6` leaves `s_last_entry` non-null,
while the background call alone leaves it null. -/
theorem C25_last_entry_set_after_gpu_PrepareShader_witness :
    (VertexShaderCache.steps envRelease
      [Step.PrepareShader { uid := 5, ongputhread := true, done := [] },
       Step.PrepareShader { uid := 6, ongputhread := false, done := [] }]
      {}).s_last_entry.isSome = true ∧
    (VertexShaderCache.steps envRelease
      [Step.PrepareShader { uid := 6, ongputhread := false, done := [] }]
      {}).s_last_entry = none :=
  ⟨(C25_last_entry_set_after_gpu_PrepareShader envRelease 5 []
      [Step.PrepareShader { uid := 6, ongputhread := false, done := [] }] {}
      (by decide)).1,
   ((C25_last_entry_set_after_gpu_PrepareShader envRelease 5 []
      [Step.PrepareShader { uid := 6, ongputhread := false, done := [] }] {}
      (by decide)).2.2.2.2
      [Step.PrepareShader { uid := 6, ongputhread := false, done := [] }]
      (by decide) rfl).1⟩

end DX11

namespace D3D12

/-- C23: for every 32-bit unsigned size `n` with `n + 255` not overflowing, the
padded size `(n + 0xff) & ~0xff` is a multiple of 256, at least `n` and less
than `n + 256`. -/
theorem C23_padded_size_aligned (n : Nat) (h : n + 255 < 2 ^ 32) :
    paddedSize n % 256 = 0 ∧ n ≤ paddedSize n ∧ paddedSize n < n + 256 := by
  rw [paddedSize_eq n h]
  omega

/-- C23, witness: a constant buffer of 1000 bytes is padded to 1024 bytes. -/
theorem C23_padded_size_aligned_witness :
    paddedSize 1000 % 256 = 0 ∧ 1000 ≤ paddedSize 1000 ∧ paddedSize 1000 < 1000 + 256 :=
  C23_padded_size_aligned 1000 (by decide)

end D3D12

namespace MainBase

/-- C26: for an EFB of `W` by `H` pixels, both multiples of 8, whose cache size
`(W >> 3) * (H >> 3)` fits a `u32`, the constructor sets the divisor to 3 and
`m_EFB_PCache_Size` to `(W >> 3) * (H >> 3)`, and for every `x < W` and `y < H`
the index `(y >> 3) * m_EFB_PCache_Width + (x >> 3)` that `Video_AccessEFB`
computes is strictly less than `m_EFB_PCache_Size`; so in every state with the
members the constructor set, `Video_AccessEFB` stays inside the array. -/
theorem C26_peek_cache_index_in_bounds (W H x y : Nat) (fresh : Nat → EFBPeekCacheElement)
    (hW : W % 8 = 0) (hH : H % 8 = 0) (hfit : W / 8 * (H / 8) < 2 ^ 32)
    (hx : x < W) (hy : y < H) :
    (VideoBackendBase W H fresh).m_EFB_PCache_Divisor = 3 ∧
    (VideoBackendBase W H fresh).m_EFB_PCache_Size = (W >>> 3) * (H >>> 3) ∧
    efb_p_cache_stride (VideoBackendBase W H fresh) x y =
      (y >>> 3) * (VideoBackendBase W H fresh).m_EFB_PCache_Width + (x >>> 3) ∧
    efb_p_cache_stride (VideoBackendBase W H fresh) x y <
      (VideoBackendBase W H fresh).m_EFB_PCache_Size ∧
    ∀ s, Constructed W H s →
      efb_p_cache_stride s x y < s.m_EFB_PCache_Size ∧
      efb_p_cache_stride s x y < s.m_EFB_PCache.length ∧
      ∀ cfg peeked type d, (Video_AccessEFB cfg peeked type x y d s).isSome = true := by
  have hb := cell_bounds W H x y hW hH hfit hx hy
  have hn := stride_eq W H _ x y (Constructed_new W H fresh) hW hH hfit hx hy
  have hwidth : (VideoBackendBase W H fresh).m_EFB_PCache_Width = W / 8 := by
    rw [(Constructed_new W H fresh).2.2.1, shift3, Nat.mod_eq_of_lt hb.1]
  refine ⟨rfl, ?_, ?_, ?_, fun s hc => ?_⟩
  · rw [hn.2.1, shift3, shift3]
  · rw [hn.1, hwidth, shift3, shift3]
  · rw [hn.1, hn.2.1]
    exact hb.2.2
  · have hs := stride_eq W H s x y hc hW hH hfit hx hy
    refine ⟨?_, hs.2.2.2, fun cfg peeked type d => access_isSome cfg peeked type x y d s hs.2.2.2⟩
    rw [hs.1, hs.2.1]
    exact hb.2.2

/-- C26, witness: the EFB of 640 by 528 pixels and its last pixel. -/
theorem C26_peek_cache_index_in_bounds_witness :
    efb_p_cache_stride (VideoBackendBase 640 528 fun _ => {}) 639 527 <
      (VideoBackendBase 640 528 fun _ => {}).m_EFB_PCache_Size :=
  (C26_peek_cache_index_in_bounds 640 528 639 527 (fun _ => {}) (by decide) (by decide)
    (by decide) (by decide) (by decide)).2.2.2.1

/-- C27: with EFB access and fast access enabled and the backend initialized
(EFB of `W` by `H` pixels, both multiples of 8; `(x, y)` inside it), after
`Video_AccessEFB(POKE_COLOR, x, y, d)` a `Video_AccessEFB(PEEK_COLOR, x', y', _)`
for any `(x', y')` of the same 8x8 cell, issued while `s_EFB_PCache_Frame` is
unchanged and `s_EFB_PCache_Frame + 3` does not wrap, returns `d` and leaves the
state as it is, so no peek event is pushed. The poke leaves the depth slots
alone, and a depth access in between (peek or poke at any pixel) does not
disturb the answer. The same holds with the roles of color and depth
exchanged. -/
theorem C27_peek_after_poke_hits_cache (cfg : Config) (W H : Nat) (s : Backend)
    (x y x' y' d : Nat)
    (hacc : cfg.bEFBAccessEnable = true) (hfast : cfg.bEFBFastAccess = true)
    (hinit : s.m_initialized = true) (hc : Constructed W H s)
    (hW : W % 8 = 0) (hH : H % 8 = 0) (hfit : W / 8 * (H / 8) < 2 ^ 32)
    (hx : x < W) (hy : y < H) (hx' : x' / 8 = x / 8) (hy' : y' / 8 = y / 8)
    (hwrap : s.s_EFB_PCache_Frame + 3 < 2 ^ 32) :
    (∃ s1, (∀ p, Video_AccessEFB cfg p EFBAccessType.POKE_COLOR x y d s = some (d, s1)) ∧
      s1.s_EFB_PCache_Frame = s.s_EFB_PCache_Frame ∧
      depthSlots s1 = depthSlots s ∧
      (∀ p i, Video_AccessEFB cfg p EFBAccessType.PEEK_COLOR x' y' i s1 = some (d, s1)) ∧
      (∀ p tz x2 y2 d2, tz.isColor = false → x2 < W → y2 < H →
        ∃ r s2, Video_AccessEFB cfg p tz x2 y2 d2 s1 = some (r, s2) ∧
          ∀ q i, Video_AccessEFB cfg q EFBAccessType.PEEK_COLOR x' y' i s2 = some (d, s2))) ∧
    (∃ s1, (∀ p, Video_AccessEFB cfg p EFBAccessType.POKE_Z x y d s = some (d, s1)) ∧
      s1.s_EFB_PCache_Frame = s.s_EFB_PCache_Frame ∧
      colorSlots s1 = colorSlots s ∧
      (∀ p i, Video_AccessEFB cfg p EFBAccessType.PEEK_Z x' y' i s1 = some (d, s1)) ∧
      (∀ p tc x2 y2 d2, tc.isColor = true → x2 < W → y2 < H →
        ∃ r s2, Video_AccessEFB cfg p tc x2 y2 d2 s1 = some (r, s2) ∧
          ∀ q i, Video_AccessEFB cfg q EFBAccessType.PEEK_Z x' y' i s2 = some (d, s2))) := by
  have hi := (stride_eq W H s x y hc hW hH hfit hx hy).2.2.2
  constructor
  · obtain ⟨s1, hp, _, hfr, hin, hst, hlen, _, hdep, hcol, _⟩ :=
      poke_facts cfg EFBAccessType.POKE_COLOR x y d s hacc hfast hinit (Or.inl rfl) hi
    have hcol1 := hcol rfl
    have hidx : efb_p_cache_stride s1 x' y' = efb_p_cache_stride s x y := by
      rw [hst]; exact stride_cell s x y x' y' hc.1 hx' hy'
    have hf : (s.s_EFB_PCache_Frame + s.m_EFB_PCache_Life) % 2 ^ 32 > s1.s_EFB_PCache_Frame := by
      rw [hfr, hc.2.1, Nat.mod_eq_of_lt hwrap]; omega
    refine ⟨s1, hp, hfr, hdep rfl, fun p i => peek_color_hit cfg p x' y' i d _ s1 hacc hfast
      (hin.trans hinit) (by rw [hidx]; exact hcol1) hf, ?_⟩
    intro p tz x2 y2 d2 htz hx2 hy2
    have hi2 : efb_p_cache_stride s1 x2 y2 < s1.m_EFB_PCache.length := by
      rw [hst, hlen]; exact (stride_eq W H s x2 y2 hc hW hH hfit hx2 hy2).2.2.2
    obtain ⟨r, s2, h2, hfr2, hin2, hst2, _, hcol2, _⟩ :=
      access_total cfg p tz x2 y2 d2 s1 hacc hfast (hin.trans hinit) hi2
    exact ⟨r, s2, h2, fun q i => peek_color_hit cfg q x' y' i d _ s2 hacc hfast
      (hin2.trans (hin.trans hinit)) (by rw [hcol2 htz, hst2, hidx]; exact hcol1)
      (by rw [hfr2]; exact hf)⟩
  · obtain ⟨s1, hp, _, hfr, hin, hst, hlen, hcol, _, _, hdep⟩ :=
      poke_facts cfg EFBAccessType.POKE_Z x y d s hacc hfast hinit (Or.inr rfl) hi
    have hdep1 := hdep rfl
    have hidx : efb_p_cache_stride s1 x' y' = efb_p_cache_stride s x y := by
      rw [hst]; exact stride_cell s x y x' y' hc.1 hx' hy'
    have hf : (s.s_EFB_PCache_Frame + s.m_EFB_PCache_Life) % 2 ^ 32 > s1.s_EFB_PCache_Frame := by
      rw [hfr, hc.2.1, Nat.mod_eq_of_lt hwrap]; omega
    refine ⟨s1, hp, hfr, hcol rfl, fun p i => peek_depth_hit cfg p x' y' i d _ s1 hacc hfast
      (hin.trans hinit) (by rw [hidx]; exact hdep1) hf, ?_⟩
    intro p tc x2 y2 d2 htc hx2 hy2
    have hi2 : efb_p_cache_stride s1 x2 y2 < s1.m_EFB_PCache.length := by
      rw [hst, hlen]; exact (stride_eq W H s x2 y2 hc hW hH hfit hx2 hy2).2.2.2
    obtain ⟨r, s2, h2, hfr2, hin2, hst2, _, _, hdep2⟩ :=
      access_total cfg p tc x2 y2 d2 s1 hacc hfast (hin.trans hinit) hi2
    exact ⟨r, s2, h2, fun q i => peek_depth_hit cfg q x' y' i d _ s2 hacc hfast
      (hin2.trans (hin.trans hinit)) (by rw [hdep2 htc, hst2, hidx]; exact hdep1)
      (by rw [hfr2]; exact hf)⟩

/-- C27, witness: on the initialized backend for the EFB of 640 by 528 pixels a
color poke of `0xABCD` at `(100, 50)` is answered from the cache by a color
peek at `(103, 55)`. -/
theorem C27_peek_after_poke_hits_cache_witness :
    ∃ s1, (∀ p, Video_AccessEFB cfgFast p EFBAccessType.POKE_COLOR 100 50 0xABCD backend640 =
        some (0xABCD, s1)) ∧
      ∀ p i, Video_AccessEFB cfgFast p EFBAccessType.PEEK_COLOR 103 55 i s1 =
        some (0xABCD, s1) :=
  (C27_peek_after_poke_hits_cache cfgFast 640 528 backend640 100 50 103 55 0xABCD rfl rfl rfl
    Constructed_backend640 (by decide) (by decide) (by decide) (by decide) (by decide)
    (by decide) (by decide) (by decide)).1.imp fun _ h => ⟨h.1, h.2.2.2.1⟩

end MainBase

namespace Rasterizer

/-- C28 (the claim fails): with the scissor rectangle `1 <= x < 3`, `0 <= y < 2`
that `SetScissor` computes from registers with top left `(343, 342)`, bottom
right `(344, 343)` and offset `(171, 171)`, `DrawTriangleFrontFace` with
`BoundingBox` inactive calls `Draw` for the pixels `(0, 0)`, `(0, 1)` left of
`scissorLeft` and `(3, 0)`, `(3, 1)` at `scissorRight`: the bounding rectangle
is clamped to the scissor rectangle, but `minx` and `miny` are then rounded
down to a block corner and whole 2x2 blocks are drawn. In general the pixels
drawn stay within one pixel of the scissor rectangle on each side. -/
theorem C28_draws_outside_scissor :
    SetScissor 640 528 bpOddScissor =
      { scissorLeft := 1, scissorTop := 0, scissorRight := 3, scissorBottom := 2 } ∧
    DrawTriangleFrontFace (SetScissor 640 528 bpOddScissor) bigTriangle =
      [{ x := 0, y := 0, xi := 0, yi := 0 }, { x := 1, y := 0, xi := 1, yi := 0 },
       { x := 0, y := 1, xi := 0, yi := 1 }, { x := 1, y := 1, xi := 1, yi := 1 },
       { x := 2, y := 0, xi := 0, yi := 0 }, { x := 3, y := 0, xi := 1, yi := 0 },
       { x := 2, y := 1, xi := 0, yi := 1 }, { x := 3, y := 1, xi := 1, yi := 1 }] ∧
    inScissor (SetScissor 640 528 bpOddScissor) 0 0 = false ∧
    inScissor (SetScissor 640 528 bpOddScissor) 3 0 = false ∧
    (∀ (sc : Scissor) (t : Triangle) (d : DrawCall), d ∈ DrawTriangleFrontFace sc t →
      sc.scissorLeft - 1 ≤ d.x ∧ d.x ≤ sc.scissorRight ∧
      sc.scissorTop - 1 ≤ d.y ∧ d.y ≤ sc.scissorBottom) :=
  ⟨by decide, by decide, by decide, by decide, mem_DrawTriangleFrontFace⟩

end Rasterizer

namespace Rasterizer

/-- C29: for every 2x2 block with corner `(x, y)` and all half-edge constants
(integer arithmetic without overflow), the `Draw` calls of the block loop body
- none when `a`, `b` or `c` is 0, all four when `a == b == c == 0xF`, else those
selected by the incrementally updated `CX1`, `CX2`, `CX3` - are exactly, and in
the same order, the block pixels `(x + ix, y + iy)` with
`C_k + DX_k * ((y + iy) << 4) - DY_k * ((x + ix) << 4) > 0` for all three edges
`k`; in particular a block for which nothing is drawn contains no such
pixel. -/
theorem C29_block_equals_per_pixel_test (e : Edges) (x y : Int) :
    drawBlock e x y = perPixel e x y ∧
    (∀ d, d ∈ drawBlock e x y ↔
      (d ∈ fullBlock x y ∧
        e.C1 + e.DX12 * (d.y * 16) - e.DY12 * (d.x * 16) > 0 ∧
        e.C2 + e.DX23 * (d.y * 16) - e.DY23 * (d.x * 16) > 0 ∧
        e.C3 + e.DX31 * (d.y * 16) - e.DY31 * (d.x * 16) > 0)) ∧
    (drawBlock e x y = [] → ∀ d ∈ fullBlock x y, halfSpace e d.x d.y = false) := by
  have hx1 : x + BLOCK_SIZE - 1 = x + 1 := by unfold BLOCK_SIZE; ring
  have hy1 : y + BLOCK_SIZE - 1 = y + 1 := by unfold BLOCK_SIZE; ring
  have hb : BLOCK_SIZE.toNat = 2 := rfl
  have key : drawBlock e x y = perPixel e x y := by
    unfold drawBlock
    simp only [hx1, hy1, hb]
    split_ifs with hskip hfull
    · rcases hskip with h | h | h <;> rw [mask_eq_zero] at h <;>
        simp_all [perPixel, fullBlock, halfSpace]
    · rw [mask_eq_full, mask_eq_full, mask_eq_full] at hfull
      simp_all [perPixel, fullBlock, halfSpace]
    · exact partialRows_eq e x y
  refine ⟨key, fun d => ?_, fun h d hd => ?_⟩
  · rw [key, perPixel, List.mem_filter, halfSpace_iff]
  · rw [key, perPixel, List.filter_eq_nil_iff] at h
    simpa using h d hd

end Rasterizer

namespace VertexShaderManager

/-- C30 (the claim fails for the post-transform matrices and the lights): on
clean ranges `InvalidateXFRange(0x4F8, 0x508)` leaves the post-transform pair
`[0x500, 8]` and `InvalidateXFRange(0x5F8, 0x608)` leaves the light pair
`[0x600, 8]`, so `lo` is the address of the region instead of the offset 0 and
exceeds `hi`; the normal-matrix branch yields `[0, 8]` for
`InvalidateXFRange(0x3F8, 0x408)`. For every layout, every `0 <= start < end_`
and clean or dirty ranges the tracked pair does cover the invalidated words
for the position and normal matrices whenever the region is overlapped, and
for the post-transform matrices and lights when in addition `start` is not
below the region. -/
theorem C30_post_and_light_ranges_miss_region_start :
    (InvalidateXFRange xfLayout 0x4F8 0x508 {}).nPostTransformMatricesChanged = (0x500, 8) ∧
    covers 0x500 0x600 0x4F8 0x508
      (InvalidateXFRange xfLayout 0x4F8 0x508 {}).nPostTransformMatricesChanged = false ∧
    (InvalidateXFRange xfLayout 0x5F8 0x608 {}).nLightsChanged = (0x600, 8) ∧
    covers 0x600 0x680 0x5F8 0x608
      (InvalidateXFRange xfLayout 0x5F8 0x608 {}).nLightsChanged = false ∧
    (InvalidateXFRange xfLayout 0x3F8 0x408 {}).nNormalMatricesChanged = (0, 8) ∧
    (∀ (L : XFLayout) (start end_ : Int) (s : State), 0 ≤ start → start < end_ →
      (start < L.XFMEM_POSMATRICES_END →
        rangeOk L.XFMEM_POSMATRICES_END s.nTransformMatricesChanged = true →
        covers 0 L.XFMEM_POSMATRICES_END start end_
          (InvalidateXFRange L start end_ s).nTransformMatricesChanged = true) ∧
      (start < L.XFMEM_NORMALMATRICES_END → end_ > L.XFMEM_NORMALMATRICES →
        rangeOk (L.XFMEM_NORMALMATRICES_END - L.XFMEM_NORMALMATRICES)
          s.nNormalMatricesChanged = true →
        covers L.XFMEM_NORMALMATRICES L.XFMEM_NORMALMATRICES_END start end_
          (InvalidateXFRange L start end_ s).nNormalMatricesChanged = true) ∧
      (start < L.XFMEM_POSTMATRICES_END → end_ > L.XFMEM_POSTMATRICES →
        L.XFMEM_POSTMATRICES ≤ start →
        rangeOk (L.XFMEM_POSTMATRICES_END - L.XFMEM_POSTMATRICES)
          s.nPostTransformMatricesChanged = true →
        covers L.XFMEM_POSTMATRICES L.XFMEM_POSTMATRICES_END start end_
          (InvalidateXFRange L start end_ s).nPostTransformMatricesChanged = true) ∧
      (start < L.XFMEM_LIGHTS_END → end_ > L.XFMEM_LIGHTS → L.XFMEM_LIGHTS ≤ start →
        rangeOk (L.XFMEM_LIGHTS_END - L.XFMEM_LIGHTS) s.nLightsChanged = true →
        covers L.XFMEM_LIGHTS L.XFMEM_LIGHTS_END start end_
          (InvalidateXFRange L start end_ s).nLightsChanged = true)) := by
  refine ⟨by decide, by decide, by decide, by decide, by decide, ?_⟩
  intro L start end_ s h0 _
  refine ⟨fun hin hok => position_covers L start end_ s h0 hin hok, fun h1 h2 hok => ?_,
    fun h1 h2 h3 hok => ?_, fun h1 h2 h3 hok => ?_⟩
  · rw [Invalidate_normal, if_pos ⟨h1, h2⟩]
    exact region_covers _ _ start end_ _ hok
  · rw [Invalidate_post, if_pos ⟨h1, h2⟩, if_neg (not_lt.2 h3)]
    have := region_covers L.XFMEM_POSTMATRICES L.XFMEM_POSTMATRICES_END start end_ _ hok
    rwa [if_neg (not_lt.2 h3)] at this
  · rw [Invalidate_lights, if_pos ⟨h1, h2⟩, if_neg (not_lt.2 h3)]
    have := region_covers L.XFMEM_LIGHTS L.XFMEM_LIGHTS_END start end_ _ hok
    rwa [if_neg (not_lt.2 h3)] at this

end VertexShaderManager

end Ishiiruka
